import Mathlib

/-!
# Chinese AVS video bitstream parser (gstcavsvideoparser.c)

A shallow embedding of the unit scanner, of the emulation-prevention aware
bit reader and of the header parsers (sequence header, extension data, I and
PB picture headers, slice header) of
`gst-libs/gst/codecparsers/gstcavsvideoparser.c`, followed by the properties
established about them.

Conventions of the embedding

* A `const guint8 *` is a total map from byte index to byte (`Nat → Byte`);
  pointer arithmetic `data + k` is the shifted map.
* `guint` values are naturals reduced modulo `2 ^ 32`, `gsize` and `guint64`
  values modulo `2 ^ 64`; every C operation that can wrap carries its
  reduction explicitly.  A `gint` is an `Int` obtained by two's complement
  reinterpretation of the 32-bit pattern.
* Out-parameters are returned next to the result code; a function that
  leaves an out-parameter untouched returns the incoming value.
* A header parser is the list of its statements (`Step`), run in order by
  `run_steps`; the `goto error` of the reading and checking macros ends the
  run with `ERROR` and the record as filled so far.  The parsers with
  branches and loops are statement trees (`Stmt`), run by `exec`.
* Fixed-size arrays are lists; a store at index `i` is `List.set`.
* An assertion that is reached (`g_assert_not_reached`) is the result `none`.
-/

namespace CAVS

/-- One octet of the stream (`guint8`). -/
abbrev Byte := Fin 256

/-- Pointer to a byte buffer: the byte stored at each index. -/
abbrev Ptr := Nat → Byte

/-- Pointer to the first element of a concrete byte list (zero beyond it). -/
def ptrOf (bytes : List Byte) : Ptr := fun i => bytes.getD i 0

/-- Pointer arithmetic `data + k`. -/
def Ptr.shift (data : Ptr) (k : Nat) : Ptr := fun i => data (k + i)

/-- Reduction to `guint` (32 bit unsigned). -/
def u32 (x : Nat) : Nat := x % 2 ^ 32

/-- Reduction to `gsize` / `guint64` (64 bit unsigned). -/
def u64 (x : Nat) : Nat := x % 2 ^ 64

/-- Unsigned 32-bit subtraction `a - b` with wrap-around. -/
def sub32 (a b : Nat) : Nat := (a % 2 ^ 32 + (2 ^ 32 - b % 2 ^ 32)) % 2 ^ 32

/-- Unsigned 64-bit subtraction `a - b` with wrap-around. -/
def sub64 (a b : Nat) : Nat := (a % 2 ^ 64 + (2 ^ 64 - b % 2 ^ 64)) % 2 ^ 64

/-- Reinterpretation of a 32-bit pattern as `gint`. -/
def toGint (x : Nat) : Int :=
  if x % 2 ^ 32 < 2 ^ 31 then ((x % 2 ^ 32 : Nat) : Int) else ((x % 2 ^ 32 : Nat) : Int) - 2 ^ 32

/-- Conversion of a `gint` to `guint` (as in `guint + gint`). -/
def ofGint (x : Int) : Nat := (x % 2 ^ 32).toNat

/-! ## Start code scan -/

/-- Big-endian 32-bit word made of the four bytes at index `i`. -/
def word32_be (data : Ptr) (i : Nat) : Nat :=
  (data i).val * 2 ^ 24 + (data (i + 1)).val * 2 ^ 16 + (data (i + 2)).val * 2 ^ 8
    + (data (i + 3)).val

/-- Search loop of the masked scan: `n` candidate positions starting at `i`;
the first position whose masked word equals the pattern. -/
def masked_scan_from (data : Ptr) (mask pattern : Nat) : Nat → Nat → Option Nat
  | _, 0 => none
  | i, n + 1 =>
    if word32_be data i &&& mask = pattern then some i
    else masked_scan_from data mask pattern (i + 1) n

/-- Modelled from the spec: `gst_byte_reader_masked_scan_uint32` of GStreamer's
libgstbase, called by `scan_for_start_codes` and not among the sources.  The
scanner is specified to look for the three byte prefix followed by any fourth
byte over the given range; accordingly, on a reader freshly initialised over
`data`, this is the offset of the first position in `[offset, offset + size)`
at which four bytes, all inside that range, match `pattern` under `mask`, and
`(guint) -1` when there is none, when `size` is 0 or when fewer than four
bytes are given. -/
def gst_byte_reader_masked_scan_uint32 (data : Ptr) (mask pattern offset size : Nat) : Nat :=
  if size = 0 then 2 ^ 32 - 1
  else if size < 4 then 2 ^ 32 - 1
  else
    match masked_scan_from data mask pattern offset (size - 3) with
    | some i => i
    | none => 2 ^ 32 - 1

/-- Source `scan_for_start_codes (data, size)`: masked scan for `00 00 01 xx`
over the whole range, the `guint` result returned as `gint`. -/
def scan_for_start_codes (data : Ptr) (size : Nat) : Int :=
  toGint (gst_byte_reader_masked_scan_uint32 data 0xffffff00 0x00000100 0 (u32 size))

/-! ## Unit identification -/

/-- Source `GstCAVSVideoParserResult`. -/
inductive GstCAVSVideoParserResult
  | OK
  | NO_UNIT
  | NO_UNIT_END
  | ERROR
  deriving DecidableEq, Repr

/-- Start code values, `GstCAVSVideoStartCode`. -/
def GST_CAVS_VIDEO_SLICE_RANGE_START : Nat := 0x00
def GST_CAVS_VIDEO_SLICE_RANGE_END : Nat := 0xaf
def GST_CAVS_VIDEO_SYSTEM_RANGE_START : Nat := 0xb9
def GST_CAVS_VIDEO_SYSTEM_RANGE_END : Nat := 0xff

/-- Unit types, `GstCAVSVideoUnitType`. -/
def GST_CAVS_VIDEO_UNIT_SLICE : Nat := 0x00
def GST_CAVS_VIDEO_UNIT_SEQUENCE_HEADER : Nat := 0xb0
def GST_CAVS_VIDEO_UNIT_VIDEO_SEQUENCE_END : Nat := 0xb1
def GST_CAVS_VIDEO_UNIT_USER_DATA : Nat := 0xb2
def GST_CAVS_VIDEO_UNIT_I_PICTURE : Nat := 0xb3
def GST_CAVS_VIDEO_UNIT_EXTENSION : Nat := 0xb5
def GST_CAVS_VIDEO_UNIT_PB_PICTURE : Nat := 0xb6
def GST_CAVS_VIDEO_UNIT_VIDEO_EDIT : Nat := 0xb7
def GST_CAVS_VIDEO_UNIT_SYSTEM : Nat := 0xb9

/-- Source `struct _GstCAVSVideoUnit`. -/
structure GstCAVSVideoUnit where
  type : Nat
  data : Ptr
  sc_offset : Nat
  offset : Nat
  size : Nat

/-- Source `gst_cavs_video_parser_identify_unit (data, offset, size, unit)`,
with `unit` non-NULL.  `offset` is a `guint`, `size` a `gsize`; the unit is
returned as left by the call. -/
def gst_cavs_video_parser_identify_unit (data : Ptr) (offset size : Nat)
    (unit : GstCAVSVideoUnit) : GstCAVSVideoParserResult × GstCAVSVideoUnit :=
  if size < u32 (offset + 4) then
    (.ERROR, unit)
  else
    let off1 := scan_for_start_codes (data.shift offset) (sub64 size offset)
    if off1 < 0 then
      (.NO_UNIT, unit)
    else
      let unit := { unit with data := data }
      let unit := { unit with sc_offset := u32 (offset + ofGint off1) }
      let unit := { unit with offset := u32 (u32 (offset + ofGint off1) + 4) }
      let sc := (unit.data (u32 (unit.sc_offset + 3))).val
      let unit :=
        if sc ≥ GST_CAVS_VIDEO_SLICE_RANGE_START ∧ sc ≤ GST_CAVS_VIDEO_SLICE_RANGE_END then
          { unit with type := GST_CAVS_VIDEO_UNIT_SLICE }
        else if sc ≥ GST_CAVS_VIDEO_SYSTEM_RANGE_START ∧ sc ≤ GST_CAVS_VIDEO_SYSTEM_RANGE_END then
          { unit with type := GST_CAVS_VIDEO_UNIT_SYSTEM }
        else
          { unit with type := sc }
      if unit.type = GST_CAVS_VIDEO_UNIT_VIDEO_SEQUENCE_END then
        (.OK, { unit with size := 0 })
      else
        let off2 := scan_for_start_codes (data.shift unit.offset) (sub64 size unit.offset)
        if off2 < 0 then
          (.NO_UNIT_END, unit)
        else
          (.OK, { unit with size := u64 (off2 % 2 ^ 64).toNat })

/-! ## Bit reader (`CAVSReader`) -/

/-- Source `CAVSReader`.  `size`, `n_epb`, `byte`, `bits_in_cache` are `guint`,
`first_byte` is a `guint8`, `cache` a `guint64`. -/
structure CAVSReader where
  data : Ptr
  size : Nat
  n_epb : Nat
  byte : Nat
  bits_in_cache : Nat
  first_byte : Nat
  cache : Nat

/-- Source `avs_reader_init (nr, data, size)`. -/
def avs_reader_init (data : Ptr) (size : Nat) : CAVSReader :=
  { data := data
    size := size
    n_epb := 0
    byte := 0
    bits_in_cache := 0
    first_byte := 0xff
    cache := 0xff }

/-- The `while (nr->bits_in_cache < nbits)` loop of `avs_reader_read`, with the
`next_byte` re-entry after an emulation prevention byte unrolled (it runs with
`check_three_byte = FALSE`, so it caches the following byte unconditionally).
Every iteration consumes at least one source byte; the first argument is the
number of source bytes still unread (`size - byte`), so at 0 the body stops at
its `byte >= size` test and returns FALSE. -/
def avs_reader_read_loop : Nat → CAVSReader → Nat → Bool × CAVSReader
  | 0, nr, nbits => if nr.bits_in_cache < nbits then (false, nr) else (true, nr)
  | left + 1, nr, nbits =>
    if nr.bits_in_cache < nbits then
      if nr.byte ≥ nr.size then (false, nr)
      else
        let byte := (nr.data nr.byte).val
        let nr := { nr with byte := u32 (nr.byte + 1) }
        if byte = 0x02 ∧ nr.first_byte = 0x00 ∧ nr.cache &&& 0xff = 0 then
          let nr := { nr with n_epb := u32 (nr.n_epb + 1) }
          if nr.byte ≥ nr.size then (false, nr)
          else
            let byte := (nr.data nr.byte).val
            let nr := { nr with byte := u32 (nr.byte + 1) }
            let nr := { nr with cache := u64 (nr.cache <<< 8) ||| nr.first_byte }
            let nr := { nr with first_byte := byte }
            let nr := { nr with bits_in_cache := u32 (nr.bits_in_cache + 8) }
            avs_reader_read_loop left nr nbits
        else
          let nr := { nr with cache := u64 (nr.cache <<< 8) ||| nr.first_byte }
          let nr := { nr with first_byte := byte }
          let nr := { nr with bits_in_cache := u32 (nr.bits_in_cache + 8) }
          avs_reader_read_loop left nr nbits
    else (true, nr)

/-- Source `avs_reader_read (nr, nbits)`: the returned flag and the reader as
the call leaves it (a failing call may already have advanced it). -/
def avs_reader_read (nr : CAVSReader) (nbits : Nat) : Bool × CAVSReader :=
  if u32 (u32 (nr.byte * 8) + sub32 nbits nr.bits_in_cache) > u32 (nr.size * 8) then
    (false, nr)
  else
    avs_reader_read_loop (nr.size - nr.byte) nr nbits

/-- Source `avs_reader_skip (nr, nbits)`; its `g_assert` asks `nbits ≤ 64`. -/
def avs_reader_skip (nr : CAVSReader) (nbits : Nat) : Bool × CAVSReader :=
  match avs_reader_read nr nbits with
  | (false, nr) => (false, nr)
  | (true, nr) => (true, { nr with bits_in_cache := sub32 nr.bits_in_cache nbits })

/-- Source `avs_reader_get_pos`. -/
def avs_reader_get_pos (nr : CAVSReader) : Nat :=
  sub32 (u32 (nr.byte * 8)) nr.bits_in_cache

/-- Source `avs_reader_get_remaining`. -/
def avs_reader_get_remaining (nr : CAVSReader) : Nat :=
  u32 (u32 (sub32 nr.size nr.byte * 8) + nr.bits_in_cache)

/-- Source `avs_reader_get_epb_count`. -/
def avs_reader_get_epb_count (nr : CAVSReader) : Nat := nr.n_epb

/-- `first_byte >> shift` on the promoted `int`; a count of 32 or more, which C
leaves undefined, gives 0 (the mathematical shift of a byte). -/
def shr_byte (x shift : Nat) : Nat := if shift < 32 then x >>> shift else 0

/-- `cache << count` on a `guint64`; a count of 64 or more, which C leaves
undefined, gives 0 (the mathematical shift reduced to 64 bits). -/
def shl_u64 (x count : Nat) : Nat := if count < 64 then u64 (x <<< count) else 0

/-- Source macro `CAVS_READER_READ_BITS (bits)`, the body shared by
`avs_reader_get_bits_uint8/16/32`.  The result is `none` when the function
returns FALSE (`*val` untouched) and `some v` when it returns TRUE with
`*val = v`. -/
def avs_reader_get_bits (bits : Nat) (nr : CAVSReader) (nbits : Nat) :
    Option Nat × CAVSReader :=
  match avs_reader_read nr nbits with
  | (false, nr) => (none, nr)
  | (true, nr) =>
    let shift := sub32 nr.bits_in_cache nbits
    let val := shr_byte nr.first_byte shift % 2 ^ bits
    let val := (val ||| shl_u64 nr.cache (sub32 8 shift)) % 2 ^ bits
    let val := if nbits < bits then val &&& ((1 <<< nbits) - 1) else val
    (some val, { nr with bits_in_cache := shift })

/-- Source `avs_reader_get_bits_uint8`. -/
def avs_reader_get_bits_uint8 (nr : CAVSReader) (nbits : Nat) : Option Nat × CAVSReader :=
  avs_reader_get_bits 8 nr nbits

/-- Source `avs_reader_get_bits_uint16`. -/
def avs_reader_get_bits_uint16 (nr : CAVSReader) (nbits : Nat) : Option Nat × CAVSReader :=
  avs_reader_get_bits 16 nr nbits

/-- Source `avs_reader_get_bits_uint32`. -/
def avs_reader_get_bits_uint32 (nr : CAVSReader) (nbits : Nat) : Option Nat × CAVSReader :=
  avs_reader_get_bits 32 nr nbits

/-- The `while (bit == 0)` loop of `avs_reader_get_ue`, entered with a zero
bit and counter `i`: the final counter, or `none` when a one bit read fails.
Every iteration consumes one bit; the first argument is the number of bits
still unread, so at 0 the pending read is the failing one. -/
def avs_reader_get_ue_loop : Nat → CAVSReader → Nat → Option Nat × CAVSReader
  | 0, nr, _ => (none, (avs_reader_get_bits_uint8 nr 1).2)
  | left + 1, nr, i =>
    let i := u32 (i + 1)
    match avs_reader_get_bits_uint8 nr 1 with
    | (none, nr) => (none, nr)
    | (some bit, nr) =>
      if bit = 0 then avs_reader_get_ue_loop left nr i else (some i, nr)

/-- Source `avs_reader_get_ue`.  `(1 << i)` is taken in 32 bits, a shift by 32
(undefined in C) giving 0. -/
def avs_reader_get_ue (nr : CAVSReader) : Option Nat × CAVSReader :=
  match avs_reader_get_bits_uint8 nr 1 with
  | (none, nr) => (none, nr)
  | (some bit, nr) =>
    match (if bit = 0 then
        avs_reader_get_ue_loop ((nr.size - nr.byte) * 8 + nr.bits_in_cache) nr 0
      else (some 0, nr)) with
    | (none, nr) => (none, nr)
    | (some i, nr) =>
      if i > 32 then (none, nr)
      else
        match avs_reader_get_bits_uint32 nr i with
        | (none, nr) => (none, nr)
        | (some value, nr) => (some (u32 (sub32 (u32 (1 <<< i)) 1 + value)), nr)

/-- Source `avs_reader_get_se`. -/
def avs_reader_get_se (nr : CAVSReader) : Option Int × CAVSReader :=
  match avs_reader_get_ue nr with
  | (none, nr) => (none, nr)
  | (some value, nr) =>
    if value % 2 ≠ 0 then (some (toGint (value / 2 + 1)), nr)
    else (some (toGint (sub32 0 (value / 2))), nr)

/-! ## Specification vocabulary for the bit reader -/

/-- Reader states on which the 32-bit counters hold the mathematical values:
the buffer has fewer than `2 ^ 29` bytes (its bit length fits a `guint`), the
byte index is inside the buffer, and neither the cached bit count nor the
number of dropped bytes exceeds what has been consumed. -/
def CAVSReader.WF (nr : CAVSReader) : Prop :=
  nr.size * 8 < 2 ^ 32 ∧ nr.byte ≤ nr.size ∧ nr.bits_in_cache ≤ 8 * nr.byte ∧
    nr.n_epb ≤ nr.byte

/-- Loop state after an emulation prevention byte has been dropped. -/
def CAVSReader.dropEpb (nr : CAVSReader) : CAVSReader :=
  { nr with byte := u32 (nr.byte + 1), n_epb := u32 (nr.n_epb + 1) }

/-- Loop state after the byte at `nr.byte` has been cached. -/
def CAVSReader.pushByte (nr : CAVSReader) : CAVSReader :=
  { nr with
    byte := u32 (nr.byte + 1)
    cache := u64 (nr.cache <<< 8) ||| nr.first_byte
    first_byte := (nr.data nr.byte).val
    bits_in_cache := u32 (nr.bits_in_cache + 8) }

/-- The states a reader can be in: `avs_reader_init` over `size` bytes at
`data`, followed by any sequence of bit reads, skips and Exp-Golomb reads,
each kept whether it returned TRUE or FALSE. -/
inductive Reachable (data : Ptr) (size : Nat) : CAVSReader → Prop
  | init : Reachable data size (avs_reader_init data size)
  | get_bits_uint8 (nr : CAVSReader) (nbits : Nat) : Reachable data size nr → nbits < 2 ^ 32 →
      Reachable data size (avs_reader_get_bits_uint8 nr nbits).2
  | get_bits_uint16 (nr : CAVSReader) (nbits : Nat) : Reachable data size nr → nbits < 2 ^ 32 →
      Reachable data size (avs_reader_get_bits_uint16 nr nbits).2
  | get_bits_uint32 (nr : CAVSReader) (nbits : Nat) : Reachable data size nr → nbits < 2 ^ 32 →
      Reachable data size (avs_reader_get_bits_uint32 nr nbits).2
  | skip (nr : CAVSReader) (nbits : Nat) : Reachable data size nr → nbits ≤ 64 →
      Reachable data size (avs_reader_skip nr nbits).2
  | get_ue (nr : CAVSReader) : Reachable data size nr →
      Reachable data size (avs_reader_get_ue nr).2
  | get_se (nr : CAVSReader) : Reachable data size nr →
      Reachable data size (avs_reader_get_se nr).2

/-- The logical byte stream of a source byte list: every `0x02` that follows
two logical `0x00` bytes is dropped as an emulation prevention byte, and the
byte after a dropped one is kept whatever its value.  `p2` and `p1` are the
two logical bytes that precede the list (`0xff 0xff` at the start of a
buffer, as `avs_reader_init` primes the cache). -/
def unescape : Nat → Nat → List Byte → List Byte
  | _, _, [] => []
  | p2, p1, [b] => if b.val = 0x02 ∧ p1 = 0x00 ∧ p2 = 0x00 then [] else [b]
  | p2, p1, b :: c :: rest =>
    if b.val = 0x02 ∧ p1 = 0x00 ∧ p2 = 0x00 then c :: unescape p1 c.val rest
    else b :: unescape p1 b.val (c :: rest)

/-- The `n` bytes stored at `data[lo], ..., data[lo + n - 1]`. -/
def bufferBytes (data : Ptr) (lo n : Nat) : List Byte := (List.range' lo n).map data

/-- Logical content of the buffer `data[0 .. size)`: the buffer with every
emulation prevention byte removed. -/
def logicalBytes (data : Ptr) (size : Nat) : List Byte :=
  unescape 0xff 0xff (bufferBytes data 0 size)

/-- Big-endian unsigned integer spelled by a byte list. -/
def beValue : List Byte → Nat
  | [] => 0
  | b :: rest => b.val * 2 ^ (8 * rest.length) + beValue rest

/-- The unsigned big-endian integer formed by bits `[a, a + n)` of the byte
list, bit 0 being the most significant bit of the first byte. -/
def bitField (bytes : List Byte) (a n : Nat) : Nat :=
  beValue bytes / 2 ^ (8 * bytes.length - (a + n)) % 2 ^ n

/-- Fields of the given widths laid out back to back from bit `a` on. -/
def bitFields (bytes : List Byte) : Nat → List Nat → List Nat
  | _, [] => []
  | a, n :: widths => bitField bytes a n :: bitFields bytes (a + n) widths

/-- Sequential `avs_reader_get_bits_uint32` calls with the given widths: the
values read when every call returns TRUE, `none` as soon as one fails. -/
def read_bits_seq : CAVSReader → List Nat → Option (List Nat)
  | _, [] => some []
  | nr, n :: widths =>
    match avs_reader_get_bits_uint32 nr n with
    | (none, _) => none
    | (some v, nr) =>
      match read_bits_seq nr widths with
      | none => none
      | some vs => some (v :: vs)

/-- Source bytes the reader has not consumed yet. -/
def CAVSReader.unread (nr : CAVSReader) : List Byte :=
  bufferBytes nr.data nr.byte (nr.size - nr.byte)

/-- Logical bytes the reader has not cached yet. -/
def CAVSReader.pending (nr : CAVSReader) : List Byte :=
  unescape (nr.cache % 256) nr.first_byte nr.unread

/-- The cached bits not handed out yet, as a number below
`2 ^ bits_in_cache`. -/
def CAVSReader.window (nr : CAVSReader) : Nat :=
  (nr.cache * 256 + nr.first_byte) % 2 ^ nr.bits_in_cache

/-- Number of logical bits the reader can still deliver. -/
def CAVSReader.streamLen (nr : CAVSReader) : Nat :=
  nr.bits_in_cache + 8 * nr.pending.length

/-- The logical bits the reader can still deliver, as a big-endian number. -/
def CAVSReader.streamVal (nr : CAVSReader) : Nat :=
  nr.window * 2 ^ (8 * nr.pending.length) + beValue nr.pending

/-! ## Specification vocabulary for the scanner -/

/-- The three bytes at `i`, `i + 1`, `i + 2` are the start code prefix `00 00 01`. -/
def StartCodeAt (data : Ptr) (i : Nat) : Prop :=
  (data i).val = 0 ∧ (data (i + 1)).val = 0 ∧ (data (i + 2)).val = 1

instance (data : Ptr) (i : Nat) : Decidable (StartCodeAt data i) := by
  unfold StartCodeAt; infer_instance

/-- Index `i` is the first one at or after `lo` where a start code prefix and
its fourth byte lie inside a buffer of `size` bytes. -/
def FirstStartCode (data : Ptr) (lo size i : Nat) : Prop :=
  lo ≤ i ∧ i + 4 ≤ size ∧ StartCodeAt data i ∧ ∀ k, lo ≤ k → k < i → ¬ StartCodeAt data k

/-- No start code prefix followed by a fourth byte lies inside `[lo, size)`. -/
def NoStartCode (data : Ptr) (lo size : Nat) : Prop :=
  ∀ k, lo ≤ k → k + 4 ≤ size → ¬ StartCodeAt data k

/-- A unit value used as the incoming contents of the out-parameter. -/
def unit0 : GstCAVSVideoUnit := ⟨0, ptrOf [], 0, 0, 0⟩

/-- Successive `avs_reader_get_bits_uint8 (nr, &v, 8)` calls, `count` of them:
the bytes read when every call returns TRUE (`none` as soon as one fails),
and the reader as the last call made leaves it. -/
def read_uint8_seq : CAVSReader → Nat → Option (List Nat) × CAVSReader
  | nr, 0 => (some [], nr)
  | nr, count + 1 =>
    match avs_reader_get_bits_uint8 nr 8 with
    | (none, nr) => (none, nr)
    | (some v, nr) =>
      match read_uint8_seq nr count with
      | (none, nr) => (none, nr)
      | (some vs, nr) => (some (v :: vs), nr)

/-- Escaping of a byte sequence: a `0x02` is inserted immediately before every
byte whose two predecessors in the sequence are both `0x00`.  `p2` and `p1`
are the two bytes preceding the list, `none` where there is no such byte. -/
def escapeWith : Option Byte → Option Byte → List Byte → List Byte
  | _, _, [] => []
  | p2, p1, x :: rest =>
    if p2 = some 0x00 ∧ p1 = some 0x00 then 0x02 :: x :: escapeWith p1 (some x) rest
    else x :: escapeWith p1 (some x) rest

/-- The escaped form `esc b` of a whole byte sequence. -/
def escape (b : List Byte) : List Byte := escapeWith none none b

/-- Which source bytes are emulation prevention markers: a byte is marked
exactly when it is `0x02`, the two most recent unmarked (logical) bytes `p2`,
`p1` are both `0x00`, and the byte just before it was not itself marked. -/
def epbMarks : Nat → Nat → Bool → List Byte → List Bool
  | _, _, _, [] => []
  | p2, p1, prevMarked, b :: rest =>
    if b.val = 0x02 ∧ p1 = 0x00 ∧ p2 = 0x00 ∧ prevMarked = false then
      true :: epbMarks p2 p1 true rest
    else
      false :: epbMarks p1 b.val false rest

/-- The source bytes that are not marked. -/
def unmarkedBytes : List Byte → List Bool → List Byte
  | b :: rest, m :: marks => if m then unmarkedBytes rest marks else b :: unmarkedBytes rest marks
  | _, _ => []

/-- A byte of the escaping, when there is one, has the value held by the
reader (`0xff` stands in the reader for a byte that does not exist). -/
def agrees (p : Option Byte) (v : Nat) : Prop :=
  match p with
  | some y => v = y.val
  | none => v ≠ 0

/-- The reader stands at bit `a` of the logical byte list `bytes`: its
counters are exact, at most seven bits are cached, and the bits it can still
deliver are the bits of `bytes` from `a` on. -/
def CAVSReader.Delivers (nr : CAVSReader) (bytes : List Byte) (a : Nat) : Prop :=
  nr.WF ∧ nr.first_byte < 256 ∧ nr.bits_in_cache ≤ 7 ∧ a ≤ 8 * bytes.length ∧
    nr.streamLen = 8 * bytes.length - a ∧
    nr.streamVal = beValue bytes % 2 ^ (8 * bytes.length - a)

/-! ## Header parsers -/

/-- Source `struct _GstCAVSVideoSequenceHeader`. -/
structure GstCAVSVideoSequenceHeader where
  profile_id : Nat
  level_id : Nat
  progressive_sequence : Nat
  horizontal_size : Nat
  vertical_size : Nat
  chroma_format : Nat
  sample_precision : Nat
  aspect_ratio : Nat
  frame_rate_code : Nat
  bit_rate_lower : Nat
  bit_rate_upper : Nat
  low_delay : Nat
  bbv_buffer_size : Nat
  fps_n : Nat
  fps_d : Nat
  bitrate : Nat
  mb_width : Nat
  mb_height : Nat
  bitstream_buffer_size : Nat
  deriving DecidableEq

/-- The record after `memset (seqhdr, 0, sizeof (*seqhdr))`. -/
def GstCAVSVideoSequenceHeader.zero : GstCAVSVideoSequenceHeader :=
  ⟨0, 0, 0, 0, 0, 0, 0, 0, 0, 0, 0, 0, 0, 0, 0, 0, 0, 0, 0⟩

/-- Source table `frame_rates[9]` (Table 7-6), as `(fps_n, fps_d)`. -/
def frame_rates : List (Nat × Nat) :=
  [(0, 0), (24000, 1001), (24, 1), (25, 1), (30000, 1001), (30, 1), (50, 1), (60000, 1001),
    (60, 1)]

/-- One statement of a straight-line header parser over a record `H`:
`READ_UINT bits nbits set` is the macro `READ_UINT8/16/32 (r, field, nbits)`
(`bits` the width of the reading function, `set` the store into the field),
`CHECK_ALLOWED val min max` and `CHECK_MARKER_BIT` are the macros of these
names, `assign f` is an assignment to a field of the record. -/
inductive Step (H : Type) where
  | READ_UINT (bits nbits : Nat) (set : H → Nat → H)
  | CHECK_ALLOWED (val : H → Nat) (min max : Nat)
  | CHECK_MARKER_BIT
  | assign (f : H → H)

/-- Execution of the statements in order: a failed read or a value out of its
range jumps to the `error:` label (result `ERROR`, the record as filled so
far); after the last statement the result is `OK`.  A marker bit is read and
its value only logged. -/
def run_steps {H : Type} : List (Step H) → CAVSReader → H → GstCAVSVideoParserResult × H
  | [], _, h => (GstCAVSVideoParserResult.OK, h)
  | Step.READ_UINT bits nbits set :: rest, r, h =>
    match avs_reader_get_bits bits r nbits with
    | (none, _) => (GstCAVSVideoParserResult.ERROR, h)
    | (some v, r) => run_steps rest r (set h v)
  | Step.CHECK_ALLOWED val min max :: rest, r, h =>
    if val h < min ∨ val h > max then (GstCAVSVideoParserResult.ERROR, h)
    else run_steps rest r h
  | Step.CHECK_MARKER_BIT :: rest, r, h =>
    match avs_reader_get_bits_uint8 r 1 with
    | (none, _) => (GstCAVSVideoParserResult.ERROR, h)
    | (some _, r) => run_steps rest r h
  | Step.assign f :: rest, r, h => run_steps rest r (f h)

/-- Body of `gst_cavs_video_parser_parse_sequence_header` after the reader
and the record are initialised, statement by statement.  The chroma format is
read through the local `tmp`; `bit_rate_upper << 18` and the products are
reduced to 32 bits. -/
def sequence_header_steps : List (Step GstCAVSVideoSequenceHeader) :=
  [ Step.READ_UINT 8 8 (fun s v => { s with profile_id := v }),
    Step.READ_UINT 8 8 (fun s v => { s with level_id := v }),
    Step.READ_UINT 8 1 (fun s v => { s with progressive_sequence := v }),
    Step.READ_UINT 16 14 (fun s v => { s with horizontal_size := v }),
    Step.assign (fun s => { s with mb_width := (s.horizontal_size + 15) / 16 }),
    Step.READ_UINT 16 14 (fun s v => { s with vertical_size := v }),
    Step.assign (fun s => { s with mb_height := (s.vertical_size + 15) / 16 }),
    Step.READ_UINT 8 2 (fun s v => { s with chroma_format := v }),
    Step.READ_UINT 8 3 (fun s v => { s with sample_precision := v }),
    Step.CHECK_ALLOWED (fun s => s.sample_precision) 1 7,
    Step.READ_UINT 8 4 (fun s v => { s with aspect_ratio := v }),
    Step.CHECK_ALLOWED (fun s => s.aspect_ratio) 1 15,
    Step.READ_UINT 8 4 (fun s v => { s with frame_rate_code := v }),
    Step.CHECK_ALLOWED (fun s => s.frame_rate_code) 1 8,
    Step.assign (fun s => { s with fps_n := (frame_rates.getD s.frame_rate_code (0, 0)).1 }),
    Step.assign (fun s => { s with fps_d := (frame_rates.getD s.frame_rate_code (0, 0)).2 }),
    Step.READ_UINT 32 18 (fun s v => { s with bit_rate_lower := v }),
    Step.CHECK_MARKER_BIT,
    Step.READ_UINT 16 12 (fun s v => { s with bit_rate_upper := v }),
    Step.assign (fun s =>
      { s with bitrate := u32 ((s.bit_rate_upper <<< 18) % 2 ^ 32 + s.bit_rate_lower) }),
    Step.READ_UINT 8 1 (fun s v => { s with low_delay := v }),
    Step.CHECK_MARKER_BIT,
    Step.READ_UINT 32 18 (fun s v => { s with bbv_buffer_size := v }),
    Step.assign (fun s =>
      { s with bitstream_buffer_size := u32 (16 * 1024 * s.bbv_buffer_size) }) ]

/-- Source `gst_cavs_video_parser_parse_sequence_header (unit, seqhdr)`: the
result and the record as the call leaves it.  The reader is set on
`unit->data + unit->offset` with `unit->size` converted to `guint`; the
incoming contents of the record are cleared. -/
def gst_cavs_video_parser_parse_sequence_header (unit : GstCAVSVideoUnit)
    (_seqhdr : GstCAVSVideoSequenceHeader) :
    GstCAVSVideoParserResult × GstCAVSVideoSequenceHeader :=
  run_steps sequence_header_steps
    (avs_reader_init (unit.data.shift unit.offset) (u32 unit.size))
    GstCAVSVideoSequenceHeader.zero

/-- A read statement respects the assertion `nbits <= bits` of the reading
function, whose width is 8, 16, 32 or 64. -/
def Step.sized {H : Type} : Step H → Bool
  | Step.READ_UINT bits nbits _ => decide (8 ≤ bits ∧ bits ≤ 64 ∧ nbits ≤ bits)
  | _ => true

/-- Number of bits a statement takes from the stream. -/
def Step.width {H : Type} : Step H → Nat
  | Step.READ_UINT _ nbits _ => nbits
  | Step.CHECK_MARKER_BIT => 1
  | _ => 0

/-- Number of bits the statements take from the stream when all are run. -/
def steps_width {H : Type} : List (Step H) → Nat
  | [] => 0
  | s :: rest => s.width + steps_width rest

/-- The statements evaluated on the logical byte list from bit `a` on, every
read taking the next field of its width; the stream is assumed long enough. -/
def decode_steps {H : Type} : List (Step H) → List Byte → Nat → H →
    GstCAVSVideoParserResult × H
  | [], _, _, h => (GstCAVSVideoParserResult.OK, h)
  | Step.READ_UINT _ nbits set :: rest, L, a, h =>
    decode_steps rest L (a + nbits) (set h (bitField L a nbits))
  | Step.CHECK_ALLOWED val min max :: rest, L, a, h =>
    if val h < min ∨ val h > max then (GstCAVSVideoParserResult.ERROR, h)
    else decode_steps rest L a h
  | Step.CHECK_MARKER_BIT :: rest, L, a, h => decode_steps rest L (a + 1) h
  | Step.assign f :: rest, L, a, h => decode_steps rest L a (f h)

/-- Precondition under which every successful run of the statements from the
record `h` ends in a record satisfying `Q`, whatever the reads return within
their width. -/
def steps_wp {H : Type} : List (Step H) → (H → Prop) → H → Prop
  | [], Q, h => Q h
  | Step.READ_UINT bits nbits set :: rest, Q, h =>
    ∀ v, (nbits < bits → v < 2 ^ nbits) → steps_wp rest Q (set h v)
  | Step.CHECK_ALLOWED val min max :: rest, Q, h =>
    ¬ (val h < min ∨ val h > max) → steps_wp rest Q h
  | Step.CHECK_MARKER_BIT :: rest, Q, h => steps_wp rest Q h
  | Step.assign f :: rest, Q, h => steps_wp rest Q (f h)

/-- A sequence header unit: start code `00 00 01 b0`, then profile 0x20,
level 0x20, progressive, 720x480, chroma format 1, sample precision 1, aspect
ratio 1, frame rate code 3, bit rate 3 * 2^18 + 5000, both marker bits set,
buffer size code 100. -/
def seq_unit_720x480 : GstCAVSVideoUnit :=
  ⟨0xb0, ptrOf [0x00, 0x00, 0x01, 0xb0, 0x20, 0x20, 0x85, 0xa0, 0x0f, 0x02, 0x44, 0xc1, 0x38,
    0x88, 0x01, 0xa0, 0x03, 0x20], 0, 4, 14⟩

/-- The unit `seq_unit_720x480` with sample precision 0. -/
def seq_unit_precision_0 : GstCAVSVideoUnit :=
  ⟨0xb0, ptrOf [0x00, 0x00, 0x01, 0xb0, 0x20, 0x20, 0x85, 0xa0, 0x0f, 0x02, 0x04, 0xc1, 0x38,
    0x88, 0x01, 0xa0, 0x03, 0x20], 0, 4, 14⟩

/-! ## Statements of the branching header parsers -/

/-- Reinterpretation of the low `bits` bits as a signed integer (`gint8`,
`gint16`, `gint32` for 8, 16, 32). -/
def toGintN (bits : Nat) (x : Nat) : Int :=
  if x % 2 ^ bits < 2 ^ (bits - 1) then ((x % 2 ^ bits : Nat) : Int)
  else ((x % 2 ^ bits : Nat) : Int) - 2 ^ bits

/-- Left shift `x << shift` of an `int`: the product reduced to 32 bits; a
count of 32 or more, which C leaves undefined, gives 0. -/
def shl_gint (x : Int) (shift : Nat) : Int :=
  if shift < 32 then toGint (ofGint x * 2 ^ shift) else 0

/-- Right shift `x >> shift` of an `int`, arithmetic; a count of 32 or more,
which C leaves undefined, gives the sign fill. -/
def shr_gint (x : Int) (shift : Nat) : Int :=
  if shift < 32 then x / 2 ^ shift else if x < 0 then -1 else 0

/-- Value stored by the macros `READ_INT8`, `READ_INT16`, `READ_INT32` from the
bits `tmp` read: `(((gintN) tmp) << shift) >> shift` with `guint shift = base -
nbits`, converted to the `gintN` field.  `base` is the constant of the macro:
8 in `READ_INT8`, 16 in `READ_INT16` and 16 in `READ_INT32`. -/
def read_int_value (bits base nbits tmp : Nat) : Int :=
  let shift := sub32 base nbits
  toGintN bits (ofGint (shr_gint (shl_gint (toGintN bits tmp) shift) shift))

/-- One statement of a header parser over a record `H`.  The reading
statements are the macros of the same names (`bits` the width of the reading
function, `set` the store into the field); `SKIP nbits` is `if
(!avs_reader_skip (r, nbits)) goto error`; `seq`, `ite` and `nop` are
sequencing, `if`/`else` and the empty statement. -/
inductive Stmt (H : Type) where
  | READ_UINT (bits nbits : Nat) (set : H → Nat → H)
  | READ_INT (bits nbits base : Nat) (set : H → Int → H)
  | READ_UE (set : H → Nat → H)
  | READ_SE (set : H → Int → H)
  | READ_SE_ALLOWED (min max : Int) (set : H → Int → H)
  | SKIP (nbits : Nat)
  | CHECK_ALLOWED (val : H → Nat) (min max : Nat)
  | CHECK_MARKER_BIT
  | assign (f : H → H)
  | seq (s t : Stmt H)
  | ite (c : H → Bool) (s t : Stmt H)
  | nop

/-- Execution of a statement: the result (`ERROR` after a `goto error`, `OK`
otherwise), the record and the reader as the statement leaves them. -/
def exec {H : Type} : Stmt H → CAVSReader → H → GstCAVSVideoParserResult × H × CAVSReader
  | Stmt.READ_UINT bits nbits set, r, h =>
    match avs_reader_get_bits bits r nbits with
    | (none, r) => (GstCAVSVideoParserResult.ERROR, h, r)
    | (some v, r) => (GstCAVSVideoParserResult.OK, set h v, r)
  | Stmt.READ_INT bits nbits base set, r, h =>
    match avs_reader_get_bits bits r nbits with
    | (none, r) => (GstCAVSVideoParserResult.ERROR, h, r)
    | (some tmp, r) =>
      (GstCAVSVideoParserResult.OK, set h (read_int_value bits base nbits tmp), r)
  | Stmt.READ_UE set, r, h =>
    match avs_reader_get_ue r with
    | (none, r) => (GstCAVSVideoParserResult.ERROR, h, r)
    | (some v, r) => (GstCAVSVideoParserResult.OK, set h v, r)
  | Stmt.READ_SE set, r, h =>
    match avs_reader_get_se r with
    | (none, r) => (GstCAVSVideoParserResult.ERROR, h, r)
    | (some v, r) => (GstCAVSVideoParserResult.OK, set h v, r)
  | Stmt.READ_SE_ALLOWED min max set, r, h =>
    match avs_reader_get_se r with
    | (none, r) => (GstCAVSVideoParserResult.ERROR, h, r)
    | (some tmp, r) =>
      if tmp < min ∨ tmp > max then (GstCAVSVideoParserResult.ERROR, h, r)
      else (GstCAVSVideoParserResult.OK, set h tmp, r)
  | Stmt.SKIP nbits, r, h =>
    match avs_reader_skip r nbits with
    | (false, r) => (GstCAVSVideoParserResult.ERROR, h, r)
    | (true, r) => (GstCAVSVideoParserResult.OK, h, r)
  | Stmt.CHECK_ALLOWED val min max, r, h =>
    if val h < min ∨ val h > max then (GstCAVSVideoParserResult.ERROR, h, r)
    else (GstCAVSVideoParserResult.OK, h, r)
  | Stmt.CHECK_MARKER_BIT, r, h =>
    match avs_reader_get_bits_uint8 r 1 with
    | (none, r) => (GstCAVSVideoParserResult.ERROR, h, r)
    | (some _, r) => (GstCAVSVideoParserResult.OK, h, r)
  | Stmt.assign f, r, h => (GstCAVSVideoParserResult.OK, f h, r)
  | Stmt.seq s t, r, h =>
    match exec s r h with
    | (GstCAVSVideoParserResult.OK, h, r) => exec t r h
    | (res, h, r) => (res, h, r)
  | Stmt.ite c s t, r, h => if c h then exec s r h else exec t r h
  | Stmt.nop, r, h => (GstCAVSVideoParserResult.OK, h, r)

/-- The statements of a block, in order. -/
def Stmt.block {H : Type} : List (Stmt H) → Stmt H
  | [] => Stmt.nop
  | s :: rest => Stmt.seq s (Stmt.block rest)

/-- The loop `for (i = from; i < from + count; i++) body (i)`. -/
def Stmt.for_loop {H : Type} (body : Nat → Stmt H) : Nat → Nat → Stmt H
  | _, 0 => Stmt.nop
  | i, count + 1 => Stmt.seq (body i) (Stmt.for_loop body (i + 1) count)

/-! ## Extension data -/

/-- Values of `GstCAVSVideoExtensionDataType`. -/
def GST_CAVS_VIDEO_EXTENSION_DATA_SEQUENCE_DISPLAY : Nat := 2

def GST_CAVS_VIDEO_EXTENSION_DATA_COPYRIGHT : Nat := 4

def GST_CAVS_VIDEO_EXTENSION_DATA_PICTURE_DISPLAY : Nat := 7

def GST_CAVS_VIDEO_EXTENSION_DATA_CAMERA_PARAMETERS : Nat := 11

/-- Values of `GstCAVSVideoPictureType`. -/
def GST_CAVS_VIDEO_PICTURE_I : Nat := 0

def GST_CAVS_VIDEO_PICTURE_P : Nat := 1

def GST_CAVS_VIDEO_PICTURE_B : Nat := 2

/-- Values of `GstCAVSVideoPictureHeaderType`. -/
def GST_CAVS_VIDEO_PICTURE_HEADER_I : Nat := 0

def GST_CAVS_VIDEO_PICTURE_HEADER_PB : Nat := 1

/-- Source `struct _GstCAVSVideoSequenceDisplayExtension`. -/
structure GstCAVSVideoSequenceDisplayExtension where
  video_format : Nat
  sample_range : Nat
  colour_description : Nat
  colour_primaries : Nat
  transfer_characteristics : Nat
  matrix_coefficients : Nat
  display_horizontal_size : Nat
  display_vertical_size : Nat
  deriving DecidableEq

/-- Source `struct _GstCAVSVideoCopyrightExtension`. -/
structure GstCAVSVideoCopyrightExtension where
  copyright_flag : Nat
  copyright_id : Nat
  original_or_copy : Nat
  copyright_number_1 : Nat
  copyright_number_2 : Nat
  copyright_number_3 : Nat
  copyright_number : Nat
  deriving DecidableEq

/-- Source `struct _GstCAVSVideoCameraParametersExtension`. -/
structure GstCAVSVideoCameraParametersExtension where
  camera_id : Nat
  height_of_image_device : Nat
  focal_length : Nat
  f_number : Nat
  vertical_angle_of_view : Nat
  camera_position_x_upper : Int
  camera_position_x_lower : Int
  camera_position_y_upper : Int
  camera_position_y_lower : Int
  camera_position_z_lower : Int
  camera_position_z_upper : Int
  camera_direction_x : Int
  camera_direction_y : Int
  camera_direction_z : Int
  image_plane_vertical_x : Int
  image_plane_vertical_y : Int
  image_plane_vertical_z : Int
  camera_position_x : Int
  camera_position_y : Int
  camera_position_z : Int
  deriving DecidableEq

/-- Source `struct _GstCAVSVideoPictureDisplayExtension`; each array holds
three `gint16`. -/
structure GstCAVSVideoPictureDisplayExtension where
  frame_centre_horizontal_offset : List Int
  frame_centre_vertical_offset : List Int
  deriving DecidableEq

/-- The `data` union of `struct _GstCAVSVideoExtensionData`, by the member
last written. -/
inductive GstCAVSVideoExtensionUnion where
  | sequence_display (d : GstCAVSVideoSequenceDisplayExtension)
  | copyright (d : GstCAVSVideoCopyrightExtension)
  | camera_parameters (d : GstCAVSVideoCameraParametersExtension)
  | picture_display (d : GstCAVSVideoPictureDisplayExtension)
  deriving DecidableEq

/-- Source `struct _GstCAVSVideoExtensionData`. -/
structure GstCAVSVideoExtensionData where
  type : Nat
  data : GstCAVSVideoExtensionUnion
  deriving DecidableEq

/-- Source `struct _GstCAVSVideoPictureHeader`. -/
structure GstCAVSVideoPictureHeader where
  type : Nat
  bbv_delay : Nat
  time_code_flag : Nat
  time_code : Nat
  picture_coding_type : Nat
  picture_distance : Nat
  bbv_check_times : Nat
  progressive_frame : Nat
  picture_structure : Nat
  advanced_pred_mode_disable : Nat
  top_field_first : Nat
  repeat_first_field : Nat
  fixed_picture_qp : Nat
  picture_qp : Nat
  picture_reference_flag : Nat
  no_forward_reference_flag : Nat
  skip_mode_flag : Nat
  loop_filter_disable : Nat
  loop_filter_parameter_flag : Nat
  alpha_c_offset : Int
  beta_offset : Int
  deriving DecidableEq

/-- The record after `memset (sequence_display, 0, ...)`. -/
def GstCAVSVideoSequenceDisplayExtension.zero : GstCAVSVideoSequenceDisplayExtension :=
  ⟨0, 0, 0, 0, 0, 0, 0, 0⟩

/-- The record after `memset (copyright, 0, ...)`. -/
def GstCAVSVideoCopyrightExtension.zero : GstCAVSVideoCopyrightExtension :=
  ⟨0, 0, 0, 0, 0, 0, 0⟩

/-- The record after `memset (camera_params, 0, ...)`. -/
def GstCAVSVideoCameraParametersExtension.zero : GstCAVSVideoCameraParametersExtension :=
  ⟨0, 0, 0, 0, 0, 0, 0, 0, 0, 0, 0, 0, 0, 0, 0, 0, 0, 0, 0, 0⟩

/-- The record after `memset (picture_display, 0, ...)`. -/
def GstCAVSVideoPictureDisplayExtension.zero : GstCAVSVideoPictureDisplayExtension :=
  ⟨[0, 0, 0], [0, 0, 0]⟩

/-- The record after `memset (pic, 0, sizeof (*pic))`. -/
def GstCAVSVideoPictureHeader.zero : GstCAVSVideoPictureHeader :=
  ⟨0, 0, 0, 0, 0, 0, 0, 0, 0, 0, 0, 0, 0, 0, 0, 0, 0, 0, 0, 0, 0⟩

/-- Body of `gst_cavs_video_parser_parse_sequence_display_extension` after
the `memset`.  The video format is read through the local `tmp`. -/
def sequence_display_stmt : Stmt GstCAVSVideoSequenceDisplayExtension :=
  Stmt.block
    [ Stmt.READ_UINT 8 3 (fun s v => { s with video_format := v }),
      Stmt.READ_UINT 8 1 (fun s v => { s with sample_range := v }),
      Stmt.READ_UINT 8 1 (fun s v => { s with colour_description := v }),
      Stmt.ite (fun s => decide (s.colour_description ≠ 0))
        (Stmt.block
          [ Stmt.READ_UINT 8 8 (fun s v => { s with colour_primaries := v }),
            Stmt.CHECK_ALLOWED (fun s => s.colour_primaries) 1 255,
            Stmt.READ_UINT 8 8 (fun s v => { s with transfer_characteristics := v }),
            Stmt.CHECK_ALLOWED (fun s => s.transfer_characteristics) 1 255,
            Stmt.READ_UINT 8 8 (fun s v => { s with matrix_coefficients := v }),
            Stmt.CHECK_ALLOWED (fun s => s.matrix_coefficients) 1 255 ])
        Stmt.nop,
      Stmt.READ_UINT 16 14 (fun s v => { s with display_horizontal_size := v }),
      Stmt.CHECK_MARKER_BIT,
      Stmt.READ_UINT 16 14 (fun s v => { s with display_vertical_size := v }) ]

/-- Source `gst_cavs_video_parser_parse_sequence_display_extension (r,
sequence_display)`: result, record and reader as the call leaves them; the
incoming contents of the record are cleared. -/
def gst_cavs_video_parser_parse_sequence_display_extension (r : CAVSReader) :
    GstCAVSVideoParserResult × GstCAVSVideoSequenceDisplayExtension × CAVSReader :=
  exec sequence_display_stmt r GstCAVSVideoSequenceDisplayExtension.zero

/-- Body of `gst_cavs_video_parser_parse_copyright_extension` after the
`memset`.  `copyright_number_1` is widened to 64 bits before its shift,
`copyright_number_2 << 22` is a 32 bit shift. -/
def copyright_stmt : Stmt GstCAVSVideoCopyrightExtension :=
  Stmt.block
    [ Stmt.READ_UINT 8 1 (fun s v => { s with copyright_flag := v }),
      Stmt.READ_UINT 8 8 (fun s v => { s with copyright_id := v }),
      Stmt.READ_UINT 8 1 (fun s v => { s with original_or_copy := v }),
      Stmt.SKIP 7,
      Stmt.CHECK_MARKER_BIT,
      Stmt.READ_UINT 32 20 (fun s v => { s with copyright_number_1 := v }),
      Stmt.CHECK_MARKER_BIT,
      Stmt.READ_UINT 32 22 (fun s v => { s with copyright_number_2 := v }),
      Stmt.CHECK_MARKER_BIT,
      Stmt.READ_UINT 32 22 (fun s v => { s with copyright_number_3 := v }),
      Stmt.assign (fun s => { s with copyright_number := u64 (s.copyright_number_1 <<< 44) }),
      Stmt.assign (fun s =>
        { s with copyright_number := u64 (s.copyright_number + u32 (s.copyright_number_2 <<< 22)) }),
      Stmt.assign (fun s =>
        { s with copyright_number := u64 (s.copyright_number + s.copyright_number_3) }) ]

/-- Source `gst_cavs_video_parser_parse_copyright_extension (r, copyright)`. -/
def gst_cavs_video_parser_parse_copyright_extension (r : CAVSReader) :
    GstCAVSVideoParserResult × GstCAVSVideoCopyrightExtension × CAVSReader :=
  exec copyright_stmt r GstCAVSVideoCopyrightExtension.zero

/-- The count `n_frames_centre_offsets` computed by
`gst_cavs_video_parser_parse_picture_display_extension`. -/
def n_frames_centre_offsets (seqhdr : GstCAVSVideoSequenceHeader)
    (picture_header : GstCAVSVideoPictureHeader) : Nat :=
  if seqhdr.progressive_sequence ≠ 0 ∧ picture_header.repeat_first_field ≠ 0 then
    (if picture_header.repeat_first_field ≠ 0 then 3 else 2)
  else if seqhdr.progressive_sequence = 0 ∧ picture_header.picture_structure ≠ 0 then
    (if picture_header.repeat_first_field ≠ 0 then 3 else 2)
  else 1

/-- Body of the `for` loop of the picture display extension for index `i`. -/
def picture_display_body (i : Nat) : Stmt GstCAVSVideoPictureDisplayExtension :=
  Stmt.block
    [ Stmt.READ_INT 16 16 16 (fun s v =>
        { s with frame_centre_horizontal_offset := s.frame_centre_horizontal_offset.set i v }),
      Stmt.CHECK_MARKER_BIT,
      Stmt.READ_INT 16 16 16 (fun s v =>
        { s with frame_centre_vertical_offset := s.frame_centre_vertical_offset.set i v }),
      Stmt.CHECK_MARKER_BIT ]

/-- Source `gst_cavs_video_parser_parse_picture_display_extension (r, seqhdr,
picture_header, picture_display)`. -/
def gst_cavs_video_parser_parse_picture_display_extension (r : CAVSReader)
    (seqhdr : GstCAVSVideoSequenceHeader) (picture_header : GstCAVSVideoPictureHeader) :
    GstCAVSVideoParserResult × GstCAVSVideoPictureDisplayExtension × CAVSReader :=
  exec (Stmt.for_loop picture_display_body 0 (n_frames_centre_offsets seqhdr picture_header))
    r GstCAVSVideoPictureDisplayExtension.zero

/-- The sum `((gint32) upper << 16) + lower` of two `gint16` halves, on 32
bits. -/
def camera_position (upper lower : Int) : Int :=
  toGint (ofGint (shl_gint upper 16 + lower))

/-- Body of `gst_cavs_video_parser_parse_camera_parameters_extension` after
the `memset`. -/
def camera_parameters_stmt : Stmt GstCAVSVideoCameraParametersExtension :=
  Stmt.block
    [ Stmt.SKIP 1,
      Stmt.READ_UINT 8 7 (fun s v => { s with camera_id := v }),
      Stmt.CHECK_MARKER_BIT,
      Stmt.READ_UINT 32 22 (fun s v => { s with height_of_image_device := v }),
      Stmt.CHECK_MARKER_BIT,
      Stmt.READ_UINT 32 22 (fun s v => { s with focal_length := v }),
      Stmt.CHECK_MARKER_BIT,
      Stmt.READ_UINT 32 22 (fun s v => { s with f_number := v }),
      Stmt.CHECK_MARKER_BIT,
      Stmt.READ_UINT 32 22 (fun s v => { s with vertical_angle_of_view := v }),
      Stmt.CHECK_MARKER_BIT,
      Stmt.READ_INT 16 16 16 (fun s v => { s with camera_position_x_upper := v }),
      Stmt.CHECK_MARKER_BIT,
      Stmt.READ_INT 16 16 16 (fun s v => { s with camera_position_x_lower := v }),
      Stmt.CHECK_MARKER_BIT,
      Stmt.assign (fun s =>
        { s with
          camera_position_x := camera_position s.camera_position_x_upper s.camera_position_x_lower }),
      Stmt.READ_INT 16 16 16 (fun s v => { s with camera_position_y_upper := v }),
      Stmt.CHECK_MARKER_BIT,
      Stmt.READ_INT 16 16 16 (fun s v => { s with camera_position_y_lower := v }),
      Stmt.CHECK_MARKER_BIT,
      Stmt.assign (fun s =>
        { s with
          camera_position_y := camera_position s.camera_position_y_upper s.camera_position_y_lower }),
      Stmt.READ_INT 16 16 16 (fun s v => { s with camera_position_z_upper := v }),
      Stmt.CHECK_MARKER_BIT,
      Stmt.READ_INT 16 16 16 (fun s v => { s with camera_position_z_lower := v }),
      Stmt.CHECK_MARKER_BIT,
      Stmt.assign (fun s =>
        { s with
          camera_position_z := camera_position s.camera_position_z_upper s.camera_position_z_lower }),
      Stmt.READ_INT 32 22 16 (fun s v => { s with camera_direction_x := v }),
      Stmt.CHECK_MARKER_BIT,
      Stmt.READ_INT 32 22 16 (fun s v => { s with camera_direction_y := v }),
      Stmt.CHECK_MARKER_BIT,
      Stmt.READ_INT 32 22 16 (fun s v => { s with camera_direction_z := v }),
      Stmt.CHECK_MARKER_BIT,
      Stmt.READ_INT 32 22 16 (fun s v => { s with image_plane_vertical_x := v }),
      Stmt.CHECK_MARKER_BIT,
      Stmt.READ_INT 32 22 16 (fun s v => { s with image_plane_vertical_y := v }),
      Stmt.CHECK_MARKER_BIT,
      Stmt.READ_INT 32 22 16 (fun s v => { s with image_plane_vertical_z := v }),
      Stmt.CHECK_MARKER_BIT ]

/-- Source `gst_cavs_video_parser_parse_camera_parameters_extension (r,
camera_params)`. -/
def gst_cavs_video_parser_parse_camera_parameters_extension (r : CAVSReader) :
    GstCAVSVideoParserResult × GstCAVSVideoCameraParametersExtension × CAVSReader :=
  exec camera_parameters_stmt r GstCAVSVideoCameraParametersExtension.zero

/-- Source `gst_cavs_video_parser_parse_extension_data (unit, seqhdr,
picture_header, ext)`: the result and `ext` as the call leaves it.  The tag is
read through the local `tmp` (a failed read leaves `ext` untouched); the
`switch` hands the reader to the sub-parser, which fills its member of the
union. -/
def gst_cavs_video_parser_parse_extension_data (unit : GstCAVSVideoUnit)
    (seqhdr : GstCAVSVideoSequenceHeader) (picture_header : GstCAVSVideoPictureHeader)
    (ext : GstCAVSVideoExtensionData) : GstCAVSVideoParserResult × GstCAVSVideoExtensionData :=
  let tag := exec (Stmt.READ_UINT 8 4 (fun e v => { e with type := v }))
    (avs_reader_init (unit.data.shift unit.offset) (u32 unit.size)) ext
  if tag.1 ≠ GstCAVSVideoParserResult.OK then (GstCAVSVideoParserResult.ERROR, tag.2.1)
  else if tag.2.1.type = GST_CAVS_VIDEO_EXTENSION_DATA_SEQUENCE_DISPLAY then
    let res := gst_cavs_video_parser_parse_sequence_display_extension tag.2.2
    (res.1, { tag.2.1 with data := GstCAVSVideoExtensionUnion.sequence_display res.2.1 })
  else if tag.2.1.type = GST_CAVS_VIDEO_EXTENSION_DATA_COPYRIGHT then
    let res := gst_cavs_video_parser_parse_copyright_extension tag.2.2
    (res.1, { tag.2.1 with data := GstCAVSVideoExtensionUnion.copyright res.2.1 })
  else if tag.2.1.type = GST_CAVS_VIDEO_EXTENSION_DATA_PICTURE_DISPLAY then
    let res := gst_cavs_video_parser_parse_picture_display_extension tag.2.2 seqhdr
      picture_header
    (res.1, { tag.2.1 with data := GstCAVSVideoExtensionUnion.picture_display res.2.1 })
  else if tag.2.1.type = GST_CAVS_VIDEO_EXTENSION_DATA_CAMERA_PARAMETERS then
    let res := gst_cavs_video_parser_parse_camera_parameters_extension tag.2.2
    (res.1, { tag.2.1 with data := GstCAVSVideoExtensionUnion.camera_parameters res.2.1 })
  else (GstCAVSVideoParserResult.ERROR, tag.2.1)

/-! ## Picture headers -/

/-- Statements of `gst_cavs_video_parser_parse_i_picture` from the default
`pic->picture_structure = 1` down to the skip of the four reserved bits. -/
def i_picture_fields (seqhdr : GstCAVSVideoSequenceHeader) : Stmt GstCAVSVideoPictureHeader :=
  Stmt.block
    [ Stmt.assign (fun s => { s with picture_structure := 1 }),
      Stmt.READ_UINT 16 16 (fun s v => { s with bbv_delay := v }),
      Stmt.READ_UINT 8 1 (fun s v => { s with time_code_flag := v }),
      Stmt.ite (fun s => decide (s.time_code_flag ≠ 0))
        (Stmt.READ_UINT 32 24 (fun s v => { s with time_code := v })) Stmt.nop,
      Stmt.CHECK_MARKER_BIT,
      Stmt.READ_UINT 8 8 (fun s v => { s with picture_distance := v }),
      Stmt.ite (fun _ => decide (seqhdr.low_delay ≠ 0))
        (Stmt.READ_UE (fun s v => { s with bbv_check_times := v })) Stmt.nop,
      Stmt.READ_UINT 8 1 (fun s v => { s with progressive_frame := v }),
      Stmt.ite (fun s => decide (s.progressive_frame = 0))
        (Stmt.READ_UINT 8 1 (fun s v => { s with picture_structure := v })) Stmt.nop,
      Stmt.READ_UINT 8 1 (fun s v => { s with top_field_first := v }),
      Stmt.READ_UINT 8 1 (fun s v => { s with repeat_first_field := v }),
      Stmt.READ_UINT 8 1 (fun s v => { s with fixed_picture_qp := v }),
      Stmt.READ_UINT 8 6 (fun s v => { s with picture_qp := v }),
      Stmt.ite (fun s => decide (s.progressive_frame = 0 ∧ s.picture_structure = 0))
        (Stmt.READ_UINT 8 1 (fun s v => { s with skip_mode_flag := v })) Stmt.nop,
      Stmt.SKIP 4 ]

/-- The loop filter statements that end `gst_cavs_video_parser_parse_i_picture`:
the offsets are read with `READ_SE_ALLOWED (..., -8, 8)`. -/
def i_picture_loop_filter : Stmt GstCAVSVideoPictureHeader :=
  Stmt.block
    [ Stmt.READ_UINT 8 1 (fun s v => { s with loop_filter_disable := v }),
      Stmt.ite (fun s => decide (s.loop_filter_disable = 0))
        (Stmt.block
          [ Stmt.READ_UINT 8 1 (fun s v => { s with loop_filter_parameter_flag := v }),
            Stmt.ite (fun s => decide (s.loop_filter_parameter_flag ≠ 0))
              (Stmt.block
                [ Stmt.READ_SE_ALLOWED (-8) 8 (fun s v => { s with alpha_c_offset := v }),
                  Stmt.READ_SE_ALLOWED (-8) 8 (fun s v => { s with beta_offset := v }) ])
              Stmt.nop ])
        Stmt.nop ]

/-- Source `gst_cavs_video_parser_parse_i_picture (unit, seqhdr, pic)`: the
result and the record as the call leaves it; the incoming contents of the
record are cleared. -/
def gst_cavs_video_parser_parse_i_picture (unit : GstCAVSVideoUnit)
    (seqhdr : GstCAVSVideoSequenceHeader) (_pic : GstCAVSVideoPictureHeader) :
    GstCAVSVideoParserResult × GstCAVSVideoPictureHeader :=
  let res := exec (Stmt.seq (i_picture_fields seqhdr) i_picture_loop_filter)
    (avs_reader_init (unit.data.shift unit.offset) (u32 unit.size))
    GstCAVSVideoPictureHeader.zero
  (res.1, res.2.1)

/-- Body of `gst_cavs_video_parser_parse_pb_picture` after the reader and the
record are initialised.  The coding type is read through the local `tmp`;
the offsets are read with `READ_SE`. -/
def pb_picture_stmt (seqhdr : GstCAVSVideoSequenceHeader) : Stmt GstCAVSVideoPictureHeader :=
  Stmt.block
    [ Stmt.assign (fun s => { s with picture_structure := 1 }),
      Stmt.READ_UINT 16 16 (fun s v => { s with bbv_delay := v }),
      Stmt.READ_UINT 8 2 (fun s v => { s with picture_coding_type := v }),
      Stmt.READ_UINT 8 8 (fun s v => { s with picture_distance := v }),
      Stmt.ite (fun _ => decide (seqhdr.low_delay ≠ 0))
        (Stmt.READ_UE (fun s v => { s with bbv_check_times := v })) Stmt.nop,
      Stmt.READ_UINT 8 1 (fun s v => { s with progressive_frame := v }),
      Stmt.ite (fun s => decide (s.progressive_frame = 0))
        (Stmt.block
          [ Stmt.READ_UINT 8 1 (fun s v => { s with picture_structure := v }),
            Stmt.ite (fun s => decide (s.picture_structure = 0))
              (Stmt.READ_UINT 8 1 (fun s v => { s with advanced_pred_mode_disable := v }))
              Stmt.nop ])
        Stmt.nop,
      Stmt.READ_UINT 8 1 (fun s v => { s with top_field_first := v }),
      Stmt.READ_UINT 8 1 (fun s v => { s with repeat_first_field := v }),
      Stmt.READ_UINT 8 1 (fun s v => { s with fixed_picture_qp := v }),
      Stmt.READ_UINT 8 6 (fun s v => { s with picture_qp := v }),
      Stmt.ite (fun s => decide (¬ (s.picture_coding_type = GST_CAVS_VIDEO_PICTURE_B
          ∧ s.picture_structure ≠ 0)))
        (Stmt.READ_UINT 8 1 (fun s v => { s with picture_reference_flag := v })) Stmt.nop,
      Stmt.READ_UINT 8 1 (fun s v => { s with no_forward_reference_flag := v }),
      Stmt.SKIP 3,
      Stmt.READ_UINT 8 1 (fun s v => { s with skip_mode_flag := v }),
      Stmt.READ_UINT 8 1 (fun s v => { s with loop_filter_disable := v }),
      Stmt.ite (fun s => decide (s.loop_filter_disable = 0))
        (Stmt.block
          [ Stmt.READ_UINT 8 1 (fun s v => { s with loop_filter_parameter_flag := v }),
            Stmt.ite (fun s => decide (s.loop_filter_parameter_flag ≠ 0))
              (Stmt.block
                [ Stmt.READ_SE (fun s v => { s with alpha_c_offset := v }),
                  Stmt.READ_SE (fun s v => { s with beta_offset := v }) ])
              Stmt.nop ])
        Stmt.nop ]

/-- Source `gst_cavs_video_parser_parse_pb_picture (unit, seqhdr, pic)`. -/
def gst_cavs_video_parser_parse_pb_picture (unit : GstCAVSVideoUnit)
    (seqhdr : GstCAVSVideoSequenceHeader) (_pic : GstCAVSVideoPictureHeader) :
    GstCAVSVideoParserResult × GstCAVSVideoPictureHeader :=
  let res := exec (pb_picture_stmt seqhdr)
    (avs_reader_init (unit.data.shift unit.offset) (u32 unit.size))
    GstCAVSVideoPictureHeader.zero
  (res.1, res.2.1)

/-- A statement whose reads have a fixed width within the assertion `nbits <=
bits` of their reading function; the Exp-Golomb reads are not of this kind. -/
def Stmt.sized {H : Type} : Stmt H → Bool
  | Stmt.READ_UINT bits nbits _ => decide (8 ≤ bits ∧ bits ≤ 64 ∧ nbits ≤ bits)
  | Stmt.READ_INT bits nbits _ _ => decide (8 ≤ bits ∧ bits ≤ 64 ∧ nbits ≤ bits)
  | Stmt.READ_UE _ => false
  | Stmt.READ_SE _ => false
  | Stmt.READ_SE_ALLOWED _ _ _ => false
  | Stmt.SKIP nbits => decide (nbits ≤ 64)
  | Stmt.seq s t => s.sized && t.sized
  | Stmt.ite _ s t => s.sized && t.sized
  | _ => true

/-- A statement of fixed-width reads evaluated on the logical byte list from
bit `a` on: result, record and the bit position reached.  A read takes the
next field of its width and fails when the list ends before it.  The
Exp-Golomb reads, which `Stmt.sized` excludes, are given the failing
outcome. -/
def Stmt.decode {H : Type} : Stmt H → List Byte → Nat → H → GstCAVSVideoParserResult × H × Nat
  | Stmt.READ_UINT _ nbits set, L, a, h =>
    if a + nbits ≤ 8 * L.length then
      (GstCAVSVideoParserResult.OK, set h (bitField L a nbits), a + nbits)
    else (GstCAVSVideoParserResult.ERROR, h, a)
  | Stmt.READ_INT bits nbits base set, L, a, h =>
    if a + nbits ≤ 8 * L.length then
      (GstCAVSVideoParserResult.OK, set h (read_int_value bits base nbits (bitField L a nbits)),
        a + nbits)
    else (GstCAVSVideoParserResult.ERROR, h, a)
  | Stmt.READ_UE _, _, a, h => (GstCAVSVideoParserResult.ERROR, h, a)
  | Stmt.READ_SE _, _, a, h => (GstCAVSVideoParserResult.ERROR, h, a)
  | Stmt.READ_SE_ALLOWED _ _ _, _, a, h => (GstCAVSVideoParserResult.ERROR, h, a)
  | Stmt.SKIP nbits, L, a, h =>
    if a + nbits ≤ 8 * L.length then (GstCAVSVideoParserResult.OK, h, a + nbits)
    else (GstCAVSVideoParserResult.ERROR, h, a)
  | Stmt.CHECK_ALLOWED val min max, _, a, h =>
    if val h < min ∨ val h > max then (GstCAVSVideoParserResult.ERROR, h, a)
    else (GstCAVSVideoParserResult.OK, h, a)
  | Stmt.CHECK_MARKER_BIT, L, a, h =>
    if a + 1 ≤ 8 * L.length then (GstCAVSVideoParserResult.OK, h, a + 1)
    else (GstCAVSVideoParserResult.ERROR, h, a)
  | Stmt.assign f, _, a, h => (GstCAVSVideoParserResult.OK, f h, a)
  | Stmt.seq s t, L, a, h =>
    match Stmt.decode s L a h with
    | (GstCAVSVideoParserResult.OK, h, a) => Stmt.decode t L a h
    | (res, h, a) => (res, h, a)
  | Stmt.ite c s t, L, a, h => if c h then Stmt.decode s L a h else Stmt.decode t L a h
  | Stmt.nop, _, a, h => (GstCAVSVideoParserResult.OK, h, a)

/-- Precondition under which every successful execution of the statement from
the record `h` ends in a record satisfying `Q`, whatever the reads return
within their ranges. -/
def Stmt.wp {H : Type} : Stmt H → (H → Prop) → H → Prop
  | Stmt.READ_UINT bits nbits set, Q, h =>
    ∀ v, (nbits < bits → v < 2 ^ nbits) → v < 2 ^ bits → Q (set h v)
  | Stmt.READ_INT bits nbits base set, Q, h =>
    ∀ tmp, (nbits < bits → tmp < 2 ^ nbits) → tmp < 2 ^ bits →
      Q (set h (read_int_value bits base nbits tmp))
  | Stmt.READ_UE set, Q, h => ∀ v, v < 2 ^ 32 → Q (set h v)
  | Stmt.READ_SE set, Q, h => ∀ v : Int, Q (set h v)
  | Stmt.READ_SE_ALLOWED min max set, Q, h => ∀ v : Int, min ≤ v → v ≤ max → Q (set h v)
  | Stmt.SKIP _, Q, h => Q h
  | Stmt.CHECK_ALLOWED val min max, Q, h => ¬ (val h < min ∨ val h > max) → Q h
  | Stmt.CHECK_MARKER_BIT, Q, h => Q h
  | Stmt.assign f, Q, h => Q (f h)
  | Stmt.seq s t, Q, h => Stmt.wp s (Stmt.wp t Q) h
  | Stmt.ite c s t, Q, h => (c h = true → Stmt.wp s Q h) ∧ (c h = false → Stmt.wp t Q h)
  | Stmt.nop, Q, h => Q h

/-- The unit `seq_unit_720x480` with both marker bits (payload bits 76 and 90)
cleared. -/
def seq_unit_markers_cleared : GstCAVSVideoUnit :=
  ⟨0xb0, ptrOf [0x00, 0x00, 0x01, 0xb0, 0x20, 0x20, 0x85, 0xa0, 0x0f, 0x02, 0x44, 0xc1, 0x38,
    0x80, 0x01, 0x80, 0x03, 0x20], 0, 4, 14⟩

/-- An extension unit: start code `00 00 01 b5`, tag 4, then a copyright
extension with `copyright_number_1` 1, `copyright_number_2` 1024 and
`copyright_number_3` 5. -/
def ext_unit_copyright : GstCAVSVideoUnit :=
  ⟨0xb5, ptrOf [0x00, 0x00, 0x01, 0xb5, 0x4a, 0xd4, 0x04, 0x00, 0x00, 0x60, 0x02, 0x00, 0x40,
    0x00, 0x05], 0, 4, 11⟩

/-- An extension unit with the unassigned tag 3. -/
def ext_unit_tag_3 : GstCAVSVideoUnit :=
  ⟨0xb5, ptrOf [0x00, 0x00, 0x01, 0xb5, 0x3f], 0, 4, 1⟩

/-- An extension unit: tag 11, then camera parameters with
`camera_position_x_upper` 0x0001, `camera_position_x_lower` 0x8000 and the
22 bit fields 64, 128, 192, 0x100000, 0x200000, 0x3fffc0 for the direction
and image plane vectors. -/
def ext_unit_camera : GstCAVSVideoUnit :=
  ⟨0xb5, ptrOf [0x00, 0x00, 0x01, 0xb5, 0xb0, 0x38, 0x00, 0x7d, 0x10, 0x01, 0xf4, 0x20, 0x05,
    0xdc, 0x40, 0x0f, 0xa0, 0x80, 0x00, 0xe0, 0x00, 0x20, 0x20, 0x50, 0x30, 0x48, 0x28, 0x34,
    0x1c, 0x22, 0x00, 0x02, 0x04, 0x00, 0x08, 0x08, 0x00, 0x18, 0x14, 0x00, 0x00, 0x30, 0x00,
    0x00, 0x7f, 0xff, 0xc0, 0x80], 0, 4, 44⟩

/-- An extension record used as the incoming contents of the out-parameter. -/
def ext0 : GstCAVSVideoExtensionData :=
  ⟨0, GstCAVSVideoExtensionUnion.sequence_display GstCAVSVideoSequenceDisplayExtension.zero⟩

/-- Three offset pairs of a picture display extension, each half followed by
a marker bit: (0x0123, 0xfffe), (0x0456, 0x8000), (0x7fff, 0x0001). -/
def picture_display_payload : List Byte :=
  [0x01, 0x23, 0xff, 0xff, 0x41, 0x15, 0xb0, 0x00, 0x17, 0xff, 0xf8, 0x00, 0x0c]

/-- A sequence display extension without colour description: video format 1,
sample range 1, flag 0, display size 720x576. -/
def sequence_display_payload_0 : List Byte := [0x30, 0x5a, 0x10, 0x90, 0x00]

/-- A sequence display extension with colour description: colour primaries 9,
transfer characteristics 0, matrix coefficients 7, display size 720x576. -/
def sequence_display_payload_1 : List Byte := [0x38, 0x48, 0x00, 0x38, 0x5a, 0x10, 0x90, 0x00]

/-- An I picture unit: start code `00 00 01 b3`, progressive frame, loop
filter enabled with the parameter flag set, `alpha_c_offset` coded as 9 and
`beta_offset` as 0. -/
def i_picture_unit_alpha_9 : GstCAVSVideoUnit :=
  ⟨0xb3, ptrOf [0x00, 0x00, 0x01, 0xb3, 0x12, 0x34, 0x41, 0x65, 0x40, 0x42, 0x50], 0, 4, 7⟩

/-- The unit `i_picture_unit_alpha_9` with `alpha_c_offset` coded as -4 and
`beta_offset` as -1. -/
def i_picture_unit_offsets : GstCAVSVideoUnit :=
  ⟨0xb3, ptrOf [0x00, 0x00, 0x01, 0xb3, 0x12, 0x34, 0x41, 0x65, 0x40, 0x44, 0xb0], 0, 4, 7⟩

/-- A PB picture unit: start code `00 00 01 b6`, coding type P, progressive
frame, loop filter enabled with the parameter flag set, and the offset bits of
`i_picture_unit_alpha_9`: `alpha_c_offset` coded as 9, `beta_offset` as 0. -/
def pb_picture_unit_alpha_9 : GstCAVSVideoUnit :=
  ⟨0xb6, ptrOf [0x00, 0x00, 0x01, 0xb6, 0x12, 0x34, 0x41, 0x65, 0x48, 0x10, 0x94], 0, 4, 7⟩

/-- The unit `pb_picture_unit_alpha_9` with the two coding type bits set to
`11` and the offsets coded as -2 and -1. -/
def pb_picture_unit_type_3 : GstCAVSVideoUnit :=
  ⟨0xb6, ptrOf [0x00, 0x00, 0x01, 0xb6, 0x12, 0x34, 0xc1, 0x65, 0x48, 0x12, 0xb0], 0, 4, 7⟩

/-- Every store of the statement keeps the property `P` of the record. -/
def Stmt.keeps {H : Type} : Stmt H → (H → Prop) → Prop
  | Stmt.READ_UINT _ _ set, P => ∀ h v, P h → P (set h v)
  | Stmt.READ_INT _ _ _ set, P => ∀ h v, P h → P (set h v)
  | Stmt.READ_UE set, P => ∀ h v, P h → P (set h v)
  | Stmt.READ_SE set, P => ∀ h v, P h → P (set h v)
  | Stmt.READ_SE_ALLOWED _ _ set, P => ∀ h v, P h → P (set h v)
  | Stmt.SKIP _, _ => True
  | Stmt.CHECK_ALLOWED _ _ _, _ => True
  | Stmt.CHECK_MARKER_BIT, _ => True
  | Stmt.assign f, P => ∀ h, P h → P (f h)
  | Stmt.seq s t, P => Stmt.keeps s P ∧ Stmt.keeps t P
  | Stmt.ite _ s t, P => Stmt.keeps s P ∧ Stmt.keeps t P
  | Stmt.nop, _ => True

/-! ## Slice header -/

/-- Source `struct _GstCAVSVideoSliceHeader`; the four arrays have 4
entries. -/
structure GstCAVSVideoSliceHeader where
  slice_vertical_position : Nat
  slice_vertical_position_extension : Nat
  fixed_slice_qp : Nat
  slice_qp : Nat
  slice_weighting_flag : Nat
  luma_scale : List Nat
  luma_shift : List Int
  chroma_scale : List Nat
  chroma_shift : List Int
  mb_weighting_flag : Nat
  mb_row : Nat
  deriving DecidableEq

/-- The record after `memset (slice, 0, sizeof (*slice))`. -/
def GstCAVSVideoSliceHeader.zero : GstCAVSVideoSliceHeader :=
  ⟨0, 0, 0, 0, 0, [0, 0, 0, 0], [0, 0, 0, 0], [0, 0, 0, 0], [0, 0, 0, 0], 0, 0⟩

/-- Source `gst_cavs_video_parser_get_number_of_reference (pic)`; `none` is
the `g_assert_not_reached ()` of the `default:` branch. -/
def gst_cavs_video_parser_get_number_of_reference (pic : GstCAVSVideoPictureHeader) :
    Option Nat :=
  if pic.picture_coding_type = GST_CAVS_VIDEO_PICTURE_I then
    (if pic.picture_structure = 0 then some 1 else some 0)
  else if pic.picture_coding_type = GST_CAVS_VIDEO_PICTURE_P ∨
      pic.picture_coding_type = GST_CAVS_VIDEO_PICTURE_B then
    some (if pic.picture_structure ≠ 0 then 2 else 4)
  else none

/-- The condition under which `gst_cavs_video_parser_parse_slice_header` reads
`slice_weighting_flag`; `mb_index` and the product of the macroblock counts
are `guint`. -/
def slice_weighting_cond (seqhdr : GstCAVSVideoSequenceHeader)
    (pic : GstCAVSVideoPictureHeader) (s : GstCAVSVideoSliceHeader) : Bool :=
  decide (pic.picture_coding_type ≠ GST_CAVS_VIDEO_PICTURE_I ∨
    (pic.picture_structure = 0 ∧
      u32 (s.mb_row * seqhdr.mb_width) ≥ u32 (seqhdr.mb_width * seqhdr.mb_height) / 2))

/-- Statements of `gst_cavs_video_parser_parse_slice_header` from the store of
`slice_vertical_position` down to the read of `slice_weighting_flag`.  The
index `unit->offset - 1` is a `guint`; `mb_row` is a `guint16`. -/
def slice_header_fields (unit : GstCAVSVideoUnit) (seqhdr : GstCAVSVideoSequenceHeader)
    (pic : GstCAVSVideoPictureHeader) : Stmt GstCAVSVideoSliceHeader :=
  Stmt.block
    [ Stmt.assign (fun s =>
        { s with slice_vertical_position := (unit.data (sub32 unit.offset 1)).val }),
      Stmt.ite (fun _ => decide (seqhdr.vertical_size > 2800))
        (Stmt.READ_UINT 8 3 (fun s v => { s with slice_vertical_position_extension := v }))
        Stmt.nop,
      Stmt.assign (fun s =>
        { s with mb_row :=
            ((s.slice_vertical_position_extension <<< 7) + s.slice_vertical_position)
              % 2 ^ 16 }),
      Stmt.ite (fun _ => decide (pic.fixed_picture_qp = 0))
        (Stmt.block
          [ Stmt.READ_UINT 8 1 (fun s v => { s with fixed_slice_qp := v }),
            Stmt.READ_UINT 8 6 (fun s v => { s with slice_qp := v }) ])
        Stmt.nop,
      Stmt.ite (slice_weighting_cond seqhdr pic)
        (Stmt.READ_UINT 8 1 (fun s v => { s with slice_weighting_flag := v }))
        Stmt.nop ]

/-- Body of the `for` loop of the slice header for index `i`. -/
def slice_weighting_body (i : Nat) : Stmt GstCAVSVideoSliceHeader :=
  Stmt.block
    [ Stmt.READ_UINT 8 8 (fun s v => { s with luma_scale := s.luma_scale.set i v }),
      Stmt.READ_INT 8 8 8 (fun s v => { s with luma_shift := s.luma_shift.set i v }),
      Stmt.CHECK_MARKER_BIT,
      Stmt.READ_UINT 8 8 (fun s v => { s with chroma_scale := s.chroma_scale.set i v }),
      Stmt.READ_INT 8 8 8 (fun s v => { s with chroma_shift := s.chroma_shift.set i v }),
      Stmt.CHECK_MARKER_BIT ]

/-- The statements of `gst_cavs_video_parser_parse_slice_header` under `if
(slice->slice_weighting_flag)` once `n_references` is known: the loop and the
read of `mb_weighting_flag`. -/
def slice_weighting_stmt (n_references : Nat) : Stmt GstCAVSVideoSliceHeader :=
  Stmt.seq (Stmt.for_loop slice_weighting_body 0 n_references)
    (Stmt.READ_UINT 8 1 (fun s v => { s with mb_weighting_flag := v }))

/-- Source `gst_cavs_video_parser_parse_slice_header (unit, seqhdr, pic,
slice)`: the result and the record as the call leaves it, or `none` when the
call to `gst_cavs_video_parser_get_number_of_reference` reaches its
assertion.  The incoming contents of the record are cleared. -/
def gst_cavs_video_parser_parse_slice_header (unit : GstCAVSVideoUnit)
    (seqhdr : GstCAVSVideoSequenceHeader) (pic : GstCAVSVideoPictureHeader)
    (_slice : GstCAVSVideoSliceHeader) :
    Option (GstCAVSVideoParserResult × GstCAVSVideoSliceHeader) :=
  let head := exec (slice_header_fields unit seqhdr pic)
    (avs_reader_init (unit.data.shift unit.offset) (u32 unit.size))
    GstCAVSVideoSliceHeader.zero
  if head.1 ≠ GstCAVSVideoParserResult.OK then some (GstCAVSVideoParserResult.ERROR, head.2.1)
  else if slice_weighting_cond seqhdr pic head.2.1 = true ∧
      head.2.1.slice_weighting_flag ≠ 0 then
    (gst_cavs_video_parser_get_number_of_reference pic).map (fun n_references =>
      ((exec (slice_weighting_stmt n_references) head.2.2 head.2.1).1,
        (exec (slice_weighting_stmt n_references) head.2.2 head.2.1).2.1))
  else some (GstCAVSVideoParserResult.OK, head.2.1)

/-- The fields of a slice header that depend on the vertical position, read
off the logical bytes `L` of the payload: the position byte, the 3 bit
extension when `vertical_size > 2800`, `mb_row`, and the quantiser fields that
follow when `fixed_picture_qp` is 0. -/
def SliceHeaderPosition (unit : GstCAVSVideoUnit) (seqhdr : GstCAVSVideoSequenceHeader)
    (pic : GstCAVSVideoPictureHeader) (L : List Byte) (s : GstCAVSVideoSliceHeader) : Prop :=
  s.slice_vertical_position = (unit.data (sub32 unit.offset 1)).val ∧
  s.slice_vertical_position_extension
    = (if 2800 < seqhdr.vertical_size then bitField L 0 3 else 0) ∧
  s.mb_row = s.slice_vertical_position_extension * 128 + s.slice_vertical_position ∧
  (pic.fixed_picture_qp = 0 →
    s.fixed_slice_qp = bitField L (if 2800 < seqhdr.vertical_size then 3 else 0) 1 ∧
    s.slice_qp = bitField L (if 2800 < seqhdr.vertical_size then 4 else 1) 6)

/-- A slice unit: start code `00 00 01 05`, then the extension 1, the
quantiser fields 1 and 20, `slice_weighting_flag` 1, the weights (32, -2, 33,
3) and (34, -128, 35, 127), each followed by a marker bit, and
`mb_weighting_flag` 1: 80 bits. -/
def slice_unit_row_5 : GstCAVSVideoUnit :=
  ⟨0x00, ptrOf [0x00, 0x00, 0x01, 0x05, 0x35, 0x24, 0x1f, 0xd2, 0x10, 0x39, 0x14, 0x04, 0x8d,
    0xff], 0, 4, 10⟩

/-- A sequence header record of a 3840x2880 sequence. -/
def seqhdr_3840x2880 : GstCAVSVideoSequenceHeader :=
  { GstCAVSVideoSequenceHeader.zero with
    horizontal_size := 3840, vertical_size := 2880, mb_width := 240, mb_height := 180 }

/-- A picture header record of a P picture with frame structure. -/
def pic_p_frame : GstCAVSVideoPictureHeader :=
  { GstCAVSVideoPictureHeader.zero with
    picture_coding_type := GST_CAVS_VIDEO_PICTURE_P, picture_structure := 1 }

/-- The states a reader is in after `avs_reader_init` over `size` bytes at
`data` and any sequence of bit reads, skips and Exp-Golomb reads that have all
returned TRUE. -/
inductive ReachableOK (data : Ptr) (size : Nat) : CAVSReader → Prop
  | init : ReachableOK data size (avs_reader_init data size)
  | get_bits_uint8 (nr : CAVSReader) (nbits : Nat) : ReachableOK data size nr →
      (avs_reader_get_bits_uint8 nr nbits).1 ≠ none →
      ReachableOK data size (avs_reader_get_bits_uint8 nr nbits).2
  | get_bits_uint16 (nr : CAVSReader) (nbits : Nat) : ReachableOK data size nr →
      (avs_reader_get_bits_uint16 nr nbits).1 ≠ none →
      ReachableOK data size (avs_reader_get_bits_uint16 nr nbits).2
  | get_bits_uint32 (nr : CAVSReader) (nbits : Nat) : ReachableOK data size nr →
      (avs_reader_get_bits_uint32 nr nbits).1 ≠ none →
      ReachableOK data size (avs_reader_get_bits_uint32 nr nbits).2
  | skip (nr : CAVSReader) (nbits : Nat) : ReachableOK data size nr →
      (avs_reader_skip nr nbits).1 = true →
      ReachableOK data size (avs_reader_skip nr nbits).2
  | get_ue (nr : CAVSReader) : ReachableOK data size nr →
      (avs_reader_get_ue nr).1 ≠ none →
      ReachableOK data size (avs_reader_get_ue nr).2
  | get_se (nr : CAVSReader) : ReachableOK data size nr →
      (avs_reader_get_se nr).1 ≠ none →
      ReachableOK data size (avs_reader_get_se nr).2

/-- The sequence header record in which the fields stored by the first `k`
statements of `sequence_header_steps` hold their values decoded from the
logical bytes `L`, and the fields stored by later statements are 0. -/
def sequence_header_prefix (L : List Byte) (k : Nat) : GstCAVSVideoSequenceHeader :=
  { profile_id := if 0 < k then bitField L 0 8 else 0
    level_id := if 1 < k then bitField L 8 8 else 0
    progressive_sequence := if 2 < k then bitField L 16 1 else 0
    horizontal_size := if 3 < k then bitField L 17 14 else 0
    mb_width := if 4 < k then (bitField L 17 14 + 15) / 16 else 0
    vertical_size := if 5 < k then bitField L 31 14 else 0
    mb_height := if 6 < k then (bitField L 31 14 + 15) / 16 else 0
    chroma_format := if 7 < k then bitField L 45 2 else 0
    sample_precision := if 8 < k then bitField L 47 3 else 0
    aspect_ratio := if 10 < k then bitField L 50 4 else 0
    frame_rate_code := if 12 < k then bitField L 54 4 else 0
    fps_n := if 14 < k then (frame_rates.getD (bitField L 54 4) (0, 0)).1 else 0
    fps_d := if 15 < k then (frame_rates.getD (bitField L 54 4) (0, 0)).2 else 0
    bit_rate_lower := if 16 < k then bitField L 58 18 else 0
    bit_rate_upper := if 18 < k then bitField L 77 12 else 0
    bitrate :=
      if 19 < k then u32 ((bitField L 77 12 <<< 18) % 2 ^ 32 + bitField L 58 18) else 0
    low_delay := if 20 < k then bitField L 89 1 else 0
    bbv_buffer_size := if 22 < k then bitField L 91 18 else 0
    bitstream_buffer_size := if 23 < k then u32 (16 * 1024 * bitField L 91 18) else 0 }

/-- The statements of `gst_cavs_video_parser_parse_i_picture` from the default
`pic->picture_structure = 1` down to the read of `progressive_frame`: the
first eight statements of `i_picture_fields`. -/
def i_picture_head (seqhdr : GstCAVSVideoSequenceHeader) :
    List (Stmt GstCAVSVideoPictureHeader) :=
  [ Stmt.assign (fun s => { s with picture_structure := 1 }),
    Stmt.READ_UINT 16 16 (fun s v => { s with bbv_delay := v }),
    Stmt.READ_UINT 8 1 (fun s v => { s with time_code_flag := v }),
    Stmt.ite (fun s => decide (s.time_code_flag ≠ 0))
      (Stmt.READ_UINT 32 24 (fun s v => { s with time_code := v })) Stmt.nop,
    Stmt.CHECK_MARKER_BIT,
    Stmt.READ_UINT 8 8 (fun s v => { s with picture_distance := v }),
    Stmt.ite (fun _ => decide (seqhdr.low_delay ≠ 0))
      (Stmt.READ_UE (fun s v => { s with bbv_check_times := v })) Stmt.nop,
    Stmt.READ_UINT 8 1 (fun s v => { s with progressive_frame := v }) ]

/-- The statements of `gst_cavs_video_parser_parse_i_picture` after the read
of `progressive_frame`, from `if (!pic->progressive_frame)` down to the skip of
the four reserved bits: the last seven statements of `i_picture_fields`. -/
def i_picture_tail : List (Stmt GstCAVSVideoPictureHeader) :=
  [ Stmt.ite (fun s => decide (s.progressive_frame = 0))
      (Stmt.READ_UINT 8 1 (fun s v => { s with picture_structure := v })) Stmt.nop,
    Stmt.READ_UINT 8 1 (fun s v => { s with top_field_first := v }),
    Stmt.READ_UINT 8 1 (fun s v => { s with repeat_first_field := v }),
    Stmt.READ_UINT 8 1 (fun s v => { s with fixed_picture_qp := v }),
    Stmt.READ_UINT 8 6 (fun s v => { s with picture_qp := v }),
    Stmt.ite (fun s => decide (s.progressive_frame = 0 ∧ s.picture_structure = 0))
      (Stmt.READ_UINT 8 1 (fun s v => { s with skip_mode_flag := v })) Stmt.nop,
    Stmt.SKIP 4 ]

/-- The statements of `gst_cavs_video_parser_parse_pb_picture` from the
default `pic->picture_structure = 1` down to the read of `progressive_frame`:
the first six statements of `pb_picture_stmt`. -/
def pb_picture_head (seqhdr : GstCAVSVideoSequenceHeader) :
    List (Stmt GstCAVSVideoPictureHeader) :=
  [ Stmt.assign (fun s => { s with picture_structure := 1 }),
    Stmt.READ_UINT 16 16 (fun s v => { s with bbv_delay := v }),
    Stmt.READ_UINT 8 2 (fun s v => { s with picture_coding_type := v }),
    Stmt.READ_UINT 8 8 (fun s v => { s with picture_distance := v }),
    Stmt.ite (fun _ => decide (seqhdr.low_delay ≠ 0))
      (Stmt.READ_UE (fun s v => { s with bbv_check_times := v })) Stmt.nop,
    Stmt.READ_UINT 8 1 (fun s v => { s with progressive_frame := v }) ]

/-- The statements of `gst_cavs_video_parser_parse_pb_picture` after the read
of `progressive_frame`, from `if (!pic->progressive_frame)` to the end: the
last eleven statements of `pb_picture_stmt`. -/
def pb_picture_tail : List (Stmt GstCAVSVideoPictureHeader) :=
  [ Stmt.ite (fun s => decide (s.progressive_frame = 0))
      (Stmt.block
        [ Stmt.READ_UINT 8 1 (fun s v => { s with picture_structure := v }),
          Stmt.ite (fun s => decide (s.picture_structure = 0))
            (Stmt.READ_UINT 8 1 (fun s v => { s with advanced_pred_mode_disable := v }))
            Stmt.nop ])
      Stmt.nop,
    Stmt.READ_UINT 8 1 (fun s v => { s with top_field_first := v }),
    Stmt.READ_UINT 8 1 (fun s v => { s with repeat_first_field := v }),
    Stmt.READ_UINT 8 1 (fun s v => { s with fixed_picture_qp := v }),
    Stmt.READ_UINT 8 6 (fun s v => { s with picture_qp := v }),
    Stmt.ite (fun s => decide (¬ (s.picture_coding_type = GST_CAVS_VIDEO_PICTURE_B
        ∧ s.picture_structure ≠ 0)))
      (Stmt.READ_UINT 8 1 (fun s v => { s with picture_reference_flag := v })) Stmt.nop,
    Stmt.READ_UINT 8 1 (fun s v => { s with no_forward_reference_flag := v }),
    Stmt.SKIP 3,
    Stmt.READ_UINT 8 1 (fun s v => { s with skip_mode_flag := v }),
    Stmt.READ_UINT 8 1 (fun s v => { s with loop_filter_disable := v }),
    Stmt.ite (fun s => decide (s.loop_filter_disable = 0))
      (Stmt.block
        [ Stmt.READ_UINT 8 1 (fun s v => { s with loop_filter_parameter_flag := v }),
          Stmt.ite (fun s => decide (s.loop_filter_parameter_flag ≠ 0))
            (Stmt.block
              [ Stmt.READ_SE (fun s v => { s with alpha_c_offset := v }),
                Stmt.READ_SE (fun s v => { s with beta_offset := v }) ])
            Stmt.nop ])
      Stmt.nop ]

/-- An I picture unit that is not progressive, with the structure bit (payload
bit 27) 0: start code `00 00 01 b3`, no time code, picture distance 5,
`skip_mode_flag` 0, loop filter disabled. -/
def i_picture_unit_field : GstCAVSVideoUnit :=
  ⟨0xb3, ptrOf [0x00, 0x00, 0x01, 0xb3, 0x12, 0x34, 0x41, 0x42, 0xa0, 0x20], 0, 4, 6⟩

/-- The unit `i_picture_unit_field` with the structure bit 1 (a frame picture
that is not progressive). -/
def i_picture_unit_interlaced : GstCAVSVideoUnit :=
  ⟨0xb3, ptrOf [0x00, 0x00, 0x01, 0xb3, 0x12, 0x34, 0x41, 0x52, 0xa0, 0x40], 0, 4, 6⟩

/-- The unit `i_picture_unit_field` with the time code 0xabcdef, which moves
the structure bit to payload bit 51. -/
def i_picture_unit_field_time_code : GstCAVSVideoUnit :=
  ⟨0xb3, ptrOf [0x00, 0x00, 0x01, 0xb3, 0x12, 0x34, 0xd5, 0xe6, 0xf7, 0xc1, 0x42, 0xa0, 0x20],
    0, 4, 9⟩

/-- A P picture unit that is not progressive, with the structure bit (payload
bit 27) 0 and `advanced_pred_mode_disable` 1: start code `00 00 01 b6`, loop
filter disabled. -/
def pb_picture_unit_field : GstCAVSVideoUnit :=
  ⟨0xb6, ptrOf [0x00, 0x00, 0x01, 0xb6, 0x12, 0x34, 0x41, 0x49, 0x52, 0x08], 0, 4, 6⟩

/-! ## Scanner lemmas -/

theorem and_ffffff00 (hi lo : Nat) (hhi : hi < 2 ^ 24) (hlo : lo < 2 ^ 8) :
    (2 ^ 8 * hi + lo) &&& 0xffffff00 = 2 ^ 8 * hi := by
  have hm : (0xffffff00 : Nat) = 2 ^ 8 * (2 ^ 24 - 1) := by norm_num
  rw [hm]
  apply Nat.eq_of_testBit_eq
  intro j
  rw [Nat.testBit_and, Nat.testBit_mul_pow_two_add hi hlo, Nat.testBit_mul_pow_two,
    Nat.testBit_mul_pow_two, Nat.testBit_two_pow_sub_one]
  by_cases h : j < 8
  · have h8 : ¬ (8 ≤ j) := by omega
    simp [h, h8]
  · have h8 : 8 ≤ j := by omega
    simp only [h, h8, if_false, decide_True, Bool.true_and]
    by_cases hc : j - 8 < 24
    · simp [hc]
    · have : hi.testBit (j - 8) = false := by
        apply Nat.testBit_lt_two_pow
        calc hi < 2 ^ 24 := hhi
          _ ≤ 2 ^ (j - 8) := Nat.pow_le_pow_right (by norm_num) (by omega)
      simp [this]

theorem word32_be_match (data : Ptr) (i : Nat) :
    word32_be data i &&& 0xffffff00 = 0x00000100 ↔ StartCodeAt data i := by
  have h0 := (data i).isLt
  have h1 := (data (i + 1)).isLt
  have h2 := (data (i + 2)).isLt
  have h3 := (data (i + 3)).isLt
  have hw : word32_be data i
      = 2 ^ 8 * ((data i).val * 2 ^ 16 + (data (i + 1)).val * 2 ^ 8 + (data (i + 2)).val)
        + (data (i + 3)).val := by
    unfold word32_be; ring
  rw [hw, and_ffffff00 _ _ (by omega) (by omega)]
  unfold StartCodeAt
  omega

theorem masked_scan_from_some (data : Ptr) (n : Nat) :
    ∀ i j, masked_scan_from data 0xffffff00 0x00000100 i n = some j →
      i ≤ j ∧ j < i + n ∧ StartCodeAt data j ∧ ∀ k, i ≤ k → k < j → ¬ StartCodeAt data k := by
  induction n with
  | zero => intro i j h; simp [masked_scan_from] at h
  | succ n ih =>
    intro i j h
    unfold masked_scan_from at h
    by_cases hm : word32_be data i &&& 0xffffff00 = 0x00000100
    · rw [if_pos hm] at h
      have hj : i = j := by simpa using h
      subst hj
      exact ⟨le_refl _, by omega, (word32_be_match data i).1 hm, fun k h1 h2 => by omega⟩
    · rw [if_neg hm] at h
      obtain ⟨h1, h2, h3, h4⟩ := ih (i + 1) j h
      refine ⟨by omega, by omega, h3, ?_⟩
      intro k hk1 hk2
      by_cases hki : k = i
      · subst hki
        exact fun hs => hm ((word32_be_match data k).2 hs)
      · exact h4 k (by omega) hk2

theorem masked_scan_from_none (data : Ptr) (n : Nat) :
    ∀ i, masked_scan_from data 0xffffff00 0x00000100 i n = none →
      ∀ k, i ≤ k → k < i + n → ¬ StartCodeAt data k := by
  induction n with
  | zero => intro i _ k h1 h2; omega
  | succ n ih =>
    intro i h k hk1 hk2
    unfold masked_scan_from at h
    by_cases hm : word32_be data i &&& 0xffffff00 = 0x00000100
    · rw [if_pos hm] at h
      simp at h
    · rw [if_neg hm] at h
      by_cases hki : k = i
      · subst hki
        exact fun hs => hm ((word32_be_match data k).2 hs)
      · exact ih (i + 1) h k (by omega) (by omega)

/-- What `scan_for_start_codes` returns on a range shorter than `2 ^ 31` bytes:
either `-1` and the range holds no start code, or the index of the first one. -/
theorem scan_for_start_codes_spec (data : Ptr) (size : Nat) (hs : size < 2 ^ 31) :
    (scan_for_start_codes data size = -1 ∧ NoStartCode data 0 size) ∨
    (∃ j : Nat, scan_for_start_codes data size = (j : Int) ∧ FirstStartCode data 0 size j) := by
  have hneg : toGint (2 ^ 32 - 1) = -1 := by decide
  have hu : u32 size = size := by unfold u32; omega
  unfold scan_for_start_codes gst_byte_reader_masked_scan_uint32
  rw [hu]
  by_cases h0 : size = 0
  · left
    rw [if_pos h0]
    exact ⟨hneg, fun k _ hk => by omega⟩
  · rw [if_neg h0]
    by_cases h4 : size < 4
    · left
      rw [if_pos h4]
      exact ⟨hneg, fun k _ hk => by omega⟩
    · rw [if_neg h4]
      cases hsc : masked_scan_from data 0xffffff00 0x00000100 0 (size - 3) with
      | none =>
        left
        refine ⟨hneg, ?_⟩
        intro k hk1 hk2
        exact masked_scan_from_none data (size - 3) 0 hsc k hk1 (by omega)
      | some j =>
        right
        obtain ⟨h1, h2, h3, h4⟩ := masked_scan_from_some data (size - 3) 0 j hsc
        refine ⟨j, ?_, h1, by omega, h3, h4⟩
        show toGint j = (j : Int)
        unfold toGint
        have : j % 2 ^ 32 = j := by omega
        rw [this, if_pos (by omega)]

theorem startCodeAt_shift (data : Ptr) (k i : Nat) :
    StartCodeAt (data.shift k) i ↔ StartCodeAt data (k + i) := by
  unfold StartCodeAt Ptr.shift
  simp only [Nat.add_assoc]

/-- The scan over `data + lo` with `size - lo` bytes, phrased on the original
buffer. -/
theorem scan_shift_spec (data : Ptr) (lo size : Nat) (hlo : lo ≤ size) (hs : size < 2 ^ 31) :
    (scan_for_start_codes (data.shift lo) (sub64 size lo) = -1 ∧ NoStartCode data lo size) ∨
    (∃ j : Nat, scan_for_start_codes (data.shift lo) (sub64 size lo) = (j : Int) ∧
      FirstStartCode data lo size (lo + j)) := by
  have hsub : sub64 size lo = size - lo := by unfold sub64; omega
  rw [hsub]
  rcases scan_for_start_codes_spec (data.shift lo) (size - lo) (by omega) with ⟨h1, h2⟩ | ⟨j, h1, h2⟩
  · left
    refine ⟨h1, ?_⟩
    intro k hk1 hk2 hsc
    apply h2 (k - lo) (Nat.zero_le _) (by omega)
    rw [startCodeAt_shift]
    have : lo + (k - lo) = k := by omega
    rw [this]; exact hsc
  · right
    refine ⟨j, h1, ?_⟩
    obtain ⟨_, h3, h4, h5⟩ := h2
    refine ⟨by omega, by omega, (startCodeAt_shift data lo j).1 h4, ?_⟩
    intro k hk1 hk2 hsc
    apply h5 (k - lo) (Nat.zero_le _) (by omega)
    rw [startCodeAt_shift]
    have : lo + (k - lo) = k := by omega
    rw [this]; exact hsc

theorem ofGint_natCast (j : Nat) (hj : j < 2 ^ 32) : ofGint (j : Int) = j := by
  unfold ofGint
  omega

/-- Complete case analysis of `gst_cavs_video_parser_identify_unit` on a buffer
that holds four bytes at `offset` and is shorter than `2 ^ 31` bytes. -/
theorem identify_unit_cases (data : Ptr) (offset size : Nat) (unit : GstCAVSVideoUnit)
    (h1 : offset + 4 ≤ size) (h2 : size < 2 ^ 31) :
    (gst_cavs_video_parser_identify_unit data offset size unit = (.NO_UNIT, unit) ∧
      NoStartCode data offset size) ∨
    (∃ i, FirstStartCode data offset size i ∧
      (gst_cavs_video_parser_identify_unit data offset size unit).2.data = data ∧
      (gst_cavs_video_parser_identify_unit data offset size unit).2.sc_offset = i ∧
      (gst_cavs_video_parser_identify_unit data offset size unit).2.offset = i + 4 ∧
      (gst_cavs_video_parser_identify_unit data offset size unit).2.type =
        (if (data (i + 3)).val ≤ 0xaf then 0x00
         else if 0xb9 ≤ (data (i + 3)).val then 0xb9 else (data (i + 3)).val) ∧
      (((gst_cavs_video_parser_identify_unit data offset size unit).2.type = 0xb1 ∧
          (gst_cavs_video_parser_identify_unit data offset size unit).1 = .OK ∧
          (gst_cavs_video_parser_identify_unit data offset size unit).2.size = 0) ∨
       ((gst_cavs_video_parser_identify_unit data offset size unit).2.type ≠ 0xb1 ∧
          (gst_cavs_video_parser_identify_unit data offset size unit).1 = .NO_UNIT_END ∧
          (gst_cavs_video_parser_identify_unit data offset size unit).2.size = unit.size ∧
          NoStartCode data (i + 4) size) ∨
       ((gst_cavs_video_parser_identify_unit data offset size unit).2.type ≠ 0xb1 ∧
          (gst_cavs_video_parser_identify_unit data offset size unit).1 = .OK ∧
          FirstStartCode data (i + 4) size
            (i + 4 + (gst_cavs_video_parser_identify_unit data offset size unit).2.size)))) := by
  have hg : ¬ size < u32 (offset + 4) := by unfold u32; omega
  unfold gst_cavs_video_parser_identify_unit
  rw [if_neg hg]
  rcases scan_shift_spec data offset size (by omega) h2 with ⟨e1, n1⟩ | ⟨j, e1, f1⟩
  · left
    simp only [e1]
    exact ⟨by simp, n1⟩
  · right
    have hj : offset + j + 4 ≤ size := f1.2.1
    have hnn : ¬ ((j : Int) < 0) := by omega
    have ho : ofGint (j : Int) = j := ofGint_natCast j (by omega)
    have hu1 : u32 (offset + j) = offset + j := by unfold u32; omega
    have hu2 : u32 (offset + j + 4) = offset + j + 4 := by unfold u32; omega
    have hu3 : u32 (offset + j + 3) = offset + j + 3 := by unfold u32; omega
    have hb := (data (offset + j + 3)).isLt
    refine ⟨offset + j, f1, ?_⟩
    simp only [e1, hnn, if_false, ho, hu1, hu2, hu3, GST_CAVS_VIDEO_SLICE_RANGE_START,
      GST_CAVS_VIDEO_SLICE_RANGE_END, GST_CAVS_VIDEO_SYSTEM_RANGE_START,
      GST_CAVS_VIDEO_SYSTEM_RANGE_END, GST_CAVS_VIDEO_UNIT_SLICE, GST_CAVS_VIDEO_UNIT_SYSTEM,
      GST_CAVS_VIDEO_UNIT_VIDEO_SEQUENCE_END]
    have hsc2 := scan_shift_spec data (offset + j + 4) size hj h2
    by_cases c1 : (data (offset + j + 3)).val ≤ 0xaf
    · have c1' : (data (offset + j + 3)).val ≥ 0 ∧ (data (offset + j + 3)).val ≤ 0xaf :=
        ⟨Nat.zero_le _, c1⟩
      simp only [c1, c1', and_self, if_true]
      rcases hsc2 with ⟨e2, n2⟩ | ⟨k, e2, f2⟩
      · simp [e2, n2]
      · have hk := f2.2.1
        have hnk : ¬ ((k : Int) < 0) := by omega
        have hks : u64 ((k : Int) % 2 ^ 64).toNat = k := by unfold u64; omega
        simp only [e2, hnk, if_false, hks]
        simp [f2]
    · by_cases c2 : 0xb9 ≤ (data (offset + j + 3)).val
      · have c2' : (data (offset + j + 3)).val ≥ 0xb9 ∧ (data (offset + j + 3)).val ≤ 0xff :=
          ⟨c2, by omega⟩
        have c1' : ¬ ((data (offset + j + 3)).val ≥ 0 ∧ (data (offset + j + 3)).val ≤ 0xaf) :=
          fun h => c1 h.2
        simp only [c1, c1', c2, c2', and_self, and_false, false_and, if_true, if_false]
        rcases hsc2 with ⟨e2, n2⟩ | ⟨k, e2, f2⟩
        · simp [e2, n2]
        · have hk := f2.2.1
          have hnk : ¬ ((k : Int) < 0) := by omega
          have hks : u64 ((k : Int) % 2 ^ 64).toNat = k := by unfold u64; omega
          simp only [e2, hnk, if_false, hks]
          simp [f2]
      · have c2' : ¬ ((data (offset + j + 3)).val ≥ 0xb9 ∧ (data (offset + j + 3)).val ≤ 0xff) :=
          fun h => c2 h.1
        have c1' : ¬ ((data (offset + j + 3)).val ≥ 0 ∧ (data (offset + j + 3)).val ≤ 0xaf) :=
          fun h => c1 h.2
        simp only [c1, c1', c2, c2', and_self, and_false, false_and, if_false]
        by_cases c3 : (data (offset + j + 3)).val = 0xb1
        · simp [c3]
        · rcases hsc2 with ⟨e2, n2⟩ | ⟨k, e2, f2⟩
          · simp [e2, n2, c3]
          · have hk := f2.2.1
            have hnk : ¬ ((k : Int) < 0) := by omega
            have hks : u64 ((k : Int) % 2 ^ 64).toNat = k := by unfold u64; omega
            simp only [e2, hnk, if_false, hks, c3]
            simp [f2, c3]

theorem firstStartCode_unique {data : Ptr} {lo size i j : Nat}
    (hi : FirstStartCode data lo size i) (hj : FirstStartCode data lo size j) : i = j := by
  obtain ⟨a1, _, a3, a4⟩ := hi
  obtain ⟨b1, _, b3, b4⟩ := hj
  by_contra hne
  rcases Nat.lt_or_gt_of_ne hne with h | h
  · exact b4 i a1 h a3
  · exact a4 j b1 h b3

/-! ## Unit scanner: claims -/

/-- C1: `gst_cavs_video_parser_identify_unit` returns ERROR exactly when fewer
than four bytes are available at `offset` (`size < offset + 4`), and with four
bytes available the result is OK, NO_UNIT or NO_UNIT_END.  Stated for offsets
whose sum `offset + 4` is representable in the 32-bit `guint` of the guard. -/
theorem identify_unit_error_iff (data : Ptr) (offset size : Nat) (unit : GstCAVSVideoUnit)
    (hoff : offset + 4 < 2 ^ 32) :
    ((gst_cavs_video_parser_identify_unit data offset size unit).1 = .ERROR ↔
        size < offset + 4) ∧
    (offset + 4 ≤ size →
      (gst_cavs_video_parser_identify_unit data offset size unit).1 = .OK ∨
      (gst_cavs_video_parser_identify_unit data offset size unit).1 = .NO_UNIT ∨
      (gst_cavs_video_parser_identify_unit data offset size unit).1 = .NO_UNIT_END) := by
  have hu : u32 (offset + 4) = offset + 4 := by unfold u32; omega
  unfold gst_cavs_video_parser_identify_unit
  rw [hu]
  by_cases hg : size < offset + 4
  · rw [if_pos hg]
    exact ⟨⟨fun _ => hg, fun _ => rfl⟩, fun h => by omega⟩
  · rw [if_neg hg]
    dsimp only
    split_ifs <;> simp [hg]

/-- Witness of C1: a three byte buffer is rejected with ERROR. -/
theorem identify_unit_error_iff_witness :
    0 + 4 < 2 ^ 32 ∧
    (((gst_cavs_video_parser_identify_unit (ptrOf [0, 0, 1]) 0 3 unit0).1 = .ERROR ↔ 3 < 0 + 4) ∧
     (0 + 4 ≤ 3 →
      (gst_cavs_video_parser_identify_unit (ptrOf [0, 0, 1]) 0 3 unit0).1 = .OK ∨
      (gst_cavs_video_parser_identify_unit (ptrOf [0, 0, 1]) 0 3 unit0).1 = .NO_UNIT ∨
      (gst_cavs_video_parser_identify_unit (ptrOf [0, 0, 1]) 0 3 unit0).1 = .NO_UNIT_END)) :=
  ⟨by norm_num, identify_unit_error_iff (ptrOf [0, 0, 1]) 0 3 unit0 (by norm_num)⟩

/-- C2: with four bytes available at `offset`, the result is NO_UNIT exactly
when no index `i` with `offset ≤ i` and `i + 4 ≤ size` carries `00 00 01`; in
particular a buffer without any `00 00 01` substring gives NO_UNIT.  Buffers
are shorter than `2 ^ 31` bytes, the range of the `gint` scan offsets. -/
theorem identify_unit_no_unit_iff (data : Ptr) (offset size : Nat) (unit : GstCAVSVideoUnit)
    (h1 : offset + 4 ≤ size) (h2 : size < 2 ^ 31) :
    ((gst_cavs_video_parser_identify_unit data offset size unit).1 = .NO_UNIT ↔
      ¬ ∃ i, offset ≤ i ∧ i + 4 ≤ size ∧
        (data i).val = 0x00 ∧ (data (i + 1)).val = 0x00 ∧ (data (i + 2)).val = 0x01) ∧
    ((∀ i, ¬ ((data i).val = 0x00 ∧ (data (i + 1)).val = 0x00 ∧ (data (i + 2)).val = 0x01)) →
      (gst_cavs_video_parser_identify_unit data offset size unit).1 = .NO_UNIT) := by
  rcases identify_unit_cases data offset size unit h1 h2 with
    ⟨hA, hN⟩ | ⟨i, hF, _, _, _, _, hC⟩
  · rw [hA]
    refine ⟨⟨fun _ => ?_, fun _ => rfl⟩, fun _ => rfl⟩
    rintro ⟨i, hi1, hi2, hi3⟩
    exact hN i hi1 hi2 hi3
  · have hex : ∃ i, offset ≤ i ∧ i + 4 ≤ size ∧
        (data i).val = 0x00 ∧ (data (i + 1)).val = 0x00 ∧ (data (i + 2)).val = 0x01 :=
      ⟨i, hF.1, hF.2.1, hF.2.2.1⟩
    have hne : (gst_cavs_video_parser_identify_unit data offset size unit).1 ≠ .NO_UNIT := by
      rcases hC with ⟨_, r1, _⟩ | ⟨_, r2, _, _⟩ | ⟨_, r3, _⟩
      · rw [r1]; decide
      · rw [r2]; decide
      · rw [r3]; decide
    refine ⟨⟨fun h => absurd h hne, fun h => absurd hex h⟩, fun h => ?_⟩
    exact absurd hF.2.2.1 (h i)

/-- Witness of C2: eight bytes without a start code give NO_UNIT. -/
theorem identify_unit_no_unit_iff_witness :
    (0 + 4 ≤ 8 ∧ 8 < 2 ^ 31) ∧
    (gst_cavs_video_parser_identify_unit (ptrOf [0, 0, 2, 1, 0, 1, 0, 0]) 0 8 unit0).1
      = .NO_UNIT :=
  ⟨by norm_num,
   (identify_unit_no_unit_iff (ptrOf [0, 0, 2, 1, 0, 1, 0, 0]) 0 8 unit0
      (by norm_num) (by norm_num)).1.2 (by
        rintro ⟨i, hi1, hi2, hi3⟩
        have hi : i < 5 := by omega
        interval_cases i <;> revert hi3 <;> decide)⟩

/-- C3: whenever the result is OK or NO_UNIT_END, `sc_offset` is the smallest
index at or after `offset` where `00 00 01` and a fourth byte lie inside the
buffer, the payload offset is `sc_offset + 4`, and the unit refers to the
caller's buffer itself. -/
theorem identify_unit_descriptor (data : Ptr) (offset size : Nat) (unit : GstCAVSVideoUnit)
    (h1 : offset + 4 ≤ size) (h2 : size < 2 ^ 31)
    (hr : (gst_cavs_video_parser_identify_unit data offset size unit).1 = .OK ∨
      (gst_cavs_video_parser_identify_unit data offset size unit).1 = .NO_UNIT_END) :
    FirstStartCode data offset size
      (gst_cavs_video_parser_identify_unit data offset size unit).2.sc_offset ∧
    (gst_cavs_video_parser_identify_unit data offset size unit).2.offset =
      (gst_cavs_video_parser_identify_unit data offset size unit).2.sc_offset + 4 ∧
    (gst_cavs_video_parser_identify_unit data offset size unit).2.data = data := by
  rcases identify_unit_cases data offset size unit h1 h2 with
    ⟨hA, _⟩ | ⟨i, hF, hd, hs, ho, _, _⟩
  · rw [hA] at hr
    rcases hr with h | h <;> simp at h
  · rw [hs, ho, hd]
    exact ⟨hF, rfl, rfl⟩

/-- Witness of C3: a picture unit found after three bytes of padding. -/
theorem identify_unit_descriptor_witness :
    (1 + 4 ≤ 11 ∧ 11 < 2 ^ 31) ∧
    (gst_cavs_video_parser_identify_unit (ptrOf [9, 0, 0, 0, 0, 1, 0xb3, 7, 0, 0, 1]) 1 11
      unit0).2.offset =
    (gst_cavs_video_parser_identify_unit (ptrOf [9, 0, 0, 0, 0, 1, 0xb3, 7, 0, 0, 1]) 1 11
      unit0).2.sc_offset + 4 :=
  ⟨by norm_num,
   (identify_unit_descriptor (ptrOf [9, 0, 0, 0, 0, 1, 0xb3, 7, 0, 0, 1]) 1 11 unit0
      (by norm_num) (by norm_num) (by decide)).2.1⟩

/-- C4: the unit type depends on the fourth start code byte `sc` alone:
`sc ≤ 0xaf` gives SLICE (0x00), `sc ≥ 0xb9` gives SYSTEM (0xb9), and every `sc`
in `[0xb0, 0xb8]` gives `sc` itself, so the type is 0x00 or lies in
`[0xb0, 0xb9]`. -/
theorem identify_unit_type (data : Ptr) (offset size : Nat) (unit : GstCAVSVideoUnit)
    (h1 : offset + 4 ≤ size) (h2 : size < 2 ^ 31)
    (hr : (gst_cavs_video_parser_identify_unit data offset size unit).1 = .OK ∨
      (gst_cavs_video_parser_identify_unit data offset size unit).1 = .NO_UNIT_END) :
    ((data ((gst_cavs_video_parser_identify_unit data offset size unit).2.sc_offset + 3)).val
        ≤ 0xaf →
      (gst_cavs_video_parser_identify_unit data offset size unit).2.type
        = GST_CAVS_VIDEO_UNIT_SLICE) ∧
    (0xb9 ≤
        (data ((gst_cavs_video_parser_identify_unit data offset size unit).2.sc_offset + 3)).val →
      (gst_cavs_video_parser_identify_unit data offset size unit).2.type
        = GST_CAVS_VIDEO_UNIT_SYSTEM) ∧
    (0xb0 ≤
        (data ((gst_cavs_video_parser_identify_unit data offset size unit).2.sc_offset + 3)).val →
      (data ((gst_cavs_video_parser_identify_unit data offset size unit).2.sc_offset + 3)).val
        ≤ 0xb8 →
      (gst_cavs_video_parser_identify_unit data offset size unit).2.type =
        (data ((gst_cavs_video_parser_identify_unit data offset size unit).2.sc_offset + 3)).val) ∧
    ((gst_cavs_video_parser_identify_unit data offset size unit).2.type = 0x00 ∨
      (0xb0 ≤ (gst_cavs_video_parser_identify_unit data offset size unit).2.type ∧
        (gst_cavs_video_parser_identify_unit data offset size unit).2.type ≤ 0xb9)) := by
  rcases identify_unit_cases data offset size unit h1 h2 with
    ⟨hA, _⟩ | ⟨i, _, _, hs, _, ht, _⟩
  · rw [hA] at hr
    rcases hr with h | h <;> simp at h
  · rw [hs, ht]
    have hb := (data (i + 3)).isLt
    simp only [GST_CAVS_VIDEO_UNIT_SLICE, GST_CAVS_VIDEO_UNIT_SYSTEM]
    refine ⟨fun h => by rw [if_pos h], fun h => ?_, fun h h' => ?_, ?_⟩
    · rw [if_neg (by omega), if_pos h]
    · rw [if_neg (by omega), if_neg (by omega)]
    · split_ifs <;> omega

/-- Witness of C4: start code byte 0x42 is classified as a slice, 0xb5 is
kept as the extension type. -/
theorem identify_unit_type_witness :
    (0 + 4 ≤ 4 ∧ 4 < 2 ^ 31) ∧
    (gst_cavs_video_parser_identify_unit (ptrOf [0, 0, 1, 0x42]) 0 4 unit0).2.type
      = GST_CAVS_VIDEO_UNIT_SLICE ∧
    (gst_cavs_video_parser_identify_unit (ptrOf [0, 0, 1, 0xb5]) 0 4 unit0).2.type = 0xb5 :=
  ⟨by norm_num,
   (identify_unit_type (ptrOf [0, 0, 1, 0x42]) 0 4 unit0 (by norm_num) (by norm_num)
      (by decide)).1 (by decide),
   (identify_unit_type (ptrOf [0, 0, 1, 0xb5]) 0 4 unit0 (by norm_num) (by norm_num)
      (by decide)).2.2.1 (by decide) (by decide)⟩

/-- C5: when the first start code at or after `offset` has fourth byte 0xb1,
the result is OK with type VIDEO_SEQUENCE_END and payload size 0, whatever
follows the start code (the statement does not constrain later bytes). -/
theorem identify_unit_sequence_end (data : Ptr) (offset size : Nat) (unit : GstCAVSVideoUnit)
    (i : Nat) (h1 : offset + 4 ≤ size) (h2 : size < 2 ^ 31)
    (hfirst : FirstStartCode data offset size i) (hsc : (data (i + 3)).val = 0xb1) :
    (gst_cavs_video_parser_identify_unit data offset size unit).1 = .OK ∧
    (gst_cavs_video_parser_identify_unit data offset size unit).2.type
      = GST_CAVS_VIDEO_UNIT_VIDEO_SEQUENCE_END ∧
    (gst_cavs_video_parser_identify_unit data offset size unit).2.size = 0 ∧
    (gst_cavs_video_parser_identify_unit data offset size unit).2.sc_offset = i := by
  rcases identify_unit_cases data offset size unit h1 h2 with
    ⟨_, hN⟩ | ⟨j, hF, _, hs, _, ht, hC⟩
  · exact absurd hfirst.2.2.1 (hN i hfirst.1 hfirst.2.1)
  · have hij : i = j := firstStartCode_unique hfirst hF
    subst hij
    have hty : (gst_cavs_video_parser_identify_unit data offset size unit).2.type = 0xb1 := by
      rw [ht, hsc]; decide
    rcases hC with ⟨_, r1, s1⟩ | ⟨t2, _, _, _⟩ | ⟨t3, _, _⟩
    · exact ⟨r1, hty, s1, hs⟩
    · exact absurd hty t2
    · exact absurd hty t3

/-- Witness of C5: the four byte buffer `00 00 01 b1` gives OK, type
sequence end, size 0. -/
theorem identify_unit_sequence_end_witness :
    (0 + 4 ≤ 4 ∧ 4 < 2 ^ 31 ∧ FirstStartCode (ptrOf [0x00, 0x00, 0x01, 0xb1]) 0 4 0 ∧
      ((ptrOf [0x00, 0x00, 0x01, 0xb1]) (0 + 3)).val = 0xb1) ∧
    ((gst_cavs_video_parser_identify_unit (ptrOf [0x00, 0x00, 0x01, 0xb1]) 0 4 unit0).1 = .OK ∧
     (gst_cavs_video_parser_identify_unit (ptrOf [0x00, 0x00, 0x01, 0xb1]) 0 4 unit0).2.type
        = GST_CAVS_VIDEO_UNIT_VIDEO_SEQUENCE_END ∧
     (gst_cavs_video_parser_identify_unit (ptrOf [0x00, 0x00, 0x01, 0xb1]) 0 4 unit0).2.size = 0 ∧
     (gst_cavs_video_parser_identify_unit (ptrOf [0x00, 0x00, 0x01, 0xb1]) 0 4 unit0).2.sc_offset
        = 0) :=
  have hf : FirstStartCode (ptrOf [0x00, 0x00, 0x01, 0xb1]) 0 4 0 :=
    ⟨le_refl _, le_refl _, by decide, fun k hk1 hk2 => by omega⟩
  ⟨⟨by norm_num, by norm_num, hf, by decide⟩,
   identify_unit_sequence_end (ptrOf [0x00, 0x00, 0x01, 0xb1]) 0 4 unit0 0
     (by norm_num) (by norm_num) hf (by decide)⟩

/-- C6: whenever the result is OK for a unit that is not a sequence end, the
payload size is the distance to the next start code: `00 00 01` stands at
`offset + size` with its fourth byte inside the buffer, and no start code
begins at any index of `[unit.offset, unit.offset + unit.size)`. -/
theorem identify_unit_payload_size (data : Ptr) (offset size : Nat) (unit : GstCAVSVideoUnit)
    (h1 : offset + 4 ≤ size) (h2 : size < 2 ^ 31)
    (hr : (gst_cavs_video_parser_identify_unit data offset size unit).1 = .OK)
    (hty : (gst_cavs_video_parser_identify_unit data offset size unit).2.type
      ≠ GST_CAVS_VIDEO_UNIT_VIDEO_SEQUENCE_END) :
    StartCodeAt data
      ((gst_cavs_video_parser_identify_unit data offset size unit).2.offset +
        (gst_cavs_video_parser_identify_unit data offset size unit).2.size) ∧
    (gst_cavs_video_parser_identify_unit data offset size unit).2.offset +
        (gst_cavs_video_parser_identify_unit data offset size unit).2.size + 4 ≤ size ∧
    ∀ k, (gst_cavs_video_parser_identify_unit data offset size unit).2.offset ≤ k →
      k < (gst_cavs_video_parser_identify_unit data offset size unit).2.offset +
        (gst_cavs_video_parser_identify_unit data offset size unit).2.size →
      ¬ StartCodeAt data k := by
  rcases identify_unit_cases data offset size unit h1 h2 with
    ⟨hA, _⟩ | ⟨i, _, _, _, ho, _, hC⟩
  · rw [hA] at hr; simp at hr
  · rcases hC with ⟨t1, _, _⟩ | ⟨_, r2, _, _⟩ | ⟨_, _, f3⟩
    · exact absurd t1 hty
    · rw [r2] at hr; simp at hr
    · rw [ho]
      exact ⟨f3.2.2.1, f3.2.1, f3.2.2.2⟩

/-- Witness of C6: an I picture unit of three payload bytes followed by the
next start code. -/
theorem identify_unit_payload_size_witness :
    (0 + 4 ≤ 11 ∧ 11 < 2 ^ 31) ∧
    StartCodeAt (ptrOf [0, 0, 1, 0xb3, 7, 8, 9, 0, 0, 1, 0])
      ((gst_cavs_video_parser_identify_unit (ptrOf [0, 0, 1, 0xb3, 7, 8, 9, 0, 0, 1, 0]) 0 11
          unit0).2.offset +
        (gst_cavs_video_parser_identify_unit (ptrOf [0, 0, 1, 0xb3, 7, 8, 9, 0, 0, 1, 0]) 0 11
          unit0).2.size) :=
  ⟨by norm_num,
   (identify_unit_payload_size (ptrOf [0, 0, 1, 0xb3, 7, 8, 9, 0, 0, 1, 0]) 0 11 unit0
      (by norm_num) (by norm_num) (by decide) (by decide)).1⟩

/-- C7: with four bytes available at `offset`, the result is NO_UNIT_END
exactly when a start code is found at or after `offset`, its fourth byte is
not the sequence end code 0xb1 (the only byte whose unit type is sequence
end), and no further start code with its fourth byte lies inside
`[sc_offset + 4, size)`. -/
theorem identify_unit_no_unit_end_iff (data : Ptr) (offset size : Nat)
    (unit : GstCAVSVideoUnit) (h1 : offset + 4 ≤ size) (h2 : size < 2 ^ 31) :
    (gst_cavs_video_parser_identify_unit data offset size unit).1 = .NO_UNIT_END ↔
      ∃ i, FirstStartCode data offset size i ∧ (data (i + 3)).val ≠ 0xb1 ∧
        NoStartCode data (i + 4) size := by
  rcases identify_unit_cases data offset size unit h1 h2 with
    ⟨hA, hN⟩ | ⟨i, hF, _, _, _, ht, hC⟩
  · rw [hA]
    constructor
    · intro h; simp at h
    · rintro ⟨i, hF, _, _⟩
      exact absurd hF.2.2.1 (hN i hF.1 hF.2.1)
  · have hb := (data (i + 3)).isLt
    have htype : (gst_cavs_video_parser_identify_unit data offset size unit).2.type = 0xb1 ↔
        (data (i + 3)).val = 0xb1 := by
      rw [ht]; split_ifs <;> constructor <;> intro h <;> first | contradiction | omega
    rcases hC with ⟨t1, r1, _⟩ | ⟨t2, r2, _, n2⟩ | ⟨_, r3, f3⟩
    · rw [r1]
      constructor
      · intro h; simp at h
      · rintro ⟨j, hFj, hne, _⟩
        have hij : i = j := firstStartCode_unique hF hFj
        subst hij
        exact absurd (htype.1 t1) hne
    · rw [r2]
      refine ⟨fun _ => ⟨i, hF, fun h => t2 (htype.2 h), n2⟩, fun _ => rfl⟩
    · rw [r3]
      constructor
      · intro h; simp at h
      · rintro ⟨j, hFj, _, hn⟩
        have hij : i = j := firstStartCode_unique hF hFj
        subst hij
        exact absurd f3.2.2.1 (hn _ f3.1 f3.2.1)

/-- Witness of C7: a picture start code with two payload bytes and no second
start code gives NO_UNIT_END. -/
theorem identify_unit_no_unit_end_iff_witness :
    (0 + 4 ≤ 6 ∧ 6 < 2 ^ 31) ∧
    ((gst_cavs_video_parser_identify_unit (ptrOf [0, 0, 1, 0xb6, 0x55, 0x66]) 0 6 unit0).1
        = .NO_UNIT_END ↔
      ∃ i, FirstStartCode (ptrOf [0, 0, 1, 0xb6, 0x55, 0x66]) 0 6 i ∧
        ((ptrOf [0, 0, 1, 0xb6, 0x55, 0x66]) (i + 3)).val ≠ 0xb1 ∧
        NoStartCode (ptrOf [0, 0, 1, 0xb6, 0x55, 0x66]) (i + 4) 6) :=
  ⟨by norm_num,
   identify_unit_no_unit_end_iff (ptrOf [0, 0, 1, 0xb6, 0x55, 0x66]) 0 6 unit0
     (by norm_num) (by norm_num)⟩

/-! ## Bit reader: counters -/

theorem read_loop_zero (nr : CAVSReader) (n : Nat) :
    avs_reader_read_loop 0 nr n = if nr.bits_in_cache < n then (false, nr) else (true, nr) :=
  rfl

theorem read_loop_succ (left : Nat) (nr : CAVSReader) (n : Nat) :
    avs_reader_read_loop (left + 1) nr n =
      if nr.bits_in_cache < n then
        if nr.byte ≥ nr.size then (false, nr)
        else if (nr.data nr.byte).val = 0x02 ∧ nr.first_byte = 0x00 ∧ nr.cache &&& 0xff = 0 then
          if nr.dropEpb.byte ≥ nr.size then (false, nr.dropEpb)
          else avs_reader_read_loop left nr.dropEpb.pushByte n
        else avs_reader_read_loop left nr.pushByte n
      else (true, nr) :=
  rfl

theorem wf_dropEpb (nr : CAVSReader) (h : nr.WF) (hb : nr.byte < nr.size) :
    nr.dropEpb.size = nr.size ∧ nr.dropEpb.data = nr.data ∧ nr.dropEpb.byte = nr.byte + 1 ∧
    nr.dropEpb.n_epb = nr.n_epb + 1 ∧ nr.dropEpb.bits_in_cache = nr.bits_in_cache ∧
    nr.dropEpb.first_byte = nr.first_byte ∧ nr.dropEpb.cache = nr.cache ∧ nr.dropEpb.WF := by
  obtain ⟨h1, h2, h3, h4⟩ := h
  have e1 : u32 (nr.byte + 1) = nr.byte + 1 := by unfold u32; omega
  have e2 : u32 (nr.n_epb + 1) = nr.n_epb + 1 := by unfold u32; omega
  refine ⟨rfl, rfl, e1, e2, rfl, rfl, rfl, ?_⟩
  unfold CAVSReader.WF CAVSReader.dropEpb
  simp only [e1, e2]
  omega

theorem wf_pushByte (nr : CAVSReader) (h : nr.WF) (hb : nr.byte < nr.size) :
    nr.pushByte.size = nr.size ∧ nr.pushByte.data = nr.data ∧ nr.pushByte.byte = nr.byte + 1 ∧
    nr.pushByte.n_epb = nr.n_epb ∧ nr.pushByte.bits_in_cache = nr.bits_in_cache + 8 ∧
    nr.pushByte.WF := by
  obtain ⟨h1, h2, h3, h4⟩ := h
  have e1 : u32 (nr.byte + 1) = nr.byte + 1 := by unfold u32; omega
  have e2 : u32 (nr.bits_in_cache + 8) = nr.bits_in_cache + 8 := by unfold u32; omega
  refine ⟨rfl, rfl, e1, rfl, e2, ?_⟩
  unfold CAVSReader.WF CAVSReader.pushByte
  simp only [e1, e2]
  omega

/-- Counter bookkeeping of the refill loop on a well-formed reader: the raw
position `8 * byte - bits_in_cache` moves by eight bits per dropped byte. -/
theorem read_loop_counters (left : Nat) : ∀ (nr : CAVSReader) (n : Nat), nr.WF →
    (avs_reader_read_loop left nr n).2.WF ∧
    (avs_reader_read_loop left nr n).2.size = nr.size ∧
    (avs_reader_read_loop left nr n).2.data = nr.data ∧
    8 * (avs_reader_read_loop left nr n).2.byte + nr.bits_in_cache
        + 8 * nr.n_epb
      = 8 * nr.byte + (avs_reader_read_loop left nr n).2.bits_in_cache
        + 8 * (avs_reader_read_loop left nr n).2.n_epb ∧
    nr.n_epb ≤ (avs_reader_read_loop left nr n).2.n_epb ∧
    nr.byte ≤ (avs_reader_read_loop left nr n).2.byte ∧
    nr.bits_in_cache ≤ (avs_reader_read_loop left nr n).2.bits_in_cache ∧
    ((avs_reader_read_loop left nr n).1 = true →
      n ≤ (avs_reader_read_loop left nr n).2.bits_in_cache) := by
  induction left with
  | zero =>
    intro nr n h
    rw [read_loop_zero]
    split_ifs with c <;> try dsimp only
    · exact ⟨h, rfl, rfl, rfl, le_refl _, le_refl _, le_refl _, fun hh => by simp at hh⟩
    · exact ⟨h, rfl, rfl, rfl, le_refl _, le_refl _, le_refl _, fun _ => by omega⟩
  | succ left ih =>
    intro nr n h
    rw [read_loop_succ]
    split_ifs with c1 c2 c3 c4 <;> try dsimp only
    · exact ⟨h, rfl, rfl, rfl, le_refl _, le_refl _, le_refl _, fun hh => by simp at hh⟩
    · obtain ⟨d1, d2, d3, d4, d5, _, _, d6⟩ := wf_dropEpb nr h (by omega)
      refine ⟨d6, d1, d2, ?_, by omega, by omega, by omega, fun hh => by simp at hh⟩
      omega
    · obtain ⟨d1, d2, d3, d4, d5, _, _, d6⟩ := wf_dropEpb nr h (by omega)
      obtain ⟨p1, p2, p3, p4, p5, p6⟩ := wf_pushByte nr.dropEpb d6 (by omega)
      obtain ⟨i1, i2, i3, i4, i5, i6, i7, i8⟩ := ih nr.dropEpb.pushByte n p6
      exact ⟨i1, by rw [i2, p1, d1], by rw [i3, p2, d2], by omega, by omega, by omega,
        by omega, i8⟩
    · obtain ⟨p1, p2, p3, p4, p5, p6⟩ := wf_pushByte nr h (by omega)
      obtain ⟨i1, i2, i3, i4, i5, i6, i7, i8⟩ := ih nr.pushByte n p6
      exact ⟨i1, by rw [i2, p1], by rw [i3, p2], by omega, by omega, by omega, by omega, i8⟩
    · exact ⟨h, rfl, rfl, rfl, le_refl _, le_refl _, le_refl _, fun _ => by omega⟩

/-- The iteration bound of the refill loop is never the reason it stops: with
at least `size - byte` iterations allowed, one more changes nothing. -/
theorem read_loop_bound_succ (left : Nat) : ∀ (nr : CAVSReader) (n : Nat), nr.WF →
    nr.size - nr.byte ≤ left →
    avs_reader_read_loop (left + 1) nr n = avs_reader_read_loop left nr n := by
  induction left with
  | zero =>
    intro nr n _ hl
    rw [read_loop_succ 0 nr n, read_loop_zero nr n]
    have hb : nr.byte ≥ nr.size := by omega
    split_ifs <;> rfl
  | succ left ih =>
    intro nr n h hl
    rw [read_loop_succ (left + 1) nr n, read_loop_succ left nr n]
    split_ifs with c1 c2 c3 c4
    · rfl
    · rfl
    · obtain ⟨d1, _, d3, _, _, _, _, d8⟩ := wf_dropEpb nr h (by omega)
      obtain ⟨p1, _, p3, _, _, p6⟩ := wf_pushByte nr.dropEpb d8 (by omega)
      exact ih nr.dropEpb.pushByte n p6 (by rw [p1, p3, d1, d3]; omega)
    · obtain ⟨p1, _, p3, _, _, p6⟩ := wf_pushByte nr h (by omega)
      exact ih nr.pushByte n p6 (by rw [p1, p3]; omega)
    · rfl

/-- The refill loop run with any bound of at least `size - byte` iterations
gives the result of `avs_reader_read`'s loop. -/
theorem read_loop_bound (extra : Nat) (nr : CAVSReader) (n : Nat) (h : nr.WF) :
    avs_reader_read_loop (nr.size - nr.byte + extra) nr n
      = avs_reader_read_loop (nr.size - nr.byte) nr n := by
  induction extra with
  | zero => rfl
  | succ extra ih =>
    rw [← ih, ← Nat.add_assoc]
    exact read_loop_bound_succ _ nr n h (by omega)

theorem read_counters (nr : CAVSReader) (n : Nat) (h : nr.WF) :
    (avs_reader_read nr n).2.WF ∧
    (avs_reader_read nr n).2.size = nr.size ∧
    (avs_reader_read nr n).2.data = nr.data ∧
    8 * (avs_reader_read nr n).2.byte + nr.bits_in_cache + 8 * nr.n_epb
      = 8 * nr.byte + (avs_reader_read nr n).2.bits_in_cache
        + 8 * (avs_reader_read nr n).2.n_epb ∧
    nr.n_epb ≤ (avs_reader_read nr n).2.n_epb ∧
    nr.byte ≤ (avs_reader_read nr n).2.byte ∧
    nr.bits_in_cache ≤ (avs_reader_read nr n).2.bits_in_cache ∧
    ((avs_reader_read nr n).1 = true → n ≤ (avs_reader_read nr n).2.bits_in_cache) := by
  unfold avs_reader_read
  split_ifs with c
  · exact ⟨h, rfl, rfl, rfl, le_refl _, le_refl _, le_refl _, fun hh => by simp at hh⟩
  · exact read_loop_counters _ nr n h

/-- Counters after `avs_reader_get_bits_uintN`: well-formedness is kept, and a
successful read of `n` bits moves `8 * byte - bits_in_cache` by `n` plus eight
per dropped byte. -/
theorem get_bits_counters (w : Nat) (nr : CAVSReader) (n : Nat) (h : nr.WF) :
    (avs_reader_get_bits w nr n).2.WF ∧
    (avs_reader_get_bits w nr n).2.size = nr.size ∧
    (avs_reader_get_bits w nr n).2.data = nr.data ∧
    nr.n_epb ≤ (avs_reader_get_bits w nr n).2.n_epb ∧
    nr.byte ≤ (avs_reader_get_bits w nr n).2.byte ∧
    ((avs_reader_get_bits w nr n).1 ≠ none →
      8 * (avs_reader_get_bits w nr n).2.byte + nr.bits_in_cache + 8 * nr.n_epb
        = 8 * nr.byte + (avs_reader_get_bits w nr n).2.bits_in_cache + n
          + 8 * (avs_reader_get_bits w nr n).2.n_epb) := by
  obtain ⟨r1, r2, r3, r4, r5, r6, r7, r8⟩ := read_counters nr n h
  unfold avs_reader_get_bits
  rcases hr : avs_reader_read nr n with ⟨ok, nr'⟩
  rw [hr] at r1 r2 r3 r4 r5 r6 r7 r8
  dsimp only at r1 r2 r3 r4 r5 r6 r7 r8
  cases ok with
  | false =>
    dsimp only
    exact ⟨r1, r2, r3, r5, r6, fun hh => absurd rfl hh⟩
  | true =>
    dsimp only
    have hn : n ≤ nr'.bits_in_cache := r8 rfl
    obtain ⟨w1, w2, w3, w4⟩ := r1
    have hs : sub32 nr'.bits_in_cache n = nr'.bits_in_cache - n := by unfold sub32; omega
    rw [hs]
    refine ⟨⟨w1, w2, by dsimp only; omega, w4⟩, r2, r3, r5, r6, fun _ => ?_⟩
    omega

theorem skip_counters (nr : CAVSReader) (n : Nat) (h : nr.WF) :
    (avs_reader_skip nr n).2.WF ∧ (avs_reader_skip nr n).2.size = nr.size ∧
    (avs_reader_skip nr n).2.data = nr.data := by
  obtain ⟨r1, r2, r3, r4, r5, r6, r7, r8⟩ := read_counters nr n h
  unfold avs_reader_skip
  rcases hr : avs_reader_read nr n with ⟨ok, nr'⟩
  rw [hr] at r1 r2 r3 r4 r5 r6 r7 r8
  dsimp only at r1 r2 r3 r4 r5 r6 r7 r8
  cases ok with
  | false => exact ⟨r1, r2, r3⟩
  | true =>
    dsimp only
    have hn : n ≤ nr'.bits_in_cache := r8 rfl
    obtain ⟨w1, w2, w3, w4⟩ := r1
    have hs : sub32 nr'.bits_in_cache n = nr'.bits_in_cache - n := by unfold sub32; omega
    rw [hs]
    exact ⟨⟨w1, w2, by dsimp only; omega, w4⟩, r2, r3⟩

theorem get_ue_loop_counters (left : Nat) : ∀ (nr : CAVSReader) (i : Nat), nr.WF →
    (avs_reader_get_ue_loop left nr i).2.WF ∧
    (avs_reader_get_ue_loop left nr i).2.size = nr.size ∧
    (avs_reader_get_ue_loop left nr i).2.data = nr.data := by
  induction left with
  | zero =>
    intro nr i h
    obtain ⟨g1, g2, g3, _⟩ := get_bits_counters 8 nr 1 h
    exact ⟨g1, g2, g3⟩
  | succ left ih =>
    intro nr i h
    obtain ⟨g1, g2, g3, _⟩ := get_bits_counters 8 nr 1 h
    unfold avs_reader_get_ue_loop avs_reader_get_bits_uint8
    rcases hr : avs_reader_get_bits 8 nr 1 with ⟨v, nr'⟩
    rw [hr] at g1 g2 g3
    dsimp only at g1 g2 g3
    cases v with
    | none => exact ⟨g1, g2, g3⟩
    | some bit =>
      dsimp only
      split_ifs with c
      · obtain ⟨i1, i2, i3⟩ := ih nr' (u32 (i + 1)) g1
        exact ⟨i1, by rw [i2, g2], by rw [i3, g3]⟩
      · exact ⟨g1, g2, g3⟩

theorem get_ue_counters (nr : CAVSReader) (h : nr.WF) :
    (avs_reader_get_ue nr).2.WF ∧ (avs_reader_get_ue nr).2.size = nr.size ∧
    (avs_reader_get_ue nr).2.data = nr.data := by
  obtain ⟨g1, g2, g3, _⟩ := get_bits_counters 8 nr 1 h
  unfold avs_reader_get_ue avs_reader_get_bits_uint8 avs_reader_get_bits_uint32
  rcases hr : avs_reader_get_bits 8 nr 1 with ⟨v, nr1⟩
  rw [hr] at g1 g2 g3
  dsimp only at g1 g2 g3
  cases v with
  | none => exact ⟨g1, g2, g3⟩
  | some bit =>
    dsimp only
    have hmid : ∀ x : Option Nat × CAVSReader, x.2.WF → x.2.size = nr.size → x.2.data = nr.data →
        (match x with
          | (none, nr) => ((none : Option Nat), nr)
          | (some i, nr) =>
            if i > 32 then (none, nr)
            else
              match avs_reader_get_bits 32 nr i with
              | (none, nr) => (none, nr)
              | (some value, nr) => (some (u32 (sub32 (u32 (1 <<< i)) 1 + value)), nr)).2.WF ∧
        (match x with
          | (none, nr) => ((none : Option Nat), nr)
          | (some i, nr) =>
            if i > 32 then (none, nr)
            else
              match avs_reader_get_bits 32 nr i with
              | (none, nr) => (none, nr)
              | (some value, nr) => (some (u32 (sub32 (u32 (1 <<< i)) 1 + value)), nr)).2.size
          = nr.size ∧
        (match x with
          | (none, nr) => ((none : Option Nat), nr)
          | (some i, nr) =>
            if i > 32 then (none, nr)
            else
              match avs_reader_get_bits 32 nr i with
              | (none, nr) => (none, nr)
              | (some value, nr) => (some (u32 (sub32 (u32 (1 <<< i)) 1 + value)), nr)).2.data
          = nr.data := by
      rintro ⟨oi, nr2⟩ x1 x2 x3
      dsimp only at x1 x2 x3
      cases oi with
      | none => exact ⟨x1, x2, x3⟩
      | some i =>
        dsimp only
        split_ifs with c
        · exact ⟨x1, x2, x3⟩
        · obtain ⟨k1, k2, k3, _⟩ := get_bits_counters 32 nr2 i x1
          rcases hr2 : avs_reader_get_bits 32 nr2 i with ⟨v2, nr3⟩
          rw [hr2] at k1 k2 k3
          dsimp only at k1 k2 k3
          cases v2 with
          | none => exact ⟨k1, by rw [k2, x2], by rw [k3, x3]⟩
          | some value => exact ⟨k1, by rw [k2, x2], by rw [k3, x3]⟩
    apply hmid
    · split_ifs with c
      · exact ((get_ue_loop_counters _ nr1 0 g1).1)
      · exact g1
    · split_ifs with c
      · rw [(get_ue_loop_counters _ nr1 0 g1).2.1, g2]
      · exact g2
    · split_ifs with c
      · rw [(get_ue_loop_counters _ nr1 0 g1).2.2, g3]
      · exact g3

theorem get_se_counters (nr : CAVSReader) (h : nr.WF) :
    (avs_reader_get_se nr).2.WF ∧ (avs_reader_get_se nr).2.size = nr.size ∧
    (avs_reader_get_se nr).2.data = nr.data := by
  obtain ⟨g1, g2, g3⟩ := get_ue_counters nr h
  unfold avs_reader_get_se
  rcases hr : avs_reader_get_ue nr with ⟨v, nr1⟩
  rw [hr] at g1 g2 g3
  dsimp only at g1 g2 g3
  cases v with
  | none => exact ⟨g1, g2, g3⟩
  | some value =>
    dsimp only
    split_ifs <;> exact ⟨g1, g2, g3⟩

theorem init_wf (data : Ptr) (size : Nat) (hs : size * 8 < 2 ^ 32) :
    (avs_reader_init data size).WF := by
  unfold CAVSReader.WF avs_reader_init
  dsimp only
  omega

theorem reachable_wf (data : Ptr) (size : Nat) (hs : size * 8 < 2 ^ 32) (nr : CAVSReader)
    (h : Reachable data size nr) : nr.WF ∧ nr.size = size := by
  induction h with
  | init => exact ⟨init_wf data size hs, rfl⟩
  | get_bits_uint8 nr n _ _ ih =>
    obtain ⟨g1, g2, _⟩ := get_bits_counters 8 nr n ih.1
    exact ⟨g1, by rw [← ih.2]; exact g2⟩
  | get_bits_uint16 nr n _ _ ih =>
    obtain ⟨g1, g2, _⟩ := get_bits_counters 16 nr n ih.1
    exact ⟨g1, by rw [← ih.2]; exact g2⟩
  | get_bits_uint32 nr n _ _ ih =>
    obtain ⟨g1, g2, _⟩ := get_bits_counters 32 nr n ih.1
    exact ⟨g1, by rw [← ih.2]; exact g2⟩
  | skip nr n _ _ ih =>
    obtain ⟨g1, g2, _⟩ := skip_counters nr n ih.1
    exact ⟨g1, by rw [← ih.2]; exact g2⟩
  | get_ue nr _ ih =>
    obtain ⟨g1, g2, _⟩ := get_ue_counters nr ih.1
    exact ⟨g1, by rw [← ih.2]; exact g2⟩
  | get_se nr _ ih =>
    obtain ⟨g1, g2, _⟩ := get_se_counters nr ih.1
    exact ⟨g1, by rw [← ih.2]; exact g2⟩

theorem get_pos_wf (nr : CAVSReader) (h : nr.WF) :
    avs_reader_get_pos nr = 8 * nr.byte - nr.bits_in_cache := by
  obtain ⟨h1, h2, h3, h4⟩ := h
  unfold avs_reader_get_pos sub32 u32
  omega

theorem get_remaining_wf (nr : CAVSReader) (h : nr.WF) :
    avs_reader_get_remaining nr = 8 * (nr.size - nr.byte) + nr.bits_in_cache := by
  obtain ⟨h1, h2, h3, h4⟩ := h
  unfold avs_reader_get_remaining sub32 u32
  omega


/-! ## Bit reader: position claims -/

theorem get_bits_position (w : Nat) (nr : CAVSReader) (n v : Nat) (nr' : CAVSReader)
    (hwf : nr.WF) (hread : avs_reader_get_bits w nr n = (some v, nr')) :
    avs_reader_get_pos nr' = avs_reader_get_pos nr + n
      + 8 * (avs_reader_get_epb_count nr' - avs_reader_get_epb_count nr) := by
  obtain ⟨g1, _, _, g4, g5, g6⟩ := get_bits_counters w nr n hwf
  rw [hread] at g1 g4 g5 g6
  dsimp only at g1 g4 g5 g6
  have g6' := g6 (by simp)
  rw [get_pos_wf nr hwf, get_pos_wf nr' g1]
  obtain ⟨h1, h2, h3, h4⟩ := hwf
  obtain ⟨k1, k2, k3, k4⟩ := g1
  unfold avs_reader_get_epb_count
  omega

/-- C9 (refuted as stated): over the buffer `00 00 02 05` a 24 bit read
succeeds with value 5 and drops the emulation prevention byte `02`; the
position goes from 0 to 32, not to 24. -/
theorem read_bits_position_counterexample :
    (avs_reader_get_bits_uint32 (avs_reader_init (ptrOf [0x00, 0x00, 0x02, 0x05]) 4) 24).1
      = some 5 ∧
    avs_reader_get_pos (avs_reader_init (ptrOf [0x00, 0x00, 0x02, 0x05]) 4) = 0 ∧
    avs_reader_get_pos
      (avs_reader_get_bits_uint32 (avs_reader_init (ptrOf [0x00, 0x00, 0x02, 0x05]) 4) 24).2
      = 32 ∧
    avs_reader_get_pos
      (avs_reader_get_bits_uint32 (avs_reader_init (ptrOf [0x00, 0x00, 0x02, 0x05]) 4) 24).2
      ≠ avs_reader_get_pos (avs_reader_init (ptrOf [0x00, 0x00, 0x02, 0x05]) 4) + 24 := by
  decide

/-- C9 (amended): on every well-formed reader state, whenever a bit read of
`n` bits succeeds (8, 16 or 32 bit variant), `avs_reader_get_pos` after the
read equals its value before the read plus `n` plus 8 for every emulation
prevention byte dropped during the read, that is 8 times the increase of
`avs_reader_get_epb_count`. -/
theorem read_bits_position (nr : CAVSReader) (n : Nat) (hwf : nr.WF) :
    (∀ v nr', avs_reader_get_bits_uint8 nr n = (some v, nr') →
      avs_reader_get_pos nr' = avs_reader_get_pos nr + n
        + 8 * (avs_reader_get_epb_count nr' - avs_reader_get_epb_count nr)) ∧
    (∀ v nr', avs_reader_get_bits_uint16 nr n = (some v, nr') →
      avs_reader_get_pos nr' = avs_reader_get_pos nr + n
        + 8 * (avs_reader_get_epb_count nr' - avs_reader_get_epb_count nr)) ∧
    (∀ v nr', avs_reader_get_bits_uint32 nr n = (some v, nr') →
      avs_reader_get_pos nr' = avs_reader_get_pos nr + n
        + 8 * (avs_reader_get_epb_count nr' - avs_reader_get_epb_count nr)) :=
  ⟨fun v nr' h => get_bits_position 8 nr n v nr' hwf h,
   fun v nr' h => get_bits_position 16 nr n v nr' hwf h,
   fun v nr' h => get_bits_position 32 nr n v nr' hwf h⟩

/-- Witness of the amended C9: the 24 bit read over `00 00 02 05` moves the
position by 24 + 8. -/
theorem read_bits_position_witness :
    (avs_reader_init (ptrOf [0x00, 0x00, 0x02, 0x05]) 4).WF ∧
    avs_reader_get_pos
      (avs_reader_get_bits_uint32 (avs_reader_init (ptrOf [0x00, 0x00, 0x02, 0x05]) 4) 24).2
      = avs_reader_get_pos (avs_reader_init (ptrOf [0x00, 0x00, 0x02, 0x05]) 4) + 24
        + 8 * (avs_reader_get_epb_count
            (avs_reader_get_bits_uint32
              (avs_reader_init (ptrOf [0x00, 0x00, 0x02, 0x05]) 4) 24).2
          - avs_reader_get_epb_count (avs_reader_init (ptrOf [0x00, 0x00, 0x02, 0x05]) 4)) :=
  ⟨init_wf _ 4 (by norm_num),
   (read_bits_position (avs_reader_init (ptrOf [0x00, 0x00, 0x02, 0x05]) 4) 24
      (init_wf _ 4 (by norm_num))).2.2 5
        (avs_reader_get_bits_uint32 (avs_reader_init (ptrOf [0x00, 0x00, 0x02, 0x05]) 4) 24).2
        (Prod.ext (by decide) rfl)⟩

/-- C10: in every reader state reached from `avs_reader_init` by bit reads,
skips and Exp-Golomb reads, successful or failed,
`avs_reader_get_pos + avs_reader_get_remaining = 8 * size`.  The buffer has
fewer than `2 ^ 29` bytes, so that `8 * size` is a `guint` value like the two
counters. -/
theorem pos_add_remaining (data : Ptr) (size : Nat) (nr : CAVSReader) (hs : size < 2 ^ 29)
    (h : Reachable data size nr) :
    avs_reader_get_pos nr + avs_reader_get_remaining nr = 8 * size := by
  obtain ⟨hwf, hsz⟩ := reachable_wf data size (by omega) nr h
  rw [get_pos_wf nr hwf, get_remaining_wf nr hwf, hsz]
  obtain ⟨h1, h2, h3, h4⟩ := hwf
  omega

/-- Witness of C10: over `00 00 02` a 16 bit read succeeds and the following
8 bit read fails after dropping the trailing `02`; the state it leaves has
position 24 and nothing remaining. -/
theorem pos_add_remaining_witness :
    (3 < 2 ^ 29 ∧
      Reachable (ptrOf [0x00, 0x00, 0x02]) 3
        (avs_reader_get_bits_uint8
          (avs_reader_get_bits_uint16 (avs_reader_init (ptrOf [0x00, 0x00, 0x02]) 3) 16).2 8).2) ∧
    (avs_reader_get_bits_uint8
        (avs_reader_get_bits_uint16 (avs_reader_init (ptrOf [0x00, 0x00, 0x02]) 3) 16).2 8).1
      = none ∧
    avs_reader_get_pos
        (avs_reader_get_bits_uint8
          (avs_reader_get_bits_uint16 (avs_reader_init (ptrOf [0x00, 0x00, 0x02]) 3) 16).2 8).2
      + avs_reader_get_remaining
        (avs_reader_get_bits_uint8
          (avs_reader_get_bits_uint16 (avs_reader_init (ptrOf [0x00, 0x00, 0x02]) 3) 16).2 8).2
      = 8 * 3 :=
  have hr : Reachable (ptrOf [0x00, 0x00, 0x02]) 3
      (avs_reader_get_bits_uint8
        (avs_reader_get_bits_uint16 (avs_reader_init (ptrOf [0x00, 0x00, 0x02]) 3) 16).2 8).2 :=
    Reachable.get_bits_uint8 _ 8
      (Reachable.get_bits_uint16 _ 16 Reachable.init (by norm_num)) (by norm_num)
  ⟨⟨by norm_num, hr⟩, by decide, pos_add_remaining _ 3 _ (by norm_num) hr⟩

/-! ## Arithmetic of the bit window -/

theorem mul_add_mod_mul (x m M b : Nat) (hb : b < M) :
    (x * M + b) % (m * M) = (x % m) * M + b := by
  rcases Nat.eq_zero_or_pos m with hm | hm
  · subst hm; simp
  have hlt : x % m < m := Nat.mod_lt _ hm
  have hx : x * M + b = ((x % m) * M + b) + (m * M) * (x / m) := by
    have := Nat.div_add_mod x m
    calc x * M + b = (m * (x / m) + x % m) * M + b := by rw [this]
      _ = _ := by ring
  rw [hx, Nat.add_mul_mod_self_left]
  apply Nat.mod_eq_of_lt
  calc x % m * M + b < x % m * M + M := by omega
    _ = (x % m + 1) * M := by ring
    _ ≤ m * M := Nat.mul_le_mul_right _ hlt

theorem mul_add_div_mul (x m M b : Nat) (hb : b < M) :
    (x * M + b) / (m * M) = x / m := by
  have hM : 0 < M := by omega
  rw [Nat.mul_comm m M, ← Nat.div_div_eq_div_mul]
  congr 1
  rw [Nat.mul_comm x M, Nat.mul_add_div hM, Nat.div_eq_of_lt hb, Nat.add_zero]

theorem add_mod_pow_of_le (a b n N : Nat) (h : n ≤ N) :
    (a + b % 2 ^ N) % 2 ^ n = (a + b) % 2 ^ n := by
  have hd : 2 ^ n ∣ 2 ^ N := Nat.pow_dvd_pow 2 h
  rw [Nat.add_mod, Nat.mod_mod_of_dvd _ hd, ← Nat.add_mod]

theorem shl8_or (c f : Nat) (hf : f < 256) :
    (c <<< 8 % 2 ^ 64) ||| f = c * 256 % 2 ^ 64 + f := by
  rw [Nat.shiftLeft_eq]
  have h1 : c * 2 ^ 8 % 2 ^ 64 = 2 ^ 8 * (c % 2 ^ 56) := by
    rw [show (2:Nat) ^ 64 = 2 ^ 8 * 2 ^ 56 by norm_num, Nat.mul_comm c, Nat.mul_mod_mul_left]
  rw [show c * 256 = c * 2 ^ 8 by norm_num, h1]
  exact (Nat.mul_add_lt_is_or (by norm_num; exact hf) _).symm

theorem push_window (c f b bits : Nat) (hf : f < 256) (hb : b < 256) (hbits : bits ≤ 64) :
    ((c <<< 8 % 2 ^ 64 ||| f) * 256 + b) % 2 ^ (bits + 8)
      = ((c * 256 + f) % 2 ^ bits) * 256 + b := by
  rw [shl8_or c f hf, Nat.pow_add, show (2:Nat) ^ 8 = 256 by norm_num,
    mul_add_mod_mul _ _ _ _ hb]
  congr 2
  rw [Nat.add_comm (c * 256 % 2 ^ 64), add_mod_pow_of_le _ _ _ _ hbits, Nat.add_comm]

theorem push_low (c f : Nat) (hf : f < 256) : (c <<< 8 % 2 ^ 64 ||| f) % 256 = f := by
  rw [shl8_or c f hf]
  omega

theorem extract_value (w c f bits n : Nat) (hf : f < 256) (hn : n ≤ bits) (hs : bits - n ≤ 7)
    (hw8 : 8 ≤ w) (hnw : n ≤ w) (hw : w ≤ 64) :
    (if n < w then
        ((f >>> (bits - n) % 2 ^ w ||| c <<< (8 - (bits - n)) % 2 ^ 64) % 2 ^ w)
          &&& ((1 <<< n) - 1)
      else (f >>> (bits - n) % 2 ^ w ||| c <<< (8 - (bits - n)) % 2 ^ 64) % 2 ^ w)
      = (c * 256 + f) % 2 ^ bits / 2 ^ (bits - n) := by
  obtain ⟨s, hsdef⟩ : ∃ s, s = bits - n := ⟨_, rfl⟩
  obtain ⟨k, hkdef⟩ : ∃ k, k = 8 - s := ⟨_, rfl⟩
  rw [← hsdef] at hs ⊢
  rw [← hkdef]
  have hks : k + s = 8 := by omega
  have h256 : (256 : Nat) = 2 ^ k * 2 ^ s := by rw [← Nat.pow_add, hks]
  have hfs : f / 2 ^ s < 2 ^ k := by
    apply Nat.div_lt_of_lt_mul
    rw [Nat.mul_comm, ← h256]; exact hf
  have hk64 : (2 : Nat) ^ 64 = 2 ^ k * 2 ^ (64 - k) := by
    rw [← Nat.pow_add]; congr 1; omega
  have hA : c <<< k % 2 ^ 64 = 2 ^ k * (c % 2 ^ (64 - k)) := by
    rw [Nat.shiftLeft_eq, hk64, Nat.mul_comm c, Nat.mul_mod_mul_left]
  have hfw : f / 2 ^ s % 2 ^ w = f / 2 ^ s := by
    apply Nat.mod_eq_of_lt
    calc f / 2 ^ s < 2 ^ k := hfs
      _ ≤ 2 ^ w := Nat.pow_le_pow_right (by norm_num) (by omega)
  have hor : (f >>> s % 2 ^ w ||| c <<< k % 2 ^ 64) = c * 2 ^ k % 2 ^ 64 + f / 2 ^ s := by
    rw [Nat.shiftRight_eq_div_pow, hfw, Nat.lor_comm, hA, ← Nat.mul_add_lt_is_or hfs, ← hA,
      Nat.shiftLeft_eq]
  have hval : (f >>> s % 2 ^ w ||| c <<< k % 2 ^ 64) % 2 ^ w % 2 ^ n
      = (c * 256 + f) % 2 ^ bits / 2 ^ s := by
    rw [hor, Nat.mod_mod_of_dvd _ (Nat.pow_dvd_pow 2 hnw), Nat.add_comm,
      add_mod_pow_of_le _ _ _ _ (by omega : n ≤ 64)]
    have hb : (2 : Nat) ^ bits = 2 ^ s * 2 ^ n := by
      rw [← Nat.pow_add]; congr 1; omega
    rw [hb, Nat.mod_mul_right_div_self]
    congr 1
    rw [h256, ← Nat.mul_assoc, Nat.mul_comm (c * 2 ^ k) (2 ^ s),
      Nat.mul_add_div (Nat.two_pow_pos s), Nat.add_comm]
  split_ifs with c1
  · rw [show (1 : Nat) <<< n = 2 ^ n by rw [Nat.shiftLeft_eq, Nat.one_mul],
      Nat.and_pow_two_sub_one_eq_mod]
    exact hval
  · have : n = w := by omega
    subst this
    rw [← hval, Nat.mod_mod]

/-! ## Bit reader: the logical stream -/

theorem bufferBytes_succ (data : Ptr) (lo n : Nat) :
    bufferBytes data lo (n + 1) = data lo :: bufferBytes data (lo + 1) n := by
  simp [bufferBytes, List.range'_succ]

theorem bufferBytes_length (data : Ptr) (lo n : Nat) : (bufferBytes data lo n).length = n := by
  simp [bufferBytes]

theorem unescape_cons_plain (p2 p1 : Nat) (b : Byte) (rest : List Byte)
    (h : ¬ (b.val = 0x02 ∧ p1 = 0x00 ∧ p2 = 0x00)) :
    unescape p2 p1 (b :: rest) = b :: unescape p1 b.val rest := by
  cases rest with
  | nil => simp only [unescape, if_neg h]
  | cons c rest => simp only [unescape, if_neg h]

theorem unescape_cons_epb (p2 p1 : Nat) (b c : Byte) (rest : List Byte)
    (h : b.val = 0x02 ∧ p1 = 0x00 ∧ p2 = 0x00) :
    unescape p2 p1 (b :: c :: rest) = c :: unescape p1 c.val rest := by
  simp only [unescape, if_pos h]

theorem unescape_single_epb (p2 p1 : Nat) (b : Byte)
    (h : b.val = 0x02 ∧ p1 = 0x00 ∧ p2 = 0x00) : unescape p2 p1 [b] = [] := by
  simp only [unescape, if_pos h]

theorem unescape_length_le (n : Nat) : ∀ (l : List Byte) (p2 p1 : Nat), l.length ≤ n →
    (unescape p2 p1 l).length ≤ l.length := by
  induction n with
  | zero =>
    intro l p2 p1 h
    have : l = [] := List.length_eq_zero.mp (by omega)
    subst this
    simp [unescape]
  | succ n ih =>
    intro l p2 p1 h
    cases l with
    | nil => simp [unescape]
    | cons b rest =>
      by_cases c : b.val = 0x02 ∧ p1 = 0x00 ∧ p2 = 0x00
      · cases rest with
        | nil => rw [unescape_single_epb p2 p1 b c]; simp
        | cons d rest =>
          rw [unescape_cons_epb p2 p1 b d rest c]
          have := ih rest p1 d.val (by simp at h; omega)
          simp only [List.length_cons]
          omega
      · rw [unescape_cons_plain p2 p1 b rest c]
        have := ih rest p1 b.val (by simp at h; omega)
        simp only [List.length_cons]
        omega

theorem beValue_lt (l : List Byte) : beValue l < 2 ^ (8 * l.length) := by
  induction l with
  | nil => simp [beValue]
  | cons b rest ih =>
    have hb := b.isLt
    simp only [beValue, List.length_cons]
    have hp : (2 : Nat) ^ (8 * (rest.length + 1)) = 256 * 2 ^ (8 * rest.length) := by
      rw [Nat.mul_add, Nat.pow_add]; norm_num; ring
    rw [hp]
    calc b.val * 2 ^ (8 * rest.length) + beValue rest
        < b.val * 2 ^ (8 * rest.length) + 2 ^ (8 * rest.length) := by omega
      _ = (b.val + 1) * 2 ^ (8 * rest.length) := by ring
      _ ≤ 256 * 2 ^ (8 * rest.length) := Nat.mul_le_mul_right _ (by omega)

theorem pending_length_le (nr : CAVSReader) : nr.pending.length ≤ nr.size - nr.byte := by
  have := unescape_length_le _ nr.unread (nr.cache % 256) nr.first_byte (le_refl _)
  unfold CAVSReader.pending
  unfold CAVSReader.unread at this ⊢
  rw [bufferBytes_length] at this
  exact this

theorem unread_cons (nr : CAVSReader) (hb : nr.byte < nr.size) :
    nr.unread = nr.data nr.byte :: bufferBytes nr.data (nr.byte + 1) (nr.size - (nr.byte + 1)) := by
  unfold CAVSReader.unread
  have : nr.size - nr.byte = (nr.size - (nr.byte + 1)) + 1 := by omega
  rw [this, bufferBytes_succ]

theorem and_ff (c : Nat) : c &&& 0xff = c % 256 := by
  have := Nat.and_pow_two_sub_one_eq_mod c 8
  simpa using this

theorem pending_pushByte (nr : CAVSReader) (h : nr.WF) (hb : nr.byte < nr.size)
    (hf : nr.first_byte < 256) :
    nr.pushByte.pending = unescape nr.first_byte (nr.data nr.byte).val
      (bufferBytes nr.data (nr.byte + 1) (nr.size - (nr.byte + 1))) := by
  obtain ⟨h1, h2, h3, h4⟩ := h
  have e1 : u32 (nr.byte + 1) = nr.byte + 1 := by unfold u32; omega
  unfold CAVSReader.pending CAVSReader.unread CAVSReader.pushByte
  simp only [e1, u64, push_low nr.cache nr.first_byte hf]

theorem window_pushByte (nr : CAVSReader) (h : nr.WF) (_hb : nr.byte < nr.size)
    (hf : nr.first_byte < 256) (hbits : nr.bits_in_cache ≤ 64) :
    nr.pushByte.window = nr.window * 256 + (nr.data nr.byte).val := by
  obtain ⟨h1, h2, h3, h4⟩ := h
  have e2 : u32 (nr.bits_in_cache + 8) = nr.bits_in_cache + 8 := by unfold u32; omega
  unfold CAVSReader.window CAVSReader.pushByte
  simp only [e2, u64]
  exact push_window nr.cache nr.first_byte _ _ hf (nr.data nr.byte).isLt hbits

/-- Caching one logical byte leaves the deliverable bit stream unchanged. -/
theorem stream_pushByte (nr m : CAVSReader) (hm : m.WF) (hb : m.byte < m.size)
    (hf : m.first_byte < 256) (hbits : m.bits_in_cache ≤ 64)
    (hw : m.window = nr.window) (hbc : m.bits_in_cache = nr.bits_in_cache)
    (hp : nr.pending = m.data m.byte :: m.pushByte.pending) :
    m.pushByte.streamLen = nr.streamLen ∧ m.pushByte.streamVal = nr.streamVal := by
  obtain ⟨_, _, _, _, p5, _⟩ := wf_pushByte m hm hb
  have hwin := window_pushByte m hm hb hf hbits
  unfold CAVSReader.streamLen CAVSReader.streamVal
  rw [hp, p5, hwin, hw, hbc]
  simp only [List.length_cons, beValue]
  constructor
  · omega
  · have hp : (2 : Nat) ^ (8 * (m.pushByte.pending.length + 1))
        = 256 * 2 ^ (8 * m.pushByte.pending.length) := by
      rw [Nat.mul_add, Nat.pow_add]; norm_num; ring
    rw [hp]
    ring

/-- The refill loop on a reader that can still deliver `n` bits: it returns
TRUE with at least `n` and at most `n + 7` bits cached, and the deliverable
bit stream is the same before and after. -/
theorem read_loop_stream (left : Nat) : ∀ (nr : CAVSReader) (n : Nat),
    nr.size - nr.byte ≤ left → nr.WF → nr.first_byte < 256 → nr.bits_in_cache ≤ n + 7 →
    n ≤ 64 → n ≤ nr.streamLen →
    (avs_reader_read_loop left nr n).1 = true ∧
    (avs_reader_read_loop left nr n).2.first_byte < 256 ∧
    (avs_reader_read_loop left nr n).2.bits_in_cache ≤ n + 7 ∧
    (avs_reader_read_loop left nr n).2.streamLen = nr.streamLen ∧
    (avs_reader_read_loop left nr n).2.streamVal = nr.streamVal := by
  induction left with
  | zero =>
    intro nr n hl hwf hf hb hn hlen
    have hpl := pending_length_le nr
    have : nr.pending.length = 0 := by omega
    unfold CAVSReader.streamLen at hlen
    rw [read_loop_zero, if_neg (by omega)]
    exact ⟨rfl, hf, hb, rfl, rfl⟩
  | succ left ih =>
    intro nr n hl hwf hf hb hn hlen
    rw [read_loop_succ]
    by_cases c1 : nr.bits_in_cache < n
    · rw [if_pos c1]
      have hpl := pending_length_le nr
      have hlen' := hlen
      unfold CAVSReader.streamLen at hlen'
      have hbs : nr.byte < nr.size := by omega
      rw [if_neg (by omega)]
      have hun := unread_cons nr hbs
      by_cases c3 : (nr.data nr.byte).val = 0x02 ∧ nr.first_byte = 0x00 ∧ nr.cache &&& 0xff = 0
      · rw [if_pos c3]
        have c3' : (nr.data nr.byte).val = 0x02 ∧ nr.first_byte = 0x00 ∧ nr.cache % 256 = 0x00 := by
          rw [← and_ff]; exact c3
        obtain ⟨d1, d2, d3, d4, d5, d6, d7, d8⟩ := wf_dropEpb nr hwf hbs
        have hbs2 : nr.byte + 1 < nr.size := by
          by_contra hc
          have hsz : nr.size - (nr.byte + 1) = 0 := by omega
          have hpe : nr.pending = [] := by
            unfold CAVSReader.pending
            rw [hun, hsz]
            exact unescape_single_epb _ _ _ c3'
          rw [hpe] at hlen'
          simp at hlen'
          omega
        rw [if_neg (by rw [d3]; omega)]
        have hsz : nr.size - (nr.byte + 1) = (nr.size - (nr.byte + 2)) + 1 := by omega
        have hpend : nr.pending = nr.dropEpb.data nr.dropEpb.byte :: nr.dropEpb.pushByte.pending := by
          rw [pending_pushByte nr.dropEpb d8 (by rw [d3, d1]; exact hbs2) (by rw [d6]; exact hf)]
          unfold CAVSReader.pending
          rw [hun, hsz, bufferBytes_succ, unescape_cons_epb _ _ _ _ _ c3', d1, d2, d3, d6]
        have hwin : nr.dropEpb.window = nr.window := by
          unfold CAVSReader.window; rw [d5, d6, d7]
        obtain ⟨s1, s2⟩ := stream_pushByte nr nr.dropEpb d8 (by rw [d3, d1]; exact hbs2)
          (by rw [d6]; exact hf) (by rw [d5]; omega) hwin d5 hpend
        obtain ⟨p1, p2, p3, p4, p5, p6⟩ := wf_pushByte nr.dropEpb d8 (by rw [d3, d1]; exact hbs2)
        obtain ⟨i1, i2, i3, i4, i5⟩ := ih nr.dropEpb.pushByte n (by rw [p1, p3, d1, d3]; omega) p6
          (by unfold CAVSReader.pushByte; exact (nr.dropEpb.data nr.dropEpb.byte).isLt)
          (by rw [p5, d5]; omega) hn (by rw [s1]; exact hlen)
        exact ⟨i1, i2, i3, by rw [i4, s1], by rw [i5, s2]⟩
      · rw [if_neg c3]
        have c3' : ¬ ((nr.data nr.byte).val = 0x02 ∧ nr.first_byte = 0x00 ∧ nr.cache % 256 = 0x00) := by
          rw [← and_ff]; exact c3
        have hpend : nr.pending = nr.data nr.byte :: nr.pushByte.pending := by
          rw [pending_pushByte nr hwf hbs hf]
          unfold CAVSReader.pending
          rw [hun, unescape_cons_plain _ _ _ _ c3']
        obtain ⟨s1, s2⟩ := stream_pushByte nr nr hwf hbs hf (by omega) rfl rfl hpend
        obtain ⟨p1, p2, p3, p4, p5, p6⟩ := wf_pushByte nr hwf hbs
        obtain ⟨i1, i2, i3, i4, i5⟩ := ih nr.pushByte n (by rw [p1, p3]; omega) p6
          (by unfold CAVSReader.pushByte; exact (nr.data nr.byte).isLt)
          (by rw [p5]; omega) hn (by rw [s1]; exact hlen)
        exact ⟨i1, i2, i3, by rw [i4, s1], by rw [i5, s2]⟩
    · rw [if_neg c1]
      exact ⟨rfl, hf, hb, rfl, rfl⟩

/-- Handing out the top `n` of the cached bits: the value is the top `n` bits
of the deliverable stream and the rest of the stream stays. -/
theorem take_bits_stream (nr : CAVSReader) (n : Nat) (hn : n ≤ nr.bits_in_cache) :
    nr.window / 2 ^ (nr.bits_in_cache - n) = nr.streamVal / 2 ^ (nr.streamLen - n) ∧
    ({ nr with bits_in_cache := nr.bits_in_cache - n } : CAVSReader).streamLen
      = nr.streamLen - n ∧
    ({ nr with bits_in_cache := nr.bits_in_cache - n } : CAVSReader).streamVal
      = nr.streamVal % 2 ^ (nr.streamLen - n) := by
  have hB := beValue_lt nr.pending
  have hp : ({ nr with bits_in_cache := nr.bits_in_cache - n } : CAVSReader).pending
      = nr.pending := rfl
  have hlen : nr.streamLen - n = (nr.bits_in_cache - n) + 8 * nr.pending.length := by
    unfold CAVSReader.streamLen; omega
  have hpow : (2 : Nat) ^ (nr.streamLen - n)
      = 2 ^ (nr.bits_in_cache - n) * 2 ^ (8 * nr.pending.length) := by
    rw [hlen, Nat.pow_add]
  have hwin : ({ nr with bits_in_cache := nr.bits_in_cache - n } : CAVSReader).window
      = nr.window % 2 ^ (nr.bits_in_cache - n) := by
    unfold CAVSReader.window
    dsimp only
    rw [Nat.mod_mod_of_dvd _ (Nat.pow_dvd_pow 2 (Nat.sub_le _ _))]
  refine ⟨?_, ?_, ?_⟩
  · unfold CAVSReader.streamVal
    rw [hpow, mul_add_div_mul _ _ _ _ hB]
  · unfold CAVSReader.streamLen
    rw [hp]
    dsimp only
    omega
  · unfold CAVSReader.streamVal
    rw [hp, hwin, hpow, mul_add_mod_mul _ _ _ _ hB]

/-- A bit read of `n ≤ w` bits on a reader with at most seven cached bits
that can still deliver `n` bits: it succeeds with the top `n` bits of the
deliverable stream and leaves the rest of it. -/
theorem get_bits_stream (w : Nat) (nr : CAVSReader) (n : Nat) (hw8 : 8 ≤ w) (hw : w ≤ 64)
    (hwf : nr.WF) (hf : nr.first_byte < 256) (hb : nr.bits_in_cache ≤ 7) (hn : n ≤ w)
    (hlen : n ≤ nr.streamLen) :
    (avs_reader_get_bits w nr n).1 = some (nr.streamVal / 2 ^ (nr.streamLen - n)) ∧
    (avs_reader_get_bits w nr n).2.WF ∧
    (avs_reader_get_bits w nr n).2.first_byte < 256 ∧
    (avs_reader_get_bits w nr n).2.bits_in_cache ≤ 7 ∧
    (avs_reader_get_bits w nr n).2.streamLen = nr.streamLen - n ∧
    (avs_reader_get_bits w nr n).2.streamVal = nr.streamVal % 2 ^ (nr.streamLen - n) := by
  have hpl := pending_length_le nr
  have hlen' := hlen
  unfold CAVSReader.streamLen at hlen'
  have hchk : ¬ (u32 (u32 (nr.byte * 8) + sub32 n nr.bits_in_cache) > u32 (nr.size * 8)) := by
    obtain ⟨h1, h2, h3, h4⟩ := hwf
    unfold u32 sub32
    omega
  obtain ⟨l1, l2, l3, l4, l5⟩ :=
    read_loop_stream (nr.size - nr.byte) nr n (le_refl _) hwf hf (by omega) (by omega) hlen
  obtain ⟨c1, _, _, _, _, _, _, c8⟩ := read_loop_counters (nr.size - nr.byte) nr n hwf
  unfold avs_reader_get_bits avs_reader_read
  rw [if_neg hchk]
  rcases hL : avs_reader_read_loop (nr.size - nr.byte) nr n with ⟨ok, nr1⟩
  rw [hL] at l1 l2 l3 l4 l5 c1 c8
  dsimp only at l1 l2 l3 l4 l5 c1 c8
  subst l1
  have hn1 : n ≤ nr1.bits_in_cache := c8 rfl
  have hs : sub32 nr1.bits_in_cache n = nr1.bits_in_cache - n := by unfold sub32; omega
  have hk : sub32 8 (nr1.bits_in_cache - n) = 8 - (nr1.bits_in_cache - n) := by
    unfold sub32; omega
  obtain ⟨t1, t2, t3⟩ := take_bits_stream nr1 n hn1
  have hval := extract_value w nr1.cache nr1.first_byte nr1.bits_in_cache n l2 hn1 (by omega)
    hw8 hn hw
  dsimp only
  rw [hs, hk]
  have hshr : shr_byte nr1.first_byte (nr1.bits_in_cache - n)
      = nr1.first_byte >>> (nr1.bits_in_cache - n) := by
    unfold shr_byte; rw [if_pos (by omega)]
  have hshl : shl_u64 nr1.cache (8 - (nr1.bits_in_cache - n))
      = nr1.cache <<< (8 - (nr1.bits_in_cache - n)) % 2 ^ 64 := by
    unfold shl_u64 u64; rw [if_pos (by omega)]
  rw [hshr, hshl, hval]
  refine ⟨?_, ?_, l2, by omega, ?_, ?_⟩
  · have : nr1.window = (nr1.cache * 256 + nr1.first_byte) % 2 ^ nr1.bits_in_cache := rfl
    rw [← this, t1, l4, l5]
  · obtain ⟨w1, w2, w3, w4⟩ := c1
    exact ⟨w1, w2, by dsimp only; omega, w4⟩
  · rw [t2, l4]
  · rw [t3, l4, l5]

theorem bitField_of_stream (L : List Byte) (a n S T : Nat) (han : a + n ≤ 8 * L.length)
    (hS : S = beValue L % 2 ^ (8 * L.length - a)) (hT : T = 8 * L.length - a) :
    S / 2 ^ (T - n) = bitField L a n ∧
    S % 2 ^ (T - n) = beValue L % 2 ^ (8 * L.length - (a + n)) ∧
    T - n = 8 * L.length - (a + n) := by
  have hT' : T - n = 8 * L.length - (a + n) := by omega
  have hpow : (2 : Nat) ^ (8 * L.length - a) = 2 ^ (8 * L.length - (a + n)) * 2 ^ n := by
    rw [← Nat.pow_add]; congr 1; omega
  refine ⟨?_, ?_, hT'⟩
  · rw [hS, hT', hpow, Nat.mod_mul_right_div_self]
    rfl
  · rw [hS, hT']
    exact Nat.mod_mod_of_dvd _ (Nat.pow_dvd_pow 2 (by omega))

/-- Sequential reads from a reader whose deliverable stream is the part of the
byte list `L` from bit `a` on return the fields of `L` laid out from `a`. -/
theorem read_bits_seq_stream (L : List Byte) (widths : List Nat) :
    ∀ (nr : CAVSReader) (a : Nat), nr.WF → nr.first_byte < 256 → nr.bits_in_cache ≤ 7 →
    nr.streamVal = beValue L % 2 ^ (8 * L.length - a) → nr.streamLen = 8 * L.length - a →
    (∀ n ∈ widths, n ≤ 32) → a + widths.sum ≤ 8 * L.length →
    read_bits_seq nr widths = some (bitFields L a widths) := by
  induction widths with
  | nil => intro nr a _ _ _ _ _ _ _; rfl
  | cons n widths ih =>
    intro nr a hwf hf hb hS hT hw hsum
    have hn : n ≤ 32 := hw n (List.mem_cons_self _ _)
    simp only [List.sum_cons] at hsum
    obtain ⟨g1, g2, g3, g4, g5, g6⟩ :=
      get_bits_stream 32 nr n (by norm_num) (by norm_num) hwf hf hb hn (by omega)
    obtain ⟨b1, b2, b3⟩ := bitField_of_stream L a n nr.streamVal nr.streamLen (by omega) hS hT
    unfold read_bits_seq avs_reader_get_bits_uint32
    rcases hr : avs_reader_get_bits 32 nr n with ⟨v, nr'⟩
    rw [hr] at g1 g2 g3 g4 g5 g6
    dsimp only at g1 g2 g3 g4 g5 g6
    subst g1
    dsimp only
    rw [ih nr' (a + n) g2 g3 g4 (by rw [g6, b2]) (by rw [g5, b3])
      (fun m hm => hw m (List.mem_cons_of_mem _ hm)) (by omega)]
    dsimp only [bitFields]
    rw [b1]

theorem init_pending (data : Ptr) (size : Nat) :
    (avs_reader_init data size).pending = logicalBytes data size := by
  unfold CAVSReader.pending CAVSReader.unread logicalBytes
  have h1 : (avs_reader_init data size).cache % 256 = 0xff := by
    show (0xff : Nat) % 256 = 0xff
    norm_num
  have h2 : (avs_reader_init data size).first_byte = 0xff := rfl
  have h3 : (avs_reader_init data size).byte = 0 := rfl
  have h4 : (avs_reader_init data size).size = size := rfl
  have h5 : (avs_reader_init data size).data = data := rfl
  rw [h1, h2, h3, h4, h5, Nat.sub_zero]

theorem init_window (data : Ptr) (size : Nat) : (avs_reader_init data size).window = 0 := by
  unfold CAVSReader.window
  have h3 : (avs_reader_init data size).bits_in_cache = 0 := rfl
  rw [h3, Nat.pow_zero, Nat.mod_one]

theorem init_stream (data : Ptr) (size : Nat) :
    (avs_reader_init data size).streamVal = beValue (logicalBytes data size) ∧
    (avs_reader_init data size).streamLen = 8 * (logicalBytes data size).length := by
  unfold CAVSReader.streamVal CAVSReader.streamLen
  rw [init_pending, init_window]
  have h3 : (avs_reader_init data size).bits_in_cache = 0 := rfl
  rw [h3]
  exact ⟨by rw [Nat.zero_mul, Nat.zero_add], by rw [Nat.zero_add]⟩

/-! ## Bit reader: reconstruction of the logical stream -/

/-- C8: sequential bit reads reconstruct the logical bit stream.  For a reader
initialised over the buffer `data[0 .. size)`, with `L` the buffer without its
emulation prevention bytes, and for widths `n_1 .. n_k`, each between 1 and 32
and of sum at most `8 * |L|`, every 32-bit-variant read succeeds and the
`j`-th one returns the unsigned big-endian integer formed by the bits
`[n_1 + .. + n_(j-1), n_1 + .. + n_j)` of `L`. -/
theorem read_bits_reconstruct (data : Ptr) (size : Nat) (widths : List Nat)
    (hsize : size < 2 ^ 29) (hw : ∀ n ∈ widths, 1 ≤ n ∧ n ≤ 32)
    (hsum : widths.sum ≤ 8 * (logicalBytes data size).length) :
    read_bits_seq (avs_reader_init data size) widths
      = some (bitFields (logicalBytes data size) 0 widths) := by
  obtain ⟨s1, s2⟩ := init_stream data size
  have hlt := beValue_lt (logicalBytes data size)
  apply read_bits_seq_stream (logicalBytes data size) widths (avs_reader_init data size) 0
    (init_wf data size (by omega))
  · show (0xff : Nat) < 256
    norm_num
  · show (0 : Nat) ≤ 7
    norm_num
  · rw [s1, Nat.sub_zero, Nat.mod_eq_of_lt hlt]
  · rw [s2, Nat.sub_zero]
  · exact fun n hn => (hw n hn).2
  · omega

/-- Witness of C8: reads of 3, 32 and 5 bits over `12 00 00 02 78 9a`, whose
logical content is `12 00 00 78 9a`. -/
theorem read_bits_reconstruct_witness :
    (6 < 2 ^ 29 ∧ (∀ n ∈ [3, 32, 5], 1 ≤ n ∧ n ≤ 32) ∧
      [3, 32, 5].sum ≤ 8 * (logicalBytes (ptrOf [0x12, 0x00, 0x00, 0x02, 0x78, 0x9a]) 6).length) ∧
    read_bits_seq (avs_reader_init (ptrOf [0x12, 0x00, 0x00, 0x02, 0x78, 0x9a]) 6) [3, 32, 5]
      = some (bitFields (logicalBytes (ptrOf [0x12, 0x00, 0x00, 0x02, 0x78, 0x9a]) 6) 0
          [3, 32, 5]) :=
  ⟨⟨by norm_num, by decide, by decide⟩,
   read_bits_reconstruct (ptrOf [0x12, 0x00, 0x00, 0x02, 0x78, 0x9a]) 6 [3, 32, 5]
     (by norm_num) (by decide) (by decide)⟩

/-! ## Bit reader: failed reads -/

/-- Once the size check of `avs_reader_read` has passed, the refill loop can
only fail after dropping an emulation prevention byte. -/
theorem read_loop_fail_epb (left : Nat) : ∀ (nr : CAVSReader) (n : Nat), nr.WF →
    nr.size - nr.byte ≤ left → n ≤ nr.bits_in_cache + 8 * (nr.size - nr.byte) →
    (avs_reader_read_loop left nr n).1 = true ∨
      nr.n_epb < (avs_reader_read_loop left nr n).2.n_epb := by
  induction left with
  | zero =>
    intro nr n _ hl hn
    rw [read_loop_zero, if_neg (by omega)]
    exact Or.inl rfl
  | succ left ih =>
    intro nr n h hl hn
    rw [read_loop_succ]
    split_ifs with c1 c2 c3 c4
    · omega
    · obtain ⟨_, _, _, d4, _⟩ := wf_dropEpb nr h (by omega)
      right
      show nr.n_epb < nr.dropEpb.n_epb
      omega
    · obtain ⟨d1, _, d3, d4, d5, _, _, d8⟩ := wf_dropEpb nr h (by omega)
      obtain ⟨p1, _, p3, p4, p5, p6⟩ := wf_pushByte nr.dropEpb d8 (by omega)
      obtain ⟨_, _, _, _, i5, _⟩ := read_loop_counters left nr.dropEpb.pushByte n p6
      right
      omega
    · obtain ⟨p1, _, p3, p4, p5, p6⟩ := wf_pushByte nr h (by omega)
      rcases ih nr.pushByte n p6 (by rw [p1, p3]; omega) (by rw [p1, p3, p5]; omega) with h1 | h1
      · exact Or.inl h1
      · right; omega
    · exact Or.inl rfl

theorem read_check_iff (nr : CAVSReader) (n : Nat) (h : nr.WF) (hn : 8 * nr.size + n < 2 ^ 32) :
    u32 (u32 (nr.byte * 8) + sub32 n nr.bits_in_cache) > u32 (nr.size * 8) ↔
      avs_reader_get_remaining nr < n := by
  rw [get_remaining_wf nr h]
  obtain ⟨h1, h2, h3, h4⟩ := h
  unfold u32 sub32
  omega

/-- A failing `avs_reader_read` that dropped no emulation prevention byte
left the reader as it was; it fails at once when fewer than `n` source bits
remain. -/
theorem read_fail_unchanged (nr : CAVSReader) (n : Nat) (h : nr.WF)
    (hn : 8 * nr.size + n < 2 ^ 32) :
    (avs_reader_get_remaining nr < n → avs_reader_read nr n = (false, nr)) ∧
    ((avs_reader_read nr n).1 = false →
      (avs_reader_read nr n).2.n_epb = nr.n_epb → (avs_reader_read nr n).2 = nr) := by
  have hchk := read_check_iff nr n h hn
  unfold avs_reader_read
  by_cases c : u32 (u32 (nr.byte * 8) + sub32 n nr.bits_in_cache) > u32 (nr.size * 8)
  · rw [if_pos c]
    exact ⟨fun _ => rfl, fun _ _ => rfl⟩
  · rw [if_neg c]
    have hrem : ¬ avs_reader_get_remaining nr < n := fun hh => c (hchk.2 hh)
    refine ⟨fun hh => absurd hh hrem, fun hf he => ?_⟩
    rw [get_remaining_wf nr h] at hrem
    rcases read_loop_fail_epb (nr.size - nr.byte) nr n h (le_refl _) (by omega) with h1 | h1
    · rw [h1] at hf; simp at hf
    · omega

theorem get_bits_fail_unchanged (w : Nat) (nr : CAVSReader) (n : Nat) (h : nr.WF)
    (hn : 8 * nr.size + n < 2 ^ 32) :
    (avs_reader_get_remaining nr < n → avs_reader_get_bits w nr n = (none, nr)) ∧
    ((avs_reader_get_bits w nr n).1 = none →
      avs_reader_get_epb_count (avs_reader_get_bits w nr n).2 = avs_reader_get_epb_count nr →
      (avs_reader_get_bits w nr n).2 = nr) := by
  obtain ⟨r1, r2⟩ := read_fail_unchanged nr n h hn
  unfold avs_reader_get_bits avs_reader_get_epb_count
  rcases hr : avs_reader_read nr n with ⟨ok, nr'⟩
  rw [hr] at r1 r2
  cases ok with
  | false =>
    dsimp only at r2 ⊢
    refine ⟨fun hh => ?_, fun _ he => r2 rfl he⟩
    have := r1 hh
    simp only [Prod.mk.injEq, true_and] at this
    rw [this]
  | true =>
    dsimp only
    refine ⟨fun hh => ?_, fun hh _ => ?_⟩
    · have := r1 hh
      simp at this
    · simp at hh

/-- A failing bit read keeps what it has consumed: the emulation prevention
bytes it dropped stay dropped, each one moving `avs_reader_get_pos` forward by
8 and lowering `avs_reader_get_remaining` by 8; the bytes it cached move
neither.  Every source byte the call went past was either cached or dropped
and counted: eight times the bytes passed is the rise of `bits_in_cache` plus
eight times the rise of the escape byte count. -/
theorem get_bits_fail_advance (w : Nat) (nr : CAVSReader) (n : Nat) (h : nr.WF)
    (hf : (avs_reader_get_bits w nr n).1 = none) :
    avs_reader_get_epb_count nr ≤ avs_reader_get_epb_count (avs_reader_get_bits w nr n).2 ∧
    avs_reader_get_pos (avs_reader_get_bits w nr n).2
      = avs_reader_get_pos nr
        + 8 * (avs_reader_get_epb_count (avs_reader_get_bits w nr n).2
          - avs_reader_get_epb_count nr) ∧
    avs_reader_get_remaining (avs_reader_get_bits w nr n).2
        + 8 * (avs_reader_get_epb_count (avs_reader_get_bits w nr n).2
          - avs_reader_get_epb_count nr)
      = avs_reader_get_remaining nr ∧
    8 * (avs_reader_get_bits w nr n).2.byte + nr.bits_in_cache
        + 8 * avs_reader_get_epb_count nr
      = 8 * nr.byte + (avs_reader_get_bits w nr n).2.bits_in_cache
        + 8 * avs_reader_get_epb_count (avs_reader_get_bits w nr n).2 := by
  obtain ⟨r1, r2, _, r4, r5, r6, r7, _⟩ := read_counters nr n h
  revert hf
  unfold avs_reader_get_bits
  rcases hr : avs_reader_read nr n with ⟨ok, nr'⟩
  rw [hr] at r1 r2 r4 r5 r6 r7
  dsimp only at r1 r2 r4 r5 r6 r7
  cases ok with
  | true => intro hf; simp at hf
  | false =>
    intro _
    dsimp only
    rw [get_pos_wf nr h, get_pos_wf nr' r1, get_remaining_wf nr h, get_remaining_wf nr' r1]
    obtain ⟨h1, h2, h3, h4⟩ := h
    obtain ⟨k1, k2, k3, k4⟩ := r1
    unfold avs_reader_get_epb_count
    refine ⟨r5, by omega, by omega, r4⟩

/-- C11 (refuted as stated): over the buffer `00 00 02`, whose logical stream
`00 00` holds 16 bits, a 24 bit read fails and yet moves the reader: the
position goes from 0 to 8, the remaining bits from 24 to 16 and the escape
byte count from 0 to 1. -/
theorem read_bits_failure_counterexample :
    8 * (logicalBytes (ptrOf [0x00, 0x00, 0x02]) 3).length < 24 ∧
    (avs_reader_get_bits_uint32 (avs_reader_init (ptrOf [0x00, 0x00, 0x02]) 3) 24).1 = none ∧
    avs_reader_get_pos (avs_reader_init (ptrOf [0x00, 0x00, 0x02]) 3) = 0 ∧
    avs_reader_get_pos
      (avs_reader_get_bits_uint32 (avs_reader_init (ptrOf [0x00, 0x00, 0x02]) 3) 24).2 = 8 ∧
    avs_reader_get_remaining (avs_reader_init (ptrOf [0x00, 0x00, 0x02]) 3) = 24 ∧
    avs_reader_get_remaining
      (avs_reader_get_bits_uint32 (avs_reader_init (ptrOf [0x00, 0x00, 0x02]) 3) 24).2 = 16 ∧
    avs_reader_get_epb_count (avs_reader_init (ptrOf [0x00, 0x00, 0x02]) 3) = 0 ∧
    avs_reader_get_epb_count
      (avs_reader_get_bits_uint32 (avs_reader_init (ptrOf [0x00, 0x00, 0x02]) 3) 24).2 = 1 := by
  decide

/-- C11 (amended): a failed bit read that dropped no emulation prevention byte
is atomic.  On every well-formed reader state, for `n` with
`8 * size + n < 2 ^ 32` (no wrap in the size check) and for each of the 8, 16
and 32 bit variants: when fewer than `n` bits remain in the source, escape bytes
counted (`avs_reader_get_remaining < n`), the read fails and returns the
reader unchanged; and whenever a read fails with the escape byte count equal
before and after, the whole reader state, hence bit position, remaining bits
and escape byte count, is unchanged.  A failing read that dropped emulation
prevention bytes keeps them dropped: the escape byte count has not fallen, and
for each byte it has risen by `avs_reader_get_pos` is 8 larger and
`avs_reader_get_remaining` 8 smaller than before the call; the count rises by
one for each source byte the call went past without caching it (eight times
the bytes passed is the rise of `bits_in_cache` plus eight times the rise of
the count). -/
theorem read_bits_failure_atomic (nr : CAVSReader) (n : Nat) (hwf : nr.WF)
    (hn : 8 * nr.size + n < 2 ^ 32) :
    (avs_reader_get_remaining nr < n →
      avs_reader_get_bits_uint8 nr n = (none, nr) ∧
      avs_reader_get_bits_uint16 nr n = (none, nr) ∧
      avs_reader_get_bits_uint32 nr n = (none, nr)) ∧
    ((avs_reader_get_bits_uint8 nr n).1 = none →
      avs_reader_get_epb_count (avs_reader_get_bits_uint8 nr n).2 = avs_reader_get_epb_count nr →
      (avs_reader_get_bits_uint8 nr n).2 = nr) ∧
    ((avs_reader_get_bits_uint16 nr n).1 = none →
      avs_reader_get_epb_count (avs_reader_get_bits_uint16 nr n).2 = avs_reader_get_epb_count nr →
      (avs_reader_get_bits_uint16 nr n).2 = nr) ∧
    ((avs_reader_get_bits_uint32 nr n).1 = none →
      avs_reader_get_epb_count (avs_reader_get_bits_uint32 nr n).2 = avs_reader_get_epb_count nr →
      (avs_reader_get_bits_uint32 nr n).2 = nr) ∧
    ((avs_reader_get_bits_uint8 nr n).1 = none →
      avs_reader_get_epb_count nr ≤ avs_reader_get_epb_count (avs_reader_get_bits_uint8 nr n).2 ∧
      avs_reader_get_pos (avs_reader_get_bits_uint8 nr n).2
        = avs_reader_get_pos nr
          + 8 * (avs_reader_get_epb_count (avs_reader_get_bits_uint8 nr n).2
            - avs_reader_get_epb_count nr) ∧
      avs_reader_get_remaining (avs_reader_get_bits_uint8 nr n).2
          + 8 * (avs_reader_get_epb_count (avs_reader_get_bits_uint8 nr n).2
            - avs_reader_get_epb_count nr)
        = avs_reader_get_remaining nr ∧
      8 * (avs_reader_get_bits_uint8 nr n).2.byte + nr.bits_in_cache
          + 8 * avs_reader_get_epb_count nr
        = 8 * nr.byte + (avs_reader_get_bits_uint8 nr n).2.bits_in_cache
          + 8 * avs_reader_get_epb_count (avs_reader_get_bits_uint8 nr n).2) ∧
    ((avs_reader_get_bits_uint16 nr n).1 = none →
      avs_reader_get_epb_count nr ≤ avs_reader_get_epb_count (avs_reader_get_bits_uint16 nr n).2 ∧
      avs_reader_get_pos (avs_reader_get_bits_uint16 nr n).2
        = avs_reader_get_pos nr
          + 8 * (avs_reader_get_epb_count (avs_reader_get_bits_uint16 nr n).2
            - avs_reader_get_epb_count nr) ∧
      avs_reader_get_remaining (avs_reader_get_bits_uint16 nr n).2
          + 8 * (avs_reader_get_epb_count (avs_reader_get_bits_uint16 nr n).2
            - avs_reader_get_epb_count nr)
        = avs_reader_get_remaining nr ∧
      8 * (avs_reader_get_bits_uint16 nr n).2.byte + nr.bits_in_cache
          + 8 * avs_reader_get_epb_count nr
        = 8 * nr.byte + (avs_reader_get_bits_uint16 nr n).2.bits_in_cache
          + 8 * avs_reader_get_epb_count (avs_reader_get_bits_uint16 nr n).2) ∧
    ((avs_reader_get_bits_uint32 nr n).1 = none →
      avs_reader_get_epb_count nr ≤ avs_reader_get_epb_count (avs_reader_get_bits_uint32 nr n).2 ∧
      avs_reader_get_pos (avs_reader_get_bits_uint32 nr n).2
        = avs_reader_get_pos nr
          + 8 * (avs_reader_get_epb_count (avs_reader_get_bits_uint32 nr n).2
            - avs_reader_get_epb_count nr) ∧
      avs_reader_get_remaining (avs_reader_get_bits_uint32 nr n).2
          + 8 * (avs_reader_get_epb_count (avs_reader_get_bits_uint32 nr n).2
            - avs_reader_get_epb_count nr)
        = avs_reader_get_remaining nr ∧
      8 * (avs_reader_get_bits_uint32 nr n).2.byte + nr.bits_in_cache
          + 8 * avs_reader_get_epb_count nr
        = 8 * nr.byte + (avs_reader_get_bits_uint32 nr n).2.bits_in_cache
          + 8 * avs_reader_get_epb_count (avs_reader_get_bits_uint32 nr n).2) :=
  ⟨fun hh => ⟨(get_bits_fail_unchanged 8 nr n hwf hn).1 hh,
      (get_bits_fail_unchanged 16 nr n hwf hn).1 hh,
      (get_bits_fail_unchanged 32 nr n hwf hn).1 hh⟩,
   (get_bits_fail_unchanged 8 nr n hwf hn).2,
   (get_bits_fail_unchanged 16 nr n hwf hn).2,
   (get_bits_fail_unchanged 32 nr n hwf hn).2,
   get_bits_fail_advance 8 nr n hwf,
   get_bits_fail_advance 16 nr n hwf,
   get_bits_fail_advance 32 nr n hwf⟩

/-- Witness of the amended C11: over `12 34` a 24 bit read finds 16 bits
left, fails and returns the reader unchanged; over `00 00 02` a 24 bit read
passes the size check, drops the `02` and fails, and the position is 8 times
the rise of the escape byte count, from 0 to 1, further. -/
theorem read_bits_failure_atomic_witness :
    ((avs_reader_init (ptrOf [0x12, 0x34]) 2).WF ∧
      8 * (avs_reader_init (ptrOf [0x12, 0x34]) 2).size + 24 < 2 ^ 32 ∧
      avs_reader_get_remaining (avs_reader_init (ptrOf [0x12, 0x34]) 2) < 24) ∧
    avs_reader_get_bits_uint32 (avs_reader_init (ptrOf [0x12, 0x34]) 2) 24
      = (none, avs_reader_init (ptrOf [0x12, 0x34]) 2) ∧
    ((avs_reader_init (ptrOf [0x00, 0x00, 0x02]) 3).WF ∧
      8 * (avs_reader_init (ptrOf [0x00, 0x00, 0x02]) 3).size + 24 < 2 ^ 32 ∧
      (avs_reader_get_bits_uint32 (avs_reader_init (ptrOf [0x00, 0x00, 0x02]) 3) 24).1
        = none ∧
      avs_reader_get_epb_count
        (avs_reader_get_bits_uint32 (avs_reader_init (ptrOf [0x00, 0x00, 0x02]) 3) 24).2
        = 1) ∧
    avs_reader_get_pos
        (avs_reader_get_bits_uint32 (avs_reader_init (ptrOf [0x00, 0x00, 0x02]) 3) 24).2
      = avs_reader_get_pos (avs_reader_init (ptrOf [0x00, 0x00, 0x02]) 3)
        + 8 * (avs_reader_get_epb_count
            (avs_reader_get_bits_uint32 (avs_reader_init (ptrOf [0x00, 0x00, 0x02]) 3) 24).2
          - avs_reader_get_epb_count (avs_reader_init (ptrOf [0x00, 0x00, 0x02]) 3)) :=
  ⟨⟨init_wf _ 2 (by norm_num), by decide, by decide⟩,
   ((read_bits_failure_atomic (avs_reader_init (ptrOf [0x12, 0x34]) 2) 24
      (init_wf _ 2 (by norm_num)) (by decide)).1 (by decide)).2.2,
   ⟨init_wf _ 3 (by norm_num), by decide, by decide, by decide⟩,
   ((read_bits_failure_atomic (avs_reader_init (ptrOf [0x00, 0x00, 0x02]) 3) 24
      (init_wf _ 3 (by norm_num)) (by decide)).2.2.2.2.2.2 (by decide)).2.1⟩

/-! ## Bit reader: byte reads and emulation prevention -/

theorem read_loop_done (left : Nat) (nr : CAVSReader) (n : Nat) (h : n ≤ nr.bits_in_cache) :
    avs_reader_read_loop left nr n = (true, nr) := by
  cases left with
  | zero => rw [read_loop_zero, if_neg (by omega)]
  | succ left => rw [read_loop_succ, if_neg (by omega)]

/-- Extraction of a whole byte right after it has been cached. -/
theorem get_bits8_of_read (nr m : CAVSReader) (hr : avs_reader_read nr 8 = (true, m))
    (hb : m.bits_in_cache = 8) (hf : m.first_byte < 256) :
    avs_reader_get_bits 8 nr 8 = (some m.first_byte, { m with bits_in_cache := 0 }) := by
  unfold avs_reader_get_bits
  rw [hr]
  dsimp only
  have hs : sub32 m.bits_in_cache 8 = 0 := by rw [hb]; decide
  have hk : sub32 8 0 = 8 := by decide
  rw [hs, hk]
  have hv := extract_value 8 m.cache m.first_byte 8 8 hf (le_refl _) (by norm_num)
    (le_refl _) (le_refl _) (by norm_num)
  rw [if_neg (by norm_num)] at hv
  have h1 : shr_byte m.first_byte 0 = m.first_byte >>> (8 - 8) := by
    unfold shr_byte; rw [if_pos (by norm_num)]
  have h2 : shl_u64 m.cache 8 = m.cache <<< (8 - (8 - 8)) % 2 ^ 64 := by
    unfold shl_u64 u64; rw [if_pos (by norm_num)]
  rw [if_neg (by norm_num), h1, h2, hv]
  have : (m.cache * 256 + m.first_byte) % 2 ^ 8 / 2 ^ (8 - 8) = m.first_byte := by
    have : (2 : Nat) ^ (8 - 8) = 1 := by norm_num
    rw [this, Nat.div_one]
    omega
  rw [this]

theorem read_check_pass (nr : CAVSReader) (h : nr.WF) (hb : nr.bits_in_cache = 0)
    (hlt : nr.byte < nr.size) :
    ¬ (u32 (u32 (nr.byte * 8) + sub32 8 nr.bits_in_cache) > u32 (nr.size * 8)) := by
  obtain ⟨h1, h2, h3, h4⟩ := h
  rw [hb]
  unfold u32 sub32
  omega

/-- An 8 bit read on a byte aligned reader whose next source byte is not an
emulation prevention byte caches and returns that byte. -/
theorem read8_plain (nr : CAVSReader) (h : nr.WF) (hb : nr.bits_in_cache = 0)
    (hlt : nr.byte < nr.size)
    (hc : ¬ ((nr.data nr.byte).val = 0x02 ∧ nr.first_byte = 0x00 ∧ nr.cache % 256 = 0)) :
    avs_reader_get_bits 8 nr 8
      = (some (nr.data nr.byte).val, { nr.pushByte with bits_in_cache := 0 }) := by
  obtain ⟨_, _, _, _, p5, _⟩ := wf_pushByte nr h hlt
  have hc' : ¬ ((nr.data nr.byte).val = 0x02 ∧ nr.first_byte = 0x00 ∧ nr.cache &&& 0xff = 0) := by
    rw [and_ff]; exact hc
  have hr : avs_reader_read nr 8 = (true, nr.pushByte) := by
    unfold avs_reader_read
    rw [if_neg (read_check_pass nr h hb hlt)]
    have : nr.size - nr.byte = (nr.size - nr.byte - 1) + 1 := by omega
    rw [this, read_loop_succ, if_pos (by omega), if_neg (by omega), if_neg hc']
    exact read_loop_done _ _ _ (by rw [p5]; omega)
  exact get_bits8_of_read nr nr.pushByte hr (by rw [p5, hb])
    (by unfold CAVSReader.pushByte; exact (nr.data nr.byte).isLt)

/-- An 8 bit read on a byte aligned reader whose next source byte is an
emulation prevention byte drops it, then caches and returns the byte after
it whatever its value. -/
theorem read8_epb (nr : CAVSReader) (h : nr.WF) (hb : nr.bits_in_cache = 0)
    (hlt : nr.byte + 1 < nr.size)
    (hc : (nr.data nr.byte).val = 0x02 ∧ nr.first_byte = 0x00 ∧ nr.cache % 256 = 0) :
    avs_reader_get_bits 8 nr 8
      = (some (nr.data (nr.byte + 1)).val, { nr.dropEpb.pushByte with bits_in_cache := 0 }) := by
  obtain ⟨d1, d2, d3, d4, d5, d6, d7, d8⟩ := wf_dropEpb nr h (by omega)
  obtain ⟨_, _, _, _, p5, _⟩ := wf_pushByte nr.dropEpb d8 (by rw [d1, d3]; exact hlt)
  have hc' : (nr.data nr.byte).val = 0x02 ∧ nr.first_byte = 0x00 ∧ nr.cache &&& 0xff = 0 := by
    rw [and_ff]; exact hc
  have hr : avs_reader_read nr 8 = (true, nr.dropEpb.pushByte) := by
    unfold avs_reader_read
    rw [if_neg (read_check_pass nr h hb (by omega))]
    have : nr.size - nr.byte = (nr.size - nr.byte - 1) + 1 := by omega
    rw [this, read_loop_succ, if_pos (by omega), if_neg (by omega), if_pos hc',
      if_neg (by rw [d3]; omega)]
    exact read_loop_done _ _ _ (by rw [p5, d5]; omega)
  have hfb : nr.dropEpb.pushByte.first_byte = (nr.data (nr.byte + 1)).val := by
    show (nr.dropEpb.data nr.dropEpb.byte).val = _
    rw [d2, d3]
  rw [← hfb]
  exact get_bits8_of_read nr nr.dropEpb.pushByte hr (by rw [p5, d5, hb])
    (by rw [hfb]; exact (nr.data (nr.byte + 1)).isLt)

/-- The reader left by an 8 bit read that cached the byte at `m.byte`. -/
theorem after_push (m : CAVSReader) (hm : m.WF) (hlt : m.byte < m.size)
    (hf : m.first_byte < 256) :
    ({ m.pushByte with bits_in_cache := 0 } : CAVSReader).WF ∧
    ({ m.pushByte with bits_in_cache := 0 } : CAVSReader).bits_in_cache = 0 ∧
    ({ m.pushByte with bits_in_cache := 0 } : CAVSReader).first_byte = (m.data m.byte).val ∧
    ({ m.pushByte with bits_in_cache := 0 } : CAVSReader).cache % 256 = m.first_byte ∧
    ({ m.pushByte with bits_in_cache := 0 } : CAVSReader).byte = m.byte + 1 ∧
    ({ m.pushByte with bits_in_cache := 0 } : CAVSReader).n_epb = m.n_epb ∧
    ({ m.pushByte with bits_in_cache := 0 } : CAVSReader).size = m.size ∧
    ({ m.pushByte with bits_in_cache := 0 } : CAVSReader).data = m.data ∧
    ({ m.pushByte with bits_in_cache := 0 } : CAVSReader).unread
      = bufferBytes m.data (m.byte + 1) (m.size - (m.byte + 1)) := by
  obtain ⟨p1, p2, p3, p4, p5, p6⟩ := wf_pushByte m hm hlt
  obtain ⟨w1, w2, w3, w4⟩ := p6
  have hlow : m.pushByte.cache % 256 = m.first_byte := by
    show (u64 (m.cache <<< 8) ||| m.first_byte) % 256 = m.first_byte
    unfold u64
    exact push_low m.cache m.first_byte hf
  refine ⟨⟨w1, w2, Nat.zero_le _, w4⟩, rfl, rfl, hlow, p3, p4, p1, p2, ?_⟩
  show bufferBytes m.pushByte.data m.pushByte.byte (m.pushByte.size - m.pushByte.byte) = _
  rw [p1, p2, p3]

theorem agrees_zero (p : Option Byte) (v : Nat) (h : agrees p v) : p = some 0x00 ↔ v = 0 := by
  cases p with
  | none =>
    simp only [agrees] at h
    exact ⟨fun hh => by simp at hh, fun hh => absurd hh h⟩
  | some y =>
    simp only [agrees] at h
    subst h
    constructor
    · intro hh
      have : y = 0 := by simpa using hh
      rw [this]; rfl
    · intro hh
      have : y = 0 := Fin.ext hh
      rw [this]

theorem escapeWith_length_ge (b : List Byte) : ∀ p2 p1, b.length ≤ (escapeWith p2 p1 b).length := by
  induction b with
  | nil => intro p2 p1; simp [escapeWith]
  | cons x rest ih =>
    intro p2 p1
    have := ih p1 (some x)
    unfold escapeWith
    split_ifs <;> simp only [List.length_cons] <;> omega

theorem unread_head (nr : CAVSReader) (x : Byte) (tail : List Byte)
    (h : nr.unread = x :: tail) :
    nr.byte < nr.size ∧ nr.data nr.byte = x ∧
      bufferBytes nr.data (nr.byte + 1) (nr.size - (nr.byte + 1)) = tail := by
  have hlen : nr.unread.length = nr.size - nr.byte := bufferBytes_length _ _ _
  rw [h] at hlen
  simp only [List.length_cons] at hlen
  have hlt : nr.byte < nr.size := by omega
  rw [unread_cons nr hlt] at h
  simp only [List.cons.injEq] at h
  exact ⟨hlt, h.1, h.2⟩

/-- Byte reads over an escaped sequence: they return the sequence, and the
reader has then dropped exactly the inserted bytes. -/
theorem roundtrip_from (b : List Byte) : ∀ (p2 p1 : Option Byte) (nr : CAVSReader),
    nr.WF → nr.bits_in_cache = 0 → nr.first_byte < 256 → nr.unread = escapeWith p2 p1 b →
    agrees p2 (nr.cache % 256) → agrees p1 nr.first_byte →
    (read_uint8_seq nr b.length).1 = some (b.map (fun x => x.val)) ∧
    (read_uint8_seq nr b.length).2.n_epb
      = nr.n_epb + ((escapeWith p2 p1 b).length - b.length) := by
  induction b with
  | nil =>
    intro p2 p1 nr _ _ _ _ _ _
    simp [read_uint8_seq, escapeWith]
  | cons x rest ih =>
    intro p2 p1 nr hwf hb hf hun a2 a1
    have hge := escapeWith_length_ge rest p1 (some x)
    have z2 := agrees_zero p2 _ a2
    have z1 := agrees_zero p1 _ a1
    simp only [List.length_cons, List.map_cons]
    unfold read_uint8_seq avs_reader_get_bits_uint8
    by_cases c : p2 = some 0x00 ∧ p1 = some 0x00
    · have hE : escapeWith p2 p1 (x :: rest) = 0x02 :: x :: escapeWith p1 (some x) rest := by
        simp only [escapeWith, if_pos c]
      rw [hE] at hun ⊢
      obtain ⟨hlt, hd, htl⟩ := unread_head nr _ _ hun
      have hc1 : nr.first_byte = 0 := z1.1 c.2
      have hc2 : nr.cache % 256 = 0 := z2.1 c.1
      have hd' : (nr.data nr.byte).val = 0x02 := by rw [hd]; rfl
      obtain ⟨d1, d2, d3, d4, d5, d6, d7, d8⟩ := wf_dropEpb nr hwf hlt
      have hun2 : nr.dropEpb.unread = x :: escapeWith p1 (some x) rest := by
        show bufferBytes nr.dropEpb.data nr.dropEpb.byte (nr.dropEpb.size - nr.dropEpb.byte) = _
        rw [d1, d2, d3]; exact htl
      obtain ⟨hlt2, hdx, htl2⟩ := unread_head nr.dropEpb _ _ hun2
      rw [read8_epb nr hwf hb (by rw [d1, d3] at hlt2; exact hlt2) ⟨hd', hc1, hc2⟩]
      obtain ⟨q1, q2, q3, q4, q5, q6, q7, q8, q9⟩ :=
        after_push nr.dropEpb d8 hlt2 (by rw [d6]; exact hf)
      obtain ⟨i1, i2⟩ := ih p1 (some x) _ q1 q2 (by rw [q3]; exact (nr.dropEpb.data _).isLt)
        (by rw [q9]; exact htl2)
        (by rw [q4, d6, hc1, c.2]; rfl)
        (by rw [q3, hdx]; rfl)
      dsimp only
      rcases hs : read_uint8_seq
        ({ nr.dropEpb.pushByte with bits_in_cache := 0 } : CAVSReader) rest.length with ⟨vs, m⟩
      rw [hs] at i1 i2
      dsimp only at i1 i2
      subst i1
      dsimp only
      rw [d2, d3] at hdx
      rw [hdx, i2, q6, d4]
      simp only [List.length_cons]
      exact ⟨trivial, by omega⟩
    · have hE : escapeWith p2 p1 (x :: rest) = x :: escapeWith p1 (some x) rest := by
        simp only [escapeWith, if_neg c]
      rw [hE] at hun ⊢
      obtain ⟨hlt, hd, htl⟩ := unread_head nr _ _ hun
      have hc : ¬ ((nr.data nr.byte).val = 0x02 ∧ nr.first_byte = 0x00 ∧ nr.cache % 256 = 0) :=
        fun hh => c ⟨z2.2 hh.2.2, z1.2 hh.2.1⟩
      rw [read8_plain nr hwf hb hlt hc]
      obtain ⟨q1, q2, q3, q4, q5, q6, q7, q8, q9⟩ := after_push nr hwf hlt hf
      obtain ⟨i1, i2⟩ := ih p1 (some x) _ q1 q2 (by rw [q3]; exact (nr.data _).isLt)
        (by rw [q9]; exact htl)
        (by
          rw [q4]
          cases p1 with
          | none => exact a1
          | some y => exact a1)
        (by rw [q3, hd]; rfl)
      dsimp only
      rcases hs : read_uint8_seq
        ({ nr.pushByte with bits_in_cache := 0 } : CAVSReader) rest.length with ⟨vs, m⟩
      rw [hs] at i1 i2
      dsimp only at i1 i2
      subst i1
      dsimp only
      rw [hd, i2, q6]
      simp only [List.length_cons]
      exact ⟨trivial, by omega⟩

theorem bufferBytes_ptrOf (l : List Byte) : bufferBytes (ptrOf l) 0 l.length = l := by
  apply List.ext_getElem (by simp [bufferBytes])
  intro i h1 h2
  simp [bufferBytes, ptrOf, List.getD_eq_getElem?_getD, List.getElem?_eq_getElem h2]

theorem init_unread (l : List Byte) : (avs_reader_init (ptrOf l) l.length).unread = l := by
  show bufferBytes (ptrOf l) 0 (l.length - 0) = l
  rw [Nat.sub_zero]
  exact bufferBytes_ptrOf l

/-- C12: emulation prevention round trip.  For every byte sequence `b`, with
`esc b` the sequence with a `0x02` inserted immediately before each byte
whose two predecessors are both `0x00`, `|b|` successive 8 bit reads over
`esc b` all succeed and return `b[0], b[1], ...`, and afterwards
`avs_reader_get_epb_count` is the number `|esc b| - |b|` of inserted bytes.
The escaped buffer has fewer than `2 ^ 29` bytes. -/
theorem escape_round_trip (b : List Byte) (hsize : (escape b).length < 2 ^ 29) :
    (read_uint8_seq (avs_reader_init (ptrOf (escape b)) (escape b).length) b.length).1
      = some (b.map (fun x => x.val)) ∧
    avs_reader_get_epb_count
        (read_uint8_seq (avs_reader_init (ptrOf (escape b)) (escape b).length) b.length).2
      = (escape b).length - b.length := by
  have h := roundtrip_from b none none (avs_reader_init (ptrOf (escape b)) (escape b).length)
    (init_wf _ _ (by omega)) rfl (by show (0xff : Nat) < 256; norm_num)
    (init_unread (escape b))
    (by show (0xff : Nat) % 256 ≠ 0; norm_num) (by show (0xff : Nat) ≠ 0; norm_num)
  refine ⟨h.1, ?_⟩
  unfold avs_reader_get_epb_count
  rw [h.2]
  show 0 + _ = _
  rw [Nat.zero_add]
  rfl

/-- Witness of C12: `00 00 00 00 01 00 00` is escaped to
`00 00 02 00 02 00 02 01 00 00`; seven byte reads return the original and
count three dropped bytes. -/
theorem escape_round_trip_witness :
    (escape [0x00, 0x00, 0x00, 0x00, 0x01, 0x00, 0x00]).length < 2 ^ 29 ∧
    escape [0x00, 0x00, 0x00, 0x00, 0x01, 0x00, 0x00]
      = [0x00, 0x00, 0x02, 0x00, 0x02, 0x00, 0x02, 0x01, 0x00, 0x00] ∧
    (read_uint8_seq
        (avs_reader_init (ptrOf (escape [0x00, 0x00, 0x00, 0x00, 0x01, 0x00, 0x00]))
          (escape [0x00, 0x00, 0x00, 0x00, 0x01, 0x00, 0x00]).length) 7).1
      = some [0x00, 0x00, 0x00, 0x00, 0x01, 0x00, 0x00] ∧
    avs_reader_get_epb_count
        (read_uint8_seq
          (avs_reader_init (ptrOf (escape [0x00, 0x00, 0x00, 0x00, 0x01, 0x00, 0x00]))
            (escape [0x00, 0x00, 0x00, 0x00, 0x01, 0x00, 0x00]).length) 7).2
      = 3 :=
  ⟨by decide, by decide,
   (escape_round_trip [0x00, 0x00, 0x00, 0x00, 0x01, 0x00, 0x00] (by decide)).1,
   (escape_round_trip [0x00, 0x00, 0x00, 0x00, 0x01, 0x00, 0x00] (by decide)).2⟩

theorem unmarked_eq_unescape (n : Nat) : ∀ (src : List Byte) (p2 p1 : Nat), src.length ≤ n →
    unmarkedBytes src (epbMarks p2 p1 false src) = unescape p2 p1 src := by
  induction n with
  | zero =>
    intro src p2 p1 h
    have : src = [] := List.length_eq_zero.mp (by omega)
    subst this
    simp [epbMarks, unmarkedBytes, unescape]
  | succ n ih =>
    intro src p2 p1 h
    cases src with
    | nil => simp [epbMarks, unmarkedBytes, unescape]
    | cons b rest =>
      by_cases c : b.val = 0x02 ∧ p1 = 0x00 ∧ p2 = 0x00
      · cases rest with
        | nil =>
          rw [unescape_single_epb p2 p1 b c]
          simp [epbMarks, unmarkedBytes, c]
        | cons d rest =>
          rw [unescape_cons_epb p2 p1 b d rest c]
          have := ih rest p1 d.val (by simp at h; omega)
          rw [c.2.1] at this
          simp [epbMarks, unmarkedBytes, c, this]
      · rw [unescape_cons_plain p2 p1 b rest c]
        have := ih rest p1 b.val (by simp at h; omega)
        have c2 : ¬ (b.val = 2 ∧ p1 = 0 ∧ p2 = 0) := c
        simp [epbMarks, unmarkedBytes, c2, this]

/-- Byte reads on a byte aligned reader deliver its pending logical bytes in
order. -/
theorem read_uint8_seq_pending (k : Nat) : ∀ (nr : CAVSReader), nr.WF →
    nr.bits_in_cache = 0 → nr.first_byte < 256 → k ≤ nr.pending.length →
    (read_uint8_seq nr k).1 = some ((nr.pending.take k).map (fun x => x.val)) := by
  induction k with
  | zero => intro nr _ _ _ _; simp [read_uint8_seq]
  | succ k ih =>
    intro nr hwf hb hf hk
    have hpl := pending_length_le nr
    have hlt : nr.byte < nr.size := by omega
    have hun := unread_cons nr hlt
    unfold read_uint8_seq avs_reader_get_bits_uint8
    by_cases c : (nr.data nr.byte).val = 0x02 ∧ nr.first_byte = 0x00 ∧ nr.cache % 256 = 0
    · have c' : (nr.data nr.byte).val = 0x02 ∧ nr.first_byte = 0x00 ∧ nr.cache % 256 = 0x00 := c
      obtain ⟨d1, d2, d3, d4, d5, d6, d7, d8⟩ := wf_dropEpb nr hwf hlt
      have hlt2 : nr.byte + 1 < nr.size := by
        by_contra hc
        have hsz : nr.size - (nr.byte + 1) = 0 := by omega
        have hpe : nr.pending = [] := by
          unfold CAVSReader.pending
          rw [hun, hsz]
          exact unescape_single_epb _ _ _ c'
        rw [hpe] at hk
        simp at hk
      have hsz : nr.size - (nr.byte + 1) = (nr.size - (nr.byte + 2)) + 1 := by omega
      obtain ⟨q1, q2, q3, q4, q5, q6, q7, q8, q9⟩ :=
        after_push nr.dropEpb d8 (by rw [d1, d3]; exact hlt2) (by rw [d6]; exact hf)
      have hpend : nr.pending = nr.data (nr.byte + 1) ::
          ({ nr.dropEpb.pushByte with bits_in_cache := 0 } : CAVSReader).pending := by
        unfold CAVSReader.pending
        rw [q9, q3, q4, hun, hsz, bufferBytes_succ, unescape_cons_epb _ _ _ _ _ c', d2, d3, d6, d1]
      rw [read8_epb nr hwf hb hlt2 c]
      dsimp only
      have hi := ih _ q1 q2 (by rw [q3]; exact (nr.dropEpb.data _).isLt)
        (by rw [hpend, List.length_cons] at hk; exact Nat.le_of_succ_le_succ hk)
      rcases hs : read_uint8_seq
        ({ nr.dropEpb.pushByte with bits_in_cache := 0 } : CAVSReader) k with ⟨vs, m⟩
      rw [hs] at hi
      dsimp only at hi
      subst hi
      dsimp only
      rw [hpend]
      simp
    · have c' : ¬ ((nr.data nr.byte).val = 0x02 ∧ nr.first_byte = 0x00 ∧
          nr.cache % 256 = 0x00) := c
      obtain ⟨q1, q2, q3, q4, q5, q6, q7, q8, q9⟩ := after_push nr hwf hlt hf
      have hpend : nr.pending = nr.data nr.byte ::
          ({ nr.pushByte with bits_in_cache := 0 } : CAVSReader).pending := by
        unfold CAVSReader.pending
        rw [q9, q3, q4, hun, unescape_cons_plain _ _ _ _ c']
      rw [read8_plain nr hwf hb hlt c]
      dsimp only
      have hi := ih _ q1 q2 (by rw [q3]; exact (nr.data _).isLt)
        (by rw [hpend, List.length_cons] at hk; exact Nat.le_of_succ_le_succ hk)
      rcases hs : read_uint8_seq
        ({ nr.pushByte with bits_in_cache := 0 } : CAVSReader) k with ⟨vs, m⟩
      rw [hs] at hi
      dsimp only at hi
      subst hi
      dsimp only
      rw [hpend]
      simp

theorem escape_00_00_x (x : Byte) : escape [0x00, 0x00, x] = [0x00, 0x00, 0x02, x] := by
  simp [escape, escapeWith]

theorem logicalBytes_eq_unmarked (data : Ptr) (size : Nat) :
    unmarkedBytes (bufferBytes data 0 size) (epbMarks 0xff 0xff false (bufferBytes data 0 size))
      = logicalBytes data size :=
  unmarked_eq_unescape _ _ _ _ (le_refl _)

theorem read_unmarked (data : Ptr) (size k : Nat) (hs : size < 2 ^ 29)
    (hk : k ≤ (unmarkedBytes (bufferBytes data 0 size)
      (epbMarks 0xff 0xff false (bufferBytes data 0 size))).length) :
    (read_uint8_seq (avs_reader_init data size) k).1
      = some (((unmarkedBytes (bufferBytes data 0 size)
          (epbMarks 0xff 0xff false (bufferBytes data 0 size))).take k).map
            (fun x => x.val)) := by
  have e := logicalBytes_eq_unmarked data size
  have e2 := init_pending data size
  have hk' : k ≤ (avs_reader_init data size).pending.length := by rw [e2, ← e]; exact hk
  have h := read_uint8_seq_pending k _ (init_wf data size (by omega)) rfl
    (by show (0xff : Nat) < 256; norm_num) hk'
  rw [e2, ← e] at h
  exact h

theorem read_escaped_00_00_x (x : Byte) :
    (read_uint8_seq (avs_reader_init (ptrOf [0x00, 0x00, 0x02, x]) 4)
        [0x00, 0x00, x].length).1 = some ([0x00, 0x00, x].map (fun x => x.val)) ∧
    (read_uint8_seq (avs_reader_init (ptrOf [0x00, 0x00, 0x02, x]) 4)
        [0x00, 0x00, x].length).2.n_epb
      = (avs_reader_init (ptrOf [0x00, 0x00, 0x02, x]) 4).n_epb
        + ((escapeWith none none [0x00, 0x00, x]).length - [0x00, 0x00, x].length) :=
  roundtrip_from [0x00, 0x00, x] none none
    (avs_reader_init (ptrOf [0x00, 0x00, 0x02, x]) 4)
    (init_wf _ _ (by norm_num)) rfl (by show (0xff : Nat) < 256; norm_num)
    ((init_unread [0x00, 0x00, 0x02, x]).trans (escape_00_00_x x).symm)
    (by show (0xff : Nat) % 256 ≠ 0; norm_num) (by show (0xff : Nat) ≠ 0; norm_num)

theorem inserted_00_00_x (x : Byte) :
    (escapeWith none none [0x00, 0x00, x]).length - [0x00, 0x00, x].length = 1 := by
  have he : escapeWith none none [0x00, 0x00, x] = [0x00, 0x00, 0x02, x] := escape_00_00_x x
  rw [he]
  rfl

theorem get_epb_count_eq (nr : CAVSReader) : avs_reader_get_epb_count nr = nr.n_epb := rfl

theorem read_00_00_02_x (x : Byte) :
    (read_uint8_seq (avs_reader_init (ptrOf [0x00, 0x00, 0x02, x]) 4) 3).1
      = some [0x00, 0x00, x.val] ∧
    avs_reader_get_epb_count
      (read_uint8_seq (avs_reader_init (ptrOf [0x00, 0x00, 0x02, x]) 4) 3).2 = 1 := by
  have h := (read_escaped_00_00_x x).2
  rw [inserted_00_00_x x] at h
  refine ⟨(read_escaped_00_00_x x).1, ?_⟩
  rw [get_epb_count_eq]
  exact h

/-- C13: a source byte is dropped as an emulation prevention marker exactly
when it is `0x02`, the two most recently cached logical bytes are both `0x00`
and the byte just before it in the source was not itself a dropped marker
(`epbMarks`); the reader delivers exactly the unmarked bytes, in order.  In
particular the byte after a dropped marker is always cached: for every byte
`x`, `0x02` included, three 8 bit reads over `00 00 02 x` return `00, 00, x`
with escape count 1. -/
theorem epb_marker_rule :
    (∀ (data : Ptr) (size k : Nat), size < 2 ^ 29 →
      k ≤ (unmarkedBytes (bufferBytes data 0 size)
            (epbMarks 0xff 0xff false (bufferBytes data 0 size))).length →
      (read_uint8_seq (avs_reader_init data size) k).1
        = some (((unmarkedBytes (bufferBytes data 0 size)
            (epbMarks 0xff 0xff false (bufferBytes data 0 size))).take k).map
              (fun x => x.val))) ∧
    (∀ x : Byte,
      (read_uint8_seq (avs_reader_init (ptrOf [0x00, 0x00, 0x02, x]) 4) 3).1
        = some [0x00, 0x00, x.val] ∧
      avs_reader_get_epb_count
        (read_uint8_seq (avs_reader_init (ptrOf [0x00, 0x00, 0x02, x]) 4) 3).2 = 1) :=
  ⟨fun data size k hs hk => read_unmarked data size k hs hk, fun x => read_00_00_02_x x⟩

/-! ## Bit reader: reads at a position of the logical stream -/

/-- The refill loop on a reader that cannot deliver `n` bits returns FALSE. -/
theorem read_loop_short (left : Nat) : ∀ (nr : CAVSReader) (n : Nat),
    nr.size - nr.byte ≤ left → nr.WF → nr.first_byte < 256 → n ≤ 64 → nr.streamLen < n →
    (avs_reader_read_loop left nr n).1 = false := by
  induction left with
  | zero =>
    intro nr n _ _ _ _ hlen
    unfold CAVSReader.streamLen at hlen
    rw [read_loop_zero, if_pos (by omega)]
  | succ left ih =>
    intro nr n hl hwf hf hn hlen
    have hlen' := hlen
    unfold CAVSReader.streamLen at hlen'
    rw [read_loop_succ, if_pos (by omega)]
    by_cases c2 : nr.byte ≥ nr.size
    · rw [if_pos c2]
    · rw [if_neg c2]
      have hbs : nr.byte < nr.size := by omega
      have hun := unread_cons nr hbs
      by_cases c3 : (nr.data nr.byte).val = 0x02 ∧ nr.first_byte = 0x00 ∧ nr.cache &&& 0xff = 0
      · rw [if_pos c3]
        have c3' : (nr.data nr.byte).val = 0x02 ∧ nr.first_byte = 0x00 ∧ nr.cache % 256 = 0x00 := by
          rw [← and_ff]; exact c3
        obtain ⟨d1, d2, d3, d4, d5, d6, d7, d8⟩ := wf_dropEpb nr hwf hbs
        by_cases c4 : nr.dropEpb.byte ≥ nr.size
        · rw [if_pos c4]
        · rw [if_neg c4]
          have hbs2 : nr.byte + 1 < nr.size := by rw [d3] at c4; omega
          have hsz : nr.size - (nr.byte + 1) = (nr.size - (nr.byte + 2)) + 1 := by omega
          have hpend : nr.pending
              = nr.dropEpb.data nr.dropEpb.byte :: nr.dropEpb.pushByte.pending := by
            rw [pending_pushByte nr.dropEpb d8 (by rw [d3, d1]; exact hbs2) (by rw [d6]; exact hf)]
            unfold CAVSReader.pending
            rw [hun, hsz, bufferBytes_succ, unescape_cons_epb _ _ _ _ _ c3', d1, d2, d3, d6]
          have hwin : nr.dropEpb.window = nr.window := by
            unfold CAVSReader.window; rw [d5, d6, d7]
          obtain ⟨s1, _⟩ := stream_pushByte nr nr.dropEpb d8 (by rw [d3, d1]; exact hbs2)
            (by rw [d6]; exact hf) (by rw [d5]; omega) hwin d5 hpend
          obtain ⟨p1, p2, p3, p4, p5, p6⟩ := wf_pushByte nr.dropEpb d8 (by rw [d3, d1]; exact hbs2)
          exact ih nr.dropEpb.pushByte n (by rw [p1, p3, d1, d3]; omega) p6
            (by unfold CAVSReader.pushByte; exact (nr.dropEpb.data nr.dropEpb.byte).isLt)
            hn (by rw [s1]; exact hlen)
      · rw [if_neg c3]
        have c3' : ¬ ((nr.data nr.byte).val = 0x02 ∧ nr.first_byte = 0x00 ∧
            nr.cache % 256 = 0x00) := by
          rw [← and_ff]; exact c3
        have hpend : nr.pending = nr.data nr.byte :: nr.pushByte.pending := by
          rw [pending_pushByte nr hwf hbs hf]
          unfold CAVSReader.pending
          rw [hun, unescape_cons_plain _ _ _ _ c3']
        obtain ⟨s1, _⟩ := stream_pushByte nr nr hwf hbs hf (by omega) rfl rfl hpend
        obtain ⟨p1, p2, p3, p4, p5, p6⟩ := wf_pushByte nr hwf hbs
        exact ih nr.pushByte n (by rw [p1, p3]; omega) p6
          (by unfold CAVSReader.pushByte; exact (nr.data nr.byte).isLt)
          hn (by rw [s1]; exact hlen)

/-- A bit read of more bits than the reader can deliver fails. -/
theorem get_bits_short (w : Nat) (nr : CAVSReader) (n : Nat) (hwf : nr.WF)
    (hf : nr.first_byte < 256) (hn : n ≤ 64) (hlen : nr.streamLen < n) :
    (avs_reader_get_bits w nr n).1 = none := by
  have hl := read_loop_short (nr.size - nr.byte) nr n (le_refl _) hwf hf hn hlen
  have hr : (avs_reader_read nr n).1 = false := by
    unfold avs_reader_read
    by_cases c : u32 (u32 (nr.byte * 8) + sub32 n nr.bits_in_cache) > u32 (nr.size * 8)
    · rw [if_pos c]
    · rw [if_neg c]; exact hl
  unfold avs_reader_get_bits
  rcases hR : avs_reader_read nr n with ⟨ok, nr1⟩
  rw [hR] at hr
  dsimp only at hr
  subst hr
  rfl

theorem init_delivers (data : Ptr) (size : Nat) (hs : size < 2 ^ 29) :
    (avs_reader_init data size).Delivers (logicalBytes data size) 0 := by
  obtain ⟨s1, s2⟩ := init_stream data size
  have hlt := beValue_lt (logicalBytes data size)
  refine ⟨init_wf data size (by omega), ?_, ?_, Nat.zero_le _, ?_, ?_⟩
  · show (0xff : Nat) < 256
    norm_num
  · show (0 : Nat) ≤ 7
    norm_num
  · rw [s2, Nat.sub_zero]
  · rw [s1, Nat.sub_zero, Nat.mod_eq_of_lt hlt]

/-- A bit read of `n ≤ w` bits at bit `a` of the logical stream: it succeeds
exactly when `n` bits are left, returns the field at `[a, a + n)` and leaves
the reader at `a + n`. -/
theorem get_bits_at (w : Nat) (nr : CAVSReader) (L : List Byte) (a n : Nat)
    (hw8 : 8 ≤ w) (hw : w ≤ 64) (hn : n ≤ w) (hd : nr.Delivers L a) :
    (a + n ≤ 8 * L.length →
      (avs_reader_get_bits w nr n).1 = some (bitField L a n) ∧
      (avs_reader_get_bits w nr n).2.Delivers L (a + n) ∧
      (avs_reader_get_bits w nr n).2.size = nr.size ∧
      (avs_reader_get_bits w nr n).2.data = nr.data) ∧
    (8 * L.length < a + n → (avs_reader_get_bits w nr n).1 = none) := by
  obtain ⟨hwf, hf, hb, ha, hT, hS⟩ := hd
  constructor
  · intro han
    obtain ⟨g1, g2, g3, g4, g5, g6⟩ :=
      get_bits_stream w nr n hw8 hw hwf hf hb hn (by rw [hT]; omega)
    obtain ⟨b1, b2, b3⟩ := bitField_of_stream L a n nr.streamVal nr.streamLen han hS hT
    obtain ⟨c1, c2, c3, _⟩ := get_bits_counters w nr n hwf
    exact ⟨by rw [g1, b1], ⟨g2, g3, g4, han, by rw [g5, b3], by rw [g6, b2]⟩, c2, c3⟩
  · intro han
    exact get_bits_short w nr n hwf hf (by omega) (by rw [hT]; omega)

/-! ## Exp-Golomb codes on the logical stream -/

theorem get_ue_loop_zero (nr : CAVSReader) (i : Nat) :
    avs_reader_get_ue_loop 0 nr i = (none, (avs_reader_get_bits 8 nr 1).2) := rfl

theorem get_ue_loop_succ (left : Nat) (nr : CAVSReader) (i : Nat) :
    avs_reader_get_ue_loop (left + 1) nr i =
      match avs_reader_get_bits 8 nr 1 with
      | (none, nr) => (none, nr)
      | (some bit, nr) =>
        if bit = 0 then avs_reader_get_ue_loop left nr (u32 (i + 1)) else (some (u32 (i + 1)), nr) :=
  rfl

/-- One iteration of the zero-counting loop when a bit is left to read. -/
theorem get_ue_loop_step (left : Nat) (nr : CAVSReader) (i : Nat) (L : List Byte) (a : Nat)
    (hd : nr.Delivers L a) (ha : a + 1 ≤ 8 * L.length) (hi : i + 1 < 2 ^ 32) :
    (avs_reader_get_bits 8 nr 1).2.Delivers L (a + 1) ∧
    avs_reader_get_ue_loop (left + 1) nr i =
      if bitField L a 1 = 0 then avs_reader_get_ue_loop left (avs_reader_get_bits 8 nr 1).2 (i + 1)
      else (some (i + 1), (avs_reader_get_bits 8 nr 1).2) := by
  obtain ⟨g1, g2, _, _⟩ := (get_bits_at 8 nr L a 1 (by norm_num) (by norm_num) (by norm_num) hd).1 ha
  refine ⟨g2, ?_⟩
  have hu : u32 (i + 1) = i + 1 := Nat.mod_eq_of_lt hi
  rw [get_ue_loop_succ, hu]
  rcases hr : avs_reader_get_bits 8 nr 1 with ⟨v, nr1⟩
  rw [hr] at g1
  dsimp only at g1
  subst g1
  rfl

/-- The zero-counting loop over `k` zero bits followed by a one bit: it
returns the entry count plus `k + 1` and stops right after the one bit. -/
theorem get_ue_loop_run (L : List Byte) (k : Nat) : ∀ (nr : CAVSReader) (a i left : Nat),
    nr.Delivers L a → a + k + 1 ≤ 8 * L.length →
    (∀ j, j < k → bitField L (a + j) 1 = 0) → bitField L (a + k) 1 ≠ 0 →
    k + 1 ≤ left → i + k + 1 < 2 ^ 32 →
    (avs_reader_get_ue_loop left nr i).1 = some (i + k + 1) ∧
    (avs_reader_get_ue_loop left nr i).2.Delivers L (a + k + 1) := by
  induction k with
  | zero =>
    intro nr a i left hd ha _ h1 hl hi
    obtain ⟨left, rfl⟩ : ∃ l, left = l + 1 := ⟨left - 1, by omega⟩
    obtain ⟨s1, s2⟩ := get_ue_loop_step left nr i L a hd (by omega) (by omega)
    rw [s2, if_neg (by simpa using h1)]
    exact ⟨rfl, s1⟩
  | succ k ih =>
    intro nr a i left hd ha h0 h1 hl hi
    obtain ⟨left, rfl⟩ : ∃ l, left = l + 1 := ⟨left - 1, by omega⟩
    obtain ⟨s1, s2⟩ := get_ue_loop_step left nr i L a hd (by omega) (by omega)
    rw [s2, if_pos (by simpa using h0 0 (by omega))]
    have := ih (avs_reader_get_bits 8 nr 1).2 (a + 1) (i + 1) left s1 (by omega)
      (fun j hj => by
        have := h0 (j + 1) (by omega)
        rw [show a + 1 + j = a + (j + 1) by omega]; exact this)
      (by rw [show a + 1 + k = a + (k + 1) by omega]; exact h1) (by omega) (by omega)
    rw [show a + (k + 1) + 1 = a + 1 + k + 1 by omega, show i + (k + 1) + 1 = i + 1 + k + 1 by omega]
    exact this

/-- A count returned by the zero-counting loop exceeds the entry count. -/
theorem get_ue_loop_ge (left : Nat) : ∀ (nr : CAVSReader) (i r : Nat), i + left < 2 ^ 32 →
    (avs_reader_get_ue_loop left nr i).1 = some r → i + 1 ≤ r := by
  induction left with
  | zero =>
    intro nr i r _ h
    rw [get_ue_loop_zero] at h
    simp at h
  | succ left ih =>
    intro nr i r hi h
    have hu : u32 (i + 1) = i + 1 := Nat.mod_eq_of_lt (by omega)
    rw [get_ue_loop_succ, hu] at h
    rcases hr : avs_reader_get_bits 8 nr 1 with ⟨v, nr1⟩
    rw [hr] at h
    cases v with
    | none => simp at h
    | some bit =>
      dsimp only at h
      by_cases c : bit = 0
      · rw [if_pos c] at h
        have := ih nr1 (i + 1) r (by omega) h
        omega
      · rw [if_neg c] at h
        simp at h
        omega

/-- Over `m` zero bits the zero-counting loop fails or returns a count above
the entry count plus `m`. -/
theorem get_ue_loop_zeros (L : List Byte) (m : Nat) : ∀ (nr : CAVSReader) (a i left r : Nat),
    nr.Delivers L a → a + m ≤ 8 * L.length →
    (∀ j, j < m → bitField L (a + j) 1 = 0) → i + left < 2 ^ 32 →
    (avs_reader_get_ue_loop left nr i).1 = some r → i + m + 1 ≤ r := by
  induction m with
  | zero =>
    intro nr a i left r _ _ _ hi h
    exact get_ue_loop_ge left nr i r hi h
  | succ m ih =>
    intro nr a i left r hd ha h0 hi h
    cases left with
    | zero =>
      rw [get_ue_loop_zero] at h
      simp at h
    | succ left =>
      obtain ⟨s1, s2⟩ := get_ue_loop_step left nr i L a hd (by omega) (by omega)
      rw [s2, if_pos (by simpa using h0 0 (by omega))] at h
      have := ih (avs_reader_get_bits 8 nr 1).2 (a + 1) (i + 1) left r s1 (by omega)
        (fun j hj => by
          have := h0 (j + 1) (by omega)
          rw [show a + 1 + j = a + (j + 1) by omega]; exact this)
        (by omega) h
      omega

theorem get_ue_eq (nr : CAVSReader) :
    avs_reader_get_ue nr =
      match avs_reader_get_bits 8 nr 1 with
      | (none, nr) => (none, nr)
      | (some bit, nr) =>
        match (if bit = 0 then
            avs_reader_get_ue_loop ((nr.size - nr.byte) * 8 + nr.bits_in_cache) nr 0
          else (some 0, nr)) with
        | (none, nr) => (none, nr)
        | (some i, nr) =>
          if i > 32 then (none, nr)
          else match avs_reader_get_bits 32 nr i with
            | (none, nr) => (none, nr)
            | (some value, nr) => (some (u32 (sub32 (u32 (1 <<< i)) 1 + value)), nr) :=
  rfl

/-- The tail of `avs_reader_get_ue` once the zero count `i ≤ 32` is known and
`i` more bits are in the stream. -/
theorem get_ue_tail (L : List Byte) (nr : CAVSReader) (b i : Nat) (hd : nr.Delivers L b)
    (hi : i ≤ 32) (hb : b + i ≤ 8 * L.length) :
    (if i > 32 then ((none : Option Nat), nr)
      else match avs_reader_get_bits 32 nr i with
        | (none, nr) => (none, nr)
        | (some value, nr) => (some (u32 (sub32 (u32 (1 <<< i)) 1 + value)), nr)).1
      = some (u32 (sub32 (u32 (1 <<< i)) 1 + bitField L b i)) ∧
    (if i > 32 then ((none : Option Nat), nr)
      else match avs_reader_get_bits 32 nr i with
        | (none, nr) => (none, nr)
        | (some value, nr) => (some (u32 (sub32 (u32 (1 <<< i)) 1 + value)), nr)).2.Delivers L
          (b + i) := by
  obtain ⟨g1, g2, _, _⟩ :=
    (get_bits_at 32 nr L b i (by norm_num) (by norm_num) hi hd).1 hb
  rw [if_neg (by omega)]
  rcases hr : avs_reader_get_bits 32 nr i with ⟨v, nr1⟩
  rw [hr] at g1 g2
  dsimp only at g1 g2
  subst g1
  exact ⟨rfl, g2⟩

/-- Decoding of a complete Exp-Golomb code with `i ≤ 32` leading zero bits
that starts at bit `a`: `avs_reader_get_ue` returns TRUE with the 32-bit sum
`(1 << i) - 1 + v`, `v` being the `i` bits after the one bit, and stops after
the code. -/
theorem get_ue_complete (L : List Byte) (nr : CAVSReader) (a i : Nat) (hd : nr.Delivers L a)
    (hlen : a + 2 * i + 1 ≤ 8 * L.length)
    (h0 : ∀ j, j < i → bitField L (a + j) 1 = 0) (h1 : bitField L (a + i) 1 ≠ 0)
    (hi : i ≤ 32) :
    (avs_reader_get_ue nr).1
      = some (u32 (sub32 (u32 (1 <<< i)) 1 + bitField L (a + i + 1) i)) ∧
    (avs_reader_get_ue nr).2.Delivers L (a + 2 * i + 1) := by
  obtain ⟨g1, g2, _, _⟩ :=
    (get_bits_at 8 nr L a 1 (by norm_num) (by norm_num) (by norm_num) hd).1 (by omega)
  rw [get_ue_eq]
  rcases hr : avs_reader_get_bits 8 nr 1 with ⟨v, nr1⟩
  rw [hr] at g1 g2
  dsimp only at g1 g2
  subst g1
  dsimp only
  cases i with
  | zero =>
    rw [if_neg (by simpa using h1)]
    dsimp only
    have := get_ue_tail L nr1 (a + 1) 0 g2 (by omega) (by omega)
    exact this
  | succ k =>
    rw [if_pos (by simpa using h0 0 (by omega))]
    have hfuel : k + 1 ≤ (nr1.size - nr1.byte) * 8 + nr1.bits_in_cache := by
      have hp := pending_length_le nr1
      have hT := g2.2.2.2.2.1
      unfold CAVSReader.streamLen at hT
      omega
    obtain ⟨l1, l2⟩ := get_ue_loop_run L k nr1 (a + 1) 0
      ((nr1.size - nr1.byte) * 8 + nr1.bits_in_cache) g2 (by omega)
      (fun j hj => by
        have := h0 (j + 1) (by omega)
        rw [show a + 1 + j = a + (j + 1) by omega]; exact this)
      (by rw [show a + 1 + k = a + (k + 1) by omega]; exact h1) hfuel (by omega)
    rcases hl : avs_reader_get_ue_loop ((nr1.size - nr1.byte) * 8 + nr1.bits_in_cache) nr1 0
      with ⟨r, nr2⟩
    rw [hl] at l1 l2
    dsimp only at l1 l2
    rw [show 0 + k + 1 = k + 1 by omega] at l1
    subst l1
    dsimp only
    have := get_ue_tail L nr2 (a + 1 + k + 1) (k + 1) l2 (by omega) (by omega)
    rw [show a + 1 + k + 1 + (k + 1) = a + 2 * (k + 1) + 1 by omega,
      show a + 1 + k + 1 = a + (k + 1) + 1 by omega] at this
    exact this

/-- A run of 33 zero bits at the reader position makes `avs_reader_get_ue`
return FALSE. -/
theorem get_ue_overlong (L : List Byte) (nr : CAVSReader) (a : Nat) (hd : nr.Delivers L a)
    (hlen : a + 33 ≤ 8 * L.length) (h0 : ∀ j, j < 33 → bitField L (a + j) 1 = 0) :
    (avs_reader_get_ue nr).1 = none := by
  obtain ⟨g1, g2, g3, _⟩ :=
    (get_bits_at 8 nr L a 1 (by norm_num) (by norm_num) (by norm_num) hd).1 (by omega)
  rw [get_ue_eq]
  rcases hr : avs_reader_get_bits 8 nr 1 with ⟨v, nr1⟩
  rw [hr] at g1 g2 g3
  dsimp only at g1 g2 g3
  subst g1
  dsimp only
  rw [if_pos (by simpa using h0 0 (by omega))]
  have hz := get_ue_loop_zeros L 32 nr1 (a + 1) 0
    ((nr1.size - nr1.byte) * 8 + nr1.bits_in_cache)
  rcases hl : avs_reader_get_ue_loop ((nr1.size - nr1.byte) * 8 + nr1.bits_in_cache) nr1 0
    with ⟨r, nr2⟩
  rw [hl] at hz
  cases r with
  | none => rfl
  | some r =>
    dsimp only
    have hwf := g2.1
    have := hz r g2 (by omega)
      (fun j hj => by
        have := h0 (j + 1) (by omega)
        rw [show a + 1 + j = a + (j + 1) by omega]; exact this)
      (by
        obtain ⟨w1, w2, w3, w4⟩ := hwf
        omega) rfl
    rw [if_pos (by omega)]

/-- The bound handed to the zero-counting loop, the number of bits still
unread, is never exhausted before the loop ends: a larger bound gives the same
result. -/
theorem get_ue_loop_bound (left : Nat) : ∀ (nr : CAVSReader) (i extra : Nat), nr.WF →
    (nr.size - nr.byte) * 8 + nr.bits_in_cache ≤ left →
    avs_reader_get_ue_loop (left + extra) nr i = avs_reader_get_ue_loop left nr i := by
  induction left with
  | zero =>
    intro nr i extra hwf hl
    cases extra with
    | zero => rfl
    | succ extra =>
      have hrem := get_remaining_wf nr hwf
      have hfail := (get_bits_fail_unchanged 8 nr 1 hwf (by
        obtain ⟨w1, _, _, _⟩ := hwf
        omega)).1 (by omega)
      rw [Nat.zero_add, get_ue_loop_succ, get_ue_loop_zero, hfail]
  | succ left ih =>
    intro nr i extra hwf hl
    rw [show left + 1 + extra = (left + extra) + 1 by omega, get_ue_loop_succ, get_ue_loop_succ]
    obtain ⟨c1, c2, _, c4, _, c6⟩ := get_bits_counters 8 nr 1 hwf
    rcases hr : avs_reader_get_bits 8 nr 1 with ⟨v, nr1⟩
    rw [hr] at c1 c2 c4 c6
    dsimp only at c1 c2 c4 c6
    cases v with
    | none => rfl
    | some bit =>
      dsimp only
      by_cases c : bit = 0
      · rw [if_pos c, if_pos c]
        have h6 := c6 (by simp)
        have w2 := c1.2.1
        have v2 := hwf.2.1
        exact ih nr1 (u32 (i + 1)) extra c1 (by omega)
      · rw [if_neg c, if_neg c]

/-- Value of a complete Exp-Golomb code with at most 31 leading zero bits:
`avs_reader_get_ue` returns `2 ^ i - 1 + v`. -/
theorem get_ue_value (L : List Byte) (nr : CAVSReader) (a i : Nat) (hd : nr.Delivers L a)
    (hlen : a + 2 * i + 1 ≤ 8 * L.length)
    (h0 : ∀ j, j < i → bitField L (a + j) 1 = 0) (h1 : bitField L (a + i) 1 ≠ 0)
    (hi : i ≤ 31) :
    (avs_reader_get_ue nr).1 = some (2 ^ i - 1 + bitField L (a + i + 1) i) ∧
    (avs_reader_get_ue nr).2.Delivers L (a + 2 * i + 1) := by
  obtain ⟨g1, g2⟩ := get_ue_complete L nr a i hd hlen h0 h1 (by omega)
  refine ⟨?_, g2⟩
  rw [g1]
  have hv : bitField L (a + i + 1) i < 2 ^ i := Nat.mod_lt _ (Nat.two_pow_pos i)
  have hp : (2 : Nat) ^ i ≤ 2 ^ 31 := Nat.pow_le_pow_right (by norm_num) hi
  have hpos := Nat.two_pow_pos i
  rw [Nat.shiftLeft_eq, Nat.one_mul]
  congr 1
  generalize bitField L (a + i + 1) i = v at hv
  generalize (2 : Nat) ^ i = X at hv hp hpos
  unfold u32 sub32
  omega

/-- The codes `1`, `010`, `011`, `00100`, `00101`, `00110`, `00111`, each at
the head of a one-byte buffer, decode to 0, 1, 2, 3, 4, 5, 6. -/
theorem get_ue_patterns :
    (avs_reader_get_ue (avs_reader_init (ptrOf [0x80]) 1)).1 = some 0 ∧
    (avs_reader_get_ue (avs_reader_init (ptrOf [0x40]) 1)).1 = some 1 ∧
    (avs_reader_get_ue (avs_reader_init (ptrOf [0x60]) 1)).1 = some 2 ∧
    (avs_reader_get_ue (avs_reader_init (ptrOf [0x20]) 1)).1 = some 3 ∧
    (avs_reader_get_ue (avs_reader_init (ptrOf [0x28]) 1)).1 = some 4 ∧
    (avs_reader_get_ue (avs_reader_init (ptrOf [0x30]) 1)).1 = some 5 ∧
    (avs_reader_get_ue (avs_reader_init (ptrOf [0x38]) 1)).1 = some 6 := by
  decide

/-- C14 (the code departs from the claim): the buffer `00 00 00 00 80 00 00 00
80` holds 32 zero bits, a one bit and the 32 bit value 1, a complete code of
value `2 ^ 32 - 1 + 1`.  `avs_reader_get_ue` accepts it, since its guard only
rejects counts above 32, and returns TRUE with the sum reduced to 32 bits,
here 0. -/
theorem get_ue_32_zero_bits :
    ((∀ j, j < 32 →
        bitField (logicalBytes (ptrOf [0, 0, 0, 0, 0x80, 0, 0, 0, 0x80]) 9) j 1 = 0) ∧
      bitField (logicalBytes (ptrOf [0, 0, 0, 0, 0x80, 0, 0, 0, 0x80]) 9) 32 1 = 1 ∧
      bitField (logicalBytes (ptrOf [0, 0, 0, 0, 0x80, 0, 0, 0, 0x80]) 9) 33 32 = 1) ∧
    (avs_reader_get_ue (avs_reader_init (ptrOf [0, 0, 0, 0, 0x80, 0, 0, 0, 0x80]) 9)).1
      = some 0 ∧
    (0 : Nat) ≠ 2 ^ 32 - 1 + 1 := by
  refine ⟨by decide, ?_, by norm_num⟩
  decide

/-- C15: failure of `avs_reader_get_ue` on the leading zero count.  For a
reader standing at bit `a` of the logical stream `L`: a run of 33 zero bits
makes the call return FALSE; on a complete code (`i` zero bits, a one bit and
`i` further bits) the call returns FALSE exactly when `i` exceeds 32; and the
zero-counting loop always comes to its result, which a larger loop bound than
the number of unread bits does not change. -/
theorem get_ue_failure (L : List Byte) (nr : CAVSReader) (a : Nat) (hd : nr.Delivers L a) :
    (a + 33 ≤ 8 * L.length → (∀ j, j < 33 → bitField L (a + j) 1 = 0) →
      (avs_reader_get_ue nr).1 = none) ∧
    (∀ i, a + 2 * i + 1 ≤ 8 * L.length → (∀ j, j < i → bitField L (a + j) 1 = 0) →
      bitField L (a + i) 1 ≠ 0 → ((avs_reader_get_ue nr).1 = none ↔ 32 < i)) ∧
    (∀ extra i0,
      avs_reader_get_ue_loop ((nr.size - nr.byte) * 8 + nr.bits_in_cache + extra) nr i0
        = avs_reader_get_ue_loop ((nr.size - nr.byte) * 8 + nr.bits_in_cache) nr i0) := by
  refine ⟨fun hlen h0 => get_ue_overlong L nr a hd hlen h0, fun i hlen h0 h1 => ?_,
    fun extra i0 => get_ue_loop_bound _ nr i0 extra hd.1 (le_refl _)⟩
  constructor
  · intro hnone
    by_contra hi
    have := (get_ue_complete L nr a i hd hlen h0 h1 (by omega)).1
    rw [hnone] at this
    simp at this
  · intro hi
    exact get_ue_overlong L nr a hd (by omega) (fun j hj => h0 j (by omega))

/-- Witness of C15: over five zero bytes, a run of 40 zero bits, the call
returns FALSE; over `00 00 00 00 80 00 00 00 80`, a complete code with 32
leading zero bits, it does not. -/
theorem get_ue_failure_witness :
    (avs_reader_init (ptrOf [0, 0, 0, 0, 0]) 5).Delivers (logicalBytes (ptrOf [0, 0, 0, 0, 0]) 5) 0 ∧
    (avs_reader_get_ue (avs_reader_init (ptrOf [0, 0, 0, 0, 0]) 5)).1 = none ∧
    ((avs_reader_get_ue (avs_reader_init (ptrOf [0, 0, 0, 0, 0x80, 0, 0, 0, 0x80]) 9)).1 = none
      ↔ 32 < 32) :=
  ⟨init_delivers _ _ (by norm_num),
   (get_ue_failure (logicalBytes (ptrOf [0, 0, 0, 0, 0]) 5) _ 0
      (init_delivers _ _ (by norm_num))).1 (by decide) (by decide),
   (get_ue_failure (logicalBytes (ptrOf [0, 0, 0, 0, 0x80, 0, 0, 0, 0x80]) 9) _ 0
      (init_delivers _ _ (by norm_num))).2.1 32 (by decide) (by decide) (by decide)⟩

/-- C16: the signed mapping of `avs_reader_get_se`.  When the unsigned code
read by `avs_reader_get_ue` is `k`, with `k` below `2 ^ 32 - 1`, the call
returns TRUE with `k / 2 + 1` for odd `k` and `-(k / 2)` for even `k`, and
leaves the reader where `avs_reader_get_ue` leaves it. -/
theorem get_se_mapping (nr : CAVSReader) (k : Nat)
    (hue : (avs_reader_get_ue nr).1 = some k) (hk : k < 2 ^ 32 - 1) :
    (avs_reader_get_se nr).1
      = some (if k % 2 = 1 then ((k / 2 + 1 : Nat) : Int) else -((k / 2 : Nat) : Int)) ∧
    (avs_reader_get_se nr).2 = (avs_reader_get_ue nr).2 := by
  unfold avs_reader_get_se
  rcases hr : avs_reader_get_ue nr with ⟨v, nr1⟩
  rw [hr] at hue
  dsimp only at hue
  subst hue
  dsimp only
  by_cases c : k % 2 = 1
  · rw [if_pos (by omega), if_pos c]
    refine ⟨?_, rfl⟩
    dsimp only
    congr 1
    unfold toGint
    rw [if_pos (by omega)]
    omega
  · rw [if_neg (by omega), if_neg c]
    refine ⟨?_, rfl⟩
    dsimp only
    congr 1
    unfold toGint sub32
    split_ifs <;> omega

/-- Witness of C16: the codes of k = 0, ..., 10, each at the head of a
one-byte buffer, give 0, 1, -1, 2, -2, 3, -3, 4, -4, 5, -5. -/
theorem get_se_mapping_witness :
    (avs_reader_get_se (avs_reader_init (ptrOf [0x80]) 1)).1 = some 0 ∧
    (avs_reader_get_se (avs_reader_init (ptrOf [0x40]) 1)).1 = some 1 ∧
    (avs_reader_get_se (avs_reader_init (ptrOf [0x60]) 1)).1 = some (-1) ∧
    (avs_reader_get_se (avs_reader_init (ptrOf [0x20]) 1)).1 = some 2 ∧
    (avs_reader_get_se (avs_reader_init (ptrOf [0x28]) 1)).1 = some (-2) ∧
    (avs_reader_get_se (avs_reader_init (ptrOf [0x30]) 1)).1 = some 3 ∧
    (avs_reader_get_se (avs_reader_init (ptrOf [0x38]) 1)).1 = some (-3) ∧
    (avs_reader_get_se (avs_reader_init (ptrOf [0x10]) 1)).1 = some 4 ∧
    (avs_reader_get_se (avs_reader_init (ptrOf [0x12]) 1)).1 = some (-4) ∧
    (avs_reader_get_se (avs_reader_init (ptrOf [0x14]) 1)).1 = some 5 ∧
    (avs_reader_get_se (avs_reader_init (ptrOf [0x16]) 1)).1 = some (-5) :=
  ⟨(get_se_mapping _ 0 (by decide) (by decide)).1,
   (get_se_mapping _ 1 (by decide) (by decide)).1,
   (get_se_mapping _ 2 (by decide) (by decide)).1,
   (get_se_mapping _ 3 (by decide) (by decide)).1,
   (get_se_mapping _ 4 (by decide) (by decide)).1,
   (get_se_mapping _ 5 (by decide) (by decide)).1,
   (get_se_mapping _ 6 (by decide) (by decide)).1,
   (get_se_mapping _ 7 (by decide) (by decide)).1,
   (get_se_mapping _ 8 (by decide) (by decide)).1,
   (get_se_mapping _ 9 (by decide) (by decide)).1,
   (get_se_mapping _ 10 (by decide) (by decide)).1⟩

/-! ## Header parsers: statement lists -/

/-- A read of fewer bits than the width of the reading function returns a
value below `2 ^ nbits`. -/
theorem get_bits_lt (w : Nat) (nr : CAVSReader) (n v : Nat) (hn : n < w)
    (h : (avs_reader_get_bits w nr n).1 = some v) : v < 2 ^ n := by
  unfold avs_reader_get_bits at h
  rcases hr : avs_reader_read nr n with ⟨ok, nr1⟩
  rw [hr] at h
  cases ok with
  | false => simp at h
  | true =>
    dsimp only at h
    rw [if_pos hn] at h
    simp only [Option.some.injEq] at h
    rw [← h, Nat.shiftLeft_eq, Nat.one_mul]
    have hpos := Nat.two_pow_pos n
    have := @Nat.and_le_right
      ((shr_byte nr1.first_byte (sub32 nr1.bits_in_cache n) % 2 ^ w |||
        shl_u64 nr1.cache (sub32 8 (sub32 nr1.bits_in_cache n))) % 2 ^ w) (2 ^ n - 1)
    omega

theorem run_steps_read {H : Type} (bits nbits : Nat) (set : H → Nat → H)
    (rest : List (Step H)) (r : CAVSReader) (h : H) :
    run_steps (Step.READ_UINT bits nbits set :: rest) r h =
      match avs_reader_get_bits bits r nbits with
      | (none, _) => (GstCAVSVideoParserResult.ERROR, h)
      | (some v, r) => run_steps rest r (set h v) := rfl

theorem run_steps_marker {H : Type} (rest : List (Step H)) (r : CAVSReader) (h : H) :
    run_steps (Step.CHECK_MARKER_BIT :: rest) r h =
      match avs_reader_get_bits 8 r 1 with
      | (none, _) => (GstCAVSVideoParserResult.ERROR, h)
      | (some _, r) => run_steps rest r h := rfl

theorem run_steps_check {H : Type} (val : H → Nat) (min max : Nat)
    (rest : List (Step H)) (r : CAVSReader) (h : H) :
    run_steps (Step.CHECK_ALLOWED val min max :: rest) r h =
      if val h < min ∨ val h > max then (GstCAVSVideoParserResult.ERROR, h)
      else run_steps rest r h := rfl

theorem run_steps_assign {H : Type} (f : H → H) (rest : List (Step H)) (r : CAVSReader)
    (h : H) : run_steps (Step.assign f :: rest) r h = run_steps rest r (f h) := rfl

/-- On a stream that holds all the bits the statements take, running them on
the reader is evaluating them on the fields of the logical stream. -/
theorem run_steps_decode {H : Type} (L : List Byte) (steps : List (Step H)) :
    ∀ (r : CAVSReader) (a : Nat) (h : H), r.Delivers L a →
    (∀ s ∈ steps, s.sized = true) → a + steps_width steps ≤ 8 * L.length →
    run_steps steps r h = decode_steps steps L a h := by
  induction steps with
  | nil => intro r a h _ _ _; rfl
  | cons s rest ih =>
    intro r a h hd hs hw
    have hrest : ∀ s ∈ rest, s.sized = true := fun s hm => hs s (List.mem_cons_of_mem _ hm)
    have hs0 := hs s (List.mem_cons_self _ _)
    cases s with
    | READ_UINT bits nbits set =>
      simp only [Step.sized, decide_eq_true_eq] at hs0
      simp only [steps_width, Step.width] at hw
      obtain ⟨g1, g2, _, _⟩ :=
        (get_bits_at bits r L a nbits hs0.1 hs0.2.1 hs0.2.2 hd).1 (by omega)
      rw [run_steps_read]
      rcases hr : avs_reader_get_bits bits r nbits with ⟨v, r1⟩
      rw [hr] at g1 g2
      dsimp only at g1 g2
      subst g1
      dsimp only
      exact ih r1 (a + nbits) _ g2 hrest (by omega)
    | CHECK_ALLOWED val min max =>
      simp only [steps_width, Step.width] at hw
      rw [run_steps_check]
      simp only [decode_steps]
      by_cases c : val h < min ∨ val h > max
      · rw [if_pos c, if_pos c]
      · rw [if_neg c, if_neg c]
        exact ih r a h hd hrest (by omega)
    | CHECK_MARKER_BIT =>
      simp only [steps_width, Step.width] at hw
      obtain ⟨g1, g2, _, _⟩ :=
        (get_bits_at 8 r L a 1 (by norm_num) (by norm_num) (by norm_num) hd).1 (by omega)
      rw [run_steps_marker]
      rcases hr : avs_reader_get_bits 8 r 1 with ⟨v, r1⟩
      rw [hr] at g1 g2
      dsimp only at g1 g2
      subst g1
      dsimp only
      exact ih r1 (a + 1) _ g2 hrest (by omega)
    | assign f =>
      simp only [steps_width, Step.width] at hw
      rw [run_steps_assign]
      exact ih r a (f h) hd hrest (by omega)

/-- On a stream that lacks some of the bits the statements take, the run
ends at the `error:` label. -/
theorem run_steps_short {H : Type} (L : List Byte) (steps : List (Step H)) :
    ∀ (r : CAVSReader) (a : Nat) (h : H), r.Delivers L a →
    (∀ s ∈ steps, s.sized = true) → 8 * L.length < a + steps_width steps →
    (run_steps steps r h).1 = GstCAVSVideoParserResult.ERROR := by
  induction steps with
  | nil =>
    intro r a h hd _ hw
    have := hd.2.2.2.1
    simp only [steps_width] at hw
    omega
  | cons s rest ih =>
    intro r a h hd hs hw
    have hrest : ∀ s ∈ rest, s.sized = true := fun s hm => hs s (List.mem_cons_of_mem _ hm)
    have hs0 := hs s (List.mem_cons_self _ _)
    cases s with
    | READ_UINT bits nbits set =>
      simp only [Step.sized, decide_eq_true_eq] at hs0
      simp only [steps_width, Step.width] at hw
      have hg := get_bits_at bits r L a nbits hs0.1 hs0.2.1 hs0.2.2 hd
      rw [run_steps_read]
      by_cases c : a + nbits ≤ 8 * L.length
      · obtain ⟨g1, g2, _, _⟩ := hg.1 c
        rcases hr : avs_reader_get_bits bits r nbits with ⟨v, r1⟩
        rw [hr] at g1 g2
        dsimp only at g1 g2
        subst g1
        dsimp only
        exact ih r1 (a + nbits) _ g2 hrest (by omega)
      · have g1 := hg.2 (by omega)
        rcases hr : avs_reader_get_bits bits r nbits with ⟨v, r1⟩
        rw [hr] at g1
        dsimp only at g1
        subst g1
        rfl
    | CHECK_ALLOWED val min max =>
      simp only [steps_width, Step.width] at hw
      rw [run_steps_check]
      by_cases c : val h < min ∨ val h > max
      · rw [if_pos c]
      · rw [if_neg c]
        exact ih r a h hd hrest (by omega)
    | CHECK_MARKER_BIT =>
      simp only [steps_width, Step.width] at hw
      have hg := get_bits_at 8 r L a 1 (by norm_num) (by norm_num) (by norm_num) hd
      rw [run_steps_marker]
      by_cases c : a + 1 ≤ 8 * L.length
      · obtain ⟨g1, g2, _, _⟩ := hg.1 c
        rcases hr : avs_reader_get_bits 8 r 1 with ⟨v, r1⟩
        rw [hr] at g1 g2
        dsimp only at g1 g2
        subst g1
        dsimp only
        exact ih r1 (a + 1) _ g2 hrest (by omega)
      · have g1 := hg.2 (by omega)
        rcases hr : avs_reader_get_bits 8 r 1 with ⟨v, r1⟩
        rw [hr] at g1
        dsimp only at g1
        subst g1
        rfl
    | assign f =>
      simp only [steps_width, Step.width] at hw
      rw [run_steps_assign]
      exact ih r a (f h) hd hrest (by omega)

/-- A property established by `steps_wp` holds of the record of every
successful run. -/
theorem run_steps_wp {H : Type} (Q : H → Prop) (steps : List (Step H)) :
    ∀ (r : CAVSReader) (h : H), steps_wp steps Q h →
    (run_steps steps r h).1 = GstCAVSVideoParserResult.OK → Q (run_steps steps r h).2 := by
  induction steps with
  | nil => intro r h hq _; exact hq
  | cons s rest ih =>
    intro r h hq hok
    cases s with
    | READ_UINT bits nbits set =>
      rw [run_steps_read] at hok ⊢
      have hlt := get_bits_lt bits r nbits
      rcases hr : avs_reader_get_bits bits r nbits with ⟨v, r1⟩
      rw [hr] at hok hlt
      cases v with
      | none => simp at hok
      | some v =>
        dsimp only at hok ⊢
        exact ih r1 _ (hq v (fun hn => hlt v hn rfl)) hok
    | CHECK_ALLOWED val min max =>
      rw [run_steps_check] at hok ⊢
      by_cases c : val h < min ∨ val h > max
      · rw [if_pos c] at hok
        simp at hok
      · rw [if_neg c] at hok ⊢
        exact ih r h (hq c) hok
    | CHECK_MARKER_BIT =>
      rw [run_steps_marker] at hok ⊢
      rcases hr : avs_reader_get_bits 8 r 1 with ⟨v, r1⟩
      rw [hr] at hok
      cases v with
      | none => simp at hok
      | some v =>
        dsimp only at hok ⊢
        exact ih r1 h hq hok
    | assign f =>
      rw [run_steps_assign] at hok ⊢
      exact ih r (f h) hq hok

/-! ## Sequence header -/

theorem sequence_header_sized : ∀ s ∈ sequence_header_steps, s.sized = true := by
  decide

theorem sequence_header_width : steps_width sequence_header_steps = 109 := by
  decide

/-- The sequence header parser on a payload of fewer than `2 ^ 29` bytes with
logical content `L`: with at least 109 logical bits it evaluates its
statements on the fields of `L`; with fewer it returns `ERROR`. -/
theorem sequence_header_decode (unit : GstCAVSVideoUnit) (s0 : GstCAVSVideoSequenceHeader)
    (hsize : unit.size < 2 ^ 29) :
    (109 ≤ 8 * (logicalBytes (unit.data.shift unit.offset) unit.size).length →
      gst_cavs_video_parser_parse_sequence_header unit s0
        = decode_steps sequence_header_steps
            (logicalBytes (unit.data.shift unit.offset) unit.size) 0
            GstCAVSVideoSequenceHeader.zero) ∧
    (8 * (logicalBytes (unit.data.shift unit.offset) unit.size).length < 109 →
      (gst_cavs_video_parser_parse_sequence_header unit s0).1
        = GstCAVSVideoParserResult.ERROR) := by
  have hu : u32 unit.size = unit.size := Nat.mod_eq_of_lt (by omega)
  have hd := init_delivers (unit.data.shift unit.offset) unit.size hsize
  unfold gst_cavs_video_parser_parse_sequence_header
  rw [hu]
  constructor
  · intro h
    exact run_steps_decode _ _ _ 0 _ hd sequence_header_sized
      (by rw [sequence_header_width]; omega)
  · intro h
    exact run_steps_short _ _ _ 0 _ hd sequence_header_sized
      (by rw [sequence_header_width]; omega)

theorem sequence_header_decode_error (L : List Byte) :
    (decode_steps sequence_header_steps L 0 GstCAVSVideoSequenceHeader.zero).1
        = GstCAVSVideoParserResult.ERROR ↔
      (bitField L 47 3 = 0 ∨ bitField L 50 4 = 0 ∨
        bitField L 54 4 < 1 ∨ 8 < bitField L 54 4) := by
  have h1 : bitField L 47 3 < 2 ^ 3 := Nat.mod_lt _ (by norm_num)
  have h2 : bitField L 50 4 < 2 ^ 4 := Nat.mod_lt _ (by norm_num)
  simp only [sequence_header_steps, decode_steps, GstCAVSVideoSequenceHeader.zero,
    Nat.zero_add, Nat.reduceAdd]
  split_ifs with c1 c2 c3
  · simp only [true_iff]; omega
  · simp only [true_iff]; omega
  · simp only [true_iff]; omega
  · simp only [reduceCtorEq, false_iff]; omega

/-- The record of a successful evaluation of the sequence header statements,
field by field. -/
theorem sequence_header_decode_ok (L : List Byte)
    (hok : (decode_steps sequence_header_steps L 0 GstCAVSVideoSequenceHeader.zero).1
      = GstCAVSVideoParserResult.OK) :
    (decode_steps sequence_header_steps L 0 GstCAVSVideoSequenceHeader.zero).2 =
      { profile_id := bitField L 0 8
        level_id := bitField L 8 8
        progressive_sequence := bitField L 16 1
        horizontal_size := bitField L 17 14
        vertical_size := bitField L 31 14
        chroma_format := bitField L 45 2
        sample_precision := bitField L 47 3
        aspect_ratio := bitField L 50 4
        frame_rate_code := bitField L 54 4
        bit_rate_lower := bitField L 58 18
        bit_rate_upper := bitField L 77 12
        low_delay := bitField L 89 1
        bbv_buffer_size := bitField L 91 18
        fps_n := (frame_rates.getD (bitField L 54 4) (0, 0)).1
        fps_d := (frame_rates.getD (bitField L 54 4) (0, 0)).2
        bitrate := u32 ((bitField L 77 12 <<< 18) % 2 ^ 32 + bitField L 58 18)
        mb_width := (bitField L 17 14 + 15) / 16
        mb_height := (bitField L 31 14 + 15) / 16
        bitstream_buffer_size := u32 (16 * 1024 * bitField L 91 18) } := by
  revert hok
  simp only [sequence_header_steps, decode_steps, GstCAVSVideoSequenceHeader.zero,
    Nat.zero_add, Nat.reduceAdd]
  split_ifs with c1 c2 c3
  · intro hok; simp at hok
  · intro hok; simp at hok
  · intro hok; simp at hok
  · intro _; rfl

/-- C17: macroblock counts of the sequence header.  Whenever the parser
returns `OK` on a payload of fewer than `2 ^ 29` bytes, `horizontal_size` and
`vertical_size` are the 14 bit fields at logical payload bits 17..30 and
31..44, and `mb_width`, `mb_height` are these sizes divided by 16 and rounded
up: `(size + 15) / 16`, the least count `m` with `size ≤ 16 * m`. -/
theorem sequence_header_mb_size (unit : GstCAVSVideoUnit) (s0 : GstCAVSVideoSequenceHeader)
    (hsize : unit.size < 2 ^ 29)
    (hok : (gst_cavs_video_parser_parse_sequence_header unit s0).1
      = GstCAVSVideoParserResult.OK) :
    (gst_cavs_video_parser_parse_sequence_header unit s0).2.horizontal_size
      = bitField (logicalBytes (unit.data.shift unit.offset) unit.size) 17 14 ∧
    (gst_cavs_video_parser_parse_sequence_header unit s0).2.vertical_size
      = bitField (logicalBytes (unit.data.shift unit.offset) unit.size) 31 14 ∧
    (gst_cavs_video_parser_parse_sequence_header unit s0).2.mb_width
      = ((gst_cavs_video_parser_parse_sequence_header unit s0).2.horizontal_size + 15) / 16 ∧
    (gst_cavs_video_parser_parse_sequence_header unit s0).2.mb_height
      = ((gst_cavs_video_parser_parse_sequence_header unit s0).2.vertical_size + 15) / 16 ∧
    ((gst_cavs_video_parser_parse_sequence_header unit s0).2.horizontal_size
        ≤ 16 * (gst_cavs_video_parser_parse_sequence_header unit s0).2.mb_width ∧
      16 * (gst_cavs_video_parser_parse_sequence_header unit s0).2.mb_width
        < (gst_cavs_video_parser_parse_sequence_header unit s0).2.horizontal_size + 16) ∧
    ((gst_cavs_video_parser_parse_sequence_header unit s0).2.vertical_size
        ≤ 16 * (gst_cavs_video_parser_parse_sequence_header unit s0).2.mb_height ∧
      16 * (gst_cavs_video_parser_parse_sequence_header unit s0).2.mb_height
        < (gst_cavs_video_parser_parse_sequence_header unit s0).2.vertical_size + 16) := by
  obtain ⟨d1, d2⟩ := sequence_header_decode unit s0 hsize
  by_cases c : 109 ≤ 8 * (logicalBytes (unit.data.shift unit.offset) unit.size).length
  · have heq := d1 c
    rw [heq] at hok ⊢
    rw [sequence_header_decode_ok _ hok]
    dsimp only
    omega
  · have := d2 (by omega)
    rw [this] at hok
    simp at hok

/-- Witness of C17: profile 0x20, level 0x20, 720x480 gives `mb_width` 45 and
`mb_height` 30. -/
theorem sequence_header_mb_size_witness :
    (seq_unit_720x480.size < 2 ^ 29 ∧
      (gst_cavs_video_parser_parse_sequence_header seq_unit_720x480
        GstCAVSVideoSequenceHeader.zero).1 = GstCAVSVideoParserResult.OK) ∧
    ((gst_cavs_video_parser_parse_sequence_header seq_unit_720x480
        GstCAVSVideoSequenceHeader.zero).2.profile_id = 0x20 ∧
      (gst_cavs_video_parser_parse_sequence_header seq_unit_720x480
        GstCAVSVideoSequenceHeader.zero).2.level_id = 0x20 ∧
      (gst_cavs_video_parser_parse_sequence_header seq_unit_720x480
        GstCAVSVideoSequenceHeader.zero).2.horizontal_size = 720 ∧
      (gst_cavs_video_parser_parse_sequence_header seq_unit_720x480
        GstCAVSVideoSequenceHeader.zero).2.vertical_size = 480 ∧
      (gst_cavs_video_parser_parse_sequence_header seq_unit_720x480
        GstCAVSVideoSequenceHeader.zero).2.mb_width = 45 ∧
      (gst_cavs_video_parser_parse_sequence_header seq_unit_720x480
        GstCAVSVideoSequenceHeader.zero).2.mb_height = 30) ∧
    (gst_cavs_video_parser_parse_sequence_header seq_unit_720x480
        GstCAVSVideoSequenceHeader.zero).2.mb_width
      = ((gst_cavs_video_parser_parse_sequence_header seq_unit_720x480
        GstCAVSVideoSequenceHeader.zero).2.horizontal_size + 15) / 16 :=
  ⟨⟨by decide, by decide⟩, by decide,
   (sequence_header_mb_size seq_unit_720x480 GstCAVSVideoSequenceHeader.zero
      (by decide) (by decide)).2.2.1⟩

/-- C18: rejection of a sequence header.  On a payload of fewer than `2 ^ 29`
bytes that holds at least 109 logical bits, the parser returns `ERROR` if and
only if the 3 bit sample precision (logical bits 47..49) is 0, or the 4 bit
aspect ratio (bits 50..53) is 0, or the 4 bit frame rate code (bits 54..57)
lies outside `[1, 8]`; otherwise it returns `OK`. -/
theorem sequence_header_error_iff (unit : GstCAVSVideoUnit) (s0 : GstCAVSVideoSequenceHeader)
    (hsize : unit.size < 2 ^ 29)
    (hbits : 109 ≤ 8 * (logicalBytes (unit.data.shift unit.offset) unit.size).length) :
    ((gst_cavs_video_parser_parse_sequence_header unit s0).1 = GstCAVSVideoParserResult.ERROR ↔
      (bitField (logicalBytes (unit.data.shift unit.offset) unit.size) 47 3 = 0 ∨
        bitField (logicalBytes (unit.data.shift unit.offset) unit.size) 50 4 = 0 ∨
        bitField (logicalBytes (unit.data.shift unit.offset) unit.size) 54 4 < 1 ∨
        8 < bitField (logicalBytes (unit.data.shift unit.offset) unit.size) 54 4)) ∧
    ((gst_cavs_video_parser_parse_sequence_header unit s0).1 = GstCAVSVideoParserResult.ERROR ∨
      (gst_cavs_video_parser_parse_sequence_header unit s0).1 = GstCAVSVideoParserResult.OK) := by
  rw [(sequence_header_decode unit s0 hsize).1 hbits]
  refine ⟨sequence_header_decode_error _, ?_⟩
  simp only [sequence_header_steps, decode_steps, GstCAVSVideoSequenceHeader.zero,
    Nat.zero_add, Nat.reduceAdd]
  split_ifs
  · exact Or.inl rfl
  · exact Or.inl rfl
  · exact Or.inl rfl
  · exact Or.inr rfl

/-- Witness of C18: the 14 byte payload of `seq_unit_precision_0`, whose
sample precision is 0, is rejected. -/
theorem sequence_header_error_iff_witness :
    (seq_unit_precision_0.size < 2 ^ 29 ∧
      109 ≤ 8 * (logicalBytes (seq_unit_precision_0.data.shift seq_unit_precision_0.offset)
        seq_unit_precision_0.size).length ∧
      bitField (logicalBytes (seq_unit_precision_0.data.shift seq_unit_precision_0.offset)
        seq_unit_precision_0.size) 47 3 = 0) ∧
    (gst_cavs_video_parser_parse_sequence_header seq_unit_precision_0
      GstCAVSVideoSequenceHeader.zero).1 = GstCAVSVideoParserResult.ERROR :=
  ⟨⟨by decide, by decide, by decide⟩,
   (sequence_header_error_iff seq_unit_precision_0 GstCAVSVideoSequenceHeader.zero
      (by decide) (by decide)).1.2 (Or.inl (by decide))⟩

/-- C19: frame rate of the sequence header.  Whenever the parser returns `OK`,
`frame_rate_code` lies in `[1, 8]` and `(fps_n, fps_d)` is the entry of
`frame_rates` for that code: 1 gives 24000/1001, 2 gives 24/1, 3 gives 25/1,
4 gives 30000/1001, 5 gives 30/1, 6 gives 50/1, 7 gives 60000/1001, 8 gives
60/1; so `fps_d` is not 0 and the forbidden entry is not returned. -/
theorem sequence_header_frame_rate (unit : GstCAVSVideoUnit) (s0 : GstCAVSVideoSequenceHeader)
    (hok : (gst_cavs_video_parser_parse_sequence_header unit s0).1
      = GstCAVSVideoParserResult.OK) :
    (1 ≤ (gst_cavs_video_parser_parse_sequence_header unit s0).2.frame_rate_code ∧
      (gst_cavs_video_parser_parse_sequence_header unit s0).2.frame_rate_code ≤ 8) ∧
    ((gst_cavs_video_parser_parse_sequence_header unit s0).2.fps_n,
        (gst_cavs_video_parser_parse_sequence_header unit s0).2.fps_d)
      = frame_rates.getD
          (gst_cavs_video_parser_parse_sequence_header unit s0).2.frame_rate_code (0, 0) ∧
    ((gst_cavs_video_parser_parse_sequence_header unit s0).2.fps_n,
        (gst_cavs_video_parser_parse_sequence_header unit s0).2.fps_d)
      = [(24000, 1001), (24, 1), (25, 1), (30000, 1001), (30, 1), (50, 1), (60000, 1001),
          (60, 1)].getD
          ((gst_cavs_video_parser_parse_sequence_header unit s0).2.frame_rate_code - 1) (0, 0) ∧
    (gst_cavs_video_parser_parse_sequence_header unit s0).2.fps_d ≠ 0 ∧
    (gst_cavs_video_parser_parse_sequence_header unit s0).2.fps_n ≠ 0 := by
  refine run_steps_wp
    (fun s => (1 ≤ s.frame_rate_code ∧ s.frame_rate_code ≤ 8) ∧
      (s.fps_n, s.fps_d) = frame_rates.getD s.frame_rate_code (0, 0) ∧
      (s.fps_n, s.fps_d)
        = [(24000, 1001), (24, 1), (25, 1), (30000, 1001), (30, 1), (50, 1), (60000, 1001),
            (60, 1)].getD (s.frame_rate_code - 1) (0, 0) ∧
      s.fps_d ≠ 0 ∧ s.fps_n ≠ 0)
    sequence_header_steps _ _ ?_ hok
  simp only [sequence_header_steps, steps_wp]
  intro v1 _ v2 _ v3 _ v4 _ v5 _ v6 _ v7 _ _ v8 _ _ v9 _ hc v10 _ v11 _ v12 _ v13 _
  have h1 : 1 ≤ v9 := by omega
  have h8 : v9 ≤ 8 := by omega
  interval_cases v9 <;> simp [frame_rates]

/-- Witness of C19: the unit `seq_unit_720x480` carries frame rate code 3 and
parses to 25/1. -/
theorem sequence_header_frame_rate_witness :
    (gst_cavs_video_parser_parse_sequence_header seq_unit_720x480
      GstCAVSVideoSequenceHeader.zero).1 = GstCAVSVideoParserResult.OK ∧
    ((gst_cavs_video_parser_parse_sequence_header seq_unit_720x480
        GstCAVSVideoSequenceHeader.zero).2.frame_rate_code = 3 ∧
      (gst_cavs_video_parser_parse_sequence_header seq_unit_720x480
        GstCAVSVideoSequenceHeader.zero).2.fps_n = 25 ∧
      (gst_cavs_video_parser_parse_sequence_header seq_unit_720x480
        GstCAVSVideoSequenceHeader.zero).2.fps_d = 1) ∧
    (gst_cavs_video_parser_parse_sequence_header seq_unit_720x480
        GstCAVSVideoSequenceHeader.zero).2.fps_d ≠ 0 :=
  ⟨by decide, by decide,
   (sequence_header_frame_rate seq_unit_720x480 GstCAVSVideoSequenceHeader.zero
      (by decide)).2.2.2.1⟩

/-- C20: bit rate of the sequence header.  Whenever the parser returns `OK`,
`bit_rate_lower` is below `2 ^ 18`, `bit_rate_upper` is below `2 ^ 12`, and
`bitrate` is exactly `bit_rate_upper * 2 ^ 18 + bit_rate_lower`, a value below
`2 ^ 30`: the 32 bit sum does not wrap. -/
theorem sequence_header_bitrate (unit : GstCAVSVideoUnit) (s0 : GstCAVSVideoSequenceHeader)
    (hok : (gst_cavs_video_parser_parse_sequence_header unit s0).1
      = GstCAVSVideoParserResult.OK) :
    (gst_cavs_video_parser_parse_sequence_header unit s0).2.bit_rate_lower < 2 ^ 18 ∧
    (gst_cavs_video_parser_parse_sequence_header unit s0).2.bit_rate_upper < 2 ^ 12 ∧
    (gst_cavs_video_parser_parse_sequence_header unit s0).2.bitrate
      = (gst_cavs_video_parser_parse_sequence_header unit s0).2.bit_rate_upper * 2 ^ 18
        + (gst_cavs_video_parser_parse_sequence_header unit s0).2.bit_rate_lower ∧
    (gst_cavs_video_parser_parse_sequence_header unit s0).2.bitrate < 2 ^ 30 := by
  refine run_steps_wp
    (fun s => s.bit_rate_lower < 2 ^ 18 ∧ s.bit_rate_upper < 2 ^ 12 ∧
      s.bitrate = s.bit_rate_upper * 2 ^ 18 + s.bit_rate_lower ∧ s.bitrate < 2 ^ 30)
    sequence_header_steps _ _ ?_ hok
  simp only [sequence_header_steps, steps_wp]
  intro v1 _ v2 _ v3 _ v4 _ v5 _ v6 _ v7 _ _ v8 _ _ v9 _ _ v10 h10 v11 h11 v12 _ v13 _
  have hl := h10 (by norm_num)
  have hu := h11 (by norm_num)
  rw [Nat.shiftLeft_eq]
  unfold u32
  omega

/-- Witness of C20: the unit `seq_unit_720x480` carries the bit rate fields 3
and 5000 and parses to the bit rate `3 * 2 ^ 18 + 5000`. -/
theorem sequence_header_bitrate_witness :
    (gst_cavs_video_parser_parse_sequence_header seq_unit_720x480
      GstCAVSVideoSequenceHeader.zero).1 = GstCAVSVideoParserResult.OK ∧
    ((gst_cavs_video_parser_parse_sequence_header seq_unit_720x480
        GstCAVSVideoSequenceHeader.zero).2.bit_rate_upper = 3 ∧
      (gst_cavs_video_parser_parse_sequence_header seq_unit_720x480
        GstCAVSVideoSequenceHeader.zero).2.bit_rate_lower = 5000 ∧
      (gst_cavs_video_parser_parse_sequence_header seq_unit_720x480
        GstCAVSVideoSequenceHeader.zero).2.bitrate = 791432) ∧
    (gst_cavs_video_parser_parse_sequence_header seq_unit_720x480
        GstCAVSVideoSequenceHeader.zero).2.bitrate < 2 ^ 30 :=
  ⟨by decide, by decide,
   (sequence_header_bitrate seq_unit_720x480 GstCAVSVideoSequenceHeader.zero
      (by decide)).2.2.2⟩

/-! ## Statement trees -/

/-- A read through the function of width `w` returns a value below `2 ^ w`. -/
theorem get_bits_lt_width (w : Nat) (nr : CAVSReader) (n v : Nat)
    (h : (avs_reader_get_bits w nr n).1 = some v) : v < 2 ^ w := by
  unfold avs_reader_get_bits at h
  rcases hr : avs_reader_read nr n with ⟨ok, nr1⟩
  rw [hr] at h
  cases ok with
  | false => simp at h
  | true =>
    dsimp only at h
    simp only [Option.some.injEq] at h
    rw [← h]
    have hpos := Nat.two_pow_pos w
    split_ifs
    · exact Nat.lt_of_le_of_lt Nat.and_le_left (Nat.mod_lt _ hpos)
    · exact Nat.mod_lt _ hpos

/-- A value returned by `avs_reader_get_ue` fits 32 bits. -/
theorem get_ue_lt (nr : CAVSReader) (v : Nat) (h : (avs_reader_get_ue nr).1 = some v) :
    v < 2 ^ 32 := by
  rw [get_ue_eq] at h
  rcases hr : avs_reader_get_bits 8 nr 1 with ⟨b, nr1⟩
  rw [hr] at h
  cases b with
  | none => simp at h
  | some bit =>
    dsimp only at h
    rcases hl : (if bit = 0 then
        avs_reader_get_ue_loop ((nr1.size - nr1.byte) * 8 + nr1.bits_in_cache) nr1 0
      else (some 0, nr1)) with ⟨i, nr2⟩
    rw [hl] at h
    cases i with
    | none => simp at h
    | some i =>
      dsimp only at h
      split_ifs at h with c
      · rcases hx : avs_reader_get_bits 32 nr2 i with ⟨x, nr3⟩
        rw [hx] at h
        cases x with
        | none => simp at h
        | some x =>
          simp only [Option.some.injEq] at h
          rw [← h]
          exact Nat.mod_lt _ (by norm_num)

/-- `avs_reader_skip` moves the reader as a read of the same width does. -/
theorem skip_eq_get_bits (w : Nat) (nr : CAVSReader) (n : Nat) :
    avs_reader_skip nr n =
      ((avs_reader_get_bits w nr n).1.isSome, (avs_reader_get_bits w nr n).2) := by
  unfold avs_reader_skip avs_reader_get_bits
  rcases avs_reader_read nr n with ⟨ok, nr1⟩
  cases ok <;> rfl

/-- A property established by `Stmt.wp` holds of the record of every
successful execution; an execution ends with `OK` or `ERROR`. -/
theorem exec_wp {H : Type} (s : Stmt H) : ∀ (Q : H → Prop) (r : CAVSReader) (h : H),
    s.wp Q h → (exec s r h).1 = GstCAVSVideoParserResult.OK → Q (exec s r h).2.1 := by
  induction s with
  | READ_UINT bits nbits set =>
    intro Q r h hq hok
    simp only [exec] at hok ⊢
    have h1 := get_bits_lt bits r nbits
    have h2 := get_bits_lt_width bits r nbits
    rcases hr : avs_reader_get_bits bits r nbits with ⟨v, r1⟩
    rw [hr] at hok h1 h2
    cases v with
    | none => simp at hok
    | some v => exact hq v (fun hn => h1 v hn rfl) (h2 v rfl)
  | READ_INT bits nbits base set =>
    intro Q r h hq hok
    simp only [exec] at hok ⊢
    have h1 := get_bits_lt bits r nbits
    have h2 := get_bits_lt_width bits r nbits
    rcases hr : avs_reader_get_bits bits r nbits with ⟨v, r1⟩
    rw [hr] at hok h1 h2
    cases v with
    | none => simp at hok
    | some v => exact hq v (fun hn => h1 v hn rfl) (h2 v rfl)
  | READ_UE set =>
    intro Q r h hq hok
    simp only [exec] at hok ⊢
    have h1 := get_ue_lt r
    rcases hr : avs_reader_get_ue r with ⟨v, r1⟩
    rw [hr] at hok h1
    cases v with
    | none => simp at hok
    | some v => exact hq v (h1 v rfl)
  | READ_SE set =>
    intro Q r h hq hok
    simp only [exec] at hok ⊢
    rcases hr : avs_reader_get_se r with ⟨v, r1⟩
    rw [hr] at hok
    cases v with
    | none => simp at hok
    | some v => exact hq v
  | READ_SE_ALLOWED min max set =>
    intro Q r h hq hok
    simp only [exec] at hok ⊢
    rcases hr : avs_reader_get_se r with ⟨v, r1⟩
    rw [hr] at hok
    cases v with
    | none => simp at hok
    | some v =>
      dsimp only at hok ⊢
      by_cases c : v < min ∨ v > max
      · rw [if_pos c] at hok
        simp at hok
      · rw [if_neg c]
        exact hq v (by omega) (by omega)
  | SKIP nbits =>
    intro Q r h hq hok
    simp only [exec] at hok ⊢
    rcases hr : avs_reader_skip r nbits with ⟨ok, r1⟩
    rw [hr] at hok
    cases ok with
    | false => simp at hok
    | true => exact hq
  | CHECK_ALLOWED val min max =>
    intro Q r h hq hok
    simp only [exec] at hok ⊢
    by_cases c : val h < min ∨ val h > max
    · rw [if_pos c] at hok
      simp at hok
    · rw [if_neg c]
      exact hq c
  | CHECK_MARKER_BIT =>
    intro Q r h hq hok
    simp only [exec] at hok ⊢
    rcases hr : avs_reader_get_bits_uint8 r 1 with ⟨v, r1⟩
    rw [hr] at hok
    cases v with
    | none => simp at hok
    | some v => exact hq
  | assign f =>
    intro Q r h hq _
    exact hq
  | seq s t ihs iht =>
    intro Q r h hq hok
    simp only [exec] at hok ⊢
    have hs := ihs (Stmt.wp t Q) r h hq
    rcases hr : exec s r h with ⟨res, h1, r1⟩
    rw [hr] at hok hs
    cases res with
    | OK => exact iht Q r1 h1 (hs rfl) hok
    | NO_UNIT => simp at hok
    | NO_UNIT_END => simp at hok
    | ERROR => simp at hok
  | ite c s t ihs iht =>
    intro Q r h hq hok
    simp only [exec] at hok ⊢
    by_cases cc : c h = true
    · rw [if_pos cc] at hok ⊢
      exact ihs Q r h (hq.1 cc) hok
    · rw [if_neg cc] at hok ⊢
      exact iht Q r h (hq.2 (by simpa using cc)) hok
  | nop =>
    intro Q r h hq _
    exact hq

/-- A fixed-width read statement on a reader at bit `a` of the logical
stream. -/
theorem exec_read_at {H : Type} (L : List Byte) (w n : Nat) (r : CAVSReader) (a : Nat)
    (hd : r.Delivers L a) (hw8 : 8 ≤ w) (hw : w ≤ 64) (hn : n ≤ w) (h : H)
    (f : Nat → H) :
    ((match avs_reader_get_bits w r n with
        | (none, r) => (GstCAVSVideoParserResult.ERROR, h, r)
        | (some v, r) => (GstCAVSVideoParserResult.OK, f v, r)).1
      = (if a + n ≤ 8 * L.length then
          (GstCAVSVideoParserResult.OK, f (bitField L a n), a + n)
        else (GstCAVSVideoParserResult.ERROR, h, a)).1) ∧
    ((match avs_reader_get_bits w r n with
        | (none, r) => (GstCAVSVideoParserResult.ERROR, h, r)
        | (some v, r) => (GstCAVSVideoParserResult.OK, f v, r)).2.1
      = (if a + n ≤ 8 * L.length then
          (GstCAVSVideoParserResult.OK, f (bitField L a n), a + n)
        else (GstCAVSVideoParserResult.ERROR, h, a)).2.1) ∧
    ((if a + n ≤ 8 * L.length then
          (GstCAVSVideoParserResult.OK, f (bitField L a n), a + n)
        else (GstCAVSVideoParserResult.ERROR, h, a)).1 = GstCAVSVideoParserResult.OK →
      (match avs_reader_get_bits w r n with
        | (none, r) => (GstCAVSVideoParserResult.ERROR, h, r)
        | (some v, r) => (GstCAVSVideoParserResult.OK, f v, r)).2.2.Delivers L
        (if a + n ≤ 8 * L.length then
          (GstCAVSVideoParserResult.OK, f (bitField L a n), a + n)
        else (GstCAVSVideoParserResult.ERROR, h, a)).2.2) := by
  have hg := get_bits_at w r L a n hw8 hw hn hd
  by_cases c : a + n ≤ 8 * L.length
  · obtain ⟨g1, g2, _, _⟩ := hg.1 c
    rw [if_pos c]
    rcases hr : avs_reader_get_bits w r n with ⟨v, r1⟩
    rw [hr] at g1 g2
    dsimp only at g1 g2
    subst g1
    exact ⟨rfl, rfl, fun _ => g2⟩
  · have g1 := hg.2 (by omega)
    rw [if_neg c]
    rcases hr : avs_reader_get_bits w r n with ⟨v, r1⟩
    rw [hr] at g1
    dsimp only at g1
    subst g1
    refine ⟨rfl, rfl, fun hh => ?_⟩
    simp at hh

/-- On a reader at bit `a` of the logical stream `L`, executing a statement
of fixed-width reads is evaluating it on the fields of `L`: same result, same
record, and after `OK` the reader stands at the position reached. -/
theorem exec_decode {H : Type} (L : List Byte) (s : Stmt H) :
    ∀ (r : CAVSReader) (a : Nat) (h : H), r.Delivers L a → s.sized = true →
    (exec s r h).1 = (s.decode L a h).1 ∧ (exec s r h).2.1 = (s.decode L a h).2.1 ∧
    ((s.decode L a h).1 = GstCAVSVideoParserResult.OK →
      (exec s r h).2.2.Delivers L (s.decode L a h).2.2) := by
  induction s with
  | READ_UINT bits nbits set =>
    intro r a h hd hs
    simp only [Stmt.sized, decide_eq_true_eq] at hs
    simp only [exec, Stmt.decode]
    exact exec_read_at L bits nbits r a hd hs.1 hs.2.1 hs.2.2 h (fun v => set h v)
  | READ_INT bits nbits base set =>
    intro r a h hd hs
    simp only [Stmt.sized, decide_eq_true_eq] at hs
    simp only [exec, Stmt.decode]
    exact exec_read_at L bits nbits r a hd hs.1 hs.2.1 hs.2.2 h
      (fun v => set h (read_int_value bits base nbits v))
  | READ_UE set => intro r a h _ hs; simp [Stmt.sized] at hs
  | READ_SE set => intro r a h _ hs; simp [Stmt.sized] at hs
  | READ_SE_ALLOWED min max set => intro r a h _ hs; simp [Stmt.sized] at hs
  | SKIP nbits =>
    intro r a h hd hs
    simp only [Stmt.sized, decide_eq_true_eq] at hs
    simp only [exec, Stmt.decode]
    have := exec_read_at L 64 nbits r a hd (by norm_num) (by norm_num) hs h (fun _ => h)
    rw [skip_eq_get_bits 64]
    rcases hr : avs_reader_get_bits 64 r nbits with ⟨v, r1⟩
    rw [hr] at this
    cases v with
    | none => exact this
    | some v => exact this
  | CHECK_ALLOWED val min max =>
    intro r a h hd _
    simp only [exec, Stmt.decode]
    by_cases c : val h < min ∨ val h > max
    · rw [if_pos c, if_pos c]
      refine ⟨rfl, rfl, fun hh => ?_⟩
      simp at hh
    · rw [if_neg c, if_neg c]
      exact ⟨rfl, rfl, fun _ => hd⟩
  | CHECK_MARKER_BIT =>
    intro r a h hd _
    simp only [exec, Stmt.decode, avs_reader_get_bits_uint8]
    exact exec_read_at L 8 1 r a hd (by norm_num) (by norm_num) (by norm_num) h (fun _ => h)
  | assign f =>
    intro r a h hd _
    exact ⟨rfl, rfl, fun _ => hd⟩
  | seq s t ihs iht =>
    intro r a h hd hs
    simp only [Stmt.sized, Bool.and_eq_true] at hs
    obtain ⟨e1, e2, e3⟩ := ihs r a h hd hs.1
    simp only [exec, Stmt.decode]
    rcases he : exec s r h with ⟨res, h1, r1⟩
    rcases hdc : Stmt.decode s L a h with ⟨res', h1', a1⟩
    rw [he, hdc] at e1 e2 e3
    dsimp only at e1 e2 e3
    subst e1 e2
    cases res with
    | OK => exact iht r1 a1 h1 (e3 rfl) hs.2
    | NO_UNIT => exact ⟨rfl, rfl, fun hh => by simp at hh⟩
    | NO_UNIT_END => exact ⟨rfl, rfl, fun hh => by simp at hh⟩
    | ERROR => exact ⟨rfl, rfl, fun hh => by simp at hh⟩
  | ite c s t ihs iht =>
    intro r a h hd hs
    simp only [Stmt.sized, Bool.and_eq_true] at hs
    simp only [exec, Stmt.decode]
    by_cases cc : c h = true
    · rw [if_pos cc, if_pos cc]
      exact ihs r a h hd hs.1
    · rw [if_neg cc, if_neg cc]
      exact iht r a h hd hs.2
  | nop =>
    intro r a h hd _
    exact ⟨rfl, rfl, fun _ => hd⟩

/-! ## Sequence header: buffer size and marker bits -/

/-- C21: buffer size of the sequence header.  Whenever the parser returns
`OK`, `bbv_buffer_size` is an 18 bit value and `bitstream_buffer_size` is
exactly `16384 * bbv_buffer_size`, below `2 ^ 32`: the 32 bit product does not
wrap. -/
theorem sequence_header_buffer_size (unit : GstCAVSVideoUnit) (s0 : GstCAVSVideoSequenceHeader)
    (hok : (gst_cavs_video_parser_parse_sequence_header unit s0).1
      = GstCAVSVideoParserResult.OK) :
    (gst_cavs_video_parser_parse_sequence_header unit s0).2.bbv_buffer_size < 2 ^ 18 ∧
    (gst_cavs_video_parser_parse_sequence_header unit s0).2.bitstream_buffer_size
      = 16384 * (gst_cavs_video_parser_parse_sequence_header unit s0).2.bbv_buffer_size ∧
    (gst_cavs_video_parser_parse_sequence_header unit s0).2.bitstream_buffer_size < 2 ^ 32 := by
  refine run_steps_wp
    (fun s => s.bbv_buffer_size < 2 ^ 18 ∧ s.bitstream_buffer_size = 16384 * s.bbv_buffer_size ∧
      s.bitstream_buffer_size < 2 ^ 32)
    sequence_header_steps _ _ ?_ hok
  simp only [sequence_header_steps, steps_wp]
  intro v1 _ v2 _ v3 _ v4 _ v5 _ v6 _ v7 _ _ v8 _ _ v9 _ _ v10 _ v11 _ v12 _ v13 h13
  have hb := h13 (by norm_num)
  unfold u32
  omega

/-- Witness of C21: the unit `seq_unit_720x480` carries the buffer size code
100 and parses to 1638400 bytes. -/
theorem sequence_header_buffer_size_witness :
    (gst_cavs_video_parser_parse_sequence_header seq_unit_720x480
      GstCAVSVideoSequenceHeader.zero).1 = GstCAVSVideoParserResult.OK ∧
    ((gst_cavs_video_parser_parse_sequence_header seq_unit_720x480
        GstCAVSVideoSequenceHeader.zero).2.bbv_buffer_size = 100 ∧
      (gst_cavs_video_parser_parse_sequence_header seq_unit_720x480
        GstCAVSVideoSequenceHeader.zero).2.bitstream_buffer_size = 1638400) ∧
    (gst_cavs_video_parser_parse_sequence_header seq_unit_720x480
        GstCAVSVideoSequenceHeader.zero).2.bitstream_buffer_size
      = 16384 * (gst_cavs_video_parser_parse_sequence_header seq_unit_720x480
        GstCAVSVideoSequenceHeader.zero).2.bbv_buffer_size :=
  ⟨by decide, by decide,
   (sequence_header_buffer_size seq_unit_720x480 GstCAVSVideoSequenceHeader.zero
      (by decide)).2.1⟩

/-- A field extended by one bit. -/
theorem bitField_succ (L : List Byte) (a n : Nat) (han : a + n + 1 ≤ 8 * L.length) :
    bitField L a (n + 1) = 2 * bitField L a n + bitField L (a + n) 1 := by
  unfold bitField
  have he : 8 * L.length - (a + n) = (8 * L.length - (a + (n + 1))) + 1 := by omega
  have he2 : 8 * L.length - (a + n + 1) = 8 * L.length - (a + (n + 1)) := by omega
  have hp : (2 : Nat) ^ (8 * L.length - (a + (n + 1)) + 1)
      = 2 ^ (8 * L.length - (a + (n + 1))) * 2 := Nat.pow_succ _ _
  rw [he, he2, hp, ← Nat.div_div_eq_div_mul]
  generalize beValue L / 2 ^ (8 * L.length - (a + (n + 1))) = X
  rw [Nat.pow_succ 2 n, Nat.mul_comm (2 ^ n) 2, Nat.mod_mul, Nat.pow_one]
  omega

/-- Two byte lists of one length with equal bits over `[a, a + n)` have equal
fields there. -/
theorem bitField_bits_eq (L L' : List Byte) (hlen : L.length = L'.length) (a n : Nat)
    (han : a + n ≤ 8 * L.length)
    (h : ∀ j, a ≤ j → j < a + n → bitField L j 1 = bitField L' j 1) :
    bitField L a n = bitField L' a n := by
  induction n with
  | zero => simp [bitField, Nat.mod_one]
  | succ n ih =>
    rw [bitField_succ L a n (by omega), bitField_succ L' a n (by omega),
      ih (by omega) (fun j h1 h2 => h j h1 (by omega)), h (a + n) (by omega) (by omega)]

/-- The evaluation of the sequence header statements depends on the logical
stream through its thirteen fields only. -/
theorem sequence_header_decode_congr (L L' : List Byte)
    (h : ∀ f ∈ [(0, 8), (8, 8), (16, 1), (17, 14), (31, 14), (45, 2), (47, 3), (50, 4), (54, 4),
      (58, 18), (77, 12), (89, 1), (91, 18)], bitField L f.1 f.2 = bitField L' f.1 f.2) :
    decode_steps sequence_header_steps L 0 GstCAVSVideoSequenceHeader.zero
      = decode_steps sequence_header_steps L' 0 GstCAVSVideoSequenceHeader.zero := by
  simp only [List.mem_cons, List.mem_singleton, forall_eq_or_imp, forall_eq,
    List.not_mem_nil, false_implies, implies_true, and_true] at h
  obtain ⟨h1, h2, h3, h4, h5, h6, h7, h8, h9, h10, h11, h12, h13⟩ := h
  simp only [sequence_header_steps, decode_steps, GstCAVSVideoSequenceHeader.zero,
    Nat.zero_add, Nat.reduceAdd, h1, h2, h3, h4, h5, h6, h7, h8, h9, h10, h11, h12, h13]

/-- C22: marker bits of the sequence header are not checked.  Let two
payloads of one size below `2 ^ 29` bytes hold no emulation prevention byte
(the reader delivers the payload bytes themselves) and agree in every bit but
bits 76 and 90.  If the parser returns `OK` on the first, it returns `OK` on
the second with the identical record. -/
theorem marker_bits_ignored (unit unit' : GstCAVSVideoUnit)
    (s0 s0' : GstCAVSVideoSequenceHeader)
    (hsize : unit.size < 2 ^ 29) (hsame : unit'.size = unit.size)
    (hp : logicalBytes (unit.data.shift unit.offset) unit.size
      = bufferBytes (unit.data.shift unit.offset) 0 unit.size)
    (hp' : logicalBytes (unit'.data.shift unit'.offset) unit'.size
      = bufferBytes (unit'.data.shift unit'.offset) 0 unit'.size)
    (hbits : ∀ j, j < 8 * unit.size → j ≠ 76 → j ≠ 90 →
      bitField (bufferBytes (unit.data.shift unit.offset) 0 unit.size) j 1
        = bitField (bufferBytes (unit'.data.shift unit'.offset) 0 unit'.size) j 1)
    (hok : (gst_cavs_video_parser_parse_sequence_header unit s0).1
      = GstCAVSVideoParserResult.OK) :
    gst_cavs_video_parser_parse_sequence_header unit' s0'
      = gst_cavs_video_parser_parse_sequence_header unit s0 := by
  obtain ⟨d1, d2⟩ := sequence_header_decode unit s0 hsize
  obtain ⟨d1', _⟩ := sequence_header_decode unit' s0' (by omega)
  rw [hp] at d1 d2
  rw [hp'] at d1'
  have hl : (bufferBytes (unit.data.shift unit.offset) 0 unit.size).length = unit.size :=
    bufferBytes_length _ _ _
  have hl' : (bufferBytes (unit'.data.shift unit'.offset) 0 unit'.size).length = unit.size := by
    rw [bufferBytes_length, hsame]
  have h109 : 109 ≤ 8 * unit.size := by
    by_contra c
    have := d2 (by rw [hl]; omega)
    rw [this] at hok
    simp at hok
  rw [d1 (by rw [hl]; exact h109), d1' (by rw [hl']; exact h109)]
  symm
  apply sequence_header_decode_congr
  intro f hf
  simp only [List.mem_cons, List.mem_singleton, List.not_mem_nil, or_false] at hf
  apply bitField_bits_eq _ _ (by rw [hl, hl'])
  · rw [hl]
    rcases hf with h | h | h | h | h | h | h | h | h | h | h | h | h <;> subst h <;>
      dsimp only <;> omega
  · intro j h1 h2
    apply hbits j
    · rcases hf with h | h | h | h | h | h | h | h | h | h | h | h | h <;> subst h <;>
        dsimp only at h1 h2 <;> omega
    · rcases hf with h | h | h | h | h | h | h | h | h | h | h | h | h <;> subst h <;>
        dsimp only at h1 h2 <;> omega
    · rcases hf with h | h | h | h | h | h | h | h | h | h | h | h | h <;> subst h <;>
        dsimp only at h1 h2 <;> omega

/-- Witness of C22: `seq_unit_markers_cleared` is `seq_unit_720x480` with both
marker bits cleared and parses to the same record. -/
theorem marker_bits_ignored_witness :
    (seq_unit_720x480.size < 2 ^ 29 ∧ seq_unit_markers_cleared.size = seq_unit_720x480.size ∧
      bitField (bufferBytes (seq_unit_markers_cleared.data.shift
        seq_unit_markers_cleared.offset) 0 seq_unit_markers_cleared.size) 76 1 = 0 ∧
      bitField (bufferBytes (seq_unit_markers_cleared.data.shift
        seq_unit_markers_cleared.offset) 0 seq_unit_markers_cleared.size) 90 1 = 0 ∧
      (gst_cavs_video_parser_parse_sequence_header seq_unit_720x480
        GstCAVSVideoSequenceHeader.zero).1 = GstCAVSVideoParserResult.OK) ∧
    gst_cavs_video_parser_parse_sequence_header seq_unit_markers_cleared
        GstCAVSVideoSequenceHeader.zero
      = gst_cavs_video_parser_parse_sequence_header seq_unit_720x480
        GstCAVSVideoSequenceHeader.zero :=
  ⟨⟨by decide, by decide, by decide, by decide, by decide⟩,
   marker_bits_ignored seq_unit_720x480 seq_unit_markers_cleared
     GstCAVSVideoSequenceHeader.zero GstCAVSVideoSequenceHeader.zero
     (by decide) (by decide) (by decide) (by decide) (by decide) (by decide)⟩

/-! ## Extension data -/

theorem exec_read_reader {H : Type} (bits nbits : Nat) (set : H → Nat → H) (r : CAVSReader)
    (h : H) : (exec (Stmt.READ_UINT bits nbits set) r h).2.2 = (avs_reader_get_bits bits r nbits).2 := by
  simp only [exec]
  rcases avs_reader_get_bits bits r nbits with ⟨v, r1⟩
  cases v <;> rfl

/-- The read of the extension tag on a reader at the start of the logical
stream. -/
theorem extension_tag_read (L : List Byte) (r : CAVSReader) (ext : GstCAVSVideoExtensionData)
    (hd : r.Delivers L 0) :
    (8 * L.length < 4 →
      (exec (Stmt.READ_UINT 8 4 (fun e v => { e with type := v })) r ext).1
          = GstCAVSVideoParserResult.ERROR ∧
        (exec (Stmt.READ_UINT 8 4 (fun e v => { e with type := v })) r ext).2.1 = ext) ∧
    (4 ≤ 8 * L.length →
      (exec (Stmt.READ_UINT 8 4 (fun e v => { e with type := v })) r ext).1
          = GstCAVSVideoParserResult.OK ∧
        (exec (Stmt.READ_UINT 8 4 (fun e v => { e with type := v })) r ext).2.1
          = ⟨bitField L 0 4, ext.data⟩ ∧
        (exec (Stmt.READ_UINT 8 4 (fun e v => { e with type := v })) r ext).2.2.Delivers L 4) := by
  obtain ⟨e1, e2, e3⟩ := exec_decode L
    (Stmt.READ_UINT 8 4 (fun (e : GstCAVSVideoExtensionData) v => { e with type := v }))
    r 0 ext hd (by decide)
  simp only [Stmt.decode, Nat.zero_add] at e1 e2 e3
  constructor
  · intro hlt
    rw [if_neg (by omega)] at e1 e2
    exact ⟨e1, e2⟩
  · intro hge
    rw [if_pos hge] at e1 e2 e3
    exact ⟨e1, e2, e3 rfl⟩

/-- C23: dispatch of `gst_cavs_video_parser_parse_extension_data` on a payload
of fewer than `2 ^ 29` bytes with logical content `L`.  With fewer than 4
logical bits the result is `ERROR`.  Otherwise the tag is the field of the
first 4 bits, the reader handed on stands at bit 4, a tag outside 2, 4, 7, 11
gives `ERROR`, and for a tag among them the result and the member of the union
are those of the sequence display (2), copyright (4), picture display (7) or
camera parameters (11) parser run on that reader. -/
theorem extension_data_dispatch (unit : GstCAVSVideoUnit) (seqhdr : GstCAVSVideoSequenceHeader)
    (picture_header : GstCAVSVideoPictureHeader) (ext : GstCAVSVideoExtensionData)
    (hsize : unit.size < 2 ^ 29) :
    (8 * (logicalBytes (unit.data.shift unit.offset) unit.size).length < 4 →
      gst_cavs_video_parser_parse_extension_data unit seqhdr picture_header ext
        = (GstCAVSVideoParserResult.ERROR, ext)) ∧
    (4 ≤ 8 * (logicalBytes (unit.data.shift unit.offset) unit.size).length →
      (avs_reader_get_bits_uint8 (avs_reader_init (unit.data.shift unit.offset) unit.size) 4).2.Delivers
        (logicalBytes (unit.data.shift unit.offset) unit.size) 4 ∧
      (bitField (logicalBytes (unit.data.shift unit.offset) unit.size) 0 4 ≠ 2 →
        bitField (logicalBytes (unit.data.shift unit.offset) unit.size) 0 4 ≠ 4 →
        bitField (logicalBytes (unit.data.shift unit.offset) unit.size) 0 4 ≠ 7 →
        bitField (logicalBytes (unit.data.shift unit.offset) unit.size) 0 4 ≠ 11 →
        gst_cavs_video_parser_parse_extension_data unit seqhdr picture_header ext
          = (GstCAVSVideoParserResult.ERROR,
              ⟨bitField (logicalBytes (unit.data.shift unit.offset) unit.size) 0 4, ext.data⟩)) ∧
      (bitField (logicalBytes (unit.data.shift unit.offset) unit.size) 0 4 = 2 →
        gst_cavs_video_parser_parse_extension_data unit seqhdr picture_header ext
          = ((gst_cavs_video_parser_parse_sequence_display_extension
                (avs_reader_get_bits_uint8
                  (avs_reader_init (unit.data.shift unit.offset) unit.size) 4).2).1,
              ⟨2, GstCAVSVideoExtensionUnion.sequence_display
                (gst_cavs_video_parser_parse_sequence_display_extension
                  (avs_reader_get_bits_uint8
                    (avs_reader_init (unit.data.shift unit.offset) unit.size) 4).2).2.1⟩)) ∧
      (bitField (logicalBytes (unit.data.shift unit.offset) unit.size) 0 4 = 4 →
        gst_cavs_video_parser_parse_extension_data unit seqhdr picture_header ext
          = ((gst_cavs_video_parser_parse_copyright_extension
                (avs_reader_get_bits_uint8
                  (avs_reader_init (unit.data.shift unit.offset) unit.size) 4).2).1,
              ⟨4, GstCAVSVideoExtensionUnion.copyright
                (gst_cavs_video_parser_parse_copyright_extension
                  (avs_reader_get_bits_uint8
                    (avs_reader_init (unit.data.shift unit.offset) unit.size) 4).2).2.1⟩)) ∧
      (bitField (logicalBytes (unit.data.shift unit.offset) unit.size) 0 4 = 7 →
        gst_cavs_video_parser_parse_extension_data unit seqhdr picture_header ext
          = ((gst_cavs_video_parser_parse_picture_display_extension
                (avs_reader_get_bits_uint8
                  (avs_reader_init (unit.data.shift unit.offset) unit.size) 4).2
                seqhdr picture_header).1,
              ⟨7, GstCAVSVideoExtensionUnion.picture_display
                (gst_cavs_video_parser_parse_picture_display_extension
                  (avs_reader_get_bits_uint8
                    (avs_reader_init (unit.data.shift unit.offset) unit.size) 4).2
                  seqhdr picture_header).2.1⟩)) ∧
      (bitField (logicalBytes (unit.data.shift unit.offset) unit.size) 0 4 = 11 →
        gst_cavs_video_parser_parse_extension_data unit seqhdr picture_header ext
          = ((gst_cavs_video_parser_parse_camera_parameters_extension
                (avs_reader_get_bits_uint8
                  (avs_reader_init (unit.data.shift unit.offset) unit.size) 4).2).1,
              ⟨11, GstCAVSVideoExtensionUnion.camera_parameters
                (gst_cavs_video_parser_parse_camera_parameters_extension
                  (avs_reader_get_bits_uint8
                    (avs_reader_init (unit.data.shift unit.offset) unit.size) 4).2).2.1⟩))) := by
  have hu : u32 unit.size = unit.size := Nat.mod_eq_of_lt (by omega)
  have hd := init_delivers (unit.data.shift unit.offset) unit.size hsize
  obtain ⟨t1, t2⟩ := extension_tag_read _ _ ext hd
  have hrd := exec_read_reader 8 4
    (fun (e : GstCAVSVideoExtensionData) v => { e with type := v })
    (avs_reader_init (unit.data.shift unit.offset) unit.size) ext
  unfold gst_cavs_video_parser_parse_extension_data
  rw [hu]
  unfold avs_reader_get_bits_uint8
  rw [← hrd]
  generalize exec (Stmt.READ_UINT 8 4 (fun (e : GstCAVSVideoExtensionData) v =>
    { e with type := v })) (avs_reader_init (unit.data.shift unit.offset) unit.size) ext = tag
    at t1 t2
  obtain ⟨res, e, r⟩ := tag
  dsimp only at t1 t2 ⊢
  constructor
  · intro hlt
    obtain ⟨h1, h2⟩ := t1 hlt
    subst h1 h2
    rfl
  · intro hge
    obtain ⟨h1, h2, h3⟩ := t2 hge
    subst h1 h2
    refine ⟨h3, ?_, ?_, ?_, ?_, ?_⟩
    · intro h2 h4 h7 h11
      simp only [GST_CAVS_VIDEO_EXTENSION_DATA_SEQUENCE_DISPLAY,
        GST_CAVS_VIDEO_EXTENSION_DATA_COPYRIGHT, GST_CAVS_VIDEO_EXTENSION_DATA_PICTURE_DISPLAY,
        GST_CAVS_VIDEO_EXTENSION_DATA_CAMERA_PARAMETERS]
      rw [if_neg (by simp), if_neg h2, if_neg h4, if_neg h7, if_neg h11]
    · intro h
      simp [h, GST_CAVS_VIDEO_EXTENSION_DATA_SEQUENCE_DISPLAY]
    · intro h
      simp [h, GST_CAVS_VIDEO_EXTENSION_DATA_SEQUENCE_DISPLAY,
        GST_CAVS_VIDEO_EXTENSION_DATA_COPYRIGHT]
    · intro h
      simp [h, GST_CAVS_VIDEO_EXTENSION_DATA_SEQUENCE_DISPLAY,
        GST_CAVS_VIDEO_EXTENSION_DATA_COPYRIGHT, GST_CAVS_VIDEO_EXTENSION_DATA_PICTURE_DISPLAY]
    · intro h
      simp [h, GST_CAVS_VIDEO_EXTENSION_DATA_SEQUENCE_DISPLAY,
        GST_CAVS_VIDEO_EXTENSION_DATA_COPYRIGHT, GST_CAVS_VIDEO_EXTENSION_DATA_PICTURE_DISPLAY,
        GST_CAVS_VIDEO_EXTENSION_DATA_CAMERA_PARAMETERS]

/-- Witness of C23: the tag 3 of `ext_unit_tag_3` is rejected, and the tag 4 of
`ext_unit_copyright` hands the reader to the copyright parser. -/
theorem extension_data_dispatch_witness :
    (ext_unit_tag_3.size < 2 ^ 29 ∧
      bitField (logicalBytes (ext_unit_tag_3.data.shift ext_unit_tag_3.offset)
        ext_unit_tag_3.size) 0 4 = 3) ∧
    gst_cavs_video_parser_parse_extension_data ext_unit_tag_3 GstCAVSVideoSequenceHeader.zero
        GstCAVSVideoPictureHeader.zero ext0
      = (GstCAVSVideoParserResult.ERROR, ⟨3, ext0.data⟩) ∧
    gst_cavs_video_parser_parse_extension_data ext_unit_copyright
        GstCAVSVideoSequenceHeader.zero GstCAVSVideoPictureHeader.zero ext0
      = ((gst_cavs_video_parser_parse_copyright_extension
            (avs_reader_get_bits_uint8
              (avs_reader_init (ext_unit_copyright.data.shift ext_unit_copyright.offset)
                ext_unit_copyright.size) 4).2).1,
          ⟨4, GstCAVSVideoExtensionUnion.copyright
            (gst_cavs_video_parser_parse_copyright_extension
              (avs_reader_get_bits_uint8
                (avs_reader_init (ext_unit_copyright.data.shift ext_unit_copyright.offset)
                  ext_unit_copyright.size) 4).2).2.1⟩) :=
  ⟨⟨by decide, by decide⟩,
   (extension_data_dispatch ext_unit_tag_3 GstCAVSVideoSequenceHeader.zero
      GstCAVSVideoPictureHeader.zero ext0 (by decide)).2 (by decide) |>.2.1
        (by decide) (by decide) (by decide) (by decide),
   (extension_data_dispatch ext_unit_copyright GstCAVSVideoSequenceHeader.zero
      GstCAVSVideoPictureHeader.zero ext0 (by decide)).2 (by decide) |>.2.2.2.1 (by decide)⟩

/-- C24 (the code departs from the claim): the copyright extension of
`ext_unit_copyright` carries `copyright_number_1 = 1`, `copyright_number_2 =
1024` and `copyright_number_3 = 5`.  The parser returns `OK` with
`copyright_number = 2 ^ 44 + 5`: the 32 bit shift `copyright_number_2 << 22`
has lost the bits of `copyright_number_2` from bit 10 up, and the result is
not `1 * 2 ^ 44 + 1024 * 2 ^ 22 + 5`. -/
theorem copyright_number_wraps :
    gst_cavs_video_parser_parse_extension_data ext_unit_copyright
        GstCAVSVideoSequenceHeader.zero GstCAVSVideoPictureHeader.zero ext0
      = (GstCAVSVideoParserResult.OK,
          ⟨4, GstCAVSVideoExtensionUnion.copyright ⟨1, 0x5a, 1, 1, 1024, 5, 2 ^ 44 + 5⟩⟩) ∧
    (2 ^ 44 + 5 : Nat) ≠ 1 * 2 ^ 44 + 1024 * 2 ^ 22 + 5 := by
  refine ⟨?_, by norm_num⟩
  decide

/-- The copyright number as the parser computes it: the shifted second part
is reduced to 32 bits before it is added. -/
theorem copyright_number_value (r : CAVSReader)
    (hok : (gst_cavs_video_parser_parse_copyright_extension r).1 = GstCAVSVideoParserResult.OK) :
    (gst_cavs_video_parser_parse_copyright_extension r).2.1.copyright_number_1 < 2 ^ 20 ∧
    (gst_cavs_video_parser_parse_copyright_extension r).2.1.copyright_number_2 < 2 ^ 22 ∧
    (gst_cavs_video_parser_parse_copyright_extension r).2.1.copyright_number_3 < 2 ^ 22 ∧
    (gst_cavs_video_parser_parse_copyright_extension r).2.1.copyright_number
      = (gst_cavs_video_parser_parse_copyright_extension r).2.1.copyright_number_1 * 2 ^ 44
        + (gst_cavs_video_parser_parse_copyright_extension r).2.1.copyright_number_2 * 2 ^ 22
            % 2 ^ 32
        + (gst_cavs_video_parser_parse_copyright_extension r).2.1.copyright_number_3 := by
  refine exec_wp copyright_stmt
    (fun c => c.copyright_number_1 < 2 ^ 20 ∧ c.copyright_number_2 < 2 ^ 22 ∧
      c.copyright_number_3 < 2 ^ 22 ∧
      c.copyright_number = c.copyright_number_1 * 2 ^ 44 + c.copyright_number_2 * 2 ^ 22 % 2 ^ 32
        + c.copyright_number_3) r _ ?_ hok
  simp only [copyright_stmt, Stmt.block, Stmt.wp]
  intro v1 _ _ v2 _ _ v3 _ _ n1 h1 _ n2 h2 _ n3 h3 _
  have b1 := h1 (by norm_num)
  have b2 := h2 (by norm_num)
  have b3 := h3 (by norm_num)
  simp only [Nat.shiftLeft_eq, u64, u32]
  omega

theorem ofGint_cast (x : Int) : ((ofGint x : Nat) : Int) = x % 2 ^ 32 := by
  unfold ofGint
  exact Int.toNat_of_nonneg (Int.emod_nonneg _ (by norm_num))

/-- A 32 bit pattern congruent to an integer of the `gint` range is that
integer. -/
theorem toGint_of_int (n : Nat) (x : Int) (h : (n : Int) % 2 ^ 32 = x % 2 ^ 32)
    (h1 : -2 ^ 31 ≤ x) (h2 : x < 2 ^ 31) : toGint n = x := by
  unfold toGint
  split_ifs with c <;> push_cast <;> omega

/-- The position sum as the parser computes it from two `gint16` halves: the
lower half enters with its sign. -/
theorem camera_position_value (upper lower : Int) (hu : -2 ^ 15 ≤ upper ∧ upper < 2 ^ 15)
    (hl : -2 ^ 15 ≤ lower ∧ lower < 2 ^ 15) (hmin : -2 ^ 31 ≤ upper * 65536 + lower) :
    camera_position upper lower = upper * 65536 + lower := by
  have e1 := ofGint_cast upper
  have hs : shl_gint upper 16 = upper * 65536 := by
    unfold shl_gint
    rw [if_pos (by norm_num)]
    apply toGint_of_int
    · push_cast
      rw [e1]
      omega
    · omega
    · omega
  unfold camera_position
  rw [hs]
  apply toGint_of_int
  · rw [ofGint_cast]
    omega
  · exact hmin
  · omega

theorem shl_gint_wide (x : Int) (shift : Nat) (h : 32 ≤ shift) : shl_gint x shift = 0 := by
  unfold shl_gint
  rw [if_neg (by omega)]

theorem shr_gint_zero (shift : Nat) : shr_gint 0 shift = 0 := by
  unfold shr_gint
  split_ifs <;> first | omega | simp

theorem sub32_16_22 : sub32 16 22 = 4294967290 := by
  unfold sub32
  norm_num

theorem toGintN_ofGint_zero : toGintN 32 (ofGint 0) = 0 := by
  unfold ofGint toGintN
  norm_num

/-- The value `READ_INT32 (r, val, 22)` stores: with `shift = 16 - 22` taken
as a `guint`, both shifts have a count of 32 or more and the stored value is
0 whatever was read. -/
theorem read_int32_22_value (tmp : Nat) : read_int_value 32 16 22 tmp = 0 := by
  unfold read_int_value
  dsimp only
  rw [sub32_16_22, shl_gint_wide _ _ (by norm_num), shr_gint_zero, toGintN_ofGint_zero]

/-- C25 (the code departs from the claim): the camera parameters of
`ext_unit_camera` carry the halves 0x0001 and 0x8000 of `camera_position_x`.
The parser returns `OK` with `camera_position_x_lower = -32768` and
`camera_position_x = 32768`: the lower half is added as a signed `gint16`, and
the result is not `1 * 65536 + 0x8000`. -/
theorem camera_position_lower_signed :
    gst_cavs_video_parser_parse_extension_data ext_unit_camera
        GstCAVSVideoSequenceHeader.zero GstCAVSVideoPictureHeader.zero ext0
      = (GstCAVSVideoParserResult.OK,
          ⟨11, GstCAVSVideoExtensionUnion.camera_parameters
            ⟨3, 1000, 2000, 3000, 4000, 1, -32768, 258, 772, 1800, 1286, 0, 0, 0, 0, 0, 0,
              32768, 16909060, 84281096⟩⟩) ∧
    (32768 : Int) ≠ 1 * 65536 + 0x8000 := by
  refine ⟨?_, by norm_num⟩
  decide

set_option exponentiation.threshold 400 in
/-- C26 (the code departs from the claim): in `ext_unit_camera` the 22 bit
field of `camera_direction_x`, at logical bits 207..228 of the payload, is 64.
The parser returns `OK` with `camera_direction_x = 0`, not 64. -/
theorem camera_direction_shift :
    bitField (logicalBytes (ext_unit_camera.data.shift ext_unit_camera.offset)
      ext_unit_camera.size) 207 22 = 64 ∧
    (gst_cavs_video_parser_parse_camera_parameters_extension
      (avs_reader_get_bits_uint8
        (avs_reader_init (ext_unit_camera.data.shift ext_unit_camera.offset)
          ext_unit_camera.size) 4).2).1 = GstCAVSVideoParserResult.OK ∧
    (gst_cavs_video_parser_parse_camera_parameters_extension
      (avs_reader_get_bits_uint8
        (avs_reader_init (ext_unit_camera.data.shift ext_unit_camera.offset)
          ext_unit_camera.size) 4).2).2.1.camera_direction_x = 0 ∧
    toGintN 22 64 = 64 := by
  decide

/-! ## Picture display extension -/

theorem toGintN_16_range (x : Nat) : -2 ^ 15 ≤ toGintN 16 x ∧ toGintN 16 x < 2 ^ 15 := by
  unfold toGintN
  have h : x % 2 ^ 16 < 2 ^ 16 := Nat.mod_lt _ (by norm_num)
  split_ifs with c <;> norm_num at c ⊢ <;> omega

/-- A 16 bit pattern congruent to an integer of the `gint16` range is that
integer. -/
theorem toGintN_16_of_int (n : Nat) (x : Int) (h : (n : Int) % 2 ^ 16 = x % 2 ^ 16)
    (h1 : -2 ^ 15 ≤ x) (h2 : x < 2 ^ 15) : toGintN 16 n = x := by
  unfold toGintN
  split_ifs with c <;> norm_num at c ⊢ <;> omega

/-- The value `READ_INT16 (r, val, 16)` stores is the 16 bits read, taken as a
`gint16`. -/
theorem read_int16_value (tmp : Nat) : read_int_value 16 16 16 tmp = toGintN 16 tmp := by
  obtain ⟨r1, r2⟩ := toGintN_16_range tmp
  have hs : sub32 16 16 = 0 := by unfold sub32; norm_num
  unfold read_int_value
  dsimp only
  rw [hs]
  generalize toGintN 16 tmp = y at r1 r2
  have hshl : shl_gint y 0 = y := by
    unfold shl_gint
    rw [if_pos (by norm_num)]
    apply toGint_of_int
    · push_cast
      rw [ofGint_cast]
      omega
    · omega
    · omega
  have hshr : shr_gint y 0 = y := by
    unfold shr_gint
    rw [if_pos (by norm_num)]
    simp
  rw [hshl, hshr]
  apply toGintN_16_of_int
  · rw [ofGint_cast]
    omega
  · exact r1
  · exact r2

theorem picture_display_decode_1 (L : List Byte) (a : Nat) :
    (a + 34 ≤ 8 * L.length →
      (Stmt.for_loop picture_display_body 0 1).decode L a
          GstCAVSVideoPictureDisplayExtension.zero
        = (GstCAVSVideoParserResult.OK,
            ⟨[toGintN 16 (bitField L a 16), 0, 0], [toGintN 16 (bitField L (a + 17) 16), 0, 0]⟩,
            a + 34)) ∧
    (8 * L.length < a + 34 →
      ((Stmt.for_loop picture_display_body 0 1).decode L a
          GstCAVSVideoPictureDisplayExtension.zero).1 = GstCAVSVideoParserResult.ERROR) := by
  constructor
  · intro h
    simp (disch := omega) only [Stmt.for_loop, picture_display_body, Stmt.block, Stmt.decode,
      if_pos, read_int16_value, GstCAVSVideoPictureDisplayExtension.zero, List.set_cons_zero,
      List.set_cons_succ]
  · intro h
    simp only [Stmt.for_loop, picture_display_body, Stmt.block, Stmt.decode]
    repeat (first | rfl | omega | split_ifs | dsimp only)

theorem picture_display_decode_2 (L : List Byte) (a : Nat) :
    (a + 68 ≤ 8 * L.length →
      (Stmt.for_loop picture_display_body 0 2).decode L a
          GstCAVSVideoPictureDisplayExtension.zero
        = (GstCAVSVideoParserResult.OK,
            ⟨[toGintN 16 (bitField L a 16), toGintN 16 (bitField L (a + 34) 16), 0],
              [toGintN 16 (bitField L (a + 17) 16), toGintN 16 (bitField L (a + 51) 16), 0]⟩,
            a + 68)) ∧
    (8 * L.length < a + 68 →
      ((Stmt.for_loop picture_display_body 0 2).decode L a
          GstCAVSVideoPictureDisplayExtension.zero).1 = GstCAVSVideoParserResult.ERROR) := by
  constructor
  · intro h
    simp (disch := omega) only [Stmt.for_loop, picture_display_body, Stmt.block, Stmt.decode,
      if_pos, read_int16_value, GstCAVSVideoPictureDisplayExtension.zero, List.set_cons_zero,
      List.set_cons_succ, Nat.zero_add, Nat.reduceAdd, Nat.add_assoc]
  · intro h
    simp only [Stmt.for_loop, picture_display_body, Stmt.block, Stmt.decode]
    repeat (first | rfl | omega | split_ifs | dsimp only)

theorem picture_display_decode_3 (L : List Byte) (a : Nat) :
    (a + 102 ≤ 8 * L.length →
      (Stmt.for_loop picture_display_body 0 3).decode L a
          GstCAVSVideoPictureDisplayExtension.zero
        = (GstCAVSVideoParserResult.OK,
            ⟨[toGintN 16 (bitField L a 16), toGintN 16 (bitField L (a + 34) 16),
                toGintN 16 (bitField L (a + 68) 16)],
              [toGintN 16 (bitField L (a + 17) 16), toGintN 16 (bitField L (a + 51) 16),
                toGintN 16 (bitField L (a + 85) 16)]⟩,
            a + 102)) ∧
    (8 * L.length < a + 102 →
      ((Stmt.for_loop picture_display_body 0 3).decode L a
          GstCAVSVideoPictureDisplayExtension.zero).1 = GstCAVSVideoParserResult.ERROR) := by
  constructor
  · intro h
    simp (disch := omega) only [Stmt.for_loop, picture_display_body, Stmt.block, Stmt.decode,
      if_pos, read_int16_value, GstCAVSVideoPictureDisplayExtension.zero, List.set_cons_zero,
      List.set_cons_succ, Nat.zero_add, Nat.reduceAdd, Nat.add_assoc]
  · intro h
    simp only [Stmt.for_loop, picture_display_body, Stmt.block, Stmt.decode]
    repeat (first | rfl | omega | split_ifs | dsimp only)

/-- Execution of the picture display loop for a count of 1, 2 or 3 on a
reader at bit `a` of the logical stream. -/
theorem picture_display_run (L : List Byte) (r : CAVSReader) (a k : Nat) (hd : r.Delivers L a)
    (hk : k = 1 ∨ k = 2 ∨ k = 3) :
    ((exec (Stmt.for_loop picture_display_body 0 k) r
        GstCAVSVideoPictureDisplayExtension.zero).1 = GstCAVSVideoParserResult.OK
      ↔ a + 34 * k ≤ 8 * L.length) ∧
    ((exec (Stmt.for_loop picture_display_body 0 k) r
        GstCAVSVideoPictureDisplayExtension.zero).1 = GstCAVSVideoParserResult.OK →
      (exec (Stmt.for_loop picture_display_body 0 k) r
        GstCAVSVideoPictureDisplayExtension.zero).2.2.Delivers L (a + 34 * k) ∧
      (∀ i, i < k →
        (exec (Stmt.for_loop picture_display_body 0 k) r
            GstCAVSVideoPictureDisplayExtension.zero).2.1.frame_centre_horizontal_offset.getD i 0
          = toGintN 16 (bitField L (a + 34 * i) 16) ∧
        (exec (Stmt.for_loop picture_display_body 0 k) r
            GstCAVSVideoPictureDisplayExtension.zero).2.1.frame_centre_vertical_offset.getD i 0
          = toGintN 16 (bitField L (a + 34 * i + 17) 16)) ∧
      (∀ i, k ≤ i →
        (exec (Stmt.for_loop picture_display_body 0 k) r
            GstCAVSVideoPictureDisplayExtension.zero).2.1.frame_centre_horizontal_offset.getD i 0
          = 0 ∧
        (exec (Stmt.for_loop picture_display_body 0 k) r
            GstCAVSVideoPictureDisplayExtension.zero).2.1.frame_centre_vertical_offset.getD i 0
          = 0)) := by
  rcases hk with rfl | rfl | rfl
  · obtain ⟨e1, e2, e3⟩ := exec_decode L (Stmt.for_loop picture_display_body 0 1) r a
      GstCAVSVideoPictureDisplayExtension.zero hd (by decide)
    obtain ⟨d1, d2⟩ := picture_display_decode_1 L a
    by_cases c : a + 34 ≤ 8 * L.length
    · rw [d1 c] at e1 e2 e3
      dsimp only at e1 e2 e3
      refine ⟨⟨fun _ => by omega, fun _ => e1⟩, fun _ => ⟨e3 rfl, ?_, ?_⟩⟩
      · intro i hi
        rw [e2]
        obtain rfl : i = 0 := by omega
        exact ⟨rfl, rfl⟩
      · intro i hi
        rw [e2]
        rcases i with _ | _ | _ | i
        · omega
        · exact ⟨rfl, rfl⟩
        · exact ⟨rfl, rfl⟩
        · exact ⟨rfl, rfl⟩
    · have hE := d2 (by omega)
      rw [hE] at e1
      refine ⟨⟨fun h => ?_, fun h => ?_⟩, fun h => ?_⟩
      · rw [e1] at h; simp at h
      · omega
      · rw [e1] at h; simp at h
  · obtain ⟨e1, e2, e3⟩ := exec_decode L (Stmt.for_loop picture_display_body 0 2) r a
      GstCAVSVideoPictureDisplayExtension.zero hd (by decide)
    obtain ⟨d1, d2⟩ := picture_display_decode_2 L a
    by_cases c : a + 68 ≤ 8 * L.length
    · rw [d1 c] at e1 e2 e3
      dsimp only at e1 e2 e3
      refine ⟨⟨fun _ => by omega, fun _ => e1⟩, fun _ => ⟨e3 rfl, ?_, ?_⟩⟩
      · intro i hi
        rw [e2]
        rcases i with _ | _ | i
        · exact ⟨rfl, rfl⟩
        · exact ⟨rfl, rfl⟩
        · omega
      · intro i hi
        rw [e2]
        rcases i with _ | _ | _ | i
        · omega
        · omega
        · exact ⟨rfl, rfl⟩
        · exact ⟨rfl, rfl⟩
    · have hE := d2 (by omega)
      rw [hE] at e1
      refine ⟨⟨fun h => ?_, fun h => ?_⟩, fun h => ?_⟩
      · rw [e1] at h; simp at h
      · omega
      · rw [e1] at h; simp at h
  · obtain ⟨e1, e2, e3⟩ := exec_decode L (Stmt.for_loop picture_display_body 0 3) r a
      GstCAVSVideoPictureDisplayExtension.zero hd (by decide)
    obtain ⟨d1, d2⟩ := picture_display_decode_3 L a
    by_cases c : a + 102 ≤ 8 * L.length
    · rw [d1 c] at e1 e2 e3
      dsimp only at e1 e2 e3
      refine ⟨⟨fun _ => by omega, fun _ => e1⟩, fun _ => ⟨e3 rfl, ?_, ?_⟩⟩
      · intro i hi
        rw [e2]
        rcases i with _ | _ | _ | i
        · exact ⟨rfl, rfl⟩
        · exact ⟨rfl, rfl⟩
        · exact ⟨rfl, rfl⟩
        · omega
      · intro i hi
        rw [e2]
        rcases i with _ | _ | _ | i
        · omega
        · omega
        · omega
        · exact ⟨rfl, rfl⟩
    · have hE := d2 (by omega)
      rw [hE] at e1
      refine ⟨⟨fun h => ?_, fun h => ?_⟩, fun h => ?_⟩
      · rw [e1] at h; simp at h
      · omega
      · rw [e1] at h; simp at h

/-- C27: offset pairs of the picture display extension, for a reader at bit
`a` of the logical stream `L`.  The count of pairs depends on
`progressive_sequence`, `repeat_first_field` and `picture_structure` only: for
a non-progressive sequence it is 1 when `picture_structure` is 0 and otherwise
3 or 2 as `repeat_first_field` is set or not; for a progressive sequence it is
3 when `repeat_first_field` is set and 1 otherwise; so it is 1, 2 or 3.  The
parser returns `OK` exactly when 34 bits per pair are left; then the reader
has moved by 34 bits per pair, pair `i` below the count holds the 16 bit
fields at `a + 34 * i` and `a + 34 * i + 17` as `gint16`, and the entries from
the count on are 0. -/
theorem picture_display_offsets (L : List Byte) (r : CAVSReader) (a : Nat)
    (seqhdr : GstCAVSVideoSequenceHeader) (picture_header : GstCAVSVideoPictureHeader)
    (hd : r.Delivers L a) :
    n_frames_centre_offsets seqhdr picture_header
      = (if seqhdr.progressive_sequence = 0 then
          (if picture_header.picture_structure = 0 then 1
            else if picture_header.repeat_first_field ≠ 0 then 3 else 2)
        else if picture_header.repeat_first_field ≠ 0 then 3 else 1) ∧
    (1 ≤ n_frames_centre_offsets seqhdr picture_header ∧
      n_frames_centre_offsets seqhdr picture_header ≤ 3) ∧
    ((gst_cavs_video_parser_parse_picture_display_extension r seqhdr picture_header).1
        = GstCAVSVideoParserResult.OK
      ↔ a + 34 * n_frames_centre_offsets seqhdr picture_header ≤ 8 * L.length) ∧
    ((gst_cavs_video_parser_parse_picture_display_extension r seqhdr picture_header).1
        = GstCAVSVideoParserResult.OK →
      (gst_cavs_video_parser_parse_picture_display_extension r seqhdr
        picture_header).2.2.Delivers L (a + 34 * n_frames_centre_offsets seqhdr picture_header) ∧
      (∀ i, i < n_frames_centre_offsets seqhdr picture_header →
        (gst_cavs_video_parser_parse_picture_display_extension r seqhdr
            picture_header).2.1.frame_centre_horizontal_offset.getD i 0
          = toGintN 16 (bitField L (a + 34 * i) 16) ∧
        (gst_cavs_video_parser_parse_picture_display_extension r seqhdr
            picture_header).2.1.frame_centre_vertical_offset.getD i 0
          = toGintN 16 (bitField L (a + 34 * i + 17) 16)) ∧
      (∀ i, n_frames_centre_offsets seqhdr picture_header ≤ i →
        (gst_cavs_video_parser_parse_picture_display_extension r seqhdr
            picture_header).2.1.frame_centre_horizontal_offset.getD i 0 = 0 ∧
        (gst_cavs_video_parser_parse_picture_display_extension r seqhdr
            picture_header).2.1.frame_centre_vertical_offset.getD i 0 = 0)) := by
  have hn : n_frames_centre_offsets seqhdr picture_header
      = (if seqhdr.progressive_sequence = 0 then
          (if picture_header.picture_structure = 0 then 1
            else if picture_header.repeat_first_field ≠ 0 then 3 else 2)
        else if picture_header.repeat_first_field ≠ 0 then 3 else 1) := by
    unfold n_frames_centre_offsets
    split_ifs <;> first | rfl | omega
  have hk : n_frames_centre_offsets seqhdr picture_header = 1 ∨
      n_frames_centre_offsets seqhdr picture_header = 2 ∨
      n_frames_centre_offsets seqhdr picture_header = 3 := by
    rw [hn]
    split_ifs <;> simp
  have hrun := picture_display_run L r a _ hd hk
  unfold gst_cavs_video_parser_parse_picture_display_extension
  exact ⟨hn, by omega, hrun.1, hrun.2⟩

/-- Witness of C27: a progressive sequence with `repeat_first_field` set reads
three pairs; over `picture_display_payload` they are (291, -2), (1110, -32768)
and (32767, 1), and the reader ends 102 bits further. -/
theorem picture_display_offsets_witness :
    (avs_reader_init (ptrOf picture_display_payload) 13).Delivers
      (logicalBytes (ptrOf picture_display_payload) 13) 0 ∧
    n_frames_centre_offsets { GstCAVSVideoSequenceHeader.zero with progressive_sequence := 1 }
      { GstCAVSVideoPictureHeader.zero with repeat_first_field := 1 } = 3 ∧
    (gst_cavs_video_parser_parse_picture_display_extension
      (avs_reader_init (ptrOf picture_display_payload) 13)
      { GstCAVSVideoSequenceHeader.zero with progressive_sequence := 1 }
      { GstCAVSVideoPictureHeader.zero with repeat_first_field := 1 }).2.1
      = ⟨[291, 1110, 32767], [-2, -32768, 1]⟩ ∧
    (gst_cavs_video_parser_parse_picture_display_extension
      (avs_reader_init (ptrOf picture_display_payload) 13)
      { GstCAVSVideoSequenceHeader.zero with progressive_sequence := 1 }
      { GstCAVSVideoPictureHeader.zero with repeat_first_field := 1 }).1
      = GstCAVSVideoParserResult.OK :=
  ⟨init_delivers _ _ (by norm_num), by decide, by decide,
   (picture_display_offsets (logicalBytes (ptrOf picture_display_payload) 13)
      (avs_reader_init (ptrOf picture_display_payload) 13) 0
      { GstCAVSVideoSequenceHeader.zero with progressive_sequence := 1 }
      { GstCAVSVideoPictureHeader.zero with repeat_first_field := 1 }
      (init_delivers _ _ (by norm_num))).2.2.1.2 (by decide)⟩

/-! ## Sequence display extension -/

theorem sequence_display_decode_0 (L : List Byte) (a : Nat) (hf : bitField L (a + 4) 1 = 0)
    (hlen : a + 34 ≤ 8 * L.length) :
    sequence_display_stmt.decode L a GstCAVSVideoSequenceDisplayExtension.zero
      = (GstCAVSVideoParserResult.OK,
          ⟨bitField L a 3, bitField L (a + 3) 1, 0, 0, 0, 0, bitField L (a + 5) 14,
            bitField L (a + 20) 14⟩, a + 34) := by
  simp (disch := omega) only [sequence_display_stmt, Stmt.block, Stmt.decode, if_pos,
    GstCAVSVideoSequenceDisplayExtension.zero, Nat.add_assoc, Nat.reduceAdd, hf, ne_eq,
    not_true_eq_false, decide_False, Bool.false_eq_true, if_false]

theorem sequence_display_decode_1 (L : List Byte) (a : Nat) (hf : bitField L (a + 4) 1 ≠ 0)
    (hlen : a + 58 ≤ 8 * L.length) :
    ((sequence_display_stmt.decode L a GstCAVSVideoSequenceDisplayExtension.zero).1
        = GstCAVSVideoParserResult.ERROR
      ↔ (bitField L (a + 5) 8 = 0 ∨ bitField L (a + 13) 8 = 0 ∨ bitField L (a + 21) 8 = 0)) ∧
    ((sequence_display_stmt.decode L a GstCAVSVideoSequenceDisplayExtension.zero).1
        = GstCAVSVideoParserResult.OK →
      sequence_display_stmt.decode L a GstCAVSVideoSequenceDisplayExtension.zero
        = (GstCAVSVideoParserResult.OK,
            ⟨bitField L a 3, bitField L (a + 3) 1, bitField L (a + 4) 1, bitField L (a + 5) 8,
              bitField L (a + 13) 8, bitField L (a + 21) 8, bitField L (a + 29) 14,
              bitField L (a + 44) 14⟩, a + 58)) := by
  have h1 : bitField L (a + 5) 8 < 2 ^ 8 := Nat.mod_lt _ (by norm_num)
  have h2 : bitField L (a + 13) 8 < 2 ^ 8 := Nat.mod_lt _ (by norm_num)
  have h3 : bitField L (a + 21) 8 < 2 ^ 8 := Nat.mod_lt _ (by norm_num)
  simp (disch := omega) only [sequence_display_stmt, Stmt.block, Stmt.decode, if_pos,
    GstCAVSVideoSequenceDisplayExtension.zero, Nat.add_assoc, Nat.reduceAdd, hf, ne_eq,
    not_false_eq_true, decide_True, if_true]
  by_cases c1 : bitField L (a + 5) 8 < 1 ∨ bitField L (a + 5) 8 > 255
  · simp only [if_pos c1]
    constructor
    · simp only [true_iff]; omega
    · intro h; simp at h
  · simp (disch := omega) only [if_neg c1, if_pos]
    by_cases c2 : bitField L (a + 13) 8 < 1 ∨ bitField L (a + 13) 8 > 255
    · simp only [if_pos c2]
      constructor
      · simp only [true_iff]; omega
      · intro h; simp at h
    · simp (disch := omega) only [if_neg c2, if_pos]
      by_cases c3 : bitField L (a + 21) 8 < 1 ∨ bitField L (a + 21) 8 > 255
      · simp only [if_pos c3]
        constructor
        · simp only [true_iff]; omega
        · intro h; simp at h
      · simp (disch := omega) only [if_neg c3, if_pos]
        constructor
        · simp only [reduceCtorEq, false_iff]; omega
        · intro _; trivial

/-- C28: colour description of the sequence display extension, for a reader
at bit `a` of the logical stream `L`; the flag `colour_description` is the bit
at `a + 4`.  With the flag 0 and 34 bits left the parser returns `OK`, the
three colour fields stay 0 and `display_horizontal_size` is the 14 bit field
right after the flag.  With the flag 1 and 58 bits left the parser returns
`ERROR` exactly when one of the three 8 bit fields after the flag is 0;
otherwise these are the colour fields and `display_horizontal_size` is the 14
bit field after them. -/
theorem sequence_display_colour (L : List Byte) (r : CAVSReader) (a : Nat)
    (hd : r.Delivers L a) :
    (bitField L (a + 4) 1 = 0 → a + 34 ≤ 8 * L.length →
      (gst_cavs_video_parser_parse_sequence_display_extension r).1
        = GstCAVSVideoParserResult.OK ∧
      (gst_cavs_video_parser_parse_sequence_display_extension r).2.1.colour_description = 0 ∧
      (gst_cavs_video_parser_parse_sequence_display_extension r).2.1.colour_primaries = 0 ∧
      (gst_cavs_video_parser_parse_sequence_display_extension r).2.1.transfer_characteristics
        = 0 ∧
      (gst_cavs_video_parser_parse_sequence_display_extension r).2.1.matrix_coefficients = 0 ∧
      (gst_cavs_video_parser_parse_sequence_display_extension r).2.1.display_horizontal_size
        = bitField L (a + 5) 14 ∧
      (gst_cavs_video_parser_parse_sequence_display_extension r).2.2.Delivers L (a + 34)) ∧
    (bitField L (a + 4) 1 ≠ 0 → a + 58 ≤ 8 * L.length →
      ((gst_cavs_video_parser_parse_sequence_display_extension r).1
          = GstCAVSVideoParserResult.ERROR
        ↔ (bitField L (a + 5) 8 = 0 ∨ bitField L (a + 13) 8 = 0 ∨
            bitField L (a + 21) 8 = 0)) ∧
      ((gst_cavs_video_parser_parse_sequence_display_extension r).1
          = GstCAVSVideoParserResult.OK →
        (gst_cavs_video_parser_parse_sequence_display_extension r).2.1.colour_description
          = bitField L (a + 4) 1 ∧
        (gst_cavs_video_parser_parse_sequence_display_extension r).2.1.colour_primaries
          = bitField L (a + 5) 8 ∧
        (gst_cavs_video_parser_parse_sequence_display_extension r).2.1.transfer_characteristics
          = bitField L (a + 13) 8 ∧
        (gst_cavs_video_parser_parse_sequence_display_extension r).2.1.matrix_coefficients
          = bitField L (a + 21) 8 ∧
        (gst_cavs_video_parser_parse_sequence_display_extension r).2.1.display_horizontal_size
          = bitField L (a + 29) 14 ∧
        (gst_cavs_video_parser_parse_sequence_display_extension r).2.2.Delivers L (a + 58))) := by
  obtain ⟨e1, e2, e3⟩ := exec_decode L sequence_display_stmt r a
    GstCAVSVideoSequenceDisplayExtension.zero hd (by decide)
  unfold gst_cavs_video_parser_parse_sequence_display_extension
  constructor
  · intro hf hlen
    rw [sequence_display_decode_0 L a hf hlen] at e1 e2 e3
    dsimp only at e1 e2 e3
    rw [e2]
    exact ⟨e1, rfl, rfl, rfl, rfl, rfl, e3 rfl⟩
  · intro hf hlen
    obtain ⟨d1, d2⟩ := sequence_display_decode_1 L a hf hlen
    rw [e1]
    refine ⟨d1, fun hok => ?_⟩
    rw [d2 hok] at e2 e3
    dsimp only at e2 e3
    rw [e2]
    exact ⟨rfl, rfl, rfl, rfl, rfl, e3 rfl⟩

/-- Witness of C28: `sequence_display_payload_0` (flag 0) parses with display
width 720 and no colour fields; `sequence_display_payload_1` (flag 1, transfer
characteristics 0) is rejected. -/
theorem sequence_display_colour_witness :
    (avs_reader_init (ptrOf sequence_display_payload_0) 5).Delivers
      (logicalBytes (ptrOf sequence_display_payload_0) 5) 0 ∧
    ((gst_cavs_video_parser_parse_sequence_display_extension
        (avs_reader_init (ptrOf sequence_display_payload_0) 5)).1
        = GstCAVSVideoParserResult.OK ∧
      (gst_cavs_video_parser_parse_sequence_display_extension
        (avs_reader_init (ptrOf sequence_display_payload_0) 5)).2.1
        = ⟨1, 1, 0, 0, 0, 0, 720, 576⟩) ∧
    (gst_cavs_video_parser_parse_sequence_display_extension
        (avs_reader_init (ptrOf sequence_display_payload_1) 8)).1
      = GstCAVSVideoParserResult.ERROR :=
  ⟨init_delivers _ _ (by norm_num),
   ⟨((sequence_display_colour (logicalBytes (ptrOf sequence_display_payload_0) 5)
      (avs_reader_init (ptrOf sequence_display_payload_0) 5) 0
      (init_delivers _ _ (by norm_num))).1 (by decide) (by decide)).1, by decide⟩,
   ((sequence_display_colour (logicalBytes (ptrOf sequence_display_payload_1) 8)
      (avs_reader_init (ptrOf sequence_display_payload_1) 8) 0
      (init_delivers _ _ (by norm_num))).2 (by decide) (by decide)).1.2
        (Or.inr (Or.inl (by decide)))⟩

/-! ## Picture headers -/

/-- A property of the record of every successful execution holds of the pair
a parser returns. -/
theorem parser_pair {H : Type} (res : GstCAVSVideoParserResult × H × CAVSReader) (P : H → Prop)
    (key : res.1 = GstCAVSVideoParserResult.OK → P res.2.1)
    (hok : (res.1, res.2.1).1 = GstCAVSVideoParserResult.OK) : P (res.1, res.2.1).2 :=
  key hok

theorem i_picture_eq (unit : GstCAVSVideoUnit) (seqhdr : GstCAVSVideoSequenceHeader)
    (s0 : GstCAVSVideoPictureHeader) :
    gst_cavs_video_parser_parse_i_picture unit seqhdr s0
      = ((exec (Stmt.seq (i_picture_fields seqhdr) i_picture_loop_filter)
            (avs_reader_init (unit.data.shift unit.offset) (u32 unit.size))
            GstCAVSVideoPictureHeader.zero).1,
          (exec (Stmt.seq (i_picture_fields seqhdr) i_picture_loop_filter)
            (avs_reader_init (unit.data.shift unit.offset) (u32 unit.size))
            GstCAVSVideoPictureHeader.zero).2.1) :=
  rfl

theorem pb_picture_eq (unit : GstCAVSVideoUnit) (seqhdr : GstCAVSVideoSequenceHeader)
    (s0 : GstCAVSVideoPictureHeader) :
    gst_cavs_video_parser_parse_pb_picture unit seqhdr s0
      = ((exec (pb_picture_stmt seqhdr)
            (avs_reader_init (unit.data.shift unit.offset) (u32 unit.size))
            GstCAVSVideoPictureHeader.zero).1,
          (exec (pb_picture_stmt seqhdr)
            (avs_reader_init (unit.data.shift unit.offset) (u32 unit.size))
            GstCAVSVideoPictureHeader.zero).2.1) :=
  rfl

theorem i_picture_structure (unit : GstCAVSVideoUnit) (seqhdr : GstCAVSVideoSequenceHeader)
    (s0 : GstCAVSVideoPictureHeader)
    (hok : (gst_cavs_video_parser_parse_i_picture unit seqhdr s0).1
      = GstCAVSVideoParserResult.OK) :
    ((gst_cavs_video_parser_parse_i_picture unit seqhdr s0).2.progressive_frame = 1 →
      (gst_cavs_video_parser_parse_i_picture unit seqhdr s0).2.picture_structure = 1) ∧
    ((gst_cavs_video_parser_parse_i_picture unit seqhdr s0).2.picture_structure = 0 →
      (gst_cavs_video_parser_parse_i_picture unit seqhdr s0).2.progressive_frame = 0) ∧
    (gst_cavs_video_parser_parse_i_picture unit seqhdr s0).2.progressive_frame ≤ 1 ∧
    (gst_cavs_video_parser_parse_i_picture unit seqhdr s0).2.picture_structure ≤ 1 := by
  have key := exec_wp (Stmt.seq (i_picture_fields seqhdr) i_picture_loop_filter)
    (fun h => ¬ ¬ ((h.progressive_frame = 1 → h.picture_structure = 1) ∧
      (h.picture_structure = 0 → h.progressive_frame = 0) ∧
      h.progressive_frame ≤ 1 ∧ h.picture_structure ≤ 1))
    (avs_reader_init (unit.data.shift unit.offset) (u32 unit.size))
    GstCAVSVideoPictureHeader.zero (by
      simp only [i_picture_fields, i_picture_loop_filter, Stmt.block, Stmt.wp,
        GstCAVSVideoPictureHeader.zero, decide_eq_true_eq, decide_eq_false_iff_not,
        Nat.reduceLT, Nat.reducePow, true_implies, implies_true, true_and, and_true]
      repeat' (first | (intro _) | constructor)
      all_goals (first | trivial | omega))
  rw [i_picture_eq] at hok ⊢
  exact parser_pair _
    (fun h => (h.progressive_frame = 1 → h.picture_structure = 1) ∧
      (h.picture_structure = 0 → h.progressive_frame = 0) ∧
      h.progressive_frame ≤ 1 ∧ h.picture_structure ≤ 1)
    (fun h1 => Classical.not_not.mp (key h1)) hok

theorem pb_picture_structure (unit : GstCAVSVideoUnit) (seqhdr : GstCAVSVideoSequenceHeader)
    (s0 : GstCAVSVideoPictureHeader)
    (hok : (gst_cavs_video_parser_parse_pb_picture unit seqhdr s0).1
      = GstCAVSVideoParserResult.OK) :
    ((gst_cavs_video_parser_parse_pb_picture unit seqhdr s0).2.progressive_frame = 1 →
      (gst_cavs_video_parser_parse_pb_picture unit seqhdr s0).2.picture_structure = 1) ∧
    ((gst_cavs_video_parser_parse_pb_picture unit seqhdr s0).2.picture_structure = 0 →
      (gst_cavs_video_parser_parse_pb_picture unit seqhdr s0).2.progressive_frame = 0) ∧
    (gst_cavs_video_parser_parse_pb_picture unit seqhdr s0).2.progressive_frame ≤ 1 ∧
    (gst_cavs_video_parser_parse_pb_picture unit seqhdr s0).2.picture_structure ≤ 1 := by
  have key := exec_wp (pb_picture_stmt seqhdr)
    (fun h => ¬ ¬ ((h.progressive_frame = 1 → h.picture_structure = 1) ∧
      (h.picture_structure = 0 → h.progressive_frame = 0) ∧
      h.progressive_frame ≤ 1 ∧ h.picture_structure ≤ 1))
    (avs_reader_init (unit.data.shift unit.offset) (u32 unit.size))
    GstCAVSVideoPictureHeader.zero (by
      simp only [pb_picture_stmt, Stmt.block, Stmt.wp,
        GstCAVSVideoPictureHeader.zero, decide_eq_true_eq, decide_eq_false_iff_not,
        Nat.reduceLT, Nat.reducePow, true_implies, implies_true, true_and, and_true]
      repeat' (first | (intro _) | constructor)
      all_goals (first | trivial | omega))
  rw [pb_picture_eq] at hok ⊢
  exact parser_pair _
    (fun h => (h.progressive_frame = 1 → h.picture_structure = 1) ∧
      (h.picture_structure = 0 → h.progressive_frame = 0) ∧
      h.progressive_frame ≤ 1 ∧ h.picture_structure ≤ 1)
    (fun h1 => Classical.not_not.mp (key h1)) hok

/-- Offsets of a successfully parsed I picture. -/
theorem i_picture_offsets_range (unit : GstCAVSVideoUnit) (seqhdr : GstCAVSVideoSequenceHeader)
    (s0 : GstCAVSVideoPictureHeader)
    (hok : (gst_cavs_video_parser_parse_i_picture unit seqhdr s0).1
      = GstCAVSVideoParserResult.OK) :
    (-8 ≤ (gst_cavs_video_parser_parse_i_picture unit seqhdr s0).2.alpha_c_offset ∧
      (gst_cavs_video_parser_parse_i_picture unit seqhdr s0).2.alpha_c_offset ≤ 8) ∧
    (-8 ≤ (gst_cavs_video_parser_parse_i_picture unit seqhdr s0).2.beta_offset ∧
      (gst_cavs_video_parser_parse_i_picture unit seqhdr s0).2.beta_offset ≤ 8) ∧
    ((gst_cavs_video_parser_parse_i_picture unit seqhdr s0).2.loop_filter_disable ≠ 0 ∨
        (gst_cavs_video_parser_parse_i_picture unit seqhdr s0).2.loop_filter_parameter_flag = 0 →
      (gst_cavs_video_parser_parse_i_picture unit seqhdr s0).2.alpha_c_offset = 0 ∧
      (gst_cavs_video_parser_parse_i_picture unit seqhdr s0).2.beta_offset = 0) := by
  have key := exec_wp (Stmt.seq (i_picture_fields seqhdr) i_picture_loop_filter)
    (fun h => ¬ ¬ ((-8 ≤ h.alpha_c_offset ∧ h.alpha_c_offset ≤ 8) ∧
      (-8 ≤ h.beta_offset ∧ h.beta_offset ≤ 8) ∧
      (h.loop_filter_disable ≠ 0 ∨ h.loop_filter_parameter_flag = 0 →
        h.alpha_c_offset = 0 ∧ h.beta_offset = 0)))
    (avs_reader_init (unit.data.shift unit.offset) (u32 unit.size))
    GstCAVSVideoPictureHeader.zero (by
      simp only [i_picture_fields, i_picture_loop_filter, Stmt.block, Stmt.wp,
        GstCAVSVideoPictureHeader.zero, decide_eq_true_eq, decide_eq_false_iff_not,
        Nat.reduceLT, Nat.reducePow, true_implies, implies_true, true_and, and_true]
      repeat' (first | (intro _) | constructor)
      all_goals (first | trivial | omega))
  rw [i_picture_eq] at hok ⊢
  exact parser_pair _
    (fun h => (-8 ≤ h.alpha_c_offset ∧ h.alpha_c_offset ≤ 8) ∧
      (-8 ≤ h.beta_offset ∧ h.beta_offset ≤ 8) ∧
      (h.loop_filter_disable ≠ 0 ∨ h.loop_filter_parameter_flag = 0 →
        h.alpha_c_offset = 0 ∧ h.beta_offset = 0))
    (fun h1 => Classical.not_not.mp (key h1)) hok
theorem pair_fst_eq {α β : Type} (p : α × β) (a : α) (h : p.1 = a) : p = (a, p.2) := by
  rcases p with ⟨x, y⟩
  cases h
  rfl

theorem triple_fst_eq {α β γ : Type} (p : α × β × γ) (a : α) (h : p.1 = a) :
    p = (a, p.2.1, p.2.2) := by
  rcases p with ⟨x, y, z⟩
  cases h
  rfl

theorem exec_seq_ok {H : Type} (s t : Stmt H) (r r1 : CAVSReader) (h h1 : H)
    (hs : exec s r h = (GstCAVSVideoParserResult.OK, h1, r1)) :
    exec (Stmt.seq s t) r h = exec t r1 h1 := by
  rw [exec, hs]

theorem exec_seq_error {H : Type} (s t : Stmt H) (r : CAVSReader) (h : H)
    (hs : (exec s r h).1 = GstCAVSVideoParserResult.ERROR) :
    (exec (Stmt.seq s t) r h).1 = GstCAVSVideoParserResult.ERROR := by
  rw [exec]
  rcases hr : exec s r h with ⟨res, h1, r1⟩
  rw [hr] at hs
  cases res
  all_goals first | exact hs | cases hs

/-- The loop filter statements of the I picture reject an offset outside
`[-8, 8]`. -/
theorem i_picture_loop_filter_reject (r r1 r2 r3 : CAVSReader) (h : GstCAVSVideoPictureHeader)
    (f : Nat) (v : Int)
    (h1 : avs_reader_get_bits 8 r 1 = (some 0, r1))
    (h2 : avs_reader_get_bits 8 r1 1 = (some f, r2)) (hf : f ≠ 0)
    (h3 : avs_reader_get_se r2 = (some v, r3))
    (hv : (v < -8 ∨ 8 < v) ∨
      ∃ w r4, avs_reader_get_se r3 = (some w, r4) ∧ (w < -8 ∨ 8 < w)) :
    (exec i_picture_loop_filter r h).1 = GstCAVSVideoParserResult.ERROR := by
  simp only [i_picture_loop_filter, Stmt.block, exec, h1, h2, h3, decide_True, if_true,
    ne_eq, hf, not_false_eq_true, gt_iff_lt]
  rcases hv with hv | ⟨w, r4, h4, hw⟩
  · rw [if_pos hv]
  · split_ifs
    · rfl
    · simp only [h4, if_pos hw]

theorem parser_pair_error {H : Type} (res : GstCAVSVideoParserResult × H × CAVSReader)
    (key : res.1 = GstCAVSVideoParserResult.ERROR) :
    (res.1, res.2.1).1 = GstCAVSVideoParserResult.ERROR := key

/-- An I picture whose loop filter offsets are coded outside `[-8, 8]` is
rejected. -/
theorem i_picture_offsets_reject (unit : GstCAVSVideoUnit) (seqhdr : GstCAVSVideoSequenceHeader)
    (s0 h : GstCAVSVideoPictureHeader) (r r1 r2 r3 : CAVSReader) (f : Nat) (v : Int)
    (hpre : exec (i_picture_fields seqhdr)
        (avs_reader_init (unit.data.shift unit.offset) (u32 unit.size))
        GstCAVSVideoPictureHeader.zero = (GstCAVSVideoParserResult.OK, h, r))
    (h1 : avs_reader_get_bits 8 r 1 = (some 0, r1))
    (h2 : avs_reader_get_bits 8 r1 1 = (some f, r2)) (hf : f ≠ 0)
    (h3 : avs_reader_get_se r2 = (some v, r3))
    (hv : (v < -8 ∨ 8 < v) ∨
      ∃ w r4, avs_reader_get_se r3 = (some w, r4) ∧ (w < -8 ∨ 8 < w)) :
    (gst_cavs_video_parser_parse_i_picture unit seqhdr s0).1
      = GstCAVSVideoParserResult.ERROR := by
  have key := i_picture_loop_filter_reject r r1 r2 r3 h f v h1 h2 hf h3 hv
  rw [← exec_seq_ok (i_picture_fields seqhdr) i_picture_loop_filter _ r _ h hpre] at key
  rw [i_picture_eq]
  exact parser_pair_error _ key
/-- C30: loop filter offsets of the I picture.  Whenever
`gst_cavs_video_parser_parse_i_picture` returns `OK`, `alpha_c_offset` and
`beta_offset` lie in `[-8, 8]`, and both are 0 when `loop_filter_disable` is
not 0 or `loop_filter_parameter_flag` is 0.  When the statements before the
loop filter succeed and leave the reader `r`, the disable bit reads 0, the
parameter flag reads `f ≠ 0` and the first signed Exp-Golomb code is `v`, then
the parser returns `ERROR` whenever `v` is outside `[-8, 8]`, or the second
code `w` is. -/
theorem i_picture_loop_filter_offsets (unit : GstCAVSVideoUnit)
    (seqhdr : GstCAVSVideoSequenceHeader) (s0 : GstCAVSVideoPictureHeader) :
    ((gst_cavs_video_parser_parse_i_picture unit seqhdr s0).1 = GstCAVSVideoParserResult.OK →
      (-8 ≤ (gst_cavs_video_parser_parse_i_picture unit seqhdr s0).2.alpha_c_offset ∧
        (gst_cavs_video_parser_parse_i_picture unit seqhdr s0).2.alpha_c_offset ≤ 8) ∧
      (-8 ≤ (gst_cavs_video_parser_parse_i_picture unit seqhdr s0).2.beta_offset ∧
        (gst_cavs_video_parser_parse_i_picture unit seqhdr s0).2.beta_offset ≤ 8) ∧
      ((gst_cavs_video_parser_parse_i_picture unit seqhdr s0).2.loop_filter_disable ≠ 0 ∨
          (gst_cavs_video_parser_parse_i_picture unit seqhdr s0).2.loop_filter_parameter_flag
            = 0 →
        (gst_cavs_video_parser_parse_i_picture unit seqhdr s0).2.alpha_c_offset = 0 ∧
        (gst_cavs_video_parser_parse_i_picture unit seqhdr s0).2.beta_offset = 0)) ∧
    (∀ (h : GstCAVSVideoPictureHeader) (r r1 r2 r3 : CAVSReader) (f : Nat) (v : Int),
      exec (i_picture_fields seqhdr)
          (avs_reader_init (unit.data.shift unit.offset) (u32 unit.size))
          GstCAVSVideoPictureHeader.zero = (GstCAVSVideoParserResult.OK, h, r) →
      avs_reader_get_bits 8 r 1 = (some 0, r1) →
      avs_reader_get_bits 8 r1 1 = (some f, r2) → f ≠ 0 →
      avs_reader_get_se r2 = (some v, r3) →
      ((v < -8 ∨ 8 < v) ∨
        ∃ w r4, avs_reader_get_se r3 = (some w, r4) ∧ (w < -8 ∨ 8 < w)) →
      (gst_cavs_video_parser_parse_i_picture unit seqhdr s0).1
        = GstCAVSVideoParserResult.ERROR) :=
  ⟨i_picture_offsets_range unit seqhdr s0,
   fun h r r1 r2 r3 f v => i_picture_offsets_reject unit seqhdr s0 h r r1 r2 r3 f v⟩

/-- Witness of C30: `i_picture_unit_offsets` (offsets coded -4 and -1) parses
to a record with these offsets, inside `[-8, 8]`; `i_picture_unit_alpha_9`,
whose first offset is coded 9, is rejected. -/
theorem i_picture_loop_filter_offsets_witness :
    gst_cavs_video_parser_parse_i_picture i_picture_unit_offsets
        GstCAVSVideoSequenceHeader.zero GstCAVSVideoPictureHeader.zero
      = (GstCAVSVideoParserResult.OK,
          { GstCAVSVideoPictureHeader.zero with
            bbv_delay := 0x1234, picture_distance := 5, progressive_frame := 1,
            picture_structure := 1, fixed_picture_qp := 1, picture_qp := 20,
            loop_filter_parameter_flag := 1, alpha_c_offset := -4, beta_offset := -1 }) ∧
    ((-8 ≤ (gst_cavs_video_parser_parse_i_picture i_picture_unit_offsets
          GstCAVSVideoSequenceHeader.zero GstCAVSVideoPictureHeader.zero).2.alpha_c_offset ∧
        (gst_cavs_video_parser_parse_i_picture i_picture_unit_offsets
          GstCAVSVideoSequenceHeader.zero GstCAVSVideoPictureHeader.zero).2.alpha_c_offset
          ≤ 8) ∧
      (-8 ≤ (gst_cavs_video_parser_parse_i_picture i_picture_unit_offsets
          GstCAVSVideoSequenceHeader.zero GstCAVSVideoPictureHeader.zero).2.beta_offset ∧
        (gst_cavs_video_parser_parse_i_picture i_picture_unit_offsets
          GstCAVSVideoSequenceHeader.zero GstCAVSVideoPictureHeader.zero).2.beta_offset
          ≤ 8)) ∧
    (gst_cavs_video_parser_parse_i_picture i_picture_unit_alpha_9
        GstCAVSVideoSequenceHeader.zero GstCAVSVideoPictureHeader.zero).1
      = GstCAVSVideoParserResult.ERROR :=
  ⟨by decide,
   ⟨((i_picture_loop_filter_offsets i_picture_unit_offsets GstCAVSVideoSequenceHeader.zero
        GstCAVSVideoPictureHeader.zero).1 (by decide)).1,
    ((i_picture_loop_filter_offsets i_picture_unit_offsets GstCAVSVideoSequenceHeader.zero
        GstCAVSVideoPictureHeader.zero).1 (by decide)).2.1⟩,
   (i_picture_loop_filter_offsets i_picture_unit_alpha_9 GstCAVSVideoSequenceHeader.zero
      GstCAVSVideoPictureHeader.zero).2 _ _ _ _ _ 1 9
      (triple_fst_eq _ _ (by decide)) (pair_fst_eq _ _ (by decide))
      (pair_fst_eq _ _ (by decide)) (by decide) (pair_fst_eq _ _ (by decide))
      (Or.inl (Or.inr (by decide)))⟩

/-- C31: the PB picture applies no range check to the loop filter offsets.
The payloads of `pb_picture_unit_alpha_9` and `i_picture_unit_alpha_9` carry
the same ten offset bits `0000100101` (at logical bits 44..53 and 42..51),
after a cleared `loop_filter_disable` and a set `loop_filter_parameter_flag`.
`gst_cavs_video_parser_parse_pb_picture` returns `OK` with `alpha_c_offset =
9`, outside `[-8, 8]`; `gst_cavs_video_parser_parse_i_picture` returns
`ERROR`. -/
theorem pb_picture_offsets_unchecked :
    gst_cavs_video_parser_parse_pb_picture pb_picture_unit_alpha_9
        GstCAVSVideoSequenceHeader.zero GstCAVSVideoPictureHeader.zero
      = (GstCAVSVideoParserResult.OK,
          { GstCAVSVideoPictureHeader.zero with
            bbv_delay := 0x1234, picture_coding_type := GST_CAVS_VIDEO_PICTURE_P,
            picture_distance := 5, progressive_frame := 1, picture_structure := 1,
            fixed_picture_qp := 1, picture_qp := 20, picture_reference_flag := 1,
            loop_filter_disable := 0, loop_filter_parameter_flag := 1,
            alpha_c_offset := 9, beta_offset := 0 }) ∧
    (8 : Int) < (gst_cavs_video_parser_parse_pb_picture pb_picture_unit_alpha_9
        GstCAVSVideoSequenceHeader.zero GstCAVSVideoPictureHeader.zero).2.alpha_c_offset ∧
    bitField (logicalBytes (pb_picture_unit_alpha_9.data.shift pb_picture_unit_alpha_9.offset)
        pb_picture_unit_alpha_9.size) 44 10 = 0b0000100101 ∧
    bitField (logicalBytes (i_picture_unit_alpha_9.data.shift i_picture_unit_alpha_9.offset)
        i_picture_unit_alpha_9.size) 42 10 = 0b0000100101 ∧
    (gst_cavs_video_parser_parse_i_picture i_picture_unit_alpha_9
        GstCAVSVideoSequenceHeader.zero GstCAVSVideoPictureHeader.zero).1
      = GstCAVSVideoParserResult.ERROR := by
  refine ⟨by decide, by decide, by decide, by decide, by decide⟩

/-! ## Properties kept by every store -/

/-- A property kept by every store of a statement holds of the record the
execution leaves, whatever the result. -/
theorem exec_keeps {H : Type} (s : Stmt H) (P : H → Prop) : ∀ (r : CAVSReader) (h : H),
    s.keeps P → P h → P (exec s r h).2.1 := by
  induction s with
  | READ_UINT bits nbits set =>
    intro r h hk hp
    unfold exec
    rcases avs_reader_get_bits bits r nbits with ⟨v, r1⟩
    cases v
    · exact hp
    · exact hk h _ hp
  | READ_INT bits nbits base set =>
    intro r h hk hp
    unfold exec
    rcases avs_reader_get_bits bits r nbits with ⟨v, r1⟩
    cases v
    · exact hp
    · exact hk h _ hp
  | READ_UE set =>
    intro r h hk hp
    unfold exec
    rcases avs_reader_get_ue r with ⟨v, r1⟩
    cases v
    · exact hp
    · exact hk h _ hp
  | READ_SE set =>
    intro r h hk hp
    unfold exec
    rcases avs_reader_get_se r with ⟨v, r1⟩
    cases v
    · exact hp
    · exact hk h _ hp
  | READ_SE_ALLOWED min max set =>
    intro r h hk hp
    unfold exec
    rcases avs_reader_get_se r with ⟨v, r1⟩
    cases v
    · exact hp
    · dsimp only
      split_ifs
      · exact hp
      · exact hk h _ hp
  | SKIP nbits =>
    intro r h _ hp
    unfold exec
    rcases avs_reader_skip r nbits with ⟨v, r1⟩
    cases v <;> exact hp
  | CHECK_ALLOWED val min max =>
    intro r h _ hp
    unfold exec
    split_ifs <;> exact hp
  | CHECK_MARKER_BIT =>
    intro r h _ hp
    unfold exec
    rcases avs_reader_get_bits_uint8 r 1 with ⟨v, r1⟩
    cases v <;> exact hp
  | assign f =>
    intro r h hk hp
    unfold exec
    exact hk h hp
  | seq s t ihs iht =>
    intro r h hk hp
    have h1 := ihs r h hk.1 hp
    unfold exec
    rcases hr : exec s r h with ⟨res, h1', r1⟩
    rw [hr] at h1
    cases res
    · exact iht r1 h1' hk.2 h1
    all_goals exact h1
  | ite c s t ihs iht =>
    intro r h hk hp
    unfold exec
    split_ifs
    · exact ihs r h hk.1 hp
    · exact iht r h hk.2 hp
  | nop =>
    intro r h _ hp
    unfold exec
    exact hp

theorem block_keeps {H : Type} (P : H → Prop) : ∀ (l : List (Stmt H)),
    (∀ s ∈ l, Stmt.keeps s P) → (Stmt.block l).keeps P := by
  intro l
  induction l with
  | nil => intro _; trivial
  | cons s rest ih =>
    intro hl
    exact ⟨hl s (List.mem_cons_self _ _), ih (fun t ht => hl t (List.mem_cons_of_mem _ ht))⟩

theorem for_loop_keeps {H : Type} (P : H → Prop) (body : Nat → Stmt H) : ∀ (count i : Nat),
    (∀ j, i ≤ j → j < i + count → (body j).keeps P) →
    (Stmt.for_loop body i count).keeps P := by
  intro count
  induction count with
  | zero => intro i _; trivial
  | succ n ih =>
    intro i hb
    exact ⟨hb i (Nat.le_refl _) (by omega), ih (i + 1) (fun j h1 h2 => hb j (by omega) (by omega))⟩

/-- A property of the record of every execution holds of the pair a parser
returns. -/
theorem parser_pair_snd {H : Type} (res : GstCAVSVideoParserResult × H × CAVSReader)
    (P : H → Prop) (key : P res.2.1) : P (res.1, res.2.1).2 :=
  key

theorem i_picture_type (unit : GstCAVSVideoUnit) (seqhdr : GstCAVSVideoSequenceHeader)
    (s0 : GstCAVSVideoPictureHeader) :
    (gst_cavs_video_parser_parse_i_picture unit seqhdr s0).2.type
      = GST_CAVS_VIDEO_PICTURE_HEADER_I := by
  have key := exec_keeps (Stmt.seq (i_picture_fields seqhdr) i_picture_loop_filter)
    (fun h => h.type = GST_CAVS_VIDEO_PICTURE_HEADER_I)
    (avs_reader_init (unit.data.shift unit.offset) (u32 unit.size))
    GstCAVSVideoPictureHeader.zero (by
      simp only [i_picture_fields, i_picture_loop_filter, Stmt.block, Stmt.keeps, imp_self,
        implies_true, and_self]) rfl
  rw [i_picture_eq]
  exact parser_pair_snd _
    (fun h : GstCAVSVideoPictureHeader => h.type = GST_CAVS_VIDEO_PICTURE_HEADER_I) key

theorem pb_picture_type (unit : GstCAVSVideoUnit) (seqhdr : GstCAVSVideoSequenceHeader)
    (s0 : GstCAVSVideoPictureHeader) :
    (gst_cavs_video_parser_parse_pb_picture unit seqhdr s0).2.type
      = GST_CAVS_VIDEO_PICTURE_HEADER_I := by
  have key := exec_keeps (pb_picture_stmt seqhdr)
    (fun h => h.type = GST_CAVS_VIDEO_PICTURE_HEADER_I)
    (avs_reader_init (unit.data.shift unit.offset) (u32 unit.size))
    GstCAVSVideoPictureHeader.zero (by
      simp only [pb_picture_stmt, Stmt.block, Stmt.keeps, imp_self,
        implies_true, and_self]) rfl
  rw [pb_picture_eq]
  exact parser_pair_snd _
    (fun h : GstCAVSVideoPictureHeader => h.type = GST_CAVS_VIDEO_PICTURE_HEADER_I) key

/-- C32 (the code departs from the claim): neither picture parser stores the
`type` of the record.  After `gst_cavs_video_parser_parse_i_picture` and after
`gst_cavs_video_parser_parse_pb_picture`, whatever the result, `type` is the 0
left by the `memset`, which is `GST_CAVS_VIDEO_PICTURE_HEADER_I`; the PB
picture `pb_picture_unit_alpha_9` parses with `OK` and its record does not
carry `GST_CAVS_VIDEO_PICTURE_HEADER_PB`. -/
theorem picture_header_type_unset :
    (∀ (unit : GstCAVSVideoUnit) (seqhdr : GstCAVSVideoSequenceHeader)
        (s0 : GstCAVSVideoPictureHeader),
      (gst_cavs_video_parser_parse_i_picture unit seqhdr s0).2.type
          = GST_CAVS_VIDEO_PICTURE_HEADER_I ∧
        (gst_cavs_video_parser_parse_pb_picture unit seqhdr s0).2.type
          = GST_CAVS_VIDEO_PICTURE_HEADER_I) ∧
    (gst_cavs_video_parser_parse_pb_picture pb_picture_unit_alpha_9
        GstCAVSVideoSequenceHeader.zero GstCAVSVideoPictureHeader.zero).1
      = GstCAVSVideoParserResult.OK ∧
    (gst_cavs_video_parser_parse_pb_picture pb_picture_unit_alpha_9
        GstCAVSVideoSequenceHeader.zero GstCAVSVideoPictureHeader.zero).2.type
      ≠ GST_CAVS_VIDEO_PICTURE_HEADER_PB :=
  ⟨fun unit seqhdr s0 => ⟨i_picture_type unit seqhdr s0, pb_picture_type unit seqhdr s0⟩,
   by decide, by decide⟩

/-! ## Slice header -/

theorem slice_header_eq (unit : GstCAVSVideoUnit) (seqhdr : GstCAVSVideoSequenceHeader)
    (pic : GstCAVSVideoPictureHeader) (s0 : GstCAVSVideoSliceHeader) :
    gst_cavs_video_parser_parse_slice_header unit seqhdr pic s0
      = if (exec (slice_header_fields unit seqhdr pic)
            (avs_reader_init (unit.data.shift unit.offset) (u32 unit.size))
            GstCAVSVideoSliceHeader.zero).1 ≠ GstCAVSVideoParserResult.OK then
          some (GstCAVSVideoParserResult.ERROR,
            (exec (slice_header_fields unit seqhdr pic)
              (avs_reader_init (unit.data.shift unit.offset) (u32 unit.size))
              GstCAVSVideoSliceHeader.zero).2.1)
        else if slice_weighting_cond seqhdr pic
              (exec (slice_header_fields unit seqhdr pic)
                (avs_reader_init (unit.data.shift unit.offset) (u32 unit.size))
                GstCAVSVideoSliceHeader.zero).2.1 = true ∧
            (exec (slice_header_fields unit seqhdr pic)
              (avs_reader_init (unit.data.shift unit.offset) (u32 unit.size))
              GstCAVSVideoSliceHeader.zero).2.1.slice_weighting_flag ≠ 0 then
          (gst_cavs_video_parser_get_number_of_reference pic).map (fun n_references =>
            ((exec (slice_weighting_stmt n_references)
                (exec (slice_header_fields unit seqhdr pic)
                  (avs_reader_init (unit.data.shift unit.offset) (u32 unit.size))
                  GstCAVSVideoSliceHeader.zero).2.2
                (exec (slice_header_fields unit seqhdr pic)
                  (avs_reader_init (unit.data.shift unit.offset) (u32 unit.size))
                  GstCAVSVideoSliceHeader.zero).2.1).1,
              (exec (slice_weighting_stmt n_references)
                (exec (slice_header_fields unit seqhdr pic)
                  (avs_reader_init (unit.data.shift unit.offset) (u32 unit.size))
                  GstCAVSVideoSliceHeader.zero).2.2
                (exec (slice_header_fields unit seqhdr pic)
                  (avs_reader_init (unit.data.shift unit.offset) (u32 unit.size))
                  GstCAVSVideoSliceHeader.zero).2.1).2.1))
        else some (GstCAVSVideoParserResult.OK,
            (exec (slice_header_fields unit seqhdr pic)
              (avs_reader_init (unit.data.shift unit.offset) (u32 unit.size))
              GstCAVSVideoSliceHeader.zero).2.1) :=
  rfl

/-- The outcomes of the slice header parser, from the execution `head` of the
statements down to the weighting flag. -/
theorem slice_header_outcome (head : GstCAVSVideoParserResult × GstCAVSVideoSliceHeader × CAVSReader)
    (c : GstCAVSVideoSliceHeader → Bool) (nref : Option Nat)
    (res : GstCAVSVideoParserResult) (slice : GstCAVSVideoSliceHeader)
    (h : (if head.1 ≠ GstCAVSVideoParserResult.OK then
          some (GstCAVSVideoParserResult.ERROR, head.2.1)
        else if c head.2.1 = true ∧ head.2.1.slice_weighting_flag ≠ 0 then
          nref.map (fun n_references =>
            ((exec (slice_weighting_stmt n_references) head.2.2 head.2.1).1,
              (exec (slice_weighting_stmt n_references) head.2.2 head.2.1).2.1))
        else some (GstCAVSVideoParserResult.OK, head.2.1)) = some (res, slice)) :
    (head.1 ≠ GstCAVSVideoParserResult.OK ∧ res = GstCAVSVideoParserResult.ERROR ∧
      slice = head.2.1) ∨
    (head.1 = GstCAVSVideoParserResult.OK ∧
      ¬ (c head.2.1 = true ∧ head.2.1.slice_weighting_flag ≠ 0) ∧
      res = GstCAVSVideoParserResult.OK ∧ slice = head.2.1) ∨
    (head.1 = GstCAVSVideoParserResult.OK ∧ c head.2.1 = true ∧
      head.2.1.slice_weighting_flag ≠ 0 ∧
      ∃ n, nref = some n ∧
        res = (exec (slice_weighting_stmt n) head.2.2 head.2.1).1 ∧
        slice = (exec (slice_weighting_stmt n) head.2.2 head.2.1).2.1) := by
  split_ifs at h with c1 c2
  · simp only [Option.some.injEq, Prod.mk.injEq] at h
    exact Or.inl ⟨c1, h.1.symm, h.2.symm⟩
  · cases nref with
    | none => simp at h
    | some n =>
      simp only [Option.map_some', Option.some.injEq, Prod.mk.injEq] at h
      exact Or.inr (Or.inr ⟨Classical.not_not.mp c1, c2.1, c2.2, n, rfl, h.1.symm, h.2.symm⟩)
  · simp only [Option.some.injEq, Prod.mk.injEq] at h
    exact Or.inr (Or.inl ⟨Classical.not_not.mp c1, c2, h.1.symm, h.2.symm⟩)
theorem slice_header_fields_decode (unit : GstCAVSVideoUnit)
    (seqhdr : GstCAVSVideoSequenceHeader) (pic : GstCAVSVideoPictureHeader) (L : List Byte)
    (hok : ((slice_header_fields unit seqhdr pic).decode L 0 GstCAVSVideoSliceHeader.zero).1
      = GstCAVSVideoParserResult.OK) :
    SliceHeaderPosition unit seqhdr pic L
      ((slice_header_fields unit seqhdr pic).decode L 0 GstCAVSVideoSliceHeader.zero).2.1 := by
  have h3 : bitField L 0 3 < 2 ^ 3 := Nat.mod_lt _ (by norm_num)
  have hb : (unit.data (sub32 unit.offset 1)).val < 256 := (unit.data (sub32 unit.offset 1)).isLt
  revert hok
  simp only [SliceHeaderPosition, slice_header_fields, Stmt.block, Stmt.decode, GstCAVSVideoSliceHeader.zero,
    gt_iff_lt, decide_eq_true_eq, Nat.zero_add, Nat.shiftLeft_eq]
  by_cases c1 : 2800 < seqhdr.vertical_size <;> by_cases c2 : pic.fixed_picture_qp = 0
  all_goals simp only [c1, c2, if_true, if_false, true_implies, false_implies, and_true]
  all_goals repeat' (first | split_ifs | dsimp only)
  all_goals intro hok
  all_goals first
    | exact hok.elim
    | (cases hok; done)
    | (simp only [Nat.reduceAdd, true_and, and_true, and_self]; done)
    | (simp only [Nat.reduceAdd, true_and, and_true, and_self]; omega)
theorem slice_weighting_keeps (P : GstCAVSVideoSliceHeader → Prop)
    (hl : ∀ s i v, P s → P { s with luma_scale := s.luma_scale.set i v })
    (hls : ∀ s i v, P s → P { s with luma_shift := s.luma_shift.set i v })
    (hc : ∀ s i v, P s → P { s with chroma_scale := s.chroma_scale.set i v })
    (hcs : ∀ s i v, P s → P { s with chroma_shift := s.chroma_shift.set i v })
    (hm : ∀ s v, P s → P { s with mb_weighting_flag := v }) (n : Nat) :
    (slice_weighting_stmt n).keeps P := by
  refine ⟨for_loop_keeps P _ n 0 (fun j _ _ => ?_), fun h v hp => hm h v hp⟩
  exact ⟨fun h v hp => hl h j v hp, fun h v hp => hls h j v hp, trivial,
    fun h v hp => hc h j v hp, fun h v hp => hcs h j v hp, trivial, trivial⟩

theorem sub32_one (a : Nat) (h1 : 1 ≤ a) (h2 : a < 2 ^ 32) : sub32 a 1 = a - 1 := by
  unfold sub32
  omega

theorem u32_of_lt (a : Nat) (h : a < 2 ^ 32) : u32 a = a := Nat.mod_eq_of_lt h

theorem slice_header_fields_sized (unit : GstCAVSVideoUnit)
    (seqhdr : GstCAVSVideoSequenceHeader) (pic : GstCAVSVideoPictureHeader) :
    (slice_header_fields unit seqhdr pic).sized = true := by
  simp [slice_header_fields, Stmt.block, Stmt.sized]

/-- C33: vertical position of a slice.  Let the payload hold fewer than `2 ^
29` bytes, with logical content `L`, and start at an offset from 1 on.
Whenever `gst_cavs_video_parser_parse_slice_header` returns `OK`,
`slice_vertical_position` is the byte right before the payload (the fourth
byte of the start code), `slice_vertical_position_extension` is the field of
the first 3 logical bits when `vertical_size > 2800` and 0 otherwise, and
`mb_row` is `slice_vertical_position_extension * 128 +
slice_vertical_position`.  The extension is the only read before the
quantiser fields: when `fixed_picture_qp` is 0, `fixed_slice_qp` and `slice_qp`
are the fields at bits 3 and 4 with the extension and at bits 0 and 1 without
it. -/
theorem slice_header_position (unit : GstCAVSVideoUnit) (seqhdr : GstCAVSVideoSequenceHeader)
    (pic : GstCAVSVideoPictureHeader) (s0 slice : GstCAVSVideoSliceHeader)
    (hoff : 1 ≤ unit.offset) (hoff32 : unit.offset < 2 ^ 32) (hsize : unit.size < 2 ^ 29)
    (hok : gst_cavs_video_parser_parse_slice_header unit seqhdr pic s0
      = some (GstCAVSVideoParserResult.OK, slice)) :
    slice.slice_vertical_position = (unit.data (unit.offset - 1)).val ∧
    (2800 < seqhdr.vertical_size → slice.slice_vertical_position_extension
      = bitField (logicalBytes (unit.data.shift unit.offset) unit.size) 0 3) ∧
    (seqhdr.vertical_size ≤ 2800 → slice.slice_vertical_position_extension = 0) ∧
    slice.mb_row = slice.slice_vertical_position_extension * 128
      + slice.slice_vertical_position ∧
    (pic.fixed_picture_qp = 0 →
      (2800 < seqhdr.vertical_size →
        slice.fixed_slice_qp
          = bitField (logicalBytes (unit.data.shift unit.offset) unit.size) 3 1 ∧
        slice.slice_qp
          = bitField (logicalBytes (unit.data.shift unit.offset) unit.size) 4 6) ∧
      (seqhdr.vertical_size ≤ 2800 →
        slice.fixed_slice_qp
          = bitField (logicalBytes (unit.data.shift unit.offset) unit.size) 0 1 ∧
        slice.slice_qp
          = bitField (logicalBytes (unit.data.shift unit.offset) unit.size) 1 6)) := by
  have hu : u32 unit.size = unit.size := u32_of_lt _ (by omega)
  have hd : (avs_reader_init (unit.data.shift unit.offset) (u32 unit.size)).Delivers
      (logicalBytes (unit.data.shift unit.offset) unit.size) 0 := by
    rw [hu]
    exact init_delivers _ _ hsize
  obtain ⟨e1, e2, -⟩ := exec_decode _ (slice_header_fields unit seqhdr pic) _ 0
    GstCAVSVideoSliceHeader.zero hd (slice_header_fields_sized unit seqhdr pic)
  rw [slice_header_eq] at hok
  have hP : ∀ s : GstCAVSVideoSliceHeader,
      SliceHeaderPosition unit seqhdr pic
        (logicalBytes (unit.data.shift unit.offset) unit.size) s →
      s.slice_vertical_position = (unit.data (unit.offset - 1)).val ∧
      (2800 < seqhdr.vertical_size → s.slice_vertical_position_extension
        = bitField (logicalBytes (unit.data.shift unit.offset) unit.size) 0 3) ∧
      (seqhdr.vertical_size ≤ 2800 → s.slice_vertical_position_extension = 0) ∧
      s.mb_row = s.slice_vertical_position_extension * 128 + s.slice_vertical_position ∧
      (pic.fixed_picture_qp = 0 →
        (2800 < seqhdr.vertical_size →
          s.fixed_slice_qp
            = bitField (logicalBytes (unit.data.shift unit.offset) unit.size) 3 1 ∧
          s.slice_qp
            = bitField (logicalBytes (unit.data.shift unit.offset) unit.size) 4 6) ∧
        (seqhdr.vertical_size ≤ 2800 →
          s.fixed_slice_qp
            = bitField (logicalBytes (unit.data.shift unit.offset) unit.size) 0 1 ∧
          s.slice_qp
            = bitField (logicalBytes (unit.data.shift unit.offset) unit.size) 1 6)) := by
    intro s
    unfold SliceHeaderPosition
    rw [sub32_one _ hoff hoff32]
    rintro ⟨p1, p2, p3, p4⟩
    refine ⟨p1, fun c => ?_, fun c => ?_, p3, fun c4 => ⟨fun c => ?_, fun c => ?_⟩⟩
    · rw [p2, if_pos c]
    · rw [p2, if_neg (by omega)]
    · have := p4 c4
      rw [if_pos c, if_pos c] at this
      exact this
    · have := p4 c4
      rw [if_neg (by omega), if_neg (by omega)] at this
      exact this
  rcases slice_header_outcome _ _ _ _ _ hok with ⟨-, h, -⟩ | ⟨h1, -, -, h4⟩ | ⟨h1, -, -, n, -, -, h6⟩
  · cases h
  · rw [h4]
    apply hP
    rw [e1] at h1
    rw [e2]
    exact slice_header_fields_decode unit seqhdr pic _ h1
  · rw [h6]
    apply hP
    apply exec_keeps _ (SliceHeaderPosition unit seqhdr pic
      (logicalBytes (unit.data.shift unit.offset) unit.size))
    · exact slice_weighting_keeps _ (fun s i v hp => hp) (fun s i v hp => hp)
        (fun s i v hp => hp) (fun s i v hp => hp) (fun s v hp => hp) n
    · rw [e1] at h1
      rw [e2]
      exact slice_header_fields_decode unit seqhdr pic _ h1
/-- Witness of C33: `slice_unit_row_5` in a 3840x2880 sequence has position
byte 5 and extension 1, so `mb_row` is 133. -/
theorem slice_header_position_witness :
    (1 ≤ slice_unit_row_5.offset ∧ slice_unit_row_5.offset < 2 ^ 32 ∧
      slice_unit_row_5.size < 2 ^ 29) ∧
    gst_cavs_video_parser_parse_slice_header slice_unit_row_5 seqhdr_3840x2880 pic_p_frame
        GstCAVSVideoSliceHeader.zero
      = some (GstCAVSVideoParserResult.OK,
          ⟨5, 1, 1, 20, 1, [32, 34, 0, 0], [-2, -128, 0, 0], [33, 35, 0, 0], [3, 127, 0, 0], 1,
            133⟩) ∧
    (133 : Nat) = 1 * 128 + 5 :=
  ⟨⟨by decide, by decide, by decide⟩, by decide,
   (slice_header_position slice_unit_row_5 seqhdr_3840x2880 pic_p_frame
      GstCAVSVideoSliceHeader.zero
      ⟨5, 1, 1, 20, 1, [32, 34, 0, 0], [-2, -128, 0, 0], [33, 35, 0, 0], [3, 127, 0, 0], 1, 133⟩
      (by decide) (by decide) (by decide) (by decide)).2.2.2.1⟩

/-! ## Slice header: weighting -/

theorem toGintN_8_range (x : Nat) : -2 ^ 7 ≤ toGintN 8 x ∧ toGintN 8 x < 2 ^ 7 := by
  unfold toGintN
  have h : x % 2 ^ 8 < 2 ^ 8 := Nat.mod_lt _ (by norm_num)
  split_ifs with c <;> norm_num at c ⊢ <;> omega

/-- An 8 bit pattern congruent to an integer of the `gint8` range is that
integer. -/
theorem toGintN_8_of_int (n : Nat) (x : Int) (h : (n : Int) % 2 ^ 8 = x % 2 ^ 8)
    (h1 : -2 ^ 7 ≤ x) (h2 : x < 2 ^ 7) : toGintN 8 n = x := by
  unfold toGintN
  split_ifs with c <;> norm_num at c ⊢ <;> omega

/-- The value `READ_INT8 (r, val, 8)` stores is the 8 bits read, taken as a
`gint8`. -/
theorem read_int8_value (tmp : Nat) : read_int_value 8 8 8 tmp = toGintN 8 tmp := by
  obtain ⟨r1, r2⟩ := toGintN_8_range tmp
  have hs : sub32 8 8 = 0 := by unfold sub32; norm_num
  unfold read_int_value
  dsimp only
  rw [hs]
  generalize toGintN 8 tmp = y at r1 r2
  have hshl : shl_gint y 0 = y := by
    unfold shl_gint
    rw [if_pos (by norm_num)]
    apply toGint_of_int
    · push_cast
      rw [ofGint_cast]
      omega
    · omega
    · omega
  have hshr : shr_gint y 0 = y := by
    unfold shr_gint
    rw [if_pos (by norm_num)]
    simp
  rw [hshl, hshr]
  apply toGintN_8_of_int
  · rw [ofGint_cast]
    omega
  · exact r1
  · exact r2

theorem slice_weighting_decode_0 (L : List Byte) (a p e fq q w m row : Nat) :
    (a + 1 ≤ 8 * L.length →
      (slice_weighting_stmt 0).decode L a
          ⟨p, e, fq, q, w, [0, 0, 0, 0], [0, 0, 0, 0], [0, 0, 0, 0], [0, 0, 0, 0], m, row⟩
        = (GstCAVSVideoParserResult.OK,
            ⟨p, e, fq, q, w, [0, 0, 0, 0], [0, 0, 0, 0], [0, 0, 0, 0], [0, 0, 0, 0],
              bitField L a 1, row⟩, a + 1)) ∧
    (8 * L.length < a + 1 →
      ((slice_weighting_stmt 0).decode L a
          ⟨p, e, fq, q, w, [0, 0, 0, 0], [0, 0, 0, 0], [0, 0, 0, 0], [0, 0, 0, 0], m, row⟩).1
        = GstCAVSVideoParserResult.ERROR) := by
  constructor
  · intro h
    simp (disch := omega) only [slice_weighting_stmt, Stmt.for_loop, slice_weighting_body,
      Stmt.block, Stmt.decode, if_pos, read_int8_value, List.set_cons_zero, List.set_cons_succ,
      Nat.add_assoc, Nat.reduceAdd]
  · intro h
    simp only [slice_weighting_stmt, Stmt.for_loop, slice_weighting_body, Stmt.block,
      Stmt.decode]
    repeat (first | rfl | omega | split_ifs | dsimp only)

theorem slice_weighting_decode_1 (L : List Byte) (a p e fq q w m row : Nat) :
    (a + 35 ≤ 8 * L.length →
      (slice_weighting_stmt 1).decode L a
          ⟨p, e, fq, q, w, [0, 0, 0, 0], [0, 0, 0, 0], [0, 0, 0, 0], [0, 0, 0, 0], m, row⟩
        = (GstCAVSVideoParserResult.OK,
            ⟨p, e, fq, q, w, [bitField L a 8, 0, 0, 0],
              [toGintN 8 (bitField L (a + 8) 8), 0, 0, 0],
              [bitField L (a + 17) 8, 0, 0, 0],
              [toGintN 8 (bitField L (a + 25) 8), 0, 0, 0],
              bitField L (a + 34) 1, row⟩, a + 35)) ∧
    (8 * L.length < a + 35 →
      ((slice_weighting_stmt 1).decode L a
          ⟨p, e, fq, q, w, [0, 0, 0, 0], [0, 0, 0, 0], [0, 0, 0, 0], [0, 0, 0, 0], m, row⟩).1
        = GstCAVSVideoParserResult.ERROR) := by
  constructor
  · intro h
    simp (disch := omega) only [slice_weighting_stmt, Stmt.for_loop, slice_weighting_body,
      Stmt.block, Stmt.decode, if_pos, read_int8_value, List.set_cons_zero, List.set_cons_succ,
      Nat.add_assoc, Nat.reduceAdd]
  · intro h
    simp only [slice_weighting_stmt, Stmt.for_loop, slice_weighting_body, Stmt.block,
      Stmt.decode]
    repeat (first | rfl | omega | split_ifs | dsimp only)

theorem slice_weighting_decode_2 (L : List Byte) (a p e fq q w m row : Nat) :
    (a + 69 ≤ 8 * L.length →
      (slice_weighting_stmt 2).decode L a
          ⟨p, e, fq, q, w, [0, 0, 0, 0], [0, 0, 0, 0], [0, 0, 0, 0], [0, 0, 0, 0], m, row⟩
        = (GstCAVSVideoParserResult.OK,
            ⟨p, e, fq, q, w, [bitField L a 8, bitField L (a + 34) 8, 0, 0],
              [toGintN 8 (bitField L (a + 8) 8), toGintN 8 (bitField L (a + 42) 8), 0, 0],
              [bitField L (a + 17) 8, bitField L (a + 51) 8, 0, 0],
              [toGintN 8 (bitField L (a + 25) 8), toGintN 8 (bitField L (a + 59) 8), 0, 0],
              bitField L (a + 68) 1, row⟩, a + 69)) ∧
    (8 * L.length < a + 69 →
      ((slice_weighting_stmt 2).decode L a
          ⟨p, e, fq, q, w, [0, 0, 0, 0], [0, 0, 0, 0], [0, 0, 0, 0], [0, 0, 0, 0], m, row⟩).1
        = GstCAVSVideoParserResult.ERROR) := by
  constructor
  · intro h
    simp (disch := omega) only [slice_weighting_stmt, Stmt.for_loop, slice_weighting_body,
      Stmt.block, Stmt.decode, if_pos, read_int8_value, List.set_cons_zero, List.set_cons_succ,
      Nat.add_assoc, Nat.reduceAdd]
  · intro h
    simp only [slice_weighting_stmt, Stmt.for_loop, slice_weighting_body, Stmt.block,
      Stmt.decode]
    repeat (first | rfl | omega | split_ifs | dsimp only)

theorem slice_weighting_decode_4 (L : List Byte) (a p e fq q w m row : Nat) :
    (a + 137 ≤ 8 * L.length →
      (slice_weighting_stmt 4).decode L a
          ⟨p, e, fq, q, w, [0, 0, 0, 0], [0, 0, 0, 0], [0, 0, 0, 0], [0, 0, 0, 0], m, row⟩
        = (GstCAVSVideoParserResult.OK,
            ⟨p, e, fq, q, w,
              [bitField L a 8, bitField L (a + 34) 8, bitField L (a + 68) 8,
                bitField L (a + 102) 8],
              [toGintN 8 (bitField L (a + 8) 8), toGintN 8 (bitField L (a + 42) 8),
                toGintN 8 (bitField L (a + 76) 8), toGintN 8 (bitField L (a + 110) 8)],
              [bitField L (a + 17) 8, bitField L (a + 51) 8, bitField L (a + 85) 8,
                bitField L (a + 119) 8],
              [toGintN 8 (bitField L (a + 25) 8), toGintN 8 (bitField L (a + 59) 8),
                toGintN 8 (bitField L (a + 93) 8), toGintN 8 (bitField L (a + 127) 8)],
              bitField L (a + 136) 1, row⟩, a + 137)) ∧
    (8 * L.length < a + 137 →
      ((slice_weighting_stmt 4).decode L a
          ⟨p, e, fq, q, w, [0, 0, 0, 0], [0, 0, 0, 0], [0, 0, 0, 0], [0, 0, 0, 0], m, row⟩).1
        = GstCAVSVideoParserResult.ERROR) := by
  constructor
  · intro h
    simp (disch := omega) only [slice_weighting_stmt, Stmt.for_loop, slice_weighting_body,
      Stmt.block, Stmt.decode, if_pos, read_int8_value, List.set_cons_zero, List.set_cons_succ,
      Nat.add_assoc, Nat.reduceAdd]
  · intro h
    simp only [slice_weighting_stmt, Stmt.for_loop, slice_weighting_body, Stmt.block,
      Stmt.decode]
    repeat (first | rfl | omega | split_ifs | dsimp only)
theorem slice_weighting_run (L : List Byte) (r : CAVSReader) (a n : Nat)
    (h : GstCAVSVideoSliceHeader) (hd : r.Delivers L a)
    (hn : n = 0 ∨ n = 1 ∨ n = 2 ∨ n = 4)
    (h1 : h.luma_scale = [0, 0, 0, 0]) (h2 : h.luma_shift = [0, 0, 0, 0])
    (h3 : h.chroma_scale = [0, 0, 0, 0]) (h4 : h.chroma_shift = [0, 0, 0, 0]) :
    ((exec (slice_weighting_stmt n) r h).1 = GstCAVSVideoParserResult.OK
      ↔ a + 34 * n + 1 ≤ 8 * L.length) ∧
    ((exec (slice_weighting_stmt n) r h).1 = GstCAVSVideoParserResult.OK →
      (exec (slice_weighting_stmt n) r h).2.2.Delivers L (a + 34 * n + 1) ∧
      (exec (slice_weighting_stmt n) r h).2.1.mb_weighting_flag = bitField L (a + 34 * n) 1 ∧
      (∀ i, i < n →
        (exec (slice_weighting_stmt n) r h).2.1.luma_scale.getD i 0
          = bitField L (a + 34 * i) 8 ∧
        (exec (slice_weighting_stmt n) r h).2.1.luma_shift.getD i 0
          = toGintN 8 (bitField L (a + 34 * i + 8) 8) ∧
        (exec (slice_weighting_stmt n) r h).2.1.chroma_scale.getD i 0
          = bitField L (a + 34 * i + 17) 8 ∧
        (exec (slice_weighting_stmt n) r h).2.1.chroma_shift.getD i 0
          = toGintN 8 (bitField L (a + 34 * i + 25) 8)) ∧
      (∀ i, n ≤ i →
        (exec (slice_weighting_stmt n) r h).2.1.luma_scale.getD i 0 = 0 ∧
        (exec (slice_weighting_stmt n) r h).2.1.luma_shift.getD i 0 = 0 ∧
        (exec (slice_weighting_stmt n) r h).2.1.chroma_scale.getD i 0 = 0 ∧
        (exec (slice_weighting_stmt n) r h).2.1.chroma_shift.getD i 0 = 0)) := by
  rcases h with ⟨p, e, fq, q, w, ls, lsh, cs, csh, m, row⟩
  dsimp only at h1 h2 h3 h4
  subst h1 h2 h3 h4
  rcases hn with rfl | rfl | rfl | rfl
  · obtain ⟨e1, e2, e3⟩ := exec_decode L (slice_weighting_stmt 0) r a
      ⟨p, e, fq, q, w, [0, 0, 0, 0], [0, 0, 0, 0], [0, 0, 0, 0], [0, 0, 0, 0], m, row⟩ hd
      (by decide)
    obtain ⟨d1, d2⟩ := slice_weighting_decode_0 L a p e fq q w m row
    by_cases c : a + 1 ≤ 8 * L.length
    · rw [d1 c] at e1 e2 e3
      dsimp only at e1 e2 e3
      refine ⟨⟨fun _ => by omega, fun _ => e1⟩, fun _ => ⟨e3 rfl, ?_, ?_, ?_⟩⟩
      · exact (congrArg GstCAVSVideoSliceHeader.mb_weighting_flag e2).trans rfl
      · intro i hi
        omega
      · intro i hi
        rw [e2]
        rcases i with _ | _ | _ | _ | i <;> exact ⟨rfl, rfl, rfl, rfl⟩
    · have hE := d2 (by omega)
      rw [hE] at e1
      refine ⟨⟨fun h => ?_, fun h => ?_⟩, fun h => ?_⟩
      · rw [e1] at h; simp at h
      · omega
      · rw [e1] at h; simp at h
  · obtain ⟨e1, e2, e3⟩ := exec_decode L (slice_weighting_stmt 1) r a
      ⟨p, e, fq, q, w, [0, 0, 0, 0], [0, 0, 0, 0], [0, 0, 0, 0], [0, 0, 0, 0], m, row⟩ hd
      (by decide)
    obtain ⟨d1, d2⟩ := slice_weighting_decode_1 L a p e fq q w m row
    by_cases c : a + 35 ≤ 8 * L.length
    · rw [d1 c] at e1 e2 e3
      dsimp only at e1 e2 e3
      refine ⟨⟨fun _ => by omega, fun _ => e1⟩, fun _ => ⟨e3 rfl, ?_, ?_, ?_⟩⟩
      · exact (congrArg GstCAVSVideoSliceHeader.mb_weighting_flag e2).trans rfl
      · intro i hi
        rw [e2]
        rcases i with _ | i
        · exact ⟨rfl, rfl, rfl, rfl⟩
        · omega
      · intro i hi
        rw [e2]
        rcases i with _ | _ | _ | _ | i
        · omega
        all_goals exact ⟨rfl, rfl, rfl, rfl⟩
    · have hE := d2 (by omega)
      rw [hE] at e1
      refine ⟨⟨fun h => ?_, fun h => ?_⟩, fun h => ?_⟩
      · rw [e1] at h; simp at h
      · omega
      · rw [e1] at h; simp at h
  · obtain ⟨e1, e2, e3⟩ := exec_decode L (slice_weighting_stmt 2) r a
      ⟨p, e, fq, q, w, [0, 0, 0, 0], [0, 0, 0, 0], [0, 0, 0, 0], [0, 0, 0, 0], m, row⟩ hd
      (by decide)
    obtain ⟨d1, d2⟩ := slice_weighting_decode_2 L a p e fq q w m row
    by_cases c : a + 69 ≤ 8 * L.length
    · rw [d1 c] at e1 e2 e3
      dsimp only at e1 e2 e3
      refine ⟨⟨fun _ => by omega, fun _ => e1⟩, fun _ => ⟨e3 rfl, ?_, ?_, ?_⟩⟩
      · exact (congrArg GstCAVSVideoSliceHeader.mb_weighting_flag e2).trans rfl
      · intro i hi
        rw [e2]
        rcases i with _ | _ | i
        · exact ⟨rfl, rfl, rfl, rfl⟩
        · exact ⟨rfl, rfl, rfl, rfl⟩
        · omega
      · intro i hi
        rw [e2]
        rcases i with _ | _ | _ | _ | i
        · omega
        · omega
        all_goals exact ⟨rfl, rfl, rfl, rfl⟩
    · have hE := d2 (by omega)
      rw [hE] at e1
      refine ⟨⟨fun h => ?_, fun h => ?_⟩, fun h => ?_⟩
      · rw [e1] at h; simp at h
      · omega
      · rw [e1] at h; simp at h
  · obtain ⟨e1, e2, e3⟩ := exec_decode L (slice_weighting_stmt 4) r a
      ⟨p, e, fq, q, w, [0, 0, 0, 0], [0, 0, 0, 0], [0, 0, 0, 0], [0, 0, 0, 0], m, row⟩ hd
      (by decide)
    obtain ⟨d1, d2⟩ := slice_weighting_decode_4 L a p e fq q w m row
    by_cases c : a + 137 ≤ 8 * L.length
    · rw [d1 c] at e1 e2 e3
      dsimp only at e1 e2 e3
      refine ⟨⟨fun _ => by omega, fun _ => e1⟩, fun _ => ⟨e3 rfl, ?_, ?_, ?_⟩⟩
      · exact (congrArg GstCAVSVideoSliceHeader.mb_weighting_flag e2).trans rfl
      · intro i hi
        rw [e2]
        rcases i with _ | _ | _ | _ | i
        · exact ⟨rfl, rfl, rfl, rfl⟩
        · exact ⟨rfl, rfl, rfl, rfl⟩
        · exact ⟨rfl, rfl, rfl, rfl⟩
        · exact ⟨rfl, rfl, rfl, rfl⟩
        · omega
      · intro i hi
        rw [e2]
        rcases i with _ | _ | _ | _ | i
        · omega
        · omega
        · omega
        · omega
        · exact ⟨rfl, rfl, rfl, rfl⟩
    · have hE := d2 (by omega)
      rw [hE] at e1
      refine ⟨⟨fun h => ?_, fun h => ?_⟩, fun h => ?_⟩
      · rw [e1] at h; simp at h
      · omega
      · rw [e1] at h; simp at h

/-- The value of `gst_cavs_video_parser_get_number_of_reference` on every
picture header with a coding type among I, P and B. -/
theorem number_of_reference_value (pic : GstCAVSVideoPictureHeader) :
    (pic.picture_coding_type = GST_CAVS_VIDEO_PICTURE_I → pic.picture_structure ≠ 0 →
      gst_cavs_video_parser_get_number_of_reference pic = some 0) ∧
    (pic.picture_coding_type = GST_CAVS_VIDEO_PICTURE_I → pic.picture_structure = 0 →
      gst_cavs_video_parser_get_number_of_reference pic = some 1) ∧
    (pic.picture_coding_type = GST_CAVS_VIDEO_PICTURE_P ∨
        pic.picture_coding_type = GST_CAVS_VIDEO_PICTURE_B → pic.picture_structure ≠ 0 →
      gst_cavs_video_parser_get_number_of_reference pic = some 2) ∧
    (pic.picture_coding_type = GST_CAVS_VIDEO_PICTURE_P ∨
        pic.picture_coding_type = GST_CAVS_VIDEO_PICTURE_B → pic.picture_structure = 0 →
      gst_cavs_video_parser_get_number_of_reference pic = some 4) := by
  unfold gst_cavs_video_parser_get_number_of_reference GST_CAVS_VIDEO_PICTURE_I
    GST_CAVS_VIDEO_PICTURE_P GST_CAVS_VIDEO_PICTURE_B
  refine ⟨fun h1 h2 => ?_, fun h1 h2 => ?_, fun h1 h2 => ?_, fun h1 h2 => ?_⟩
  · rw [if_pos h1, if_neg h2]
  · rw [if_pos h1, if_pos h2]
  · rw [if_neg (by omega), if_pos h1, if_pos h2]
  · rw [if_neg (by omega), if_pos h1, if_neg (by omega)]

theorem number_of_reference_cases (pic : GstCAVSVideoPictureHeader) (n : Nat)
    (h : gst_cavs_video_parser_get_number_of_reference pic = some n) :
    n = 0 ∨ n = 1 ∨ n = 2 ∨ n = 4 := by
  unfold gst_cavs_video_parser_get_number_of_reference at h
  split_ifs at h <;> simp only [Option.some.injEq, reduceCtorEq] at h <;> omega
theorem slice_header_fields_weighting (unit : GstCAVSVideoUnit)
    (seqhdr : GstCAVSVideoSequenceHeader) (pic : GstCAVSVideoPictureHeader) (L : List Byte)
    (hflag : ((slice_header_fields unit seqhdr pic).decode L 0
      GstCAVSVideoSliceHeader.zero).2.1.slice_weighting_flag ≠ 0) :
    ((slice_header_fields unit seqhdr pic).decode L 0 GstCAVSVideoSliceHeader.zero).1
      = GstCAVSVideoParserResult.OK ∧
    slice_weighting_cond seqhdr pic
      ((slice_header_fields unit seqhdr pic).decode L 0 GstCAVSVideoSliceHeader.zero).2.1
      = true ∧
    ((slice_header_fields unit seqhdr pic).decode L 0 GstCAVSVideoSliceHeader.zero).2.2
      = (if 2800 < seqhdr.vertical_size then 3 else 0)
        + (if pic.fixed_picture_qp = 0 then 7 else 0) + 1 ∧
    ((slice_header_fields unit seqhdr pic).decode L 0
      GstCAVSVideoSliceHeader.zero).2.1.luma_scale = [0, 0, 0, 0] ∧
    ((slice_header_fields unit seqhdr pic).decode L 0
      GstCAVSVideoSliceHeader.zero).2.1.luma_shift = [0, 0, 0, 0] ∧
    ((slice_header_fields unit seqhdr pic).decode L 0
      GstCAVSVideoSliceHeader.zero).2.1.chroma_scale = [0, 0, 0, 0] ∧
    ((slice_header_fields unit seqhdr pic).decode L 0
      GstCAVSVideoSliceHeader.zero).2.1.chroma_shift = [0, 0, 0, 0] := by
  revert hflag
  simp only [slice_header_fields, Stmt.block, Stmt.decode, GstCAVSVideoSliceHeader.zero,
    slice_weighting_cond, gt_iff_lt, decide_eq_true_eq, Nat.zero_add, Nat.shiftLeft_eq]
  by_cases c1 : 2800 < seqhdr.vertical_size <;> by_cases c2 : pic.fixed_picture_qp = 0
  all_goals simp only [c1, c2, if_true, if_false, true_implies, false_implies, and_true]
  all_goals repeat' (first | split_ifs | dsimp only)
  all_goals intro hflag
  all_goals first
    | exact absurd rfl hflag
    | (refine ⟨rfl, ?_, rfl, rfl, rfl, rfl, rfl⟩; assumption)
/-- C34, first reading (refuted): the count for an I picture with frame
structure is 0, not 1, for an I picture with field structure 1, not 0, for a
P picture with frame structure 2, not 4, and with field structure 4, not 2;
`slice_unit_row_5`, a slice of a P picture with frame structure, carries two
pairs of weights before `mb_weighting_flag`. -/
theorem number_of_reference_counterexample :
    gst_cavs_video_parser_get_number_of_reference
        { GstCAVSVideoPictureHeader.zero with
          picture_coding_type := GST_CAVS_VIDEO_PICTURE_I, picture_structure := 1 } = some 0 ∧
    gst_cavs_video_parser_get_number_of_reference
        { GstCAVSVideoPictureHeader.zero with
          picture_coding_type := GST_CAVS_VIDEO_PICTURE_I, picture_structure := 0 } = some 1 ∧
    gst_cavs_video_parser_get_number_of_reference pic_p_frame = some 2 ∧
    gst_cavs_video_parser_get_number_of_reference
        { GstCAVSVideoPictureHeader.zero with
          picture_coding_type := GST_CAVS_VIDEO_PICTURE_P, picture_structure := 0 } = some 4 ∧
    gst_cavs_video_parser_parse_slice_header slice_unit_row_5 seqhdr_3840x2880 pic_p_frame
        GstCAVSVideoSliceHeader.zero
      = some (GstCAVSVideoParserResult.OK,
          ⟨5, 1, 1, 20, 1, [32, 34, 0, 0], [-2, -128, 0, 0], [33, 35, 0, 0], [3, 127, 0, 0], 1,
            133⟩) ∧
    8 * (logicalBytes (slice_unit_row_5.data.shift slice_unit_row_5.offset)
      slice_unit_row_5.size).length = 11 + 34 * 2 + 1 := by
  refine ⟨by decide, by decide, by decide, by decide, by decide, by decide⟩

/-- C34 (amended): the number of references is 0 for an I picture with frame
structure (`picture_structure` not 0), 1 for an I picture with field
structure, 2 for a P or B picture with frame structure and 4 for a P or B
picture with field structure.  Let `gst_cavs_video_parser_parse_slice_header`
return on a payload of fewer than `2 ^ 29` bytes, with logical content `L`,
and leave `slice_weighting_flag` not 0; the flag is then the bit at `A - 1`,
after the 3 bit extension and the 7 quantiser bits where present.  The number
of references `n` is defined, the result is `OK` exactly when `34 * n + 1`
bits are left from bit `A` on, and then `mb_weighting_flag` is the bit at `A +
34 * n`, the weights `i < n` are the 8 bit fields at `A + 34 * i` plus 0, 8,
17 and 25 (the shifts as `gint8`), and the entries from `n` on are 0. -/
theorem slice_weighting_pairs (unit : GstCAVSVideoUnit) (seqhdr : GstCAVSVideoSequenceHeader)
    (pic : GstCAVSVideoPictureHeader) (s0 slice : GstCAVSVideoSliceHeader)
    (res : GstCAVSVideoParserResult) (A : Nat) (hsize : unit.size < 2 ^ 29)
    (hA : A = (if 2800 < seqhdr.vertical_size then 3 else 0)
      + (if pic.fixed_picture_qp = 0 then 7 else 0) + 1)
    (hparse : gst_cavs_video_parser_parse_slice_header unit seqhdr pic s0 = some (res, slice))
    (hflag : slice.slice_weighting_flag ≠ 0) :
    ((pic.picture_coding_type = GST_CAVS_VIDEO_PICTURE_I → pic.picture_structure ≠ 0 →
        gst_cavs_video_parser_get_number_of_reference pic = some 0) ∧
      (pic.picture_coding_type = GST_CAVS_VIDEO_PICTURE_I → pic.picture_structure = 0 →
        gst_cavs_video_parser_get_number_of_reference pic = some 1) ∧
      (pic.picture_coding_type = GST_CAVS_VIDEO_PICTURE_P ∨
          pic.picture_coding_type = GST_CAVS_VIDEO_PICTURE_B → pic.picture_structure ≠ 0 →
        gst_cavs_video_parser_get_number_of_reference pic = some 2) ∧
      (pic.picture_coding_type = GST_CAVS_VIDEO_PICTURE_P ∨
          pic.picture_coding_type = GST_CAVS_VIDEO_PICTURE_B → pic.picture_structure = 0 →
        gst_cavs_video_parser_get_number_of_reference pic = some 4)) ∧
    ∃ n, gst_cavs_video_parser_get_number_of_reference pic = some n ∧
      (res = GstCAVSVideoParserResult.OK ↔
        A + 34 * n + 1 ≤ 8 * (logicalBytes (unit.data.shift unit.offset) unit.size).length) ∧
      (res = GstCAVSVideoParserResult.OK →
        slice.mb_weighting_flag
          = bitField (logicalBytes (unit.data.shift unit.offset) unit.size) (A + 34 * n) 1 ∧
        (∀ i, i < n →
          slice.luma_scale.getD i 0
            = bitField (logicalBytes (unit.data.shift unit.offset) unit.size)
                (A + 34 * i) 8 ∧
          slice.luma_shift.getD i 0
            = toGintN 8 (bitField (logicalBytes (unit.data.shift unit.offset) unit.size)
                (A + 34 * i + 8) 8) ∧
          slice.chroma_scale.getD i 0
            = bitField (logicalBytes (unit.data.shift unit.offset) unit.size)
                (A + 34 * i + 17) 8 ∧
          slice.chroma_shift.getD i 0
            = toGintN 8 (bitField (logicalBytes (unit.data.shift unit.offset) unit.size)
                (A + 34 * i + 25) 8)) ∧
        (∀ i, n ≤ i →
          slice.luma_scale.getD i 0 = 0 ∧ slice.luma_shift.getD i 0 = 0 ∧
          slice.chroma_scale.getD i 0 = 0 ∧ slice.chroma_shift.getD i 0 = 0)) := by
  refine ⟨number_of_reference_value pic, ?_⟩
  have hu : u32 unit.size = unit.size := u32_of_lt _ (by omega)
  have hd : (avs_reader_init (unit.data.shift unit.offset) (u32 unit.size)).Delivers
      (logicalBytes (unit.data.shift unit.offset) unit.size) 0 := by
    rw [hu]
    exact init_delivers _ _ hsize
  obtain ⟨e1, e2, e3⟩ := exec_decode _ (slice_header_fields unit seqhdr pic) _ 0
    GstCAVSVideoSliceHeader.zero hd (slice_header_fields_sized unit seqhdr pic)
  rw [slice_header_eq] at hparse
  rcases slice_header_outcome _ _ _ _ _ hparse with
    ⟨h1, -, h3⟩ | ⟨-, h2, -, h4⟩ | ⟨-, -, h3, n, h4, h5, h6⟩
  · exfalso
    rw [h3, e2] at hflag
    rw [e1] at h1
    exact h1 (slice_header_fields_weighting unit seqhdr pic _ hflag).1
  · exfalso
    rw [h4] at hflag
    apply h2
    refine ⟨?_, hflag⟩
    rw [e2] at hflag ⊢
    exact (slice_header_fields_weighting unit seqhdr pic _ hflag).2.1
  · have hf := h3
    rw [e2] at hf
    obtain ⟨w1, -, w3, w4, w5, w6, w7⟩ := slice_header_fields_weighting unit seqhdr pic _ hf
    have hd2 := e3 w1
    rw [w3, ← hA] at hd2
    rw [← e2] at w4 w5 w6 w7
    have hrun := slice_weighting_run _ _ A n _ hd2 (number_of_reference_cases pic n h4)
      w4 w5 w6 w7
    rw [← h5, ← h6] at hrun
    exact ⟨n, h4, hrun.1, fun hok => (hrun.2 hok).2⟩
/-- Witness of C34: `slice_unit_row_5` with a P picture with frame structure;
the flag is read as 1 and the count is 2. -/
theorem slice_weighting_pairs_witness :
    (slice_unit_row_5.size < 2 ^ 29 ∧
      (11 : Nat) = (if 2800 < seqhdr_3840x2880.vertical_size then 3 else 0)
        + (if pic_p_frame.fixed_picture_qp = 0 then 7 else 0) + 1) ∧
    gst_cavs_video_parser_parse_slice_header slice_unit_row_5 seqhdr_3840x2880 pic_p_frame
        GstCAVSVideoSliceHeader.zero
      = some (GstCAVSVideoParserResult.OK,
          ⟨5, 1, 1, 20, 1, [32, 34, 0, 0], [-2, -128, 0, 0], [33, 35, 0, 0], [3, 127, 0, 0], 1,
            133⟩) ∧
    gst_cavs_video_parser_get_number_of_reference pic_p_frame = some 2 :=
  ⟨⟨by decide, by decide⟩, by decide,
   (slice_weighting_pairs slice_unit_row_5 seqhdr_3840x2880 pic_p_frame
      GstCAVSVideoSliceHeader.zero
      ⟨5, 1, 1, 20, 1, [32, 34, 0, 0], [-2, -128, 0, 0], [33, 35, 0, 0], [3, 127, 0, 0], 1, 133⟩
      GstCAVSVideoParserResult.OK 11 (by decide) (by decide) (by decide)
      (by decide)).1.2.2.1 (Or.inl rfl) (by decide)⟩
/-! ## Picture coding type and array bounds -/

theorem i_picture_coding_type (unit : GstCAVSVideoUnit) (seqhdr : GstCAVSVideoSequenceHeader)
    (s0 : GstCAVSVideoPictureHeader) :
    (gst_cavs_video_parser_parse_i_picture unit seqhdr s0).2.picture_coding_type
      = GST_CAVS_VIDEO_PICTURE_I := by
  have key := exec_keeps (Stmt.seq (i_picture_fields seqhdr) i_picture_loop_filter)
    (fun h => h.picture_coding_type = GST_CAVS_VIDEO_PICTURE_I)
    (avs_reader_init (unit.data.shift unit.offset) (u32 unit.size))
    GstCAVSVideoPictureHeader.zero (by
      simp only [i_picture_fields, i_picture_loop_filter, Stmt.block, Stmt.keeps, imp_self,
        implies_true, and_self]) rfl
  rw [i_picture_eq]
  exact parser_pair_snd _
    (fun h : GstCAVSVideoPictureHeader => h.picture_coding_type = GST_CAVS_VIDEO_PICTURE_I) key

/-- C39 (the code departs from the claim): the PB picture parser stores the 2
bit coding type unchecked.  `pb_picture_unit_type_3`, whose coding type bits
are `11`, parses with `OK` and `picture_coding_type = 3`; on this record
`gst_cavs_video_parser_get_number_of_reference` reaches its assertion, and
`gst_cavs_video_parser_parse_slice_header` reaches it on `slice_unit_row_5`,
whose `slice_weighting_flag` is 1.  The records of the I picture parser always
carry `GST_CAVS_VIDEO_PICTURE_I`. -/
theorem coding_type_unchecked :
    gst_cavs_video_parser_parse_pb_picture pb_picture_unit_type_3
        GstCAVSVideoSequenceHeader.zero GstCAVSVideoPictureHeader.zero
      = (GstCAVSVideoParserResult.OK,
          { GstCAVSVideoPictureHeader.zero with
            bbv_delay := 0x1234, picture_coding_type := 3,
            picture_distance := 5, progressive_frame := 1, picture_structure := 1,
            fixed_picture_qp := 1, picture_qp := 20, picture_reference_flag := 1,
            loop_filter_disable := 0, loop_filter_parameter_flag := 1,
            alpha_c_offset := -2, beta_offset := -1 }) ∧
    gst_cavs_video_parser_get_number_of_reference
        (gst_cavs_video_parser_parse_pb_picture pb_picture_unit_type_3
          GstCAVSVideoSequenceHeader.zero GstCAVSVideoPictureHeader.zero).2 = none ∧
    gst_cavs_video_parser_parse_slice_header slice_unit_row_5 seqhdr_3840x2880
        (gst_cavs_video_parser_parse_pb_picture pb_picture_unit_type_3
          GstCAVSVideoSequenceHeader.zero GstCAVSVideoPictureHeader.zero).2
        GstCAVSVideoSliceHeader.zero = none ∧
    (∀ (unit : GstCAVSVideoUnit) (seqhdr : GstCAVSVideoSequenceHeader)
        (s0 : GstCAVSVideoPictureHeader),
      (gst_cavs_video_parser_parse_i_picture unit seqhdr s0).2.picture_coding_type
        = GST_CAVS_VIDEO_PICTURE_I) :=
  ⟨by decide, by decide, by decide, i_picture_coding_type⟩
theorem getD_set_ne {α : Type} (l : List α) (i j : Nat) (v d : α) (h : j ≠ i) :
    (l.set j v).getD i d = l.getD i d := by
  simp only [List.getD_eq_getElem?_getD, List.getElem?_set_ne h]

theorem number_of_reference_le (pic : GstCAVSVideoPictureHeader)
    (hpic : pic.picture_coding_type ≤ 2) :
    ∃ n, gst_cavs_video_parser_get_number_of_reference pic = some n ∧ n ≤ 4 := by
  unfold gst_cavs_video_parser_get_number_of_reference GST_CAVS_VIDEO_PICTURE_I
    GST_CAVS_VIDEO_PICTURE_P GST_CAVS_VIDEO_PICTURE_B
  split_ifs with c1 c2 c3 c4
  · exact ⟨1, rfl, by omega⟩
  · exact ⟨0, rfl, by omega⟩
  · exact ⟨2, rfl, by omega⟩
  · exact ⟨4, rfl, by omega⟩
  · omega

theorem n_frames_centre_offsets_le (seqhdr : GstCAVSVideoSequenceHeader)
    (pic : GstCAVSVideoPictureHeader) : n_frames_centre_offsets seqhdr pic ≤ 3 := by
  unfold n_frames_centre_offsets
  split_ifs <;> omega

/-- C40: bounds of the array stores.  For a picture header with coding type
0, 1 or 2 the number of references is defined and at most 4, and the
weighting statements of the slice header, run from any reader and any record,
leave every entry at an index from 4 on of `luma_scale`, `luma_shift`,
`chroma_scale` and `chroma_shift` as it was: the loop stores at indices below
4 only.  The count of the picture display extension is at most 3, and its
loop leaves every entry at an index from 3 on of the two offset arrays as it
was. -/
theorem array_stores_in_range (pic : GstCAVSVideoPictureHeader)
    (hpic : pic.picture_coding_type ≤ 2) :
    (∃ n, gst_cavs_video_parser_get_number_of_reference pic = some n ∧ n ≤ 4 ∧
      ∀ (r : CAVSReader) (h : GstCAVSVideoSliceHeader) (i : Nat), 4 ≤ i →
        (exec (slice_weighting_stmt n) r h).2.1.luma_scale.getD i 0
          = h.luma_scale.getD i 0 ∧
        (exec (slice_weighting_stmt n) r h).2.1.luma_shift.getD i 0
          = h.luma_shift.getD i 0 ∧
        (exec (slice_weighting_stmt n) r h).2.1.chroma_scale.getD i 0
          = h.chroma_scale.getD i 0 ∧
        (exec (slice_weighting_stmt n) r h).2.1.chroma_shift.getD i 0
          = h.chroma_shift.getD i 0) ∧
    (∀ (seqhdr : GstCAVSVideoSequenceHeader) (picture_header : GstCAVSVideoPictureHeader),
      n_frames_centre_offsets seqhdr picture_header ≤ 3 ∧
      ∀ (r : CAVSReader) (h : GstCAVSVideoPictureDisplayExtension) (i : Nat), 3 ≤ i →
        (exec (Stmt.for_loop picture_display_body 0
            (n_frames_centre_offsets seqhdr picture_header))
            r h).2.1.frame_centre_horizontal_offset.getD i 0
          = h.frame_centre_horizontal_offset.getD i 0 ∧
        (exec (Stmt.for_loop picture_display_body 0
            (n_frames_centre_offsets seqhdr picture_header))
            r h).2.1.frame_centre_vertical_offset.getD i 0
          = h.frame_centre_vertical_offset.getD i 0) := by
  constructor
  · obtain ⟨n, h1, h2⟩ := number_of_reference_le pic hpic
    refine ⟨n, h1, h2, fun r h i hi => ?_⟩
    refine exec_keeps (slice_weighting_stmt n)
      (fun s => s.luma_scale.getD i 0 = h.luma_scale.getD i 0 ∧
        s.luma_shift.getD i 0 = h.luma_shift.getD i 0 ∧
        s.chroma_scale.getD i 0 = h.chroma_scale.getD i 0 ∧
        s.chroma_shift.getD i 0 = h.chroma_shift.getD i 0) r h ?_ ⟨rfl, rfl, rfl, rfl⟩
    refine ⟨for_loop_keeps _ _ n 0 (fun j _ hj => ?_), fun s v hp => hp⟩
    have hji : j ≠ i := by omega
    refine ⟨fun s v hp => ?_, fun s v hp => ?_, trivial, fun s v hp => ?_, fun s v hp => ?_,
      trivial, trivial⟩
    · exact ⟨(getD_set_ne _ _ _ _ _ hji).trans hp.1, hp.2⟩
    · exact ⟨hp.1, (getD_set_ne _ _ _ _ _ hji).trans hp.2.1, hp.2.2⟩
    · exact ⟨hp.1, hp.2.1, (getD_set_ne _ _ _ _ _ hji).trans hp.2.2.1, hp.2.2.2⟩
    · exact ⟨hp.1, hp.2.1, hp.2.2.1, (getD_set_ne _ _ _ _ _ hji).trans hp.2.2.2⟩
  · intro seqhdr picture_header
    have hn := n_frames_centre_offsets_le seqhdr picture_header
    refine ⟨hn, fun r h i hi => ?_⟩
    refine exec_keeps (Stmt.for_loop picture_display_body 0
        (n_frames_centre_offsets seqhdr picture_header))
      (fun s => s.frame_centre_horizontal_offset.getD i 0
          = h.frame_centre_horizontal_offset.getD i 0 ∧
        s.frame_centre_vertical_offset.getD i 0
          = h.frame_centre_vertical_offset.getD i 0) r h ?_ ⟨rfl, rfl⟩
    refine for_loop_keeps _ _ _ 0 (fun j _ hj => ?_)
    have hji : j ≠ i := by omega
    refine ⟨fun s v hp => ?_, trivial, fun s v hp => ?_, trivial, trivial⟩
    · exact ⟨(getD_set_ne _ _ _ _ _ hji).trans hp.1, hp.2⟩
    · exact ⟨hp.1, (getD_set_ne _ _ _ _ _ hji).trans hp.2⟩

/-- Witness of C40: a P picture with frame structure has 2 references. -/
theorem array_stores_in_range_witness :
    pic_p_frame.picture_coding_type ≤ 2 ∧
    (∃ n, gst_cavs_video_parser_get_number_of_reference pic_p_frame = some n ∧ n ≤ 4) ∧
    gst_cavs_video_parser_get_number_of_reference pic_p_frame = some 2 :=
  ⟨by decide,
   (array_stores_in_range pic_p_frame (by decide)).1.imp (fun _ hn => ⟨hn.1, hn.2.1⟩),
   by decide⟩

/-! ## Unit scanner: enumeration -/

/-- C36: units enumerate contiguously.  On a buffer shorter than `2 ^ 31`
bytes with four bytes at `offset`, let
`gst_cavs_video_parser_identify_unit (data, offset, size)` return `OK` with a
unit that is not a sequence end.  Then the call at `unit.offset + unit.size`,
whatever the incoming contents of its out-parameter, returns `OK` or
`NO_UNIT_END`, and its unit has `sc_offset = unit.offset + unit.size` and
`offset = unit.offset + unit.size + 4`. -/
theorem identify_unit_contiguous (data : Ptr) (offset size : Nat)
    (unit unit' : GstCAVSVideoUnit) (h1 : offset + 4 ≤ size) (h2 : size < 2 ^ 31)
    (hr : (gst_cavs_video_parser_identify_unit data offset size unit).1 = .OK)
    (hty : (gst_cavs_video_parser_identify_unit data offset size unit).2.type
      ≠ GST_CAVS_VIDEO_UNIT_VIDEO_SEQUENCE_END) :
    ((gst_cavs_video_parser_identify_unit data
          ((gst_cavs_video_parser_identify_unit data offset size unit).2.offset
            + (gst_cavs_video_parser_identify_unit data offset size unit).2.size)
          size unit').1 = .OK ∨
      (gst_cavs_video_parser_identify_unit data
          ((gst_cavs_video_parser_identify_unit data offset size unit).2.offset
            + (gst_cavs_video_parser_identify_unit data offset size unit).2.size)
          size unit').1 = .NO_UNIT_END) ∧
    (gst_cavs_video_parser_identify_unit data
        ((gst_cavs_video_parser_identify_unit data offset size unit).2.offset
          + (gst_cavs_video_parser_identify_unit data offset size unit).2.size)
        size unit').2.sc_offset
      = (gst_cavs_video_parser_identify_unit data offset size unit).2.offset
        + (gst_cavs_video_parser_identify_unit data offset size unit).2.size ∧
    (gst_cavs_video_parser_identify_unit data
        ((gst_cavs_video_parser_identify_unit data offset size unit).2.offset
          + (gst_cavs_video_parser_identify_unit data offset size unit).2.size)
        size unit').2.offset
      = (gst_cavs_video_parser_identify_unit data offset size unit).2.offset
        + (gst_cavs_video_parser_identify_unit data offset size unit).2.size + 4 := by
  obtain ⟨s1, s2, s3⟩ := identify_unit_payload_size data offset size unit h1 h2 hr hty
  generalize (gst_cavs_video_parser_identify_unit data offset size unit).2.offset
    + (gst_cavs_video_parser_identify_unit data offset size unit).2.size = p at s1 s2 s3 ⊢
  have hF : FirstStartCode data p size p := ⟨le_refl _, s2, s1, fun k h3 h4 => by omega⟩
  rcases identify_unit_cases data p size unit' s2 h2 with
    ⟨_, hN⟩ | ⟨i, hF', _, hsc, ho, _, hC⟩
  · exact absurd s1 (hN p (le_refl _) s2)
  · have hi : i = p := firstStartCode_unique hF' hF
    subst hi
    refine ⟨?_, hsc, ho⟩
    rcases hC with ⟨_, r1, _⟩ | ⟨_, r2, _, _⟩ | ⟨_, r3, _⟩
    · exact Or.inl r1
    · exact Or.inr r2
    · exact Or.inl r3

/-- Witness of C36: the I picture unit of three payload bytes is followed by
a slice start code at 7, which the next call reports with `NO_UNIT_END`. -/
theorem identify_unit_contiguous_witness :
    (0 + 4 ≤ 11 ∧ 11 < 2 ^ 31) ∧
    (gst_cavs_video_parser_identify_unit (ptrOf [0, 0, 1, 0xb3, 7, 8, 9, 0, 0, 1, 0]) 0 11
        unit0).1 = .OK ∧
    (gst_cavs_video_parser_identify_unit (ptrOf [0, 0, 1, 0xb3, 7, 8, 9, 0, 0, 1, 0]) 0 11
        unit0).2.offset
      + (gst_cavs_video_parser_identify_unit (ptrOf [0, 0, 1, 0xb3, 7, 8, 9, 0, 0, 1, 0]) 0 11
        unit0).2.size = 7 ∧
    (gst_cavs_video_parser_identify_unit (ptrOf [0, 0, 1, 0xb3, 7, 8, 9, 0, 0, 1, 0]) 7 11
        unit0).1 = .NO_UNIT_END ∧
    (gst_cavs_video_parser_identify_unit (ptrOf [0, 0, 1, 0xb3, 7, 8, 9, 0, 0, 1, 0])
        ((gst_cavs_video_parser_identify_unit (ptrOf [0, 0, 1, 0xb3, 7, 8, 9, 0, 0, 1, 0]) 0 11
            unit0).2.offset
          + (gst_cavs_video_parser_identify_unit (ptrOf [0, 0, 1, 0xb3, 7, 8, 9, 0, 0, 1, 0]) 0
            11 unit0).2.size)
        11 unit0).2.sc_offset
      = (gst_cavs_video_parser_identify_unit (ptrOf [0, 0, 1, 0xb3, 7, 8, 9, 0, 0, 1, 0]) 0 11
          unit0).2.offset
        + (gst_cavs_video_parser_identify_unit (ptrOf [0, 0, 1, 0xb3, 7, 8, 9, 0, 0, 1, 0]) 0 11
          unit0).2.size :=
  ⟨by norm_num, by decide, by decide, by decide,
   (identify_unit_contiguous (ptrOf [0, 0, 1, 0xb3, 7, 8, 9, 0, 0, 1, 0]) 0 11 unit0 unit0
      (by norm_num) (by norm_num) (by decide) (by decide)).2.1⟩

/-! ## Bit reader: advance of a successful read or skip -/

theorem get_bits_advance (w : Nat) (nr : CAVSReader) (n v : Nat) (nr' : CAVSReader)
    (hwf : nr.WF) (hread : avs_reader_get_bits w nr n = (some v, nr')) :
    avs_reader_get_pos nr' = avs_reader_get_pos nr + n
      + 8 * (avs_reader_get_epb_count nr' - avs_reader_get_epb_count nr) ∧
    avs_reader_get_remaining nr' + n
      + 8 * (avs_reader_get_epb_count nr' - avs_reader_get_epb_count nr)
      = avs_reader_get_remaining nr ∧
    (avs_reader_get_pos nr' = avs_reader_get_pos nr + n ↔
      avs_reader_get_epb_count nr' = avs_reader_get_epb_count nr) := by
  obtain ⟨g1, g2, _, g4, g5, g6⟩ := get_bits_counters w nr n hwf
  rw [hread] at g1 g2 g4 g5 g6
  dsimp only at g1 g2 g4 g5 g6
  have g6' := g6 (by simp)
  rw [get_pos_wf nr hwf, get_pos_wf nr' g1, get_remaining_wf nr hwf, get_remaining_wf nr' g1]
  obtain ⟨h1, h2, h3, h4⟩ := hwf
  obtain ⟨k1, k2, k3, k4⟩ := g1
  unfold avs_reader_get_epb_count
  refine ⟨by omega, by omega, by omega⟩

theorem skip_advance (nr : CAVSReader) (n : Nat) (nr' : CAVSReader)
    (hwf : nr.WF) (hskip : avs_reader_skip nr n = (true, nr')) :
    avs_reader_get_pos nr' = avs_reader_get_pos nr + n
      + 8 * (avs_reader_get_epb_count nr' - avs_reader_get_epb_count nr) ∧
    avs_reader_get_remaining nr' + n
      + 8 * (avs_reader_get_epb_count nr' - avs_reader_get_epb_count nr)
      = avs_reader_get_remaining nr ∧
    (avs_reader_get_pos nr' = avs_reader_get_pos nr + n ↔
      avs_reader_get_epb_count nr' = avs_reader_get_epb_count nr) := by
  have hs := skip_eq_get_bits 8 nr n
  rw [hskip] at hs
  have h1 : (avs_reader_get_bits 8 nr n).1.isSome = true := (congrArg Prod.fst hs).symm
  have h2 : (avs_reader_get_bits 8 nr n).2 = nr' := (congrArg Prod.snd hs).symm
  obtain ⟨v, hv⟩ := Option.isSome_iff_exists.mp h1
  exact get_bits_advance 8 nr n v nr' hwf (Prod.ext hv h2)

/-- C37: advance of a successful read or skip.  On every well-formed reader
state, whenever a bit read of `n` bits through the function of width `w`, or
a skip of `n` bits, succeeds, `avs_reader_get_pos` grows by `n + 8 * e` and
`avs_reader_get_remaining` falls by `n + 8 * e`, where `e` is the increase of
`avs_reader_get_epb_count` over the call; the advance is `n` exactly when the
count has not changed. -/
theorem read_skip_advance (nr : CAVSReader) (n : Nat) (hwf : nr.WF) :
    (∀ w v nr', avs_reader_get_bits w nr n = (some v, nr') →
      avs_reader_get_pos nr' = avs_reader_get_pos nr + n
        + 8 * (avs_reader_get_epb_count nr' - avs_reader_get_epb_count nr) ∧
      avs_reader_get_remaining nr' + n
        + 8 * (avs_reader_get_epb_count nr' - avs_reader_get_epb_count nr)
        = avs_reader_get_remaining nr ∧
      (avs_reader_get_pos nr' = avs_reader_get_pos nr + n ↔
        avs_reader_get_epb_count nr' = avs_reader_get_epb_count nr)) ∧
    (∀ nr', avs_reader_skip nr n = (true, nr') →
      avs_reader_get_pos nr' = avs_reader_get_pos nr + n
        + 8 * (avs_reader_get_epb_count nr' - avs_reader_get_epb_count nr) ∧
      avs_reader_get_remaining nr' + n
        + 8 * (avs_reader_get_epb_count nr' - avs_reader_get_epb_count nr)
        = avs_reader_get_remaining nr ∧
      (avs_reader_get_pos nr' = avs_reader_get_pos nr + n ↔
        avs_reader_get_epb_count nr' = avs_reader_get_epb_count nr)) :=
  ⟨fun w v nr' h => get_bits_advance w nr n v nr' hwf h,
   fun nr' h => skip_advance nr n nr' hwf h⟩

/-- Witness of C37: over `00 00 02 05` a skip of 24 bits drops the emulation
prevention byte: the position moves from 0 to 32 and 0 bits remain of 32; over
`00 00 03 05` the same skip moves the position by 24. -/
theorem read_skip_advance_witness :
    (avs_reader_init (ptrOf [0x00, 0x00, 0x02, 0x05]) 4).WF ∧
    (avs_reader_skip (avs_reader_init (ptrOf [0x00, 0x00, 0x02, 0x05]) 4) 24).1 = true ∧
    avs_reader_get_pos
      (avs_reader_skip (avs_reader_init (ptrOf [0x00, 0x00, 0x02, 0x05]) 4) 24).2 = 32 ∧
    avs_reader_get_epb_count
      (avs_reader_skip (avs_reader_init (ptrOf [0x00, 0x00, 0x02, 0x05]) 4) 24).2 = 1 ∧
    avs_reader_get_pos
      (avs_reader_skip (avs_reader_init (ptrOf [0x00, 0x00, 0x03, 0x05]) 4) 24).2 = 24 ∧
    avs_reader_get_remaining
        (avs_reader_skip (avs_reader_init (ptrOf [0x00, 0x00, 0x02, 0x05]) 4) 24).2 + 24
      + 8 * (avs_reader_get_epb_count
            (avs_reader_skip (avs_reader_init (ptrOf [0x00, 0x00, 0x02, 0x05]) 4) 24).2
          - avs_reader_get_epb_count (avs_reader_init (ptrOf [0x00, 0x00, 0x02, 0x05]) 4))
      = avs_reader_get_remaining (avs_reader_init (ptrOf [0x00, 0x00, 0x02, 0x05]) 4) :=
  ⟨init_wf _ 4 (by norm_num), by decide, by decide, by decide, by decide,
   ((read_skip_advance (avs_reader_init (ptrOf [0x00, 0x00, 0x02, 0x05]) 4) 24
      (init_wf _ 4 (by norm_num))).2
        (avs_reader_skip (avs_reader_init (ptrOf [0x00, 0x00, 0x02, 0x05]) 4) 24).2
        (Prod.ext (by decide) rfl)).2.1⟩

/-! ## Bit reader: the cache invariant -/

/-- The refill loop stops as soon as `n` bits are cached: it leaves the count
as it was or below `n + 8`. -/
theorem read_loop_cache (left : Nat) : ∀ (nr : CAVSReader) (n : Nat), nr.WF →
    (avs_reader_read_loop left nr n).2.bits_in_cache ≤ nr.bits_in_cache ∨
    (avs_reader_read_loop left nr n).2.bits_in_cache < n + 8 := by
  induction left with
  | zero =>
    intro nr n _
    rw [read_loop_zero]
    split_ifs <;> exact Or.inl (le_refl _)
  | succ left ih =>
    intro nr n h
    rw [read_loop_succ]
    split_ifs with c1 c2 c3 c4 <;> try dsimp only
    · exact Or.inl (le_refl _)
    · obtain ⟨_, _, _, _, d5, _, _, _⟩ := wf_dropEpb nr h (by omega)
      exact Or.inl (by omega)
    · obtain ⟨d1, d2, d3, d4, d5, _, _, d6⟩ := wf_dropEpb nr h (by omega)
      obtain ⟨p1, p2, p3, p4, p5, p6⟩ := wf_pushByte nr.dropEpb d6 (by omega)
      rcases ih nr.dropEpb.pushByte n p6 with i1 | i1
      · exact Or.inr (by omega)
      · exact Or.inr i1
    · obtain ⟨p1, p2, p3, p4, p5, p6⟩ := wf_pushByte nr h (by omega)
      rcases ih nr.pushByte n p6 with i1 | i1
      · exact Or.inr (by omega)
      · exact Or.inr i1
    · exact Or.inl (le_refl _)

/-- After a successful `avs_reader_read` from a state with at most 7 cached
bits, between `n` and `n + 7` bits are cached. -/
theorem read_cache (nr : CAVSReader) (n : Nat) (h : nr.WF) (h7 : nr.bits_in_cache ≤ 7)
    (hok : (avs_reader_read nr n).1 = true) :
    n ≤ (avs_reader_read nr n).2.bits_in_cache ∧
    (avs_reader_read nr n).2.bits_in_cache ≤ n + 7 ∧
    (avs_reader_read nr n).2.bits_in_cache < 2 ^ 32 := by
  obtain ⟨r1, _, _, _, _, _, _, r8⟩ := read_counters nr n h
  have hlt : (avs_reader_read nr n).2.bits_in_cache < 2 ^ 32 := by
    obtain ⟨w1, w2, w3, w4⟩ := r1
    omega
  refine ⟨r8 hok, ?_, hlt⟩
  revert hok
  unfold avs_reader_read
  split_ifs with c
  · intro hok; simp at hok
  · intro _
    rcases read_loop_cache (nr.size - nr.byte) nr n h with i1 | i1 <;> omega

theorem get_bits_cache (w : Nat) (nr : CAVSReader) (n : Nat) (h : nr.WF)
    (h7 : nr.bits_in_cache ≤ 7) (hok : (avs_reader_get_bits w nr n).1 ≠ none) :
    (avs_reader_get_bits w nr n).2.bits_in_cache ≤ 7 ∧
    (avs_reader_read nr n).1 = true := by
  revert hok
  have hc := read_cache nr n h h7
  unfold avs_reader_get_bits
  rcases hr : avs_reader_read nr n with ⟨ok, nr1⟩
  rw [hr] at hc
  cases ok with
  | false => intro hok; exact absurd rfl hok
  | true =>
    intro _
    obtain ⟨c1, c2, c3⟩ := hc rfl
    dsimp only at c1 c2 c3 ⊢
    have hs : sub32 nr1.bits_in_cache n = nr1.bits_in_cache - n := by unfold sub32; omega
    rw [hs]
    exact ⟨by omega, rfl⟩

theorem skip_cache (nr : CAVSReader) (n : Nat) (h : nr.WF) (h7 : nr.bits_in_cache ≤ 7)
    (hok : (avs_reader_skip nr n).1 = true) : (avs_reader_skip nr n).2.bits_in_cache ≤ 7 := by
  rw [skip_eq_get_bits 8 nr n] at hok ⊢
  dsimp only at hok ⊢
  apply (get_bits_cache 8 nr n h h7 _).1
  intro hn
  rw [hn] at hok
  simp at hok

theorem get_ue_loop_cache (left : Nat) : ∀ (nr : CAVSReader) (i : Nat), nr.WF →
    nr.bits_in_cache ≤ 7 → (avs_reader_get_ue_loop left nr i).1 ≠ none →
    (avs_reader_get_ue_loop left nr i).2.bits_in_cache ≤ 7 := by
  induction left with
  | zero =>
    intro nr i _ _ hok
    exact absurd rfl hok
  | succ left ih =>
    intro nr i h h7
    obtain ⟨g1, _⟩ := get_bits_counters 8 nr 1 h
    have gc := get_bits_cache 8 nr 1 h h7
    unfold avs_reader_get_ue_loop avs_reader_get_bits_uint8
    rcases hr : avs_reader_get_bits 8 nr 1 with ⟨v, nr'⟩
    rw [hr] at g1 gc
    dsimp only at g1 gc
    cases v with
    | none => intro hok; exact absurd rfl hok
    | some bit =>
      have g7 := (gc (by simp)).1
      dsimp only
      split_ifs with c
      · exact ih nr' (u32 (i + 1)) g1 g7
      · intro _; exact g7

theorem get_ue_cache (nr : CAVSReader) (h : nr.WF) (h7 : nr.bits_in_cache ≤ 7)
    (hok : (avs_reader_get_ue nr).1 ≠ none) : (avs_reader_get_ue nr).2.bits_in_cache ≤ 7 := by
  revert hok
  obtain ⟨g1, _⟩ := get_bits_counters 8 nr 1 h
  have gc := get_bits_cache 8 nr 1 h h7
  rw [get_ue_eq]
  rcases hr : avs_reader_get_bits 8 nr 1 with ⟨v, nr1⟩
  rw [hr] at g1 gc
  dsimp only at g1 gc
  cases v with
  | none => intro hok; exact absurd rfl hok
  | some bit =>
    have g7 := (gc (by simp)).1
    dsimp only
    have hmid : ∀ x : Option Nat × CAVSReader, x.2.WF → (x.1 ≠ none → x.2.bits_in_cache ≤ 7) →
        (match x with
          | (none, nr) => ((none : Option Nat), nr)
          | (some i, nr) =>
            if i > 32 then (none, nr)
            else match avs_reader_get_bits 32 nr i with
              | (none, nr) => (none, nr)
              | (some value, nr) => (some (u32 (sub32 (u32 (1 <<< i)) 1 + value)), nr)).1
          ≠ none →
        (match x with
          | (none, nr) => ((none : Option Nat), nr)
          | (some i, nr) =>
            if i > 32 then (none, nr)
            else match avs_reader_get_bits 32 nr i with
              | (none, nr) => (none, nr)
              | (some value, nr) =>
                (some (u32 (sub32 (u32 (1 <<< i)) 1 + value)), nr)).2.bits_in_cache ≤ 7 := by
      rintro ⟨oi, nr2⟩ x1 x2
      dsimp only at x1 x2
      cases oi with
      | none => intro hok; exact absurd rfl hok
      | some i =>
        have x7 := x2 (by simp)
        dsimp only
        split_ifs with c
        · intro hok; exact absurd rfl hok
        · have k := get_bits_cache 32 nr2 i x1 x7
          rcases hr2 : avs_reader_get_bits 32 nr2 i with ⟨v2, nr3⟩
          rw [hr2] at k
          dsimp only at k
          cases v2 with
          | none => intro hok; exact absurd rfl hok
          | some value => intro _; exact (k (by simp)).1
    apply hmid
    · split_ifs with c
      · exact (get_ue_loop_counters _ nr1 0 g1).1
      · exact g1
    · split_ifs with c
      · exact get_ue_loop_cache _ nr1 0 g1 g7
      · intro _; exact g7

theorem get_se_cache (nr : CAVSReader) (h : nr.WF) (h7 : nr.bits_in_cache ≤ 7)
    (hok : (avs_reader_get_se nr).1 ≠ none) : (avs_reader_get_se nr).2.bits_in_cache ≤ 7 := by
  revert hok
  have g := get_ue_cache nr h h7
  unfold avs_reader_get_se
  rcases hr : avs_reader_get_ue nr with ⟨v, nr1⟩
  rw [hr] at g
  dsimp only at g
  cases v with
  | none => intro hok; exact absurd rfl hok
  | some value =>
    dsimp only
    split_ifs <;> exact fun _ => g (by simp)

theorem reachableOK_cache (data : Ptr) (size : Nat) (hs : size * 8 < 2 ^ 32) (nr : CAVSReader)
    (h : ReachableOK data size nr) : nr.WF ∧ nr.size = size ∧ nr.bits_in_cache ≤ 7 := by
  induction h with
  | init => exact ⟨init_wf data size hs, rfl, Nat.zero_le _⟩
  | get_bits_uint8 nr n _ hok ih =>
    obtain ⟨g1, g2, _⟩ := get_bits_counters 8 nr n ih.1
    exact ⟨g1, by rw [← ih.2.1]; exact g2, (get_bits_cache 8 nr n ih.1 ih.2.2 hok).1⟩
  | get_bits_uint16 nr n _ hok ih =>
    obtain ⟨g1, g2, _⟩ := get_bits_counters 16 nr n ih.1
    exact ⟨g1, by rw [← ih.2.1]; exact g2, (get_bits_cache 16 nr n ih.1 ih.2.2 hok).1⟩
  | get_bits_uint32 nr n _ hok ih =>
    obtain ⟨g1, g2, _⟩ := get_bits_counters 32 nr n ih.1
    exact ⟨g1, by rw [← ih.2.1]; exact g2, (get_bits_cache 32 nr n ih.1 ih.2.2 hok).1⟩
  | skip nr n _ hok ih =>
    obtain ⟨g1, g2, _⟩ := skip_counters nr n ih.1
    exact ⟨g1, by rw [← ih.2.1]; exact g2, skip_cache nr n ih.1 ih.2.2 hok⟩
  | get_ue nr _ hok ih =>
    obtain ⟨g1, g2, _⟩ := get_ue_counters nr ih.1
    exact ⟨g1, by rw [← ih.2.1]; exact g2, get_ue_cache nr ih.1 ih.2.2 hok⟩
  | get_se nr _ hok ih =>
    obtain ⟨g1, g2, _⟩ := get_se_counters nr ih.1
    exact ⟨g1, by rw [← ih.2.1]; exact g2, get_se_cache nr ih.1 ih.2.2 hok⟩

/-- C38: the cache invariant.  Over a buffer of fewer than `2 ^ 29` bytes,
every reader state reached from `avs_reader_init` by bit reads, skips and
Exp-Golomb reads that all succeeded has `bits_in_cache ≤ 7` and `byte ≤ size`.
In every bit read that succeeds from such a state, after the refill between
`n` and `n + 7` bits are cached, so the count `shift = bits_in_cache - n` of
`first_byte >> shift` is at most 7 and the count `8 - shift` of `cache << (8 -
shift)` lies between 1 and 8. -/
theorem cache_invariant (data : Ptr) (size : Nat) (nr : CAVSReader) (hs : size < 2 ^ 29)
    (h : ReachableOK data size nr) :
    nr.bits_in_cache ≤ 7 ∧ nr.byte ≤ nr.size ∧ nr.size = size ∧
    ∀ w n, (avs_reader_get_bits w nr n).1 ≠ none →
      n ≤ (avs_reader_read nr n).2.bits_in_cache ∧
      sub32 (avs_reader_read nr n).2.bits_in_cache n ≤ 7 ∧
      1 ≤ sub32 8 (sub32 (avs_reader_read nr n).2.bits_in_cache n) ∧
      sub32 8 (sub32 (avs_reader_read nr n).2.bits_in_cache n) ≤ 8 := by
  obtain ⟨hwf, hsz, h7⟩ := reachableOK_cache data size (by omega) nr h
  refine ⟨h7, hwf.2.1, hsz, fun w n hok => ?_⟩
  obtain ⟨c1, c2, c3⟩ := read_cache nr n hwf h7 (get_bits_cache w nr n hwf h7 hok).2
  have hs1 : sub32 (avs_reader_read nr n).2.bits_in_cache n
      = (avs_reader_read nr n).2.bits_in_cache - n := by unfold sub32; omega
  rw [hs1]
  have hs2 : sub32 8 ((avs_reader_read nr n).2.bits_in_cache - n)
      = 8 - ((avs_reader_read nr n).2.bits_in_cache - n) := by unfold sub32; omega
  rw [hs2]
  omega

/-- Witness of C38: after a successful 3 bit read over `5a 3c` five bits stay
cached, and a following 7 bit read refills to 13 bits: `shift` is 6. -/
theorem cache_invariant_witness :
    (2 < 2 ^ 29 ∧
      ReachableOK (ptrOf [0x5a, 0x3c]) 2
        (avs_reader_get_bits_uint8 (avs_reader_init (ptrOf [0x5a, 0x3c]) 2) 3).2) ∧
    (avs_reader_get_bits_uint8 (avs_reader_init (ptrOf [0x5a, 0x3c]) 2) 3).2.bits_in_cache
      = 5 ∧
    (avs_reader_get_bits_uint8
      (avs_reader_get_bits_uint8 (avs_reader_init (ptrOf [0x5a, 0x3c]) 2) 3).2 7).1
      = some 0x68 ∧
    sub32 (avs_reader_read
      (avs_reader_get_bits_uint8 (avs_reader_init (ptrOf [0x5a, 0x3c]) 2) 3).2
      7).2.bits_in_cache 7 ≤ 7 :=
  have hr : ReachableOK (ptrOf [0x5a, 0x3c]) 2
      (avs_reader_get_bits_uint8 (avs_reader_init (ptrOf [0x5a, 0x3c]) 2) 3).2 :=
    ReachableOK.get_bits_uint8 _ 3 ReachableOK.init (by decide)
  ⟨⟨by norm_num, hr⟩, by decide, by decide,
   ((cache_invariant _ 2 _ (by norm_num) hr).2.2.2 8 7 (by decide)).2.1⟩

/-! ## Sequence header: the record of a failed parse -/

/-- A run that ends at the `error:` label has stopped at some statement `k`:
the statements before it have run on the fields of the logical stream, and
statement `k` is a range check that fails or a read the stream is too short
for. -/
theorem run_steps_stop {H : Type} (L : List Byte) (steps : List (Step H)) :
    ∀ (r : CAVSReader) (a : Nat) (h : H), r.Delivers L a →
    (∀ s ∈ steps, s.sized = true) →
    (run_steps steps r h).1 = GstCAVSVideoParserResult.ERROR →
    ∃ k, k < steps.length ∧
      (run_steps steps r h).2 = (decode_steps (steps.take k) L a h).2 ∧
      (decode_steps (steps.take k) L a h).1 = GstCAVSVideoParserResult.OK ∧
      a + steps_width (steps.take k) ≤ 8 * L.length ∧
      ((decode_steps (steps.take (k + 1)) L a h).1 = GstCAVSVideoParserResult.ERROR ∨
        8 * L.length < a + steps_width (steps.take (k + 1))) := by
  induction steps with
  | nil =>
    intro r a h _ _ he
    simp [run_steps] at he
  | cons s rest ih =>
    intro r a h hd hs he
    have hrest : ∀ s ∈ rest, s.sized = true := fun s hm => hs s (List.mem_cons_of_mem _ hm)
    have hs0 := hs s (List.mem_cons_self _ _)
    have ha : a ≤ 8 * L.length := hd.2.2.2.1
    cases s with
    | READ_UINT bits nbits set =>
      simp only [Step.sized, decide_eq_true_eq] at hs0
      have hg := get_bits_at bits r L a nbits hs0.1 hs0.2.1 hs0.2.2 hd
      rw [run_steps_read] at he ⊢
      by_cases c : a + nbits ≤ 8 * L.length
      · obtain ⟨g1, g2, _, _⟩ := hg.1 c
        rcases hr : avs_reader_get_bits bits r nbits with ⟨v, r1⟩
        rw [hr] at g1 g2 he
        dsimp only at g1 g2 he
        subst g1
        dsimp only at he ⊢
        obtain ⟨k, k1, k2, k3, k4, k5⟩ := ih r1 (a + nbits) _ g2 hrest he
        refine ⟨k + 1, by simp only [List.length_cons]; omega, ?_, ?_, ?_, ?_⟩
        · simpa only [List.take_succ_cons, decode_steps] using k2
        · simpa only [List.take_succ_cons, decode_steps] using k3
        · simp only [List.take_succ_cons, steps_width, Step.width]; omega
        · simp only [List.take_succ_cons, steps_width, Step.width, decode_steps]
          rcases k5 with k5 | k5
          · exact Or.inl k5
          · exact Or.inr (by omega)
      · have g1 := hg.2 (by omega)
        rcases hr : avs_reader_get_bits bits r nbits with ⟨v, r1⟩
        rw [hr] at g1
        dsimp only at g1
        subst g1
        refine ⟨0, by simp, rfl, rfl, by simp [steps_width]; exact ha, Or.inr ?_⟩
        simp only [Nat.zero_add, List.take_succ_cons, List.take_zero, steps_width, Step.width]
        omega
    | CHECK_ALLOWED val min max =>
      rw [run_steps_check] at he ⊢
      by_cases c : val h < min ∨ val h > max
      · rw [if_pos c]
        refine ⟨0, by simp, rfl, rfl, by simp [steps_width]; exact ha, Or.inl ?_⟩
        simp only [Nat.zero_add, List.take_succ_cons, List.take_zero, decode_steps, if_pos c]
      · rw [if_neg c] at he ⊢
        obtain ⟨k, k1, k2, k3, k4, k5⟩ := ih r a h hd hrest he
        refine ⟨k + 1, by simp only [List.length_cons]; omega, ?_, ?_, ?_, ?_⟩
        · simpa only [List.take_succ_cons, decode_steps, if_neg c] using k2
        · simpa only [List.take_succ_cons, decode_steps, if_neg c] using k3
        · simp only [List.take_succ_cons, steps_width, Step.width]; omega
        · simp only [List.take_succ_cons, steps_width, Step.width, decode_steps, if_neg c]
          rcases k5 with k5 | k5
          · exact Or.inl k5
          · exact Or.inr (by omega)
    | CHECK_MARKER_BIT =>
      have hg := get_bits_at 8 r L a 1 (by norm_num) (by norm_num) (by norm_num) hd
      rw [run_steps_marker] at he ⊢
      by_cases c : a + 1 ≤ 8 * L.length
      · obtain ⟨g1, g2, _, _⟩ := hg.1 c
        rcases hr : avs_reader_get_bits 8 r 1 with ⟨v, r1⟩
        rw [hr] at g1 g2 he
        dsimp only at g1 g2 he
        subst g1
        dsimp only at he ⊢
        obtain ⟨k, k1, k2, k3, k4, k5⟩ := ih r1 (a + 1) _ g2 hrest he
        refine ⟨k + 1, by simp only [List.length_cons]; omega, ?_, ?_, ?_, ?_⟩
        · simpa only [List.take_succ_cons, decode_steps] using k2
        · simpa only [List.take_succ_cons, decode_steps] using k3
        · simp only [List.take_succ_cons, steps_width, Step.width]; omega
        · simp only [List.take_succ_cons, steps_width, Step.width, decode_steps]
          rcases k5 with k5 | k5
          · exact Or.inl k5
          · exact Or.inr (by omega)
      · have g1 := hg.2 (by omega)
        rcases hr : avs_reader_get_bits 8 r 1 with ⟨v, r1⟩
        rw [hr] at g1
        dsimp only at g1
        subst g1
        refine ⟨0, by simp, rfl, rfl, by simp [steps_width]; exact ha, Or.inr ?_⟩
        simp only [Nat.zero_add, List.take_succ_cons, List.take_zero, steps_width, Step.width]
        omega
    | assign f =>
      rw [run_steps_assign] at he ⊢
      obtain ⟨k, k1, k2, k3, k4, k5⟩ := ih r a (f h) hd hrest he
      refine ⟨k + 1, by simp only [List.length_cons]; omega, ?_, ?_, ?_, ?_⟩
      · simpa only [List.take_succ_cons, decode_steps] using k2
      · simpa only [List.take_succ_cons, decode_steps] using k3
      · simp only [List.take_succ_cons, steps_width, Step.width]; omega
      · simp only [List.take_succ_cons, steps_width, Step.width, decode_steps]
        rcases k5 with k5 | k5
        · exact Or.inl k5
        · exact Or.inr (by omega)
theorem sequence_header_stop (L : List Byte) (k : Nat) (hk : k < 24)
    (hok : (decode_steps (sequence_header_steps.take k) L 0
      GstCAVSVideoSequenceHeader.zero).1 = GstCAVSVideoParserResult.OK)
    (hw : steps_width (sequence_header_steps.take k) ≤ 8 * L.length)
    (hfail : (decode_steps (sequence_header_steps.take (k + 1)) L 0
        GstCAVSVideoSequenceHeader.zero).1 = GstCAVSVideoParserResult.ERROR ∨
      8 * L.length < steps_width (sequence_header_steps.take (k + 1))) :
    (decode_steps (sequence_header_steps.take k) L 0 GstCAVSVideoSequenceHeader.zero).2
      = sequence_header_prefix L k ∧
    ((k = 9 ∧ (bitField L 47 3 < 1 ∨ 7 < bitField L 47 3)) ∨
      (k = 11 ∧ (bitField L 50 4 < 1 ∨ 15 < bitField L 50 4)) ∨
      (k = 13 ∧ (bitField L 54 4 < 1 ∨ 8 < bitField L 54 4)) ∨
      8 * L.length < steps_width (sequence_header_steps.take (k + 1))) ∧
    (9 < k → 1 ≤ bitField L 47 3) := by
  interval_cases k
  all_goals
    simp only [sequence_header_steps, List.take_succ_cons, List.take_zero, decode_steps,
      steps_width, Step.width, GstCAVSVideoSequenceHeader.zero, sequence_header_prefix,
      Nat.zero_add, Nat.reduceAdd, Nat.reduceLT, Nat.lt_irrefl, if_true, if_false,
      gt_iff_lt] at hok hw hfail ⊢
  all_goals
    (try split_ifs at hok hfail ⊢) <;>
    simp only [reduceCtorEq, false_or, or_false, true_and, and_true, false_and, and_false,
      true_implies, false_implies, or_true, true_or, Nat.reduceEqDiff,
      not_lt, not_or, not_le] at * <;>
    omega
/-- C35: the record of a failed sequence header parse.  On a payload of fewer
than `2 ^ 29` bytes with logical content `L`, whenever the parser returns
`ERROR` it has stopped at one of its 24 statements, statement `k`: the record
is `sequence_header_prefix L k`, in which every field stored by a statement
before `k` holds its decoded value and every field stored by a later
statement (read or computed) is 0.  Statement `k` is the range check of
`sample_precision` (9), `aspect_ratio` (11) or `frame_rate_code` (13) with the
field out of its range, or a read for which the payload is too short.  With 50
logical bits and sample precision 0 the parser stops at the first range check:
`aspect_ratio`, `frame_rate_code`, `fps_n`, `fps_d`, `bitrate`, `low_delay`
and `bitstream_buffer_size` are 0. -/
theorem sequence_header_error_record (unit : GstCAVSVideoUnit) (s0 : GstCAVSVideoSequenceHeader)
    (hsize : unit.size < 2 ^ 29)
    (herr : (gst_cavs_video_parser_parse_sequence_header unit s0).1
      = GstCAVSVideoParserResult.ERROR) :
    ∃ k, k < 24 ∧
      (gst_cavs_video_parser_parse_sequence_header unit s0).2
        = sequence_header_prefix (logicalBytes (unit.data.shift unit.offset) unit.size) k ∧
      ((k = 9 ∧
          (bitField (logicalBytes (unit.data.shift unit.offset) unit.size) 47 3 < 1 ∨
            7 < bitField (logicalBytes (unit.data.shift unit.offset) unit.size) 47 3)) ∨
        (k = 11 ∧
          (bitField (logicalBytes (unit.data.shift unit.offset) unit.size) 50 4 < 1 ∨
            15 < bitField (logicalBytes (unit.data.shift unit.offset) unit.size) 50 4)) ∨
        (k = 13 ∧
          (bitField (logicalBytes (unit.data.shift unit.offset) unit.size) 54 4 < 1 ∨
            8 < bitField (logicalBytes (unit.data.shift unit.offset) unit.size) 54 4)) ∨
        8 * (logicalBytes (unit.data.shift unit.offset) unit.size).length
          < steps_width (sequence_header_steps.take (k + 1))) ∧
      (50 ≤ 8 * (logicalBytes (unit.data.shift unit.offset) unit.size).length →
        bitField (logicalBytes (unit.data.shift unit.offset) unit.size) 47 3 = 0 →
        k = 9 ∧
        (gst_cavs_video_parser_parse_sequence_header unit s0).2.aspect_ratio = 0 ∧
        (gst_cavs_video_parser_parse_sequence_header unit s0).2.frame_rate_code = 0 ∧
        (gst_cavs_video_parser_parse_sequence_header unit s0).2.fps_n = 0 ∧
        (gst_cavs_video_parser_parse_sequence_header unit s0).2.fps_d = 0 ∧
        (gst_cavs_video_parser_parse_sequence_header unit s0).2.bitrate = 0 ∧
        (gst_cavs_video_parser_parse_sequence_header unit s0).2.low_delay = 0 ∧
        (gst_cavs_video_parser_parse_sequence_header unit s0).2.bitstream_buffer_size = 0) := by
  have hu : u32 unit.size = unit.size := Nat.mod_eq_of_lt (by omega)
  have hd := init_delivers (unit.data.shift unit.offset) unit.size hsize
  revert herr
  unfold gst_cavs_video_parser_parse_sequence_header
  rw [hu]
  intro herr
  obtain ⟨k, k1, k2, k3, k4, k5⟩ := run_steps_stop _ sequence_header_steps _ 0
    GstCAVSVideoSequenceHeader.zero hd sequence_header_sized herr
  have hlen : sequence_header_steps.length = 24 := by decide
  rw [hlen] at k1
  rw [Nat.zero_add] at k4 k5
  obtain ⟨p1, p2, p3⟩ := sequence_header_stop _ k k1 k3 k4 k5
  rw [p1] at k2
  refine ⟨k, k1, k2, p2, fun h50 hsp => ?_⟩
  have hk9 : k = 9 := by
    rcases p2 with ⟨q, _⟩ | ⟨q, _⟩ | ⟨q, _⟩ | q
    · exact q
    · have := p3 (by omega); omega
    · have := p3 (by omega); omega
    · by_contra hne
      have hmono : k < 9 ∨ 9 < k := by omega
      rcases hmono with hlt | hgt
      · have hw : steps_width (sequence_header_steps.take (k + 1)) ≤ 50 := by
          interval_cases k <;> decide
        omega
      · have := p3 hgt; omega
  subst hk9
  rw [k2]
  exact ⟨rfl, rfl, rfl, rfl, rfl, rfl, rfl, rfl⟩

/-- Witness of C35: the unit `seq_unit_precision_0` is rejected at the range
check of `sample_precision`; the record holds the seven fields read so far
and the two macroblock counts, and 0 elsewhere. -/
theorem sequence_header_error_record_witness :
    (seq_unit_precision_0.size < 2 ^ 29 ∧
      (gst_cavs_video_parser_parse_sequence_header seq_unit_precision_0
        GstCAVSVideoSequenceHeader.zero).1 = GstCAVSVideoParserResult.ERROR) ∧
    (gst_cavs_video_parser_parse_sequence_header seq_unit_precision_0
        GstCAVSVideoSequenceHeader.zero).2
      = { GstCAVSVideoSequenceHeader.zero with
          profile_id := 0x20, level_id := 0x20, progressive_sequence := 1,
          horizontal_size := 720, vertical_size := 480, chroma_format := 1,
          sample_precision := 0, mb_width := 45, mb_height := 30 } ∧
    (∃ k, k < 24 ∧
      (gst_cavs_video_parser_parse_sequence_header seq_unit_precision_0
        GstCAVSVideoSequenceHeader.zero).2
        = sequence_header_prefix
            (logicalBytes (seq_unit_precision_0.data.shift seq_unit_precision_0.offset)
              seq_unit_precision_0.size) k) :=
  ⟨⟨by decide, by decide⟩, by decide,
   (sequence_header_error_record seq_unit_precision_0 GstCAVSVideoSequenceHeader.zero
      (by decide) (by decide)).imp (fun _ hk => ⟨hk.1, hk.2.1⟩)⟩

/-! ## Picture headers: the structure bit -/

/-! ## Picture headers: the structure bit -/

theorem i_picture_fields_split (seqhdr : GstCAVSVideoSequenceHeader) :
    i_picture_fields seqhdr = Stmt.block (i_picture_head seqhdr ++ i_picture_tail) :=
  rfl

theorem pb_picture_stmt_split (seqhdr : GstCAVSVideoSequenceHeader) :
    pb_picture_stmt seqhdr = Stmt.block (pb_picture_head seqhdr ++ pb_picture_tail) :=
  rfl

/-- Running a block is running its first statements and then the others. -/
theorem exec_block_append {H : Type} (l1 l2 : List (Stmt H)) : ∀ (r : CAVSReader) (h : H),
    exec (Stmt.block (l1 ++ l2)) r h
      = exec (Stmt.seq (Stmt.block l1) (Stmt.block l2)) r h := by
  induction l1 with
  | nil =>
    intro r h
    simp only [List.nil_append, Stmt.block, exec]
  | cons s l1 ih =>
    intro r h
    simp only [List.cons_append, Stmt.block, exec]
    rcases exec s r h with ⟨res, h1, r1⟩
    cases res
    · dsimp only
      exact (ih r1 h1).trans (by simp only [exec])
    all_goals rfl

theorem exec_seq_assoc {H : Type} (a b c : Stmt H) (r : CAVSReader) (h : H) :
    exec (Stmt.seq (Stmt.seq a b) c) r h = exec (Stmt.seq a (Stmt.seq b c)) r h := by
  simp only [exec]
  rcases exec a r h with ⟨res, h1, r1⟩
  cases res <;> rfl

theorem exec_seq_congr {H : Type} (a b c : Stmt H) (hab : ∀ r h, exec a r h = exec b r h)
    (r : CAVSReader) (h : H) :
    exec (Stmt.seq a c) r h = exec (Stmt.seq b c) r h := by
  simp only [exec, hab]

/-- A sequence that ends with `OK` has run its first statement with `OK` and
then the second from the record and reader the first left. -/
theorem exec_seq_inv {H : Type} (a t : Stmt H) (r : CAVSReader) (h : H)
    (hok : (exec (Stmt.seq a t) r h).1 = GstCAVSVideoParserResult.OK) :
    (exec a r h).1 = GstCAVSVideoParserResult.OK ∧
    exec (Stmt.seq a t) r h = exec t (exec a r h).2.2 (exec a r h).2.1 := by
  revert hok
  simp only [exec]
  rcases exec a r h with ⟨res, h1, r1⟩
  cases res
  · intro _; exact ⟨rfl, rfl⟩
  all_goals (intro hok; cases hok)

/-- A property that relates the record and reader a first statement leaves to
the final record holds of the pair a parser returns. -/
theorem parser_head_tail {H : Type} (a t : Stmt H) (r : CAVSReader) (h : H)
    (Q : H → CAVSReader → H → Prop)
    (key : ∀ r1 h1, (exec t r1 h1).1 = GstCAVSVideoParserResult.OK →
      Q h1 r1 (exec t r1 h1).2.1)
    (hok : ((exec (Stmt.seq a t) r h).1, (exec (Stmt.seq a t) r h).2.1).1
      = GstCAVSVideoParserResult.OK) :
    (exec a r h).1 = GstCAVSVideoParserResult.OK ∧
    Q (exec a r h).2.1 (exec a r h).2.2
      ((exec (Stmt.seq a t) r h).1, (exec (Stmt.seq a t) r h).2.1).2 := by
  have hok' : (exec (Stmt.seq a t) r h).1 = GstCAVSVideoParserResult.OK := hok
  obtain ⟨h1, h2⟩ := exec_seq_inv a t r h hok'
  refine ⟨h1, ?_⟩
  show Q (exec a r h).2.1 (exec a r h).2.2 (exec (Stmt.seq a t) r h).2.1
  rw [h2] at hok' ⊢
  exact key _ _ hok'

theorem i_picture_exec_split (seqhdr : GstCAVSVideoSequenceHeader) (r : CAVSReader)
    (h : GstCAVSVideoPictureHeader) :
    exec (Stmt.seq (i_picture_fields seqhdr) i_picture_loop_filter) r h
      = exec (Stmt.seq (Stmt.block (i_picture_head seqhdr))
          (Stmt.seq (Stmt.block i_picture_tail) i_picture_loop_filter)) r h := by
  rw [i_picture_fields_split, ← exec_seq_assoc]
  exact exec_seq_congr _ _ _ (exec_block_append _ _) r h

theorem pb_picture_exec_split (seqhdr : GstCAVSVideoSequenceHeader) (r : CAVSReader)
    (h : GstCAVSVideoPictureHeader) :
    exec (pb_picture_stmt seqhdr) r h
      = exec (Stmt.seq (Stmt.block (pb_picture_head seqhdr)) (Stmt.block pb_picture_tail))
          r h := by
  rw [pb_picture_stmt_split]
  exact exec_block_append _ _ r h

/-- A sequence that starts with a read and ends with `OK` has read a value and
run the rest from the record with the value stored. -/
theorem exec_read_then {H : Type} (bits nbits : Nat) (set : H → Nat → H) (t : Stmt H)
    (r : CAVSReader) (h : H)
    (hok : (exec (Stmt.seq (Stmt.READ_UINT bits nbits set) t) r h).1
      = GstCAVSVideoParserResult.OK) :
    ∃ v, (avs_reader_get_bits bits r nbits).1 = some v ∧
      exec (Stmt.seq (Stmt.READ_UINT bits nbits set) t) r h
        = exec t (avs_reader_get_bits bits r nbits).2 (set h v) := by
  revert hok
  simp only [exec]
  rcases avs_reader_get_bits bits r nbits with ⟨v, r1⟩
  cases v with
  | none => intro hok; cases hok
  | some v => intro _; exact ⟨v, rfl, rfl⟩

/-- The statements of the I picture after the read of `progressive_frame`:
they store neither `progressive_frame` nor `time_code_flag`, and
`picture_structure` only as the bit read first, when `progressive_frame` is
0. -/
theorem i_picture_tail_structure (r1 : CAVSReader) (h1 : GstCAVSVideoPictureHeader)
    (hok : (exec (Stmt.seq (Stmt.block i_picture_tail) i_picture_loop_filter) r1 h1).1
      = GstCAVSVideoParserResult.OK) :
    (exec (Stmt.seq (Stmt.block i_picture_tail) i_picture_loop_filter) r1
        h1).2.1.progressive_frame = h1.progressive_frame ∧
    (exec (Stmt.seq (Stmt.block i_picture_tail) i_picture_loop_filter) r1
        h1).2.1.time_code_flag = h1.time_code_flag ∧
    (h1.progressive_frame = 0 →
      (avs_reader_get_bits 8 r1 1).1
        = some (exec (Stmt.seq (Stmt.block i_picture_tail) i_picture_loop_filter) r1
            h1).2.1.picture_structure) ∧
    (h1.progressive_frame ≠ 0 →
      (exec (Stmt.seq (Stmt.block i_picture_tail) i_picture_loop_filter) r1
          h1).2.1.picture_structure = h1.picture_structure) := by
  have hk := exec_keeps (Stmt.seq (Stmt.block i_picture_tail) i_picture_loop_filter)
    (fun s => s.progressive_frame = h1.progressive_frame ∧
      s.time_code_flag = h1.time_code_flag) r1 h1 (by
        simp only [i_picture_tail, i_picture_loop_filter, Stmt.block, Stmt.keeps, imp_self,
          implies_true, and_self]) ⟨rfl, rfl⟩
  refine ⟨hk.1, hk.2, ?_, ?_⟩
  · intro hpf
    have e1 : exec (Stmt.seq (Stmt.block i_picture_tail) i_picture_loop_filter) r1 h1
        = exec (Stmt.seq (Stmt.READ_UINT 8 1 (fun s v => { s with picture_structure := v }))
            (Stmt.seq (Stmt.block i_picture_tail.tail) i_picture_loop_filter)) r1 h1 := by
      have : exec (Stmt.seq (Stmt.block i_picture_tail) i_picture_loop_filter) r1 h1
          = exec (Stmt.seq (Stmt.seq (Stmt.ite (fun s => decide (s.progressive_frame = 0))
              (Stmt.READ_UINT 8 1 (fun s v => { s with picture_structure := v })) Stmt.nop)
              (Stmt.block i_picture_tail.tail)) i_picture_loop_filter) r1 h1 := rfl
      rw [this, exec_seq_assoc]
      simp only [exec, hpf, decide_True, if_true]
    rw [e1] at hok ⊢
    obtain ⟨v, hv, e2⟩ := exec_read_then _ _ _ _ _ _ hok
    rw [e2, hv]
    have hk2 := exec_keeps (Stmt.seq (Stmt.block i_picture_tail.tail) i_picture_loop_filter)
      (fun s => s.picture_structure = v) (avs_reader_get_bits 8 r1 1).2
      { h1 with picture_structure := v } (by
        simp only [i_picture_tail, List.tail, i_picture_loop_filter, Stmt.block, Stmt.keeps,
          imp_self, implies_true, and_self]) rfl
    exact congrArg some hk2.symm
  · intro hpf
    have e1 : exec (Stmt.seq (Stmt.block i_picture_tail) i_picture_loop_filter) r1 h1
        = exec (Stmt.seq (Stmt.block i_picture_tail.tail) i_picture_loop_filter) r1 h1 := by
      have : exec (Stmt.seq (Stmt.block i_picture_tail) i_picture_loop_filter) r1 h1
          = exec (Stmt.seq (Stmt.seq (Stmt.ite (fun s => decide (s.progressive_frame = 0))
              (Stmt.READ_UINT 8 1 (fun s v => { s with picture_structure := v })) Stmt.nop)
              (Stmt.block i_picture_tail.tail)) i_picture_loop_filter) r1 h1 := rfl
      rw [this, exec_seq_assoc]
      simp only [exec, hpf, decide_False, Bool.false_eq_true, if_false]
    rw [e1]
    exact exec_keeps (Stmt.seq (Stmt.block i_picture_tail.tail) i_picture_loop_filter)
      (fun s => s.picture_structure = h1.picture_structure) r1 h1 (by
        simp only [i_picture_tail, List.tail, i_picture_loop_filter, Stmt.block, Stmt.keeps,
          imp_self, implies_true, and_self]) rfl

/-- The statements of the PB picture after the read of `progressive_frame`:
they do not store `progressive_frame`, and `picture_structure` only as the bit
read first, when `progressive_frame` is 0. -/
theorem pb_picture_tail_structure (r1 : CAVSReader) (h1 : GstCAVSVideoPictureHeader)
    (hok : (exec (Stmt.block pb_picture_tail) r1 h1).1 = GstCAVSVideoParserResult.OK) :
    (exec (Stmt.block pb_picture_tail) r1 h1).2.1.progressive_frame = h1.progressive_frame ∧
    (h1.progressive_frame = 0 →
      (avs_reader_get_bits 8 r1 1).1
        = some (exec (Stmt.block pb_picture_tail) r1 h1).2.1.picture_structure) ∧
    (h1.progressive_frame ≠ 0 →
      (exec (Stmt.block pb_picture_tail) r1 h1).2.1.picture_structure
        = h1.picture_structure) := by
  have hk := exec_keeps (Stmt.block pb_picture_tail)
    (fun s => s.progressive_frame = h1.progressive_frame) r1 h1 (by
        simp only [pb_picture_tail, Stmt.block, Stmt.keeps, imp_self, implies_true,
          and_self]) rfl
  refine ⟨hk, ?_, ?_⟩
  · intro hpf
    have e1 : exec (Stmt.block pb_picture_tail) r1 h1
        = exec (Stmt.seq (Stmt.READ_UINT 8 1 (fun s v => { s with picture_structure := v }))
            (Stmt.seq (Stmt.block
              [Stmt.ite (fun s => decide (s.picture_structure = 0))
                (Stmt.READ_UINT 8 1 (fun s v => { s with advanced_pred_mode_disable := v }))
                Stmt.nop])
              (Stmt.block pb_picture_tail.tail))) r1 h1 := by
      have : exec (Stmt.block pb_picture_tail) r1 h1
          = exec (Stmt.seq (Stmt.ite (fun s => decide (s.progressive_frame = 0))
              (Stmt.seq (Stmt.READ_UINT 8 1 (fun s v => { s with picture_structure := v }))
                (Stmt.block
                  [Stmt.ite (fun s => decide (s.picture_structure = 0))
                    (Stmt.READ_UINT 8 1
                      (fun s v => { s with advanced_pred_mode_disable := v }))
                    Stmt.nop]))
              Stmt.nop)
              (Stmt.block pb_picture_tail.tail)) r1 h1 := rfl
      rw [this, ← exec_seq_assoc]
      simp only [exec, hpf, decide_True, if_true]
    rw [e1] at hok ⊢
    obtain ⟨v, hv, e2⟩ := exec_read_then _ _ _ _ _ _ hok
    rw [e2, hv]
    have hk2 := exec_keeps
      (Stmt.seq (Stmt.block
          [Stmt.ite (fun s => decide (s.picture_structure = 0))
            (Stmt.READ_UINT 8 1 (fun s v => { s with advanced_pred_mode_disable := v }))
            Stmt.nop])
        (Stmt.block pb_picture_tail.tail))
      (fun s => s.picture_structure = v) (avs_reader_get_bits 8 r1 1).2
      { h1 with picture_structure := v } (by
        simp only [pb_picture_tail, List.tail, Stmt.block, Stmt.keeps,
          imp_self, implies_true, and_self]) rfl
    exact congrArg some hk2.symm
  · intro hpf
    have e1 : exec (Stmt.block pb_picture_tail) r1 h1
        = exec (Stmt.block pb_picture_tail.tail) r1 h1 := by
      have : exec (Stmt.block pb_picture_tail) r1 h1
          = exec (Stmt.seq (Stmt.ite (fun s => decide (s.progressive_frame = 0))
              (Stmt.seq (Stmt.READ_UINT 8 1 (fun s v => { s with picture_structure := v }))
                (Stmt.block
                  [Stmt.ite (fun s => decide (s.picture_structure = 0))
                    (Stmt.READ_UINT 8 1
                      (fun s v => { s with advanced_pred_mode_disable := v }))
                    Stmt.nop]))
              Stmt.nop)
              (Stmt.block pb_picture_tail.tail)) r1 h1 := rfl
      rw [this]
      simp only [exec, hpf, decide_False, Bool.false_eq_true, if_false]
    rw [e1]
    exact exec_keeps (Stmt.block pb_picture_tail.tail)
      (fun s => s.picture_structure = h1.picture_structure) r1 h1 (by
        simp only [pb_picture_tail, List.tail, Stmt.block, Stmt.keeps,
          imp_self, implies_true, and_self]) rfl

/-- With `low_delay` 0 the statements before the structure bit of the I
picture are those without the Exp-Golomb read of `bbv_check_times`. -/
theorem i_picture_head_plain (seqhdr : GstCAVSVideoSequenceHeader)
    (hlow : seqhdr.low_delay = 0) (r : CAVSReader) (h : GstCAVSVideoPictureHeader) :
    exec (Stmt.block (i_picture_head seqhdr)) r h
      = exec (Stmt.block ((i_picture_head seqhdr).eraseIdx 6)) r h := by
  simp only [i_picture_head, List.eraseIdx, Stmt.block, exec, hlow, ne_eq, not_true_eq_false,
    decide_False, Bool.false_eq_true, if_false]

theorem pb_picture_head_plain (seqhdr : GstCAVSVideoSequenceHeader)
    (hlow : seqhdr.low_delay = 0) (r : CAVSReader) (h : GstCAVSVideoPictureHeader) :
    exec (Stmt.block (pb_picture_head seqhdr)) r h
      = exec (Stmt.block ((pb_picture_head seqhdr).eraseIdx 4)) r h := by
  simp only [pb_picture_head, List.eraseIdx, Stmt.block, exec, hlow, ne_eq, not_true_eq_false,
    decide_False, Bool.false_eq_true, if_false]

theorem i_picture_head_sized (seqhdr : GstCAVSVideoSequenceHeader) :
    (Stmt.block ((i_picture_head seqhdr).eraseIdx 6)).sized = true := by
  simp [i_picture_head, List.eraseIdx, Stmt.block, Stmt.sized]

theorem pb_picture_head_sized (seqhdr : GstCAVSVideoSequenceHeader) :
    (Stmt.block ((pb_picture_head seqhdr).eraseIdx 4)).sized = true := by
  simp [pb_picture_head, List.eraseIdx, Stmt.block, Stmt.sized]

theorem i_picture_head_decode (seqhdr : GstCAVSVideoSequenceHeader) (L : List Byte)
    (hok : ((Stmt.block ((i_picture_head seqhdr).eraseIdx 6)).decode L 0
      GstCAVSVideoPictureHeader.zero).1 = GstCAVSVideoParserResult.OK) :
    ((Stmt.block ((i_picture_head seqhdr).eraseIdx 6)).decode L 0
      GstCAVSVideoPictureHeader.zero).2.1.time_code_flag = bitField L 16 1 ∧
    ((Stmt.block ((i_picture_head seqhdr).eraseIdx 6)).decode L 0
      GstCAVSVideoPictureHeader.zero).2.1.progressive_frame
      = bitField L (if bitField L 16 1 = 0 then 26 else 50) 1 ∧
    ((Stmt.block ((i_picture_head seqhdr).eraseIdx 6)).decode L 0
      GstCAVSVideoPictureHeader.zero).2.2 = (if bitField L 16 1 = 0 then 27 else 51) := by
  revert hok
  simp only [i_picture_head, List.eraseIdx, Stmt.block, Stmt.decode,
    GstCAVSVideoPictureHeader.zero, Nat.zero_add, ne_eq, decide_not, decide_eq_true_eq,
    Bool.not_eq_true', decide_eq_false_iff_not]
  by_cases c : bitField L 16 1 = 0
  all_goals simp only [c, if_true, if_false, not_true_eq_false, not_false_eq_true]
  all_goals repeat' (first | split_ifs | dsimp only)
  all_goals intro hok
  all_goals first
    | exact hok.elim
    | (cases hok; done)
    | exact ⟨rfl, rfl, rfl⟩
    | simp only [c, if_true, if_false, Nat.reduceAdd, and_self]

theorem pb_picture_head_decode (seqhdr : GstCAVSVideoSequenceHeader) (L : List Byte)
    (hok : ((Stmt.block ((pb_picture_head seqhdr).eraseIdx 4)).decode L 0
      GstCAVSVideoPictureHeader.zero).1 = GstCAVSVideoParserResult.OK) :
    ((Stmt.block ((pb_picture_head seqhdr).eraseIdx 4)).decode L 0
      GstCAVSVideoPictureHeader.zero).2.1.progressive_frame = bitField L 26 1 ∧
    ((Stmt.block ((pb_picture_head seqhdr).eraseIdx 4)).decode L 0
      GstCAVSVideoPictureHeader.zero).2.2 = 27 := by
  revert hok
  simp only [pb_picture_head, List.eraseIdx, Stmt.block, Stmt.decode,
    GstCAVSVideoPictureHeader.zero, Nat.zero_add]
  repeat' (first | split_ifs | dsimp only)
  all_goals intro hok
  all_goals first
    | exact hok.elim
    | (cases hok; done)
    | exact ⟨rfl, rfl⟩

/-- A one bit read that returns `v` from a reader at bit `a` of the logical
stream `L` has read the bit of `L` at `a`. -/
theorem get_bit_at (r : CAVSReader) (L : List Byte) (a v : Nat) (hd : r.Delivers L a)
    (hv : (avs_reader_get_bits 8 r 1).1 = some v) :
    v = bitField L a 1 ∧ a + 1 ≤ 8 * L.length := by
  obtain ⟨g1, g2⟩ := get_bits_at 8 r L a 1 (by norm_num) (by norm_num) (by norm_num) hd
  by_cases c : a + 1 ≤ 8 * L.length
  · have := (g1 c).1
    rw [hv] at this
    exact ⟨Option.some.inj this, c⟩
  · have := g2 (by omega)
    rw [hv] at this
    cases this

theorem i_picture_structure_bit (unit : GstCAVSVideoUnit) (seqhdr : GstCAVSVideoSequenceHeader)
    (s0 : GstCAVSVideoPictureHeader)
    (hok : (gst_cavs_video_parser_parse_i_picture unit seqhdr s0).1
      = GstCAVSVideoParserResult.OK) :
    (exec (Stmt.block (i_picture_head seqhdr))
        (avs_reader_init (unit.data.shift unit.offset) (u32 unit.size))
        GstCAVSVideoPictureHeader.zero).1 = GstCAVSVideoParserResult.OK ∧
    (gst_cavs_video_parser_parse_i_picture unit seqhdr s0).2.progressive_frame
      = (exec (Stmt.block (i_picture_head seqhdr))
          (avs_reader_init (unit.data.shift unit.offset) (u32 unit.size))
          GstCAVSVideoPictureHeader.zero).2.1.progressive_frame ∧
    (gst_cavs_video_parser_parse_i_picture unit seqhdr s0).2.time_code_flag
      = (exec (Stmt.block (i_picture_head seqhdr))
          (avs_reader_init (unit.data.shift unit.offset) (u32 unit.size))
          GstCAVSVideoPictureHeader.zero).2.1.time_code_flag ∧
    ((exec (Stmt.block (i_picture_head seqhdr))
          (avs_reader_init (unit.data.shift unit.offset) (u32 unit.size))
          GstCAVSVideoPictureHeader.zero).2.1.progressive_frame = 0 →
      (avs_reader_get_bits 8
        (exec (Stmt.block (i_picture_head seqhdr))
          (avs_reader_init (unit.data.shift unit.offset) (u32 unit.size))
          GstCAVSVideoPictureHeader.zero).2.2 1).1
        = some (gst_cavs_video_parser_parse_i_picture unit seqhdr s0).2.picture_structure) := by
  rw [i_picture_eq] at hok ⊢
  rw [i_picture_exec_split] at hok ⊢
  have key := parser_head_tail (Stmt.block (i_picture_head seqhdr))
    (Stmt.seq (Stmt.block i_picture_tail) i_picture_loop_filter)
    (avs_reader_init (unit.data.shift unit.offset) (u32 unit.size))
    GstCAVSVideoPictureHeader.zero
    (fun h1 r1 F => F.progressive_frame = h1.progressive_frame ∧
      F.time_code_flag = h1.time_code_flag ∧
      (h1.progressive_frame = 0 → (avs_reader_get_bits 8 r1 1).1 = some F.picture_structure))
    (fun r1 h1 hk => ⟨(i_picture_tail_structure r1 h1 hk).1,
      (i_picture_tail_structure r1 h1 hk).2.1, (i_picture_tail_structure r1 h1 hk).2.2.1⟩)
    hok
  exact ⟨key.1, key.2.1, key.2.2.1, key.2.2.2⟩

theorem pb_picture_structure_bit (unit : GstCAVSVideoUnit)
    (seqhdr : GstCAVSVideoSequenceHeader) (s0 : GstCAVSVideoPictureHeader)
    (hok : (gst_cavs_video_parser_parse_pb_picture unit seqhdr s0).1
      = GstCAVSVideoParserResult.OK) :
    (exec (Stmt.block (pb_picture_head seqhdr))
        (avs_reader_init (unit.data.shift unit.offset) (u32 unit.size))
        GstCAVSVideoPictureHeader.zero).1 = GstCAVSVideoParserResult.OK ∧
    (gst_cavs_video_parser_parse_pb_picture unit seqhdr s0).2.progressive_frame
      = (exec (Stmt.block (pb_picture_head seqhdr))
          (avs_reader_init (unit.data.shift unit.offset) (u32 unit.size))
          GstCAVSVideoPictureHeader.zero).2.1.progressive_frame ∧
    ((exec (Stmt.block (pb_picture_head seqhdr))
          (avs_reader_init (unit.data.shift unit.offset) (u32 unit.size))
          GstCAVSVideoPictureHeader.zero).2.1.progressive_frame = 0 →
      (avs_reader_get_bits 8
        (exec (Stmt.block (pb_picture_head seqhdr))
          (avs_reader_init (unit.data.shift unit.offset) (u32 unit.size))
          GstCAVSVideoPictureHeader.zero).2.2 1).1
        = some (gst_cavs_video_parser_parse_pb_picture unit seqhdr s0).2.picture_structure) := by
  rw [pb_picture_eq] at hok ⊢
  rw [pb_picture_exec_split] at hok ⊢
  have key := parser_head_tail (Stmt.block (pb_picture_head seqhdr))
    (Stmt.block pb_picture_tail)
    (avs_reader_init (unit.data.shift unit.offset) (u32 unit.size))
    GstCAVSVideoPictureHeader.zero
    (fun h1 r1 F => F.progressive_frame = h1.progressive_frame ∧
      (h1.progressive_frame = 0 → (avs_reader_get_bits 8 r1 1).1 = some F.picture_structure))
    (fun r1 h1 hk => ⟨(pb_picture_tail_structure r1 h1 hk).1,
      (pb_picture_tail_structure r1 h1 hk).2.1⟩)
    hok
  exact ⟨key.1, key.2.1, key.2.2⟩

theorem i_picture_structure_position (unit : GstCAVSVideoUnit)
    (seqhdr : GstCAVSVideoSequenceHeader) (s0 : GstCAVSVideoPictureHeader)
    (hsize : unit.size < 2 ^ 29) (hlow : seqhdr.low_delay = 0)
    (hok : (gst_cavs_video_parser_parse_i_picture unit seqhdr s0).1
      = GstCAVSVideoParserResult.OK)
    (hpf : (gst_cavs_video_parser_parse_i_picture unit seqhdr s0).2.progressive_frame = 0) :
    (gst_cavs_video_parser_parse_i_picture unit seqhdr s0).2.time_code_flag
      = bitField (logicalBytes (unit.data.shift unit.offset) unit.size) 16 1 ∧
    bitField (logicalBytes (unit.data.shift unit.offset) unit.size)
      (if (gst_cavs_video_parser_parse_i_picture unit seqhdr s0).2.time_code_flag = 0
        then 26 else 50) 1 = 0 ∧
    (gst_cavs_video_parser_parse_i_picture unit seqhdr s0).2.picture_structure
      = bitField (logicalBytes (unit.data.shift unit.offset) unit.size)
          (if (gst_cavs_video_parser_parse_i_picture unit seqhdr s0).2.time_code_flag = 0
            then 27 else 51) 1 := by
  obtain ⟨b1, b2, b3, b4⟩ := i_picture_structure_bit unit seqhdr s0 hok
  have hu : u32 unit.size = unit.size := u32_of_lt _ (by omega)
  have hd : (avs_reader_init (unit.data.shift unit.offset) (u32 unit.size)).Delivers
      (logicalBytes (unit.data.shift unit.offset) unit.size) 0 := by
    rw [hu]
    exact init_delivers _ _ hsize
  obtain ⟨e1, e2, e3⟩ := exec_decode _ (Stmt.block ((i_picture_head seqhdr).eraseIdx 6)) _ 0
    GstCAVSVideoPictureHeader.zero hd (i_picture_head_sized seqhdr)
  rw [i_picture_head_plain seqhdr hlow] at b1 b2 b3 b4
  rw [e1] at b1
  obtain ⟨d1, d2, d3⟩ := i_picture_head_decode seqhdr _ b1
  have hd2 := e3 b1
  rw [d3] at hd2
  rw [e2] at b2 b3 b4
  rw [d1] at b3
  rw [d2] at b2
  rw [b2] at hpf
  rw [d2] at b4
  obtain ⟨g1, _⟩ := get_bit_at _ _ _ _ hd2 (b4 hpf)
  rw [b3]
  exact ⟨rfl, hpf, g1⟩

theorem pb_picture_structure_position (unit : GstCAVSVideoUnit)
    (seqhdr : GstCAVSVideoSequenceHeader) (s0 : GstCAVSVideoPictureHeader)
    (hsize : unit.size < 2 ^ 29) (hlow : seqhdr.low_delay = 0)
    (hok : (gst_cavs_video_parser_parse_pb_picture unit seqhdr s0).1
      = GstCAVSVideoParserResult.OK)
    (hpf : (gst_cavs_video_parser_parse_pb_picture unit seqhdr s0).2.progressive_frame = 0) :
    bitField (logicalBytes (unit.data.shift unit.offset) unit.size) 26 1 = 0 ∧
    (gst_cavs_video_parser_parse_pb_picture unit seqhdr s0).2.picture_structure
      = bitField (logicalBytes (unit.data.shift unit.offset) unit.size) 27 1 := by
  obtain ⟨b1, b2, b4⟩ := pb_picture_structure_bit unit seqhdr s0 hok
  have hu : u32 unit.size = unit.size := u32_of_lt _ (by omega)
  have hd : (avs_reader_init (unit.data.shift unit.offset) (u32 unit.size)).Delivers
      (logicalBytes (unit.data.shift unit.offset) unit.size) 0 := by
    rw [hu]
    exact init_delivers _ _ hsize
  obtain ⟨e1, e2, e3⟩ := exec_decode _ (Stmt.block ((pb_picture_head seqhdr).eraseIdx 4)) _ 0
    GstCAVSVideoPictureHeader.zero hd (pb_picture_head_sized seqhdr)
  rw [pb_picture_head_plain seqhdr hlow] at b1 b2 b4
  rw [e1] at b1
  obtain ⟨d2, d3⟩ := pb_picture_head_decode seqhdr _ b1
  have hd2 := e3 b1
  rw [d3] at hd2
  rw [e2] at b2 b4
  rw [d2] at b2 b4
  rw [b2] at hpf
  obtain ⟨g1, _⟩ := get_bit_at _ _ _ _ hd2 (b4 hpf)
  exact ⟨hpf, g1⟩

/-- C29: picture structure of the I and PB picture headers.  Whenever
`gst_cavs_video_parser_parse_i_picture` or
`gst_cavs_video_parser_parse_pb_picture` returns `OK`, `progressive_frame` and
`picture_structure` are single bits, `progressive_frame = 1` gives
`picture_structure = 1` (the default is kept, no structure bit is read), and
`picture_structure = 0` gives `progressive_frame = 0`.  With `progressive_frame
= 0` the statements down to the read of `progressive_frame` have run with `OK`
and `picture_structure` is the bit the reader they leave returns next: the bit
of the logical stream at the position of that reader.  With `low_delay` 0 and
a payload of fewer than `2 ^ 29` bytes, that bit is bit 27 of the logical
payload, or bit 51 in an I picture with a time code (`progressive_frame` being
bit 26 or 50, and `time_code_flag` bit 16); so `picture_structure` is 0 only
when `progressive_frame` is 0 and the structure bit of the stream is 0. -/
theorem picture_structure_progressive (unit : GstCAVSVideoUnit)
    (seqhdr : GstCAVSVideoSequenceHeader) (s0 : GstCAVSVideoPictureHeader) :
    ((gst_cavs_video_parser_parse_i_picture unit seqhdr s0).1 = GstCAVSVideoParserResult.OK →
      ((gst_cavs_video_parser_parse_i_picture unit seqhdr s0).2.progressive_frame = 1 →
        (gst_cavs_video_parser_parse_i_picture unit seqhdr s0).2.picture_structure = 1) ∧
      ((gst_cavs_video_parser_parse_i_picture unit seqhdr s0).2.picture_structure = 0 →
        (gst_cavs_video_parser_parse_i_picture unit seqhdr s0).2.progressive_frame = 0) ∧
      (gst_cavs_video_parser_parse_i_picture unit seqhdr s0).2.progressive_frame ≤ 1 ∧
      (gst_cavs_video_parser_parse_i_picture unit seqhdr s0).2.picture_structure ≤ 1) ∧
    ((gst_cavs_video_parser_parse_pb_picture unit seqhdr s0).1 = GstCAVSVideoParserResult.OK →
      ((gst_cavs_video_parser_parse_pb_picture unit seqhdr s0).2.progressive_frame = 1 →
        (gst_cavs_video_parser_parse_pb_picture unit seqhdr s0).2.picture_structure = 1) ∧
      ((gst_cavs_video_parser_parse_pb_picture unit seqhdr s0).2.picture_structure = 0 →
        (gst_cavs_video_parser_parse_pb_picture unit seqhdr s0).2.progressive_frame = 0) ∧
      (gst_cavs_video_parser_parse_pb_picture unit seqhdr s0).2.progressive_frame ≤ 1 ∧
      (gst_cavs_video_parser_parse_pb_picture unit seqhdr s0).2.picture_structure ≤ 1) ∧
    ((gst_cavs_video_parser_parse_i_picture unit seqhdr s0).1 = GstCAVSVideoParserResult.OK →
      (gst_cavs_video_parser_parse_i_picture unit seqhdr s0).2.progressive_frame = 0 →
      (exec (Stmt.block (i_picture_head seqhdr))
          (avs_reader_init (unit.data.shift unit.offset) (u32 unit.size))
          GstCAVSVideoPictureHeader.zero).1 = GstCAVSVideoParserResult.OK ∧
      (avs_reader_get_bits 8
          (exec (Stmt.block (i_picture_head seqhdr))
            (avs_reader_init (unit.data.shift unit.offset) (u32 unit.size))
            GstCAVSVideoPictureHeader.zero).2.2 1).1
        = some (gst_cavs_video_parser_parse_i_picture unit seqhdr s0).2.picture_structure ∧
      ∀ L a,
        (exec (Stmt.block (i_picture_head seqhdr))
          (avs_reader_init (unit.data.shift unit.offset) (u32 unit.size))
          GstCAVSVideoPictureHeader.zero).2.2.Delivers L a →
        (gst_cavs_video_parser_parse_i_picture unit seqhdr s0).2.picture_structure
          = bitField L a 1) ∧
    ((gst_cavs_video_parser_parse_pb_picture unit seqhdr s0).1 = GstCAVSVideoParserResult.OK →
      (gst_cavs_video_parser_parse_pb_picture unit seqhdr s0).2.progressive_frame = 0 →
      (exec (Stmt.block (pb_picture_head seqhdr))
          (avs_reader_init (unit.data.shift unit.offset) (u32 unit.size))
          GstCAVSVideoPictureHeader.zero).1 = GstCAVSVideoParserResult.OK ∧
      (avs_reader_get_bits 8
          (exec (Stmt.block (pb_picture_head seqhdr))
            (avs_reader_init (unit.data.shift unit.offset) (u32 unit.size))
            GstCAVSVideoPictureHeader.zero).2.2 1).1
        = some (gst_cavs_video_parser_parse_pb_picture unit seqhdr s0).2.picture_structure ∧
      ∀ L a,
        (exec (Stmt.block (pb_picture_head seqhdr))
          (avs_reader_init (unit.data.shift unit.offset) (u32 unit.size))
          GstCAVSVideoPictureHeader.zero).2.2.Delivers L a →
        (gst_cavs_video_parser_parse_pb_picture unit seqhdr s0).2.picture_structure
          = bitField L a 1) ∧
    (unit.size < 2 ^ 29 → seqhdr.low_delay = 0 →
      (gst_cavs_video_parser_parse_i_picture unit seqhdr s0).1 = GstCAVSVideoParserResult.OK →
      (gst_cavs_video_parser_parse_i_picture unit seqhdr s0).2.progressive_frame = 0 →
      (gst_cavs_video_parser_parse_i_picture unit seqhdr s0).2.time_code_flag
        = bitField (logicalBytes (unit.data.shift unit.offset) unit.size) 16 1 ∧
      bitField (logicalBytes (unit.data.shift unit.offset) unit.size)
        (if (gst_cavs_video_parser_parse_i_picture unit seqhdr s0).2.time_code_flag = 0
          then 26 else 50) 1 = 0 ∧
      (gst_cavs_video_parser_parse_i_picture unit seqhdr s0).2.picture_structure
        = bitField (logicalBytes (unit.data.shift unit.offset) unit.size)
            (if (gst_cavs_video_parser_parse_i_picture unit seqhdr s0).2.time_code_flag = 0
              then 27 else 51) 1) ∧
    (unit.size < 2 ^ 29 → seqhdr.low_delay = 0 →
      (gst_cavs_video_parser_parse_pb_picture unit seqhdr s0).1 = GstCAVSVideoParserResult.OK →
      (gst_cavs_video_parser_parse_pb_picture unit seqhdr s0).2.progressive_frame = 0 →
      bitField (logicalBytes (unit.data.shift unit.offset) unit.size) 26 1 = 0 ∧
      (gst_cavs_video_parser_parse_pb_picture unit seqhdr s0).2.picture_structure
        = bitField (logicalBytes (unit.data.shift unit.offset) unit.size) 27 1) := by
  refine ⟨i_picture_structure unit seqhdr s0, pb_picture_structure unit seqhdr s0,
    fun hok hpf => ?_, fun hok hpf => ?_,
    i_picture_structure_position unit seqhdr s0,
    pb_picture_structure_position unit seqhdr s0⟩
  · obtain ⟨b1, b2, -, b4⟩ := i_picture_structure_bit unit seqhdr s0 hok
    rw [b2] at hpf
    exact ⟨b1, b4 hpf, fun L a hd => (get_bit_at _ L a _ hd (b4 hpf)).1⟩
  · obtain ⟨b1, b2, b4⟩ := pb_picture_structure_bit unit seqhdr s0 hok
    rw [b2] at hpf
    exact ⟨b1, b4 hpf, fun L a hd => (get_bit_at _ L a _ hd (b4 hpf)).1⟩

/-- Witness of C29.  The progressive I picture `i_picture_unit_offsets` and
the progressive P picture `pb_picture_unit_alpha_9` parse with
`progressive_frame = 1` and `picture_structure = 1`.  The pictures
`i_picture_unit_field`, `i_picture_unit_interlaced`,
`i_picture_unit_field_time_code` and `pb_picture_unit_field` are not
progressive: their `picture_structure` is the structure bit of the payload,
bit 27 (0, 1 and 0) or, after the time code, bit 51 (0). -/
theorem picture_structure_progressive_witness :
    ((gst_cavs_video_parser_parse_i_picture i_picture_unit_offsets
        GstCAVSVideoSequenceHeader.zero GstCAVSVideoPictureHeader.zero).1
        = GstCAVSVideoParserResult.OK ∧
      (gst_cavs_video_parser_parse_i_picture i_picture_unit_offsets
        GstCAVSVideoSequenceHeader.zero GstCAVSVideoPictureHeader.zero).2.progressive_frame
        = 1 ∧
      (gst_cavs_video_parser_parse_i_picture i_picture_unit_offsets
        GstCAVSVideoSequenceHeader.zero GstCAVSVideoPictureHeader.zero).2.picture_structure
        = 1) ∧
    ((gst_cavs_video_parser_parse_pb_picture pb_picture_unit_alpha_9
        GstCAVSVideoSequenceHeader.zero GstCAVSVideoPictureHeader.zero).1
        = GstCAVSVideoParserResult.OK ∧
      (gst_cavs_video_parser_parse_pb_picture pb_picture_unit_alpha_9
        GstCAVSVideoSequenceHeader.zero GstCAVSVideoPictureHeader.zero).2.progressive_frame
        = 1 ∧
      (gst_cavs_video_parser_parse_pb_picture pb_picture_unit_alpha_9
        GstCAVSVideoSequenceHeader.zero GstCAVSVideoPictureHeader.zero).2.picture_structure
        = 1) ∧
    (gst_cavs_video_parser_parse_i_picture i_picture_unit_field
        GstCAVSVideoSequenceHeader.zero GstCAVSVideoPictureHeader.zero
        = (GstCAVSVideoParserResult.OK,
            { GstCAVSVideoPictureHeader.zero with
              bbv_delay := 0x1234, picture_distance := 5, progressive_frame := 0,
              picture_structure := 0, fixed_picture_qp := 1, picture_qp := 20,
              loop_filter_disable := 1 }) ∧
      bitField (logicalBytes (i_picture_unit_field.data.shift i_picture_unit_field.offset)
        i_picture_unit_field.size) 27 1 = 0 ∧
      (gst_cavs_video_parser_parse_i_picture i_picture_unit_field
        GstCAVSVideoSequenceHeader.zero GstCAVSVideoPictureHeader.zero).2.picture_structure
        = bitField (logicalBytes (i_picture_unit_field.data.shift i_picture_unit_field.offset)
            i_picture_unit_field.size)
          (if (gst_cavs_video_parser_parse_i_picture i_picture_unit_field
              GstCAVSVideoSequenceHeader.zero GstCAVSVideoPictureHeader.zero).2.time_code_flag
              = 0 then 27 else 51) 1) ∧
    (gst_cavs_video_parser_parse_i_picture i_picture_unit_interlaced
        GstCAVSVideoSequenceHeader.zero GstCAVSVideoPictureHeader.zero
        = (GstCAVSVideoParserResult.OK,
            { GstCAVSVideoPictureHeader.zero with
              bbv_delay := 0x1234, picture_distance := 5, progressive_frame := 0,
              picture_structure := 1, fixed_picture_qp := 1, picture_qp := 20,
              loop_filter_disable := 1 }) ∧
      bitField
        (logicalBytes (i_picture_unit_interlaced.data.shift i_picture_unit_interlaced.offset)
          i_picture_unit_interlaced.size) 27 1 = 1 ∧
      (gst_cavs_video_parser_parse_i_picture i_picture_unit_interlaced
        GstCAVSVideoSequenceHeader.zero GstCAVSVideoPictureHeader.zero).2.picture_structure
        = bitField
          (logicalBytes (i_picture_unit_interlaced.data.shift i_picture_unit_interlaced.offset)
            i_picture_unit_interlaced.size)
          (if (gst_cavs_video_parser_parse_i_picture i_picture_unit_interlaced
              GstCAVSVideoSequenceHeader.zero GstCAVSVideoPictureHeader.zero).2.time_code_flag
              = 0 then 27 else 51) 1) ∧
    (gst_cavs_video_parser_parse_i_picture i_picture_unit_field_time_code
        GstCAVSVideoSequenceHeader.zero GstCAVSVideoPictureHeader.zero
        = (GstCAVSVideoParserResult.OK,
            { GstCAVSVideoPictureHeader.zero with
              bbv_delay := 0x1234, time_code_flag := 1, time_code := 0xabcdef,
              picture_distance := 5, progressive_frame := 0,
              picture_structure := 0, fixed_picture_qp := 1, picture_qp := 20,
              loop_filter_disable := 1 }) ∧
      bitField
        (logicalBytes
          (i_picture_unit_field_time_code.data.shift i_picture_unit_field_time_code.offset)
          i_picture_unit_field_time_code.size) 51 1 = 0 ∧
      (gst_cavs_video_parser_parse_i_picture i_picture_unit_field_time_code
        GstCAVSVideoSequenceHeader.zero GstCAVSVideoPictureHeader.zero).2.picture_structure
        = bitField
          (logicalBytes
            (i_picture_unit_field_time_code.data.shift i_picture_unit_field_time_code.offset)
            i_picture_unit_field_time_code.size)
          (if (gst_cavs_video_parser_parse_i_picture i_picture_unit_field_time_code
              GstCAVSVideoSequenceHeader.zero GstCAVSVideoPictureHeader.zero).2.time_code_flag
              = 0 then 27 else 51) 1) ∧
    (gst_cavs_video_parser_parse_pb_picture pb_picture_unit_field
        GstCAVSVideoSequenceHeader.zero GstCAVSVideoPictureHeader.zero
        = (GstCAVSVideoParserResult.OK,
            { GstCAVSVideoPictureHeader.zero with
              bbv_delay := 0x1234, picture_coding_type := GST_CAVS_VIDEO_PICTURE_P,
              picture_distance := 5, progressive_frame := 0, picture_structure := 0,
              advanced_pred_mode_disable := 1, fixed_picture_qp := 1, picture_qp := 20,
              picture_reference_flag := 1, loop_filter_disable := 1 }) ∧
      bitField (logicalBytes (pb_picture_unit_field.data.shift pb_picture_unit_field.offset)
        pb_picture_unit_field.size) 27 1 = 0 ∧
      (gst_cavs_video_parser_parse_pb_picture pb_picture_unit_field
        GstCAVSVideoSequenceHeader.zero GstCAVSVideoPictureHeader.zero).2.picture_structure
        = bitField (logicalBytes (pb_picture_unit_field.data.shift pb_picture_unit_field.offset)
            pb_picture_unit_field.size) 27 1) :=
  ⟨⟨by decide, by decide,
    ((picture_structure_progressive i_picture_unit_offsets GstCAVSVideoSequenceHeader.zero
      GstCAVSVideoPictureHeader.zero).1 (by decide)).1 (by decide)⟩,
   ⟨by decide, by decide,
    ((picture_structure_progressive pb_picture_unit_alpha_9 GstCAVSVideoSequenceHeader.zero
      GstCAVSVideoPictureHeader.zero).2.1 (by decide)).1 (by decide)⟩,
   ⟨by decide, by decide,
    ((picture_structure_progressive i_picture_unit_field GstCAVSVideoSequenceHeader.zero
      GstCAVSVideoPictureHeader.zero).2.2.2.2.1 (by decide) rfl (by decide)
        (by decide)).2.2⟩,
   ⟨by decide, by decide,
    ((picture_structure_progressive i_picture_unit_interlaced GstCAVSVideoSequenceHeader.zero
      GstCAVSVideoPictureHeader.zero).2.2.2.2.1 (by decide) rfl (by decide)
        (by decide)).2.2⟩,
   ⟨by decide, by decide,
    ((picture_structure_progressive i_picture_unit_field_time_code
      GstCAVSVideoSequenceHeader.zero GstCAVSVideoPictureHeader.zero).2.2.2.2.1 (by decide)
        rfl (by decide) (by decide)).2.2⟩,
   ⟨by decide, by decide,
    ((picture_structure_progressive pb_picture_unit_field GstCAVSVideoSequenceHeader.zero
      GstCAVSVideoPictureHeader.zero).2.2.2.2.2 (by decide) rfl (by decide)
        (by decide)).2⟩⟩

end CAVS
